import Mathlib

/-! # LXD storage migration, `lxd init` and `lxc copy`

A shallow embedding of

* `lxd/migrate_storage_volumes.go` (`migrationSourceWs.DoStorage`,
  `NewStorageMigrationSink`, `migrationSink.DoStorage`),
* `lxd/storage_migration.go` (`rsyncStorageSourceDriver`, `rsyncMigrationSource`,
  `snapshotProtobufToContainerArgs`, `rsyncStorageMigrationSink`, `rsyncMigrationSink`),
* `lxd/main_init.go` (`cmdInit.Run`, `cmdInit.ApplyConfig`),
* `lxc/copy.go` (`cmdCopy.copyContainer`).

Go code with side effects is embedded as a function from the history of observable
actions (`Trace`) to the extended history and the returned value.  Every call that
leaves the embedded functions (storage back-end, websocket, rsync, database) is an
`Event` appended to the history; the outcome of such a call is given by an oracle that
may depend on the whole history so far, so a run is determined by the oracles and every
deterministic environment is covered.  Deferred calls are appended where Go runs them:
on return, in reverse order of registration.
-/

namespace Lxd

/-! ## Data model -/

/-- Go `error` values, identified by their message. -/
abbrev Error := String

/-- Go `map[string]V`; a lookup of an absent key is `none`. -/
abbrev GoMap (V : Type) := String → Option V

/-- The map literal `map[string]V{}`. -/
def GoMap.empty {V : Type} : GoMap V := fun _ => none

/-- The assignment `m[k] = v`. -/
def GoMap.set {V : Type} (m : GoMap V) (k : String) (v : V) : GoMap V :=
  fun k' => if k' = k then some v else m k'

/-- The expression `m[k]` on a `map[string]string`: the empty string when `k` is absent. -/
def GoMap.index (m : GoMap String) (k : String) : String := (m k).getD ""

/-- The protobuf enumeration `migration.MigrationFSType` (an `int32` in Go).  Its
declaration lives in the `migration` package; the numbering is that of `migrate.proto`. -/
structure MigrationFSType where
  val : Int
  deriving DecidableEq, Repr

/-- The universal fallback tag. -/
def MigrationFSType_RSYNC : MigrationFSType := ⟨0⟩
/-- The btrfs native tag. -/
def MigrationFSType_BTRFS : MigrationFSType := ⟨1⟩
/-- The zfs native tag. -/
def MigrationFSType_ZFS : MigrationFSType := ⟨2⟩

/-- The message `migration.MigrationHeader`: `Fs` is a pointer field, `none` when unset. -/
structure MigrationHeader where
  Fs : Option MigrationFSType
  deriving DecidableEq, Repr

/-- The message `migration.MigrationControl`; both fields are pointers. -/
structure MigrationControl where
  Success : Option Bool
  Message : Option String
  deriving DecidableEq, Repr

/-- Which `migrationFields` of an endpoint a websocket belongs to (`c.src` or `c.dest`);
the source endpoint embeds a single `migrationFields`, tagged `src`. -/
inductive Side
  | src
  | dest
  deriving DecidableEq, Repr

/-- The constants `storageType...` of `lxd/storage.go`. -/
inductive storageType
  | storageTypeBtrfs
  | storageTypeCeph
  | storageTypeDir
  | storageTypeLvm
  | storageTypeMock
  | storageTypeZfs
  deriving DecidableEq, Repr

/-- Go `time.Time` as far as the code builds it: the zero value or `time.Unix(sec, 0)`. -/
inductive Time
  | zero
  | unix (sec : Int)
  deriving DecidableEq, Repr

/-- The constants `db.CTypeRegular` and `db.CTypeSnapshot`. -/
inductive ContainerType
  | CTypeRegular
  | CTypeSnapshot
  deriving DecidableEq, Repr

/-- The type `types.Devices`, a `map[string]map[string]string`. -/
abbrev Devices := GoMap (GoMap String)

/-- The message `migration.Config`, read through `GetKey` and `GetValue`. -/
structure Config where
  Key : String
  Value : String
  deriving DecidableEq, Repr

/-- The message `migration.Device`, read through `GetName` and its `Config` list. -/
structure Device where
  Name : String
  Config : List Config
  deriving DecidableEq, Repr

/-- The message `migration.Snapshot`, each scalar read through its `Get...` accessor. -/
structure Snapshot where
  Name : String
  LocalConfig : List Config
  Profiles : List String
  Ephemeral : Bool
  LocalDevices : List Device
  Architecture : Int
  Stateful : Bool
  CreationDate : Int
  LastUsedDate : Int
  deriving DecidableEq, Repr

/-- The fields of `db.ContainerArgs` that `snapshotProtobufToContainerArgs` sets. -/
structure ContainerArgs where
  Name : String
  Ctype : ContainerType
  Config : GoMap String
  Profiles : List String
  Ephemeral : Bool
  Devices : Devices
  Architecture : Int
  Stateful : Bool
  CreationDate : Time
  LastUsedDate : Time

/-- Which implementation of `MigrationStorageSourceDriver` a call goes to: the driver
returned by the storage's own `StorageMigrationSource`, or `rsyncStorageSourceDriver`. -/
inductive DriverKind
  | backend
  | rsync
  deriving DecidableEq, Repr

/-- What a Go function returning `error` did: returned `nil`, returned an error, or
panicked (a nil pointer dereference or a write to a nil map). -/
inductive Ret
  | nil
  | err (e : Error)
  | panic
  deriving DecidableEq, Repr

/-- The returned `error` as a `Ret`. -/
def Ret.ofErr : Option Error → Ret
  | none => Ret.nil
  | some e => Ret.err e

/-- One observable action.  Calls that leave the embedded code carry their arguments and
the outcome the environment gave; `SendStorageVolume .rsync`, `Cleanup` and
`rsyncStorageMigrationSink` mark the entry into embedded code whose own actions follow. -/
inductive Event
  /-- the receive `<-allConnected` -/
  | allConnected
  /-- the call `storage.StoragePoolVolumeMount()` -/
  | StoragePoolVolumeMount (r : Except Error Bool)
  /-- the call `storage.StoragePoolVolumeUmount()` -/
  | StoragePoolVolumeUmount
  /-- the call `storage.StoragePoolVolumeCreate()` -/
  | StoragePoolVolumeCreate (r : Option Error)
  /-- the call `connectWithSecret(secret)` -/
  | connectWithSecret (secret : String) (r : Option Error)
  /-- the call `send(&header)` on the control websocket of a side -/
  | send (side : Side) (h : MigrationHeader) (r : Option Error)
  /-- the call `recv(&header)` -/
  | recvHeader (side : Side) (r : Except Error MigrationHeader)
  /-- the call `recv(&msg)` for a `MigrationControl` -/
  | recvControl (side : Side) (r : Except Error MigrationControl)
  /-- the call `sendControl(err)` -/
  | sendControl (side : Side) (err : Option Error)
  /-- the call `disconnect()` -/
  | disconnect (side : Side)
  /-- the call `storage.StorageMigrationSource()` -/
  | StorageMigrationSource (r : Option Error)
  /-- the call `driver.SendStorageVolume(conn, op, bwlimit, storage)` -/
  | SendStorageVolume (d : DriverKind) (conn : Side) (bwlimit : String)
  /-- the return of the back-end driver from `SendStorageVolume` -/
  | backendSendReturned (r : Option Error)
  /-- the call `driver.Cleanup()` -/
  | Cleanup (d : DriverKind)
  /-- the call of the storage's own `StorageMigrationSink(conn, op, storage)` -/
  | StorageMigrationSink (conn : Side) (r : Option Error)
  /-- the call of `rsyncStorageMigrationSink(conn, op, storage)` -/
  | rsyncStorageMigrationSink (conn : Side)
  /-- the call `RsyncSend(name, path, conn, wrapper, bwlimit, execPath)`; `wrapper` is the
  name the progress reader is keyed by, `none` for a nil wrapper -/
  | RsyncSend (name path : String) (conn : Side) (wrapper : Option String)
      (bwlimit execPath : String) (r : Option Error)
  /-- the call `RsyncRecv(path, conn, wrapper)` -/
  | RsyncRecv (path : String) (conn : Side) (wrapper : String) (r : Option Error)
  /-- the call `c.StorageStart()` on the container named `c` -/
  | StorageStart (c : String) (r : Except Error Bool)
  /-- the call `c.StorageStop()` on the container named `c` -/
  | StorageStop (c : String)
  /-- the call `containerCreateEmptySnapshot(state, args)`; on success the name and the
  path of the container it returned -/
  | containerCreateEmptySnapshot (args : ContainerArgs) (r : Except Error (String × String))
  /-- the call `containerCreateAsSnapshot(state, args, container)` -/
  | containerCreateAsSnapshot (args : ContainerArgs) (source : String) (r : Option Error)
  /-- the call `ShiftIfNecessary(container, srcIdmap)` on the container named `c` -/
  | ShiftIfNecessary (c : String) (r : Option Error)

/-- The history of a run, oldest action first. -/
abbrev Trace := List Event

/-- The Go interface `storage`, as far as the embedded code uses it.  Getters are fields;
methods with an outcome are oracles over the history. -/
structure storage where
  /-- the method `MigrationType()` -/
  MigrationType : MigrationFSType
  /-- the value `GetStoragePool().Name` -/
  poolName : String
  /-- the value `GetStoragePoolVolume().Name` -/
  volumeName : String
  /-- the value `GetStoragePoolWritable().Config`, `none` for a nil map -/
  poolWritableConfig : Option (GoMap String)
  /-- the value `GetState().OS.ExecPath` -/
  ExecPath : String
  StoragePoolVolumeMount : Trace → Except Error Bool
  StoragePoolVolumeCreate : Trace → Option Error
  /-- the error returned by `StorageMigrationSource()` next to the driver -/
  StorageMigrationSource : Trace → Option Error
  /-- the outcome of `SendStorageVolume` of the driver `StorageMigrationSource` returned -/
  backendSendStorageVolume : Trace → Side → String → Option Error
  /-- the outcome of the storage's own `StorageMigrationSink` -/
  StorageMigrationSink : Trace → Side → Option Error

/-- The Go interface `container`, as far as the embedded code uses it. -/
structure container where
  Name : String
  Path : String
  ExpandedDevices : Devices
  /-- the value `Storage().GetStorageType()` -/
  StorageType : storageType
  /-- the value `DaemonState().OS.ExecPath` -/
  ExecPath : String
  StorageStart : Trace → Except Error Bool

/-- Functions and values the embedded code uses whose definitions are in other packages
(`shared`, `migration`, `fmt`, the rest of `lxd`): they are parameters of the embedding. -/
structure Env where
  /-- the function `shared.AddSlash` -/
  AddSlash : String → String
  /-- the constant `shared.SnapshotDelimiter` -/
  SnapshotDelimiter : String
  /-- the function `getStoragePoolVolumeMountPoint(poolName, volumeName)` -/
  getStoragePoolVolumeMountPoint : String → String → String
  /-- the first result of `containerGetParentAndSnapshotName` -/
  containerGetParentAndSnapshotName : String → String
  /-- the first two results of `shared.GetRootDiskDevice`: the key of the root disk
  device, the empty string when it reports none, and the device -/
  GetRootDiskDevice : Devices → String × GoMap String
  /-- the call `fmt.Errorf(format)` without arguments -/
  Errorf : String → Error
  send : Trace → Side → MigrationHeader → Option Error
  recvHeader : Trace → Side → Except Error MigrationHeader
  recvControl : Trace → Side → Except Error MigrationControl
  connectWithSecret : Trace → String → Option Error
  RsyncSend : Trace → String → String → Side → Option String → String → String → Option Error
  RsyncRecv : Trace → String → Side → String → Option Error
  containerCreateEmptySnapshot : Trace → ContainerArgs → Except Error container
  containerCreateAsSnapshot : Trace → ContainerArgs → String → Option Error
  ShiftIfNecessary : Trace → String → Option Error

/-! ## `storage_migration.go` -/

/-- The struct `rsyncStorageSourceDriver`; `container` is `none` for a nil interface. -/
structure rsyncStorageSourceDriver where
  container : Option Lxd.container
  snapshots : List Lxd.container

/-- The method `rsyncStorageSourceDriver.Snapshots`. -/
def rsyncStorageSourceDriver.Snapshots (s : rsyncStorageSourceDriver) : List Lxd.container :=
  s.snapshots

/-- The method `rsyncStorageSourceDriver.SendStorageVolume` (lines 52-70): mount, remember
whether this call mounted, stream with `RsyncSend`, and on return run the deferred
unmount if this call mounted. -/
def rsyncStorageSourceDriver.SendStorageVolume (E : Env) (conn : Side) (bwlimit : String)
    (st : storage) (t0 : Trace) : Trace × Ret :=
  let r := st.StoragePoolVolumeMount t0
  let t1 := t0 ++ [Event.StoragePoolVolumeMount r]
  match r with
  | .error err => (t1, Ret.err err)
  | .ok ourMount =>
    let path := E.AddSlash (E.getStoragePoolVolumeMountPoint st.poolName st.volumeName)
    let r2 := E.RsyncSend t1 st.volumeName path conn (some st.volumeName) bwlimit st.ExecPath
    let t2 := t1 ++
      [Event.RsyncSend st.volumeName path conn (some st.volumeName) bwlimit st.ExecPath r2]
    (if ourMount then t2 ++ [Event.StoragePoolVolumeUmount] else t2, Ret.ofErr r2)

/-- The loop of `SendWhileRunning` (lines 76-92) over the remaining snapshots.  `ds` holds
the containers whose `StorageStop` is deferred, the latest first.  The third result is
`some` when the loop body returned from the function. -/
def rsyncStorageSourceDriver.SendWhileRunning_loop (E : Env) (c : Lxd.container) (conn : Side)
    (bwlimit : String) : List Lxd.container → Trace → List String → Trace × List String × Option Ret
  | [], t, ds => (t, ds, none)
  | send :: rest, t, ds =>
    let r := send.StorageStart t
    let t1 := t ++ [Event.StorageStart send.Name r]
    match r with
    | .error err => (t1, ds, some (Ret.err err))
    | .ok ourStart =>
      let ds1 := if ourStart then send.Name :: ds else ds
      let ctName := E.containerGetParentAndSnapshotName c.Name
      let r2 := E.RsyncSend t1 ctName (E.AddSlash send.Path) conn (some send.Name) bwlimit c.ExecPath
      let t2 := t1 ++
        [Event.RsyncSend ctName (E.AddSlash send.Path) conn (some send.Name) bwlimit c.ExecPath r2]
      match r2 with
      | some err => (t2, ds1, some (Ret.err err))
      | none => rsyncStorageSourceDriver.SendWhileRunning_loop E c conn bwlimit rest t2 ds1

/-- The method `rsyncStorageSourceDriver.SendWhileRunning` (lines 72-98). -/
def rsyncStorageSourceDriver.SendWhileRunning (E : Env) (s : rsyncStorageSourceDriver)
    (conn : Side) (bwlimit : String) (containerOnly : Bool) (t0 : Trace) : Trace × Ret :=
  match s.container with
  | none => (t0, Ret.panic)
  | some c =>
    let ctName := E.containerGetParentAndSnapshotName c.Name
    let looped : Trace × List String × Option Ret :=
      if !containerOnly then
        rsyncStorageSourceDriver.SendWhileRunning_loop E c conn bwlimit s.snapshots t0 []
      else (t0, [], none)
    match looped with
    | (t1, ds, some ret) => (t1 ++ ds.map Event.StorageStop, ret)
    | (t1, ds, none) =>
      let r := E.RsyncSend t1 ctName (E.AddSlash c.Path) conn (some c.Name) bwlimit c.ExecPath
      let t2 := t1 ++
        [Event.RsyncSend ctName (E.AddSlash c.Path) conn (some c.Name) bwlimit c.ExecPath r]
      (t2 ++ ds.map Event.StorageStop, Ret.ofErr r)

/-- The method `rsyncStorageSourceDriver.SendAfterCheckpoint` (lines 100-105). -/
def rsyncStorageSourceDriver.SendAfterCheckpoint (E : Env) (s : rsyncStorageSourceDriver)
    (conn : Side) (bwlimit : String) (t0 : Trace) : Trace × Ret :=
  match s.container with
  | none => (t0, Ret.panic)
  | some c =>
    let ctName := E.containerGetParentAndSnapshotName c.Name
    let r := E.RsyncSend t0 ctName (E.AddSlash c.Path) conn none bwlimit c.ExecPath
    (t0 ++ [Event.RsyncSend ctName (E.AddSlash c.Path) conn none bwlimit c.ExecPath r],
      Ret.ofErr r)

/-- The method `rsyncStorageSourceDriver.Cleanup` (lines 107-109): a no-op. -/
def rsyncStorageSourceDriver.Cleanup (t0 : Trace) : Trace := t0

/-- The function `rsyncStorageMigrationSource` (lines 111-113). -/
def rsyncStorageMigrationSource : rsyncStorageSourceDriver := ⟨none, []⟩

/-- The function `rsyncMigrationSource` (lines 115-126); `cSnapshots` is what
`c.Snapshots()` returns, consulted only when `containerOnly` is false. -/
def rsyncMigrationSource (c : container) (cSnapshots : Except Error (List container))
    (containerOnly : Bool) : Except Error rsyncStorageSourceDriver :=
  if !containerOnly then
    match cSnapshots with
    | .error err => .error err
    | .ok snapshots => .ok ⟨some c, snapshots⟩
  else .ok ⟨some c, []⟩

/-- The function `snapshotProtobufToContainerArgs` (lines 128-166). -/
def snapshotProtobufToContainerArgs (E : Env) (containerName : String) (snap : Snapshot) :
    ContainerArgs :=
  let config : GoMap String :=
    snap.LocalConfig.foldl (fun m ent => m.set ent.Key ent.Value) GoMap.empty
  let devices : Devices :=
    snap.LocalDevices.foldl
      (fun ds ent =>
        ds.set ent.Name (ent.Config.foldl (fun m prop => m.set prop.Key prop.Value) GoMap.empty))
      GoMap.empty
  { Name := containerName ++ E.SnapshotDelimiter ++ snap.Name
    Ctype := ContainerType.CTypeSnapshot
    Config := config
    Profiles := snap.Profiles
    Ephemeral := snap.Ephemeral
    Devices := devices
    Architecture := snap.Architecture
    Stateful := snap.Stateful
    CreationDate := if snap.CreationDate ≠ 0 then Time.unix snap.CreationDate else Time.zero
    LastUsedDate := if snap.LastUsedDate ≠ 0 then Time.unix snap.LastUsedDate else Time.zero }

/-- The function `rsyncStorageMigrationSink` (lines 168-190). -/
def rsyncStorageMigrationSink (E : Env) (conn : Side) (st : storage) (t0 : Trace) :
    Trace × Ret :=
  let r0 := st.StoragePoolVolumeCreate t0
  let t1 := t0 ++ [Event.StoragePoolVolumeCreate r0]
  match r0 with
  | some err => (t1, Ret.err err)
  | none =>
    let r := st.StoragePoolVolumeMount t1
    let t2 := t1 ++ [Event.StoragePoolVolumeMount r]
    match r with
    | .error err => (t2, Ret.err err)
    | .ok ourMount =>
      let path := E.AddSlash (E.getStoragePoolVolumeMountPoint st.poolName st.volumeName)
      let r2 := E.RsyncRecv t2 path conn st.volumeName
      let t3 := t2 ++ [Event.RsyncRecv path conn st.volumeName r2]
      (if ourMount then t3 ++ [Event.StoragePoolVolumeUmount] else t3, Ret.ofErr r2)

/-- Lines 226-231 and 265-270 of `rsyncMigrationSink`: point the snapshot's own root disk
device at the parent's pool.  `args.Devices` is never nil here.  The result is `none`
when the write `args.Devices[key]["pool"] = ...` hits a nil inner map and panics. -/
def rsyncMigrationSink_rebind (E : Env) (args : ContainerArgs) (parentStoragePool : String) :
    Option ContainerArgs :=
  let snapLocalRootDiskDeviceKey := (E.GetRootDiskDevice args.Devices).1
  if snapLocalRootDiskDeviceKey ≠ "" then
    match args.Devices snapLocalRootDiskDeviceKey with
    | none => none
    | some props =>
      some { args with
        Devices := args.Devices.set snapLocalRootDiskDeviceKey (props.set "pool" parentStoragePool) }
  else some args

/-- The snapshot loop of `rsyncMigrationSink` on the directory back-end (lines 218-247).
The second result is `some` when the loop body returned from the function. -/
def rsyncMigrationSink_dirLoop (E : Env) (c : container) (conn : Side)
    (parentStoragePool : String) : List Snapshot → Trace → Trace × Option Ret
  | [], t => (t, none)
  | snap :: rest, t =>
    match rsyncMigrationSink_rebind E (snapshotProtobufToContainerArgs E c.Name snap)
        parentStoragePool with
    | none => (t, some Ret.panic)
    | some args =>
      match E.containerCreateEmptySnapshot t args with
      | .error err => (t ++ [Event.containerCreateEmptySnapshot args (.error err)], some (Ret.err err))
      | .ok s =>
        let t1 := t ++ [Event.containerCreateEmptySnapshot args (.ok (s.Name, s.Path))]
        let r := E.RsyncRecv t1 (E.AddSlash s.Path) conn s.Name
        let t2 := t1 ++ [Event.RsyncRecv (E.AddSlash s.Path) conn s.Name r]
        match r with
        | some err => (t2, some (Ret.err err))
        | none =>
          let r3 := E.ShiftIfNecessary t2 c.Name
          let t3 := t2 ++ [Event.ShiftIfNecessary c.Name r3]
          match r3 with
          | some err => (t3, some (Ret.err err))
          | none => rsyncMigrationSink_dirLoop E c conn parentStoragePool rest t3

/-- The snapshot loop of `rsyncMigrationSink` on the other back-ends (lines 257-287). -/
def rsyncMigrationSink_snapLoop (E : Env) (c : container) (conn : Side)
    (parentStoragePool : String) : List Snapshot → Trace → Trace × Option Ret
  | [], t => (t, none)
  | snap :: rest, t =>
    match rsyncMigrationSink_rebind E (snapshotProtobufToContainerArgs E c.Name snap)
        parentStoragePool with
    | none => (t, some Ret.panic)
    | some args =>
      let r := E.RsyncRecv t (E.AddSlash c.Path) conn snap.Name
      let t1 := t ++ [Event.RsyncRecv (E.AddSlash c.Path) conn snap.Name r]
      match r with
      | some err => (t1, some (Ret.err err))
      | none =>
        let r2 := E.ShiftIfNecessary t1 c.Name
        let t2 := t1 ++ [Event.ShiftIfNecessary c.Name r2]
        match r2 with
        | some err => (t2, some (Ret.err err))
        | none =>
          let r3 := E.containerCreateAsSnapshot t2 args c.Name
          let t3 := t2 ++ [Event.containerCreateAsSnapshot args c.Name r3]
          match r3 with
          | some err => (t3, some (Ret.err err))
          | none => rsyncMigrationSink_snapLoop E c conn parentStoragePool rest t3

/-- Lines 297-311 of `rsyncMigrationSink`: the final sync of a live migration and the
closing `ShiftIfNecessary`. -/
def rsyncMigrationSink_finish (E : Env) (live : Bool) (c : container) (conn : Side)
    (t : Trace) : Trace × Ret :=
  if live then
    let r := E.RsyncRecv t (E.AddSlash c.Path) conn c.Name
    let t1 := t ++ [Event.RsyncRecv (E.AddSlash c.Path) conn c.Name r]
    match r with
    | some err => (t1, Ret.err err)
    | none =>
      let r2 := E.ShiftIfNecessary t1 c.Name
      (t1 ++ [Event.ShiftIfNecessary c.Name r2], Ret.ofErr r2)
  else
    let r2 := E.ShiftIfNecessary t c.Name
    (t ++ [Event.ShiftIfNecessary c.Name r2], Ret.ofErr r2)

/-- Lines 201-208 of `rsyncMigrationSink`: the pool of the parent container's root disk
device, the empty string when `GetRootDiskDevice` reports no root disk device. -/
def rsyncMigrationSink_parentPool (E : Env) (c : container) : String :=
  let parentExpandedDevices := c.ExpandedDevices
  let root := E.GetRootDiskDevice parentExpandedDevices
  if root.1 ≠ "" then root.2.index "pool" else ""

/-- Lines 201-311 of `rsyncMigrationSink`: everything after the storage was started.  The
receive onto the container's own path that closes either branch of `isDirBackend` (lines
250-254 and 290-294) is written once, after the branch's snapshot loop. -/
def rsyncMigrationSink_body (E : Env) (live : Bool) (c : container) (snapshots : List Snapshot)
    (conn : Side) (containerOnly : Bool) (t : Trace) : Trace × Ret :=
  let parentStoragePool := rsyncMigrationSink_parentPool E c
  if parentStoragePool = "" then
    (t, Ret.err (E.Errorf "the container\x27s root device is missing the pool property"))
  else
    let isDirBackend : Bool := decide (c.StorageType = storageType.storageTypeDir)
    let looped : Trace × Option Ret :=
      if isDirBackend then
        if !containerOnly then
          rsyncMigrationSink_dirLoop E c conn parentStoragePool snapshots t
        else (t, none)
      else
        if !containerOnly then
          rsyncMigrationSink_snapLoop E c conn parentStoragePool snapshots t
        else (t, none)
    match looped with
    | (t1, some ret) => (t1, ret)
    | (t1, none) =>
      let r := E.RsyncRecv t1 (E.AddSlash c.Path) conn c.Name
      let t2 := t1 ++ [Event.RsyncRecv (E.AddSlash c.Path) conn c.Name r]
      match r with
      | some err => (t2, Ret.err err)
      | none => rsyncMigrationSink_finish E live c conn t2

/-- The function `rsyncMigrationSink` (lines 192-312). -/
def rsyncMigrationSink (E : Env) (live : Bool) (c : container) (snapshots : List Snapshot)
    (conn : Side) (containerOnly : Bool) (t0 : Trace) : Trace × Ret :=
  let r := c.StorageStart t0
  let t1 := t0 ++ [Event.StorageStart c.Name r]
  match r with
  | .error err => (t1, Ret.err err)
  | .ok ourStart =>
    let out := rsyncMigrationSink_body E live c snapshots conn containerOnly t1
    (if ourStart then out.1 ++ [Event.StorageStop c.Name] else out.1, out.2)

/-! ## `migrate_storage_volumes.go` -/

/-- The struct `migrationFields`, as far as `DoStorage` reads it; the websockets are
identified by the `Side` the struct sits on. -/
structure migrationFields where
  controlSecret : String
  fsSecret : String
  storage : Lxd.storage

/-- The struct `migrationSourceWs`, which embeds `migrationFields`. -/
structure migrationSourceWs extends migrationFields

/-- The struct `migrationSink`. -/
structure migrationSink where
  src : migrationFields
  dest : migrationFields
  push : Bool

/-- What a run of `DoStorage` did. -/
structure Run where
  trace : Trace
  ret : Ret
  /-- the value of the local variable `myType` when the payload transfer was invoked,
  `none` when the run did not get that far -/
  fsType : Option MigrationFSType

/-- The interface call `driver.SendStorageVolume(conn, op, bwlimit, storage)`: the rsync
driver is the embedded method, the back-end driver is an oracle. -/
def MigrationStorageSourceDriver.SendStorageVolume (E : Env) (d : DriverKind) (conn : Side)
    (bwlimit : String) (st : storage) (t0 : Trace) : Trace × Ret :=
  let t1 := t0 ++ [Event.SendStorageVolume d conn bwlimit]
  match d with
  | DriverKind.rsync => rsyncStorageSourceDriver.SendStorageVolume E conn bwlimit st t1
  | DriverKind.backend =>
    let r := st.backendSendStorageVolume t1 conn bwlimit
    (t1 ++ [Event.backendSendReturned r], Ret.ofErr r)

/-- The interface call `driver.Cleanup()`. -/
def MigrationStorageSourceDriver.Cleanup (d : DriverKind) (t0 : Trace) : Trace :=
  match d with
  | DriverKind.rsync => rsyncStorageSourceDriver.Cleanup (t0 ++ [Event.Cleanup DriverKind.rsync])
  | DriverKind.backend => t0 ++ [Event.Cleanup DriverKind.backend]

/-- Lines 82-86 of `migrationSourceWs.DoStorage`: the rate limit the storage pool sets
for rsync, the empty string when the pool has no configuration map or no such key. -/
def migrationSourceWs.rsyncBwlimit (st : storage) : String :=
  match st.poolWritableConfig with
  | some config => config.index "rsync.bwlimit"
  | none => ""

/-- Lines 47-116 of `migrationSourceWs.DoStorage`: everything after the mount. -/
def migrationSourceWs.DoStorage_body (E : Env) (s : migrationSourceWs) (t1 : Trace) : Run :=
  let myType := s.storage.MigrationType
  let header : MigrationHeader := { Fs := some myType }
  let r := E.send t1 Side.src header
  let t2 := t1 ++ [Event.send Side.src header r]
  match r with
  | some err => ⟨t2 ++ [Event.sendControl Side.src (some err)], Ret.err err, none⟩
  | none =>
    let fsErr := s.storage.StorageMigrationSource t2
    let t3 := t2 ++ [Event.StorageMigrationSource fsErr]
    match fsErr with
    | some fsErr => ⟨t3 ++ [Event.sendControl Side.src (some fsErr)], Ret.err fsErr, none⟩
    | none =>
      let r := E.recvHeader t3 Side.src
      let t4 := t3 ++ [Event.recvHeader Side.src r]
      match r with
      | .error err => ⟨t4 ++ [Event.sendControl Side.src (some err)], Ret.err err, none⟩
      | .ok header =>
        match header.Fs with
        | none => ⟨t4, Ret.panic, none⟩
        | some fs =>
          let fallback : Bool := decide (fs ≠ myType)
          let myType := if fallback then MigrationFSType_RSYNC else myType
          let driver := if fallback then DriverKind.rsync else DriverKind.backend
          let bwlimit : String :=
            if fallback then migrationSourceWs.rsyncBwlimit s.storage else ""
          let sent :=
            MigrationStorageSourceDriver.SendStorageVolume E driver Side.src bwlimit s.storage t4
          match sent.2 with
          | Ret.err err =>
            ⟨MigrationStorageSourceDriver.Cleanup driver sent.1
                ++ [Event.sendControl Side.src (some err)], Ret.err err, some myType⟩
          | Ret.panic => ⟨sent.1, Ret.panic, some myType⟩
          | Ret.nil =>
            let r := E.recvControl sent.1 Side.src
            let t6 := sent.1 ++ [Event.recvControl Side.src r]
            match r with
            | .error err => ⟨t6 ++ [Event.disconnect Side.src], Ret.err err, some myType⟩
            | .ok msg =>
              match msg.Success with
              | none => ⟨t6, Ret.panic, some myType⟩
              | some true => ⟨t6, Ret.nil, some myType⟩
              | some false =>
                match msg.Message with
                | none => ⟨t6, Ret.panic, some myType⟩
                | some m => ⟨t6, Ret.err (E.Errorf m), some myType⟩

/-- The method `migrationSourceWs.DoStorage` (lines 33-116). -/
def migrationSourceWs.DoStorage (E : Env) (s : migrationSourceWs) (t0 : Trace) : Run :=
  let t := t0 ++ [Event.allConnected]
  let r := s.storage.StoragePoolVolumeMount t
  let t1 := t ++ [Event.StoragePoolVolumeMount r]
  match r with
  | .error err => ⟨t1, Ret.err err, none⟩
  | .ok ourMount =>
    let out := migrationSourceWs.DoStorage_body E s t1
    ⟨if ourMount then out.trace ++ [Event.StoragePoolVolumeUmount] else out.trace,
      out.ret, out.fsType⟩

/-- The side whose `recv`, `send`, `sendControl` and `fsConn` the sink uses (lines 192-205
and 235-240): `c.dest` in push mode, `c.src` otherwise. -/
def migrationSink.side (c : migrationSink) : Side :=
  if c.push then Side.dest else Side.src

/-- Lines 207-252 of `migrationSink.DoStorage`: the header exchange, the selected sink
function and the terminal control message. -/
def migrationSink.DoStorage_exchange (E : Env) (c : migrationSink) (t : Trace) : Run :=
  let r := E.recvHeader t c.side
  let t1 := t ++ [Event.recvHeader c.side r]
  match r with
  | .error err => ⟨t1 ++ [Event.sendControl c.side (some err)], Ret.err err, none⟩
  | .ok header =>
    let myType := c.src.storage.MigrationType
    match header.Fs with
    | none => ⟨t1, Ret.panic, none⟩
    | some fs =>
      let fallback : Bool := decide (fs ≠ myType)
      let myType := if fallback then MigrationFSType_RSYNC else myType
      let resp : MigrationHeader := { Fs := some myType }
      let r := E.send t1 c.side resp
      let t2 := t1 ++ [Event.send c.side resp r]
      match r with
      | some err => ⟨t2 ++ [Event.sendControl c.side (some err)], Ret.err err, none⟩
      | none =>
        let out : Trace × Ret :=
          if fallback then
            rsyncStorageMigrationSink E c.side c.dest.storage
              (t2 ++ [Event.rsyncStorageMigrationSink c.side])
          else
            let r := c.src.storage.StorageMigrationSink t2 c.side
            (t2 ++ [Event.StorageMigrationSink c.side r], Ret.ofErr r)
        match out.2 with
        | Ret.err err => ⟨out.1 ++ [Event.sendControl c.side (some err)], Ret.err err, some myType⟩
        | Ret.panic => ⟨out.1, Ret.panic, some myType⟩
        | Ret.nil => ⟨out.1 ++ [Event.sendControl c.side none], Ret.nil, some myType⟩

/-- The method `migrationSink.DoStorage` (lines 162-252). -/
def migrationSink.DoStorage (E : Env) (c : migrationSink) (t0 : Trace) : Run :=
  if c.push then
    let out := migrationSink.DoStorage_exchange E c (t0 ++ [Event.allConnected])
    ⟨out.trace ++ [Event.disconnect Side.dest], out.ret, out.fsType⟩
  else
    let r := E.connectWithSecret t0 c.src.controlSecret
    let t1 := t0 ++ [Event.connectWithSecret c.src.controlSecret r]
    match r with
    | some err => ⟨t1, Ret.err err, none⟩
    | none =>
      let r := E.connectWithSecret t1 c.src.fsSecret
      let t2 := t1 ++ [Event.connectWithSecret c.src.fsSecret r]
      match r with
      | some err =>
        ⟨t2 ++ [Event.sendControl Side.src (some err), Event.disconnect Side.src], Ret.err err, none⟩
      | none =>
        let out := migrationSink.DoStorage_exchange E c t2
        ⟨out.trace ++ [Event.disconnect Side.src], out.ret, out.fsType⟩

/-! ## Reading a history

Predicates and projections on events in which the properties below are stated. -/

/-- Whether the event is a call of `StoragePoolVolumeUmount`. -/
def Event.isUmount : Event → Bool
  | .StoragePoolVolumeUmount => true
  | _ => false

/-- Whether the event is a call of `StoragePoolVolumeMount`. -/
def Event.isMount : Event → Bool
  | .StoragePoolVolumeMount _ => true
  | _ => false

/-- Whether the event is a `StoragePoolVolumeMount` that succeeded and reported that it
performed the mount. -/
def Event.isMountPerformed : Event → Bool
  | .StoragePoolVolumeMount (.ok true) => true
  | _ => false

/-- Whether the event is an rsync stream, `RsyncSend` or `RsyncRecv`. -/
def Event.isStream : Event → Bool
  | .RsyncSend _ _ _ _ _ _ _ => true
  | .RsyncRecv _ _ _ _ => true
  | _ => false

/-- Whether the event is an action of the storage layer below the protocol: volume
creation, mount, unmount or an rsync stream. -/
def Event.isStorageLevel : Event → Bool
  | .StoragePoolVolumeCreate _ => true
  | .StoragePoolVolumeMount _ => true
  | .StoragePoolVolumeUmount => true
  | .RsyncSend _ _ _ _ _ _ _ => true
  | .RsyncRecv _ _ _ _ => true
  | _ => false

/-- Whether the event belongs to the `SendStorageVolume` of the driver `d`: the call
itself, the return of the back-end driver, or a storage-level action of the rsync driver. -/
def Event.isDriverSend (d : DriverKind) : Event → Bool
  | .SendStorageVolume d1 _ _ => decide (d1 = d)
  | .backendSendReturned _ => decide (d = DriverKind.backend)
  | e => decide (d = DriverKind.rsync) && e.isStorageLevel

/-- Whether the event is the sending of a header. -/
def Event.isHeaderSend : Event → Bool
  | .send _ _ _ => true
  | _ => false

/-- Whether the event is the successful sending of a header. -/
def Event.isHeaderSendOk : Event → Bool
  | .send _ _ none => true
  | _ => false

/-- Whether the event is the receiving of a header. -/
def Event.isHeaderRecv : Event → Bool
  | .recvHeader _ _ => true
  | _ => false

/-- Whether the event is the successful receiving of a header. -/
def Event.isHeaderRecvOk : Event → Bool
  | .recvHeader _ (.ok _) => true
  | _ => false

/-- Whether the event is a failed header send or a failed header receive. -/
def Event.isHeaderFailure : Event → Bool
  | .send _ _ (some _) => true
  | .recvHeader _ (.error _) => true
  | _ => false

/-- Whether the event invokes the payload transfer: the driver's `SendStorageVolume` on
the source, the selected sink function on the sink. -/
def Event.isPayload : Event → Bool
  | .SendStorageVolume _ _ _ => true
  | .StorageMigrationSink _ _ => true
  | .rsyncStorageMigrationSink _ => true
  | _ => false

/-- Whether the event is neither a header send, a header receive nor a payload invocation. -/
def Event.isOther (e : Event) : Bool :=
  !e.isPayload && !e.isHeaderSend && !e.isHeaderRecv

/-- The `RsyncRecv` passes of a history, in order: the target path and the name the
progress writer is keyed by. -/
def recvPasses (tr : Trace) : List (String × String) :=
  tr.filterMap fun
    | .RsyncRecv path _ wrapper _ => some (path, wrapper)
    | _ => none

/-- The paths of the `RsyncSend` calls of a history, in order. -/
def sendPasses (tr : Trace) : List String :=
  tr.filterMap fun
    | .RsyncSend _ path _ _ _ _ _ => some path
    | _ => none

/-- The metadata of the snapshots a history created, with `containerCreateEmptySnapshot`
or `containerCreateAsSnapshot`, in order. -/
def createdSnapshots (tr : Trace) : List ContainerArgs :=
  tr.filterMap fun
    | .containerCreateEmptySnapshot args _ => some args
    | .containerCreateAsSnapshot args _ _ => some args
    | _ => none

/-- The seconds value a `Time` was built from by `snapshotProtobufToContainerArgs`: the
zero time stands for a sent value of 0. -/
def Time.sentSeconds : Time → Int
  | .zero => 0
  | .unix sec => sec

/-- The creation timestamps of the snapshots a history created, in order of creation. -/
def replayedTimestamps (tr : Trace) : List Int :=
  (createdSnapshots tr).map fun args => args.CreationDate.sentSeconds

/-- Whether the event is an idmap shift. -/
def Event.isShift : Event → Bool
  | .ShiftIfNecessary _ _ => true
  | _ => false

/-- The error of a failed `StorageStart` or `RsyncSend`, `none` for any other event. -/
def Event.sendFailure : Event → Option Error
  | .StorageStart _ (.error err) => some err
  | .RsyncSend _ _ _ _ _ _ (some err) => some err
  | _ => none

/-- Whether the event is a `StorageStart` or an `RsyncSend`. -/
def Event.isSendStep : Event → Bool
  | .StorageStart _ _ => true
  | .RsyncSend _ _ _ _ _ _ _ => true
  | _ => false

/-- The metadata `rsyncMigrationSink` creates the snapshot `snap` with (lines 219-231 and
258-270): the reconstructed arguments with the root disk device rebound to the pool. -/
def rsyncMigrationSink_args (E : Env) (c : container) (snap : Snapshot) : ContainerArgs :=
  (rsyncMigrationSink_rebind E (snapshotProtobufToContainerArgs E c.Name snap)
    (rsyncMigrationSink_parentPool E c)).getD (snapshotProtobufToContainerArgs E c.Name snap)

/-- What a run of `rsyncMigrationSink` on the container `c` needs from its collaborators
to succeed: the storage starts, every receive, shift and snapshot creation succeeds, an
empty snapshot is created under the requested name at the path `pathOf` gives that name,
`GetRootDiskDevice` only reports keys that are in the map, and the parent's root disk
device names a pool. -/
structure SinkSucceeds (E : Env) (c : container) (pathOf : String → String) : Prop where
  start : ∀ t, ∃ ourStart, c.StorageStart t = .ok ourStart
  recv : ∀ t path conn wrapper, E.RsyncRecv t path conn wrapper = none
  shift : ∀ t name, E.ShiftIfNecessary t name = none
  createEmpty : ∀ t args, ∃ s, E.containerCreateEmptySnapshot t args = .ok s ∧
    s.Name = args.Name ∧ s.Path = pathOf args.Name
  createAs : ∀ t args source, E.containerCreateAsSnapshot t args source = none
  rootKey : ∀ devices, (E.GetRootDiskDevice devices).1 ≠ "" →
    (devices (E.GetRootDiskDevice devices).1).isSome = true
  pool : rsyncMigrationSink_parentPool E c ≠ ""

/-- The events of one snapshot in a successful run of `rsyncMigrationSink`: on the
directory back-end create, receive, shift; on the others receive, shift, create. -/
def snapshotSteps (E : Env) (c : container) (conn : Side) (pathOf : String → String)
    (snap : Snapshot) : List Event :=
  let args := rsyncMigrationSink_args E c snap
  if c.StorageType = storageType.storageTypeDir then
    [Event.containerCreateEmptySnapshot args (.ok (args.Name, pathOf args.Name)),
      Event.RsyncRecv (E.AddSlash (pathOf args.Name)) conn args.Name none,
      Event.ShiftIfNecessary c.Name none]
  else
    [Event.RsyncRecv (E.AddSlash c.Path) conn snap.Name none,
      Event.ShiftIfNecessary c.Name none,
      Event.containerCreateAsSnapshot args c.Name none]

/-- The `RsyncRecv` pass of one snapshot: on the directory back-end into the path of the
snapshot just created, on the others onto the container's own path. -/
def snapshotPass (E : Env) (c : container) (pathOf : String → String) (snap : Snapshot) :
    String × String :=
  if c.StorageType = storageType.storageTypeDir then
    (E.AddSlash (pathOf (c.Name ++ E.SnapshotDelimiter ++ snap.Name)),
      c.Name ++ E.SnapshotDelimiter ++ snap.Name)
  else (E.AddSlash c.Path, snap.Name)

/-- The mount discipline of one call, read off the events `ext` the call appended and
the value `ret` it returned: at most one mount; as many unmounts as mounts that reported
having mounted; an unmount is the last action, directly after the one rsync stream; a
failed mount or a failed volume creation means no stream and that error returned. -/
def MountDiscipline (ext : Trace) (ret : Ret) : Prop :=
  ext.countP Event.isMount ≤ 1 ∧
  ext.countP Event.isUmount = ext.countP Event.isMountPerformed ∧
  (ext.countP Event.isUmount ≠ 0 →
    ∃ pre ev, ext = pre ++ [ev, Event.StoragePoolVolumeUmount] ∧ ev.isStream = true ∧
      pre.countP Event.isUmount = 0 ∧ pre.countP Event.isStream = 0) ∧
  (∀ err, Event.StoragePoolVolumeMount (.error err) ∈ ext →
    ext.countP Event.isStream = 0 ∧ ret = Ret.err err) ∧
  (∀ err, Event.StoragePoolVolumeCreate (some err) ∈ ext →
    ext.countP Event.isStream = 0 ∧ ext.countP Event.isMount = 0 ∧ ret = Ret.err err)

/-- The header discipline of one run, read off its history: every payload invocation has
before it exactly one header send, which succeeded, and exactly one header receive, which
succeeded; the run sends and receives at most one header; and after a failed header send
or receive there is no payload invocation at all. -/
def HeaderDiscipline (tr : Trace) : Prop :=
  (∀ pre e post, tr = pre ++ e :: post → e.isPayload = true →
    pre.countP Event.isHeaderSend = 1 ∧ pre.countP Event.isHeaderSendOk = 1 ∧
    pre.countP Event.isHeaderRecv = 1 ∧ pre.countP Event.isHeaderRecvOk = 1) ∧
  tr.countP Event.isHeaderSend ≤ 1 ∧ tr.countP Event.isHeaderRecv ≤ 1 ∧
  ((∃ e ∈ tr, e.isHeaderFailure = true) → ∀ e ∈ tr, e.isPayload = false)

/-- The outcome of the negotiation at an endpoint whose own type is `m` when the peer's
header carries `fs`: `m` itself if they agree, the fallback type otherwise. -/
def negotiatedType (m fs : MigrationFSType) : MigrationFSType :=
  if fs ≠ m then MigrationFSType_RSYNC else m

/-- The driver the source sends with when its own type is `m` and the reply header
carries `fs` (lines 76-80). -/
def sourceDriver (m fs : MigrationFSType) : DriverKind :=
  if fs ≠ m then DriverKind.rsync else DriverKind.backend

/-- The bandwidth limit the source passes to the driver (lines 75-87). -/
def sourceBwlimit (st : storage) (fs : MigrationFSType) : String :=
  if fs ≠ st.MigrationType then migrationSourceWs.rsyncBwlimit st else ""

/-- What lines 109-115 of `migrationSourceWs.DoStorage` return for a control message. -/
def controlResult (E : Env) (msg : MigrationControl) : Ret :=
  match msg.Success with
  | none => Ret.panic
  | some true => Ret.nil
  | some false =>
    match msg.Message with
    | none => Ret.panic
    | some m => Ret.err (E.Errorf m)

/-! ## The paths through `DoStorage`

Each constructor is one path through the code: the events appended, the value
returned and the type the endpoint proceeds with. -/

/-- The paths through lines 207-252 of `migrationSink.DoStorage`. -/
inductive SinkExchange (m : MigrationFSType) (side : Side) :
    Trace → Ret → Option MigrationFSType → Prop
  | recvFailed (err : Error) :
    SinkExchange m side
      [Event.recvHeader side (.error err), Event.sendControl side (some err)] (Ret.err err) none
  | unsetFs :
    SinkExchange m side [Event.recvHeader side (.ok ⟨none⟩)] Ret.panic none
  | sendFailed (fs : MigrationFSType) (err : Error) :
    SinkExchange m side
      [Event.recvHeader side (.ok ⟨some fs⟩),
        Event.send side ⟨some (negotiatedType m fs)⟩ (some err),
        Event.sendControl side (some err)] (Ret.err err) none
  | native (r : Option Error) :
    SinkExchange m side
      [Event.recvHeader side (.ok ⟨some m⟩), Event.send side ⟨some m⟩ none,
        Event.StorageMigrationSink side r, Event.sendControl side r] (Ret.ofErr r) (some m)
  | rsync (fs : MigrationFSType) (ext : Trace) (r : Option Error) :
    fs ≠ m → (∀ e ∈ ext, e.isStorageLevel = true) →
    SinkExchange m side
      (Event.recvHeader side (.ok ⟨some fs⟩) :: Event.send side ⟨some MigrationFSType_RSYNC⟩ none ::
        Event.rsyncStorageMigrationSink side :: (ext ++ [Event.sendControl side r]))
      (Ret.ofErr r) (some MigrationFSType_RSYNC)

/-- The paths through `migrationSink.DoStorage`. -/
inductive SinkRun (c : migrationSink) : Trace → Ret → Option MigrationFSType → Prop
  | push (ext : Trace) (ret : Ret) (ty : Option MigrationFSType) :
    c.push = true → SinkExchange c.src.storage.MigrationType Side.dest ext ret ty →
    SinkRun c (Event.allConnected :: (ext ++ [Event.disconnect Side.dest])) ret ty
  | controlFailed (err : Error) :
    c.push = false →
    SinkRun c [Event.connectWithSecret c.src.controlSecret (some err)] (Ret.err err) none
  | fsFailed (err : Error) :
    c.push = false →
    SinkRun c
      [Event.connectWithSecret c.src.controlSecret none,
        Event.connectWithSecret c.src.fsSecret (some err),
        Event.sendControl Side.src (some err), Event.disconnect Side.src] (Ret.err err) none
  | pull (ext : Trace) (ret : Ret) (ty : Option MigrationFSType) :
    c.push = false → SinkExchange c.src.storage.MigrationType Side.src ext ret ty →
    SinkRun c
      (Event.connectWithSecret c.src.controlSecret none ::
        Event.connectWithSecret c.src.fsSecret none :: (ext ++ [Event.disconnect Side.src]))
      ret ty

/-- The paths through lines 96-115 of `migrationSourceWs.DoStorage`, after the driver
`d` returned `r` from `SendStorageVolume`. -/
inductive SourceTail (E : Env) (d : DriverKind) : Option Error → Trace → Ret → Prop
  | aborted (err : Error) :
    SourceTail E d (some err) [Event.Cleanup d, Event.sendControl Side.src (some err)]
      (Ret.err err)
  | controlFailed (err : Error) :
    SourceTail E d none [Event.recvControl Side.src (.error err), Event.disconnect Side.src]
      (Ret.err err)
  | control (msg : MigrationControl) :
    SourceTail E d none [Event.recvControl Side.src (.ok msg)] (controlResult E msg)

/-- The paths through lines 47-116 of `migrationSourceWs.DoStorage` from the history `t1`. -/
inductive SourceBody (E : Env) (s : migrationSourceWs) (t1 : Trace) :
    Trace → Ret → Option MigrationFSType → Prop
  | sendFailed (err : Error) :
    SourceBody E s t1
      [Event.send Side.src ⟨some s.storage.MigrationType⟩ (some err),
        Event.sendControl Side.src (some err)] (Ret.err err) none
  | driverFailed (err : Error) :
    SourceBody E s t1
      [Event.send Side.src ⟨some s.storage.MigrationType⟩ none,
        Event.StorageMigrationSource (some err),
        Event.sendControl Side.src (some err)] (Ret.err err) none
  | recvFailed (err : Error) :
    SourceBody E s t1
      [Event.send Side.src ⟨some s.storage.MigrationType⟩ none,
        Event.StorageMigrationSource none,
        Event.recvHeader Side.src (.error err),
        Event.sendControl Side.src (some err)] (Ret.err err) none
  | unsetFs :
    SourceBody E s t1
      [Event.send Side.src ⟨some s.storage.MigrationType⟩ none,
        Event.StorageMigrationSource none,
        Event.recvHeader Side.src (.ok ⟨none⟩)] Ret.panic none
  | payload (fs : MigrationFSType) (pay tail : Trace) (r : Option Error) (ret : Ret) :
    MigrationStorageSourceDriver.SendStorageVolume E (sourceDriver s.storage.MigrationType fs)
        Side.src (sourceBwlimit s.storage fs) s.storage
        (t1 ++ [Event.send Side.src ⟨some s.storage.MigrationType⟩ none,
          Event.StorageMigrationSource none, Event.recvHeader Side.src (.ok ⟨some fs⟩)])
      = (t1 ++ (Event.send Side.src ⟨some s.storage.MigrationType⟩ none ::
          Event.StorageMigrationSource none :: Event.recvHeader Side.src (.ok ⟨some fs⟩) ::
          Event.SendStorageVolume (sourceDriver s.storage.MigrationType fs) Side.src
            (sourceBwlimit s.storage fs) :: pay),
        Ret.ofErr r) →
    (∀ e ∈ pay, e.isDriverSend (sourceDriver s.storage.MigrationType fs) = true ∧
      ∀ d1 c1 b1, e ≠ Event.SendStorageVolume d1 c1 b1) →
    SourceTail E (sourceDriver s.storage.MigrationType fs) r tail ret →
    SourceBody E s t1
      (Event.send Side.src ⟨some s.storage.MigrationType⟩ none ::
        Event.StorageMigrationSource none ::
        Event.recvHeader Side.src (.ok ⟨some fs⟩) ::
        Event.SendStorageVolume (sourceDriver s.storage.MigrationType fs) Side.src
          (sourceBwlimit s.storage fs) :: (pay ++ tail))
      ret (some (negotiatedType s.storage.MigrationType fs))

/-- The paths through `migrationSourceWs.DoStorage` from the history `t0`. -/
inductive SourceRun (E : Env) (s : migrationSourceWs) (t0 : Trace) :
    Trace → Ret → Option MigrationFSType → Prop
  | mountFailed (err : Error) :
    SourceRun E s t0 [Event.allConnected, Event.StoragePoolVolumeMount (.error err)]
      (Ret.err err) none
  | mounted (ourMount : Bool) (ext : Trace) (ret : Ret) (ty : Option MigrationFSType) :
    SourceBody E s (t0 ++ [Event.allConnected, Event.StoragePoolVolumeMount (.ok ourMount)])
      ext ret ty →
    SourceRun E s t0
      (Event.allConnected :: Event.StoragePoolVolumeMount (.ok ourMount) ::
        (ext ++ if ourMount then [Event.StoragePoolVolumeUmount] else []))
      ret ty

/-! ## A sample environment

Concrete collaborators on which the properties below are instantiated. -/

/-- A storage of migration type `ty` on which every call succeeds and every mount
reports that it performed the mount. -/
def sampleStorage (ty : MigrationFSType) : storage where
  MigrationType := ty
  poolName := "default"
  volumeName := "vol1"
  poolWritableConfig := none
  ExecPath := "/usr/bin/lxd"
  StoragePoolVolumeMount := fun _ => .ok true
  StoragePoolVolumeCreate := fun _ => none
  StorageMigrationSource := fun _ => none
  backendSendStorageVolume := fun _ _ _ => none
  StorageMigrationSink := fun _ _ => none

/-- A container on the back-end `ty` whose root disk device names the pool `default`. -/
def sampleContainer (ty : storageType) : container where
  Name := "c1"
  Path := "/var/lib/lxd/containers/c1"
  ExpandedDevices := GoMap.empty.set "root"
    (((GoMap.empty.set "type" "disk").set "path" "/").set "pool" "default")
  StorageType := ty
  ExecPath := "/usr/bin/lxd"
  StorageStart := fun _ => .ok true

/-- An environment in which every call succeeds, the peer's header carries `peer` and
the peer's control message reports success. -/
def sampleEnv (peer : MigrationFSType) : Env where
  AddSlash := fun path => path ++ "/"
  SnapshotDelimiter := "/"
  getStoragePoolVolumeMountPoint := fun pool volume =>
    "/var/lib/lxd/storage-pools/" ++ pool ++ "/custom/" ++ volume
  containerGetParentAndSnapshotName := fun name => name
  GetRootDiskDevice := fun devices =>
    match devices "root" with
    | some dev => ("root", dev)
    | none => ("", GoMap.empty)
  Errorf := fun format => format
  send := fun _ _ _ => none
  recvHeader := fun _ _ => .ok ⟨some peer⟩
  recvControl := fun _ _ => .ok ⟨some true, none⟩
  connectWithSecret := fun _ _ => none
  RsyncSend := fun _ _ _ _ _ _ _ => none
  RsyncRecv := fun _ _ _ _ => none
  containerCreateEmptySnapshot := fun _ args =>
    .ok { Name := args.Name, Path := "/var/lib/lxd/snapshots/" ++ args.Name,
          ExpandedDevices := args.Devices, StorageType := storageType.storageTypeDir,
          ExecPath := "/usr/bin/lxd", StorageStart := fun _ => .ok true }
  containerCreateAsSnapshot := fun _ _ _ => none
  ShiftIfNecessary := fun _ _ => none

/-- A source endpoint whose storage has migration type `ty`. -/
def sampleSource (ty : MigrationFSType) : migrationSourceWs where
  controlSecret := "control-secret"
  fsSecret := "fs-secret"
  storage := sampleStorage ty

/-- A sink endpoint whose storage has migration type `ty`. -/
def sampleSink (ty : MigrationFSType) (push : Bool) : migrationSink where
  src := ⟨"control-secret", "fs-secret", sampleStorage ty⟩
  dest := ⟨"", "", sampleStorage ty⟩
  push := push

/-- A snapshot message with the given name and creation timestamp. -/
def sampleSnapshot (name : String) (creationDate : Int) : Snapshot where
  Name := name
  LocalConfig := []
  Profiles := ["default"]
  Ephemeral := false
  LocalDevices := []
  Architecture := 2
  Stateful := false
  CreationDate := creationDate
  LastUsedDate := 0

/-- The path `sampleEnv` creates the snapshot of a given name at. -/
def samplePathOf (name : String) : String := "/var/lib/lxd/snapshots/" ++ name

/-! ## Further vocabulary and samples, and `NewStorageMigrationSink` -/

/-- The effect of one action on the mount state of the volume: a successful mount leaves
it mounted, an unmount leaves it unmounted, a failed mount and every other action leave
it as it was. -/
def Event.mountStep (mounted : Bool) : Event → Bool
  | .StoragePoolVolumeMount (.ok _) => true
  | .StoragePoolVolumeUmount => false
  | _ => mounted

/-- The mount state of the volume after a history that began in the state `m0`. -/
def mountedAfter (m0 : Bool) (tr : Trace) : Bool :=
  tr.foldl Event.mountStep m0

/-- The mount model of a storage whose volume began in the state `m0`: a successful
`StoragePoolVolumeMount` reports `true` exactly when it changes the volume from unmounted
to mounted. -/
def MountReportsChange (m0 : Bool) (st : storage) : Prop :=
  ∀ t ourMount, st.StoragePoolVolumeMount t = .ok ourMount → ourMount = !(mountedAfter m0 t)

/-- A storage of migration type `ty` that follows the mount model from the initial state
`m0`: every call succeeds and a mount reports `true` exactly when the volume was not yet
mounted. -/
def sampleMountStorage (m0 : Bool) (ty : MigrationFSType) : storage :=
  { sampleStorage ty with StoragePoolVolumeMount := fun t => .ok (!(mountedAfter m0 t)) }

/-- The error with which an action inside a driver's `SendStorageVolume` failed: the
back-end driver returning an error, or the rsync driver's mount or stream failing. -/
def Event.driverFailure : Event → Option Error
  | .backendSendReturned (some err) => some err
  | .StoragePoolVolumeMount (.error err) => some err
  | .RsyncSend _ _ _ _ _ _ (some err) => some err
  | _ => none

/-- An environment like `sampleEnv` in which the peer's control message reports the
failure `message`. -/
def sampleFailingPeerEnv (peer : MigrationFSType) (message : String) : Env :=
  { sampleEnv peer with recvControl := fun _ _ => .ok ⟨some false, some message⟩ }

/-- An environment like `sampleEnv` in which every `connectWithSecret` fails with
`message`. -/
def sampleRefusingEnv (peer : MigrationFSType) (message : String) : Env :=
  { sampleEnv peer with connectWithSecret := fun _ _ => some message }

/-- A storage like `sampleStorage` whose pool configuration sets `rsync.bwlimit` to
`limit`. -/
def sampleLimitedStorage (ty : MigrationFSType) (limit : String) : storage :=
  { sampleStorage ty with
    poolWritableConfig := some (GoMap.empty.set "rsync.bwlimit" limit) }

/-- A source endpoint on `sampleLimitedStorage`. -/
def sampleLimitedSource (ty : MigrationFSType) (limit : String) : migrationSourceWs where
  controlSecret := "control-secret"
  fsSecret := "fs-secret"
  storage := sampleLimitedStorage ty limit

/-- An environment like `sampleEnv` in which the header received from the peer has its
`Fs` field unset. -/
def sampleUnsetEnv : Env :=
  { sampleEnv MigrationFSType_RSYNC with recvHeader := fun _ _ => .ok ⟨none⟩ }

/-- A source endpoint like `sampleSource` whose storage fails to mount the volume, with
the error `message`. -/
def sampleUnmountableSource (ty : MigrationFSType) (message : String) : migrationSourceWs :=
  { sampleSource ty with
    storage := { sampleStorage ty with StoragePoolVolumeMount := fun _ => .error message } }

/-- The struct `MigrationSinkArgs`, as far as `NewStorageMigrationSink` reads it into
fields the embedding keeps (`Url` and `Dialer` only reach `connectWithSecret`, which is a
parameter of the embedding).  A nil `Secrets` map is the empty map: both read as absent. -/
structure MigrationSinkArgs where
  Storage : Lxd.storage
  Secrets : GoMap String
  Push : Bool

/-- The function `NewStorageMigrationSink` (lines 118-160).  `rand1` and `rand2` are the
outcomes of the two calls of `shared.RandomCryptoString`, which reads the random source
and is no action on a connection or on the storage; the function makes no other call, so
the history it returns is the one it was given. -/
def NewStorageMigrationSink (E : Env) (rand1 rand2 : Except Error String)
    (args : MigrationSinkArgs) (t : Trace) : Trace × Except Error migrationSink :=
  let sink : migrationSink :=
    { src := ⟨"", "", args.Storage⟩, dest := ⟨"", "", args.Storage⟩, push := args.Push }
  if sink.push then
    match rand1 with
    | .error err => (t, .error err)
    | .ok controlSecret =>
      let sink := { sink with dest := { sink.dest with controlSecret := controlSecret } }
      match rand2 with
      | .error err => (t, .error err)
      | .ok fsSecret =>
        let sink := { sink with dest := { sink.dest with fsSecret := fsSecret } }
        (t, .ok sink)
  else
    match args.Secrets "control" with
    | none => (t, .error (E.Errorf "Missing control secret"))
    | some controlSecret =>
      let sink := { sink with src := { sink.src with controlSecret := controlSecret } }
      match args.Secrets "fs" with
      | none => (t, .error (E.Errorf "Missing fs secret"))
      | some fsSecret =>
        let sink := { sink with src := { sink.src with fsSecret := fsSecret } }
        (t, .ok sink)

/-- Arguments for a pull-mode sink on `sampleStorage` with the given secrets. -/
def sampleSinkArgs (ty : MigrationFSType) (secrets : GoMap String) : MigrationSinkArgs where
  Storage := sampleStorage ty
  Secrets := secrets
  Push := false

/-- A snapshot message like `sampleSnapshot` whose own devices are a root disk on the
pool `old` and a network interface. -/
def sampleRootSnapshot (name : String) : Snapshot :=
  { sampleSnapshot name 1 with
    LocalDevices :=
      [⟨"root", [⟨"type", "disk"⟩, ⟨"path", "/"⟩, ⟨"pool", "old"⟩]⟩,
       ⟨"eth0", [⟨"type", "nic"⟩]⟩] }

/-! ## `main_init.go`

The daemon `d` (an `lxd.ContainerServer`) and the functions of other packages are
parameters, collected in `InitEnv`; each call of the daemon is an `InitEvent` carrying the
outcome the daemon gave.  A value of a `map[string]interface{}` is represented by its
`%v` rendering, so that `fmt.Sprintf("%v", v)` is `v`. -/

/-- A Go map that is only read and ranged over, given by its entries; a nil map has
none.  The keys are distinct and `range` visits the entries in list order. -/
abbrev Entries (V : Type) := List (String × V)

/-- The loop `for k, v := range es { m[k] = fmt.Sprintf("%v", v) }` on a map `m`
that is `none` when nil: the result is `none` when a write hits the nil map and panics. -/
def assignAll (m : Option (GoMap String)) (es : Entries String) :
    Option (Option (GoMap String)) :=
  es.foldl
    (fun acc e =>
      match acc with
      | none => none
      | some none => none
      | some (some g) => some (some (g.set e.1 e.2)))
    (some m)

/-- The struct `api.ServerPut`. -/
structure ServerPut where
  Config : Option (GoMap String)

/-- The struct `api.Server`, as far as `ApplyConfig` reads it. -/
structure Server where
  Writable : ServerPut
  Certificate : String

/-- The struct `api.NetworkPut`. -/
structure NetworkPut where
  Description : String
  Config : Option (GoMap String)

/-- The struct `api.NetworksPost`, as far as `ApplyConfig` reads it. -/
structure NetworksPost where
  Name : String
  Description : String
  Config : Entries String

/-- The struct `api.Network`, as far as `ApplyConfig` reads it. -/
structure Network where
  Name : String
  Writable : NetworkPut

/-- The struct `api.StoragePoolPut`. -/
structure StoragePoolPut where
  Description : String
  Config : Option (GoMap String)

/-- The struct `api.StoragePoolsPost`, as far as `ApplyConfig` reads it. -/
structure StoragePoolsPost where
  Name : String
  Driver : String
  Description : String
  Config : Entries String

/-- The struct `api.StoragePool`, as far as `ApplyConfig` reads it. -/
structure StoragePool where
  Name : String
  Driver : String
  Writable : StoragePoolPut

/-- The struct `api.ProfilePut`; a map that is nil is `none`, also an inner one. -/
structure ProfilePut where
  Description : String
  Config : Option (GoMap String)
  Devices : Option (GoMap (Option (GoMap String)))

/-- The struct `api.ProfilesPost`, as far as `ApplyConfig` reads it. -/
structure ProfilesPost where
  Name : String
  Description : String
  Config : Entries String
  Devices : Entries (Entries String)

/-- The struct `api.Profile`, as far as `ApplyConfig` reads it. -/
structure Profile where
  Name : String
  Writable : ProfilePut

/-- The struct `api.ClusterPut`. -/
structure ClusterPut where
  ServerName : String
  Enabled : Bool
  ClusterAddress : String
  ClusterCertificate : String

/-- The struct `initDataCluster`, which embeds `api.ClusterPut`. -/
structure initDataCluster extends ClusterPut where
  ClusterPassword : String

/-- The struct `initData`, which embeds `api.ServerPut`; `Cluster` is a pointer. -/
structure initData where
  Config : Entries String
  Cluster : Option initDataCluster
  Networks : List NetworksPost
  StoragePools : List StoragePoolsPost
  Profiles : List ProfilesPost

/-- The struct `cmdInit`, without `global`. -/
structure cmdInit where
  flagAuto : Bool
  flagPreseed : Bool
  flagNetworkAddress : String
  flagNetworkPort : Int
  flagStorageBackend : String
  flagStorageDevice : String
  flagStorageLoopSize : Int
  flagStoragePool : String
  flagTrustPassword : String

/-- The closures appended to `reverts` in `ApplyConfig`, each by the one call it makes. -/
inductive RevertAction
  /-- the closure `d.UpdateServer(currentServer.Writable(), "")` -/
  | UpdateServer (put : ServerPut)
  /-- the closure `d.DeleteNetwork(network.Name)` -/
  | DeleteNetwork (name : String)
  /-- the closure `d.UpdateNetwork(currentNetwork.Name, currentNetwork.Writable(), "")` -/
  | UpdateNetwork (name : String) (put : NetworkPut)
  /-- the closure `d.DeleteStoragePool(storagePool.Name)` -/
  | DeleteStoragePool (name : String)
  /-- the closure `d.UpdateStoragePool(currentStoragePool.Name, ...Writable(), "")` -/
  | UpdateStoragePool (name : String) (put : StoragePoolPut)
  /-- the closure `d.DeleteProfile(profile.Name)` -/
  | DeleteProfile (name : String)
  /-- the closure `d.UpdateProfile(currentProfile.Name, currentProfile.Writable(), "")` -/
  | UpdateProfile (name : String) (put : ProfilePut)

/-- One observable action of `cmdInit.Run` and `cmdInit.ApplyConfig`. -/
inductive InitEvent
  /-- the call `lxd.ConnectLXDUnix("", nil)` -/
  | ConnectLXDUnix (r : Option Error)
  /-- the call `c.RunPreseed(cmd, args, d)`; a nil `*initData` is `none` -/
  | RunPreseed (r : Except Error (Option initData))
  /-- the call `c.RunAuto(cmd, args, d)` -/
  | RunAuto (r : Except Error (Option initData))
  /-- the call `c.RunInteractive(cmd, args, d)` -/
  | RunInteractive (r : Except Error (Option initData))
  | GetServer (r : Except Error (Server × String))
  | UpdateServer (put : ServerPut) (etag : String) (r : Option Error)
  | GetNetworkNames (r : Except Error (List String))
  | CreateNetwork (network : NetworksPost) (r : Option Error)
  | GetNetwork (name : String) (r : Except Error (Network × String))
  | UpdateNetwork (name : String) (put : NetworkPut) (etag : String) (r : Option Error)
  | GetStoragePoolNames (r : Except Error (List String))
  | CreateStoragePool (pool : StoragePoolsPost) (r : Option Error)
  | GetStoragePool (name : String) (r : Except Error (StoragePool × String))
  | UpdateStoragePool (name : String) (put : StoragePoolPut) (etag : String) (r : Option Error)
  | GetProfileNames (r : Except Error (List String))
  | CreateProfile (profile : ProfilesPost) (r : Option Error)
  | GetProfile (name : String) (r : Except Error (Profile × String))
  | UpdateProfile (name : String) (put : ProfilePut) (etag : String) (r : Option Error)
  | GetCluster (r : Except Error (Bool × String))
  /-- the call `cluster.SetupTrust(cert, targetAddress, targetCert, targetPassword)` -/
  | SetupTrust (cert address targetCert password : String) (r : Option Error)
  | UpdateCluster (put : ClusterPut) (etag : String) (r : Option Error)
  /-- the call `op.Wait()` -/
  | Wait (r : Option Error)
  /-- the statement `reverts = append(reverts, ...)` -/
  | register (a : RevertAction)
  /-- the call `reverts[i]()` in the deferred function, with the outcome of the call the
  closure makes, which the closure drops -/
  | runRevert (a : RevertAction) (r : Option Error)

/-- The history of a run of `lxd init`, oldest action first. -/
abbrev InitTrace := List InitEvent

/-- The daemon and the functions of other packages `main_init.go` uses. -/
structure InitEnv where
  /-- the call `fmt.Errorf(format, args...)` -/
  Errorf : String → List String → Error
  /-- the call `errors.Wrap(err, message)` on a non-nil `err` -/
  Wrap : Error → String → Error
  /-- the call `errors.Wrapf(err, format, arg)` on a non-nil `err` -/
  Wrapf : Error → String → String → Error
  /-- the function `shared.StringInSlice` -/
  StringInSlice : String → List String → Bool
  /-- the call `shared.DeepCopy` on an `api.ServerPut` -/
  DeepCopyServer : ServerPut → Except Error ServerPut
  /-- the call `shared.DeepCopy` on an `api.NetworkPut` -/
  DeepCopyNetwork : NetworkPut → Except Error NetworkPut
  /-- the call `shared.DeepCopy` on an `api.StoragePoolPut` -/
  DeepCopyStoragePool : StoragePoolPut → Except Error StoragePoolPut
  /-- the call `shared.DeepCopy` on an `api.ProfilePut` -/
  DeepCopyProfile : ProfilePut → Except Error ProfilePut
  ConnectLXDUnix : InitTrace → Option Error
  RunPreseed : InitTrace → Except Error (Option initData)
  RunAuto : InitTrace → Except Error (Option initData)
  RunInteractive : InitTrace → Except Error (Option initData)
  GetServer : InitTrace → Except Error (Server × String)
  UpdateServer : InitTrace → ServerPut → String → Option Error
  GetNetworkNames : InitTrace → Except Error (List String)
  CreateNetwork : InitTrace → NetworksPost → Option Error
  DeleteNetwork : InitTrace → String → Option Error
  GetNetwork : InitTrace → String → Except Error (Network × String)
  UpdateNetwork : InitTrace → String → NetworkPut → String → Option Error
  GetStoragePoolNames : InitTrace → Except Error (List String)
  CreateStoragePool : InitTrace → StoragePoolsPost → Option Error
  DeleteStoragePool : InitTrace → String → Option Error
  GetStoragePool : InitTrace → String → Except Error (StoragePool × String)
  UpdateStoragePool : InitTrace → String → StoragePoolPut → String → Option Error
  GetProfileNames : InitTrace → Except Error (List String)
  CreateProfile : InitTrace → ProfilesPost → Option Error
  DeleteProfile : InitTrace → String → Option Error
  GetProfile : InitTrace → String → Except Error (Profile × String)
  UpdateProfile : InitTrace → String → ProfilePut → String → Option Error
  /-- the call `d.GetCluster()`: whether clustering is enabled, and the etag -/
  GetCluster : InitTrace → Except Error (Bool × String)
  SetupTrust : InitTrace → String → String → String → String → Option Error
  UpdateCluster : InitTrace → ClusterPut → String → Option Error
  Wait : InitTrace → Option Error

/-- The local state of `ApplyConfig`: the history so far and the slice `reverts`. -/
structure InitState where
  trace : InitTrace
  reverts : List RevertAction

/-- What a block of `ApplyConfig` leaves: the state, and `some` result when the block
returned from the function. -/
abbrev Flow := InitState × Option Ret

/-- The outcome of the call a revert closure makes. -/
def RevertAction.run (X : InitEnv) (t : InitTrace) : RevertAction → Option Error
  | .UpdateServer put => X.UpdateServer t put ""
  | .DeleteNetwork name => X.DeleteNetwork t name
  | .UpdateNetwork name put => X.UpdateNetwork t name put ""
  | .DeleteStoragePool name => X.DeleteStoragePool t name
  | .UpdateStoragePool name put => X.UpdateStoragePool t name put ""
  | .DeleteProfile name => X.DeleteProfile t name
  | .UpdateProfile name put => X.UpdateProfile t name put ""

/-- The statement `reverts = append(reverts, a)`. -/
def InitState.register (s : InitState) (a : RevertAction) : InitState :=
  ⟨s.trace ++ [InitEvent.register a], s.reverts ++ [a]⟩

/-- Lines 176-204 of `ApplyConfig`: the server configuration. -/
def ApplyConfig_server (X : InitEnv) (config : initData) (s : InitState) : Flow :=
  if config.Config.length > 0 then
    let r := X.GetServer s.trace
    let s1 : InitState := ⟨s.trace ++ [InitEvent.GetServer r], s.reverts⟩
    match r with
    | .error err =>
      (s1, some (Ret.err (X.Wrap err "Failed to retrieve current server configuration")))
    | .ok (currentServer, etag) =>
      let s2 := s1.register (RevertAction.UpdateServer currentServer.Writable)
      match X.DeepCopyServer currentServer.Writable with
      | .error err => (s2, some (Ret.err (X.Wrap err "Failed to copy server configuration")))
      | .ok newServer =>
        match assignAll newServer.Config config.Config with
        | none => (s2, some Ret.panic)
        | some cfg =>
          let newServer : ServerPut := { newServer with Config := cfg }
          let r := X.UpdateServer s2.trace newServer etag
          let s3 : InitState := ⟨s2.trace ++ [InitEvent.UpdateServer newServer etag r], s2.reverts⟩
          match r with
          | some err =>
            (s3, some (Ret.err (X.Wrap err "Failed to update server configuration")))
          | none => (s3, none)
  else (s, none)

/-- The closure `createNetwork` (lines 215-229). -/
def ApplyConfig_createNetwork (X : InitEnv) (network : NetworksPost) (s : InitState) : Flow :=
  let r := X.CreateNetwork s.trace network
  let s1 : InitState := ⟨s.trace ++ [InitEvent.CreateNetwork network r], s.reverts⟩
  match r with
  | some err =>
    (s1, some (Ret.err (X.Wrapf err "Failed to create network \x27%s\x27" network.Name)))
  | none => (s1.register (RevertAction.DeleteNetwork network.Name), none)

/-- The closure `updateNetwork` (lines 232-268). -/
def ApplyConfig_updateNetwork (X : InitEnv) (network : NetworksPost) (s : InitState) : Flow :=
  let r := X.GetNetwork s.trace network.Name
  let s1 : InitState := ⟨s.trace ++ [InitEvent.GetNetwork network.Name r], s.reverts⟩
  match r with
  | .error err =>
    (s1, some (Ret.err
      (X.Wrapf err "Failed to retrieve current network \x27%s\x27" network.Name)))
  | .ok (currentNetwork, etag) =>
    let s2 := s1.register (RevertAction.UpdateNetwork currentNetwork.Name currentNetwork.Writable)
    match X.DeepCopyNetwork currentNetwork.Writable with
    | .error err =>
      (s2, some (Ret.err
        (X.Wrapf err "Failed to copy configuration of network \x27%s\x27" network.Name)))
    | .ok newNetwork =>
      let newNetwork : NetworkPut :=
        if network.Description ≠ "" then { newNetwork with Description := network.Description }
        else newNetwork
      match assignAll newNetwork.Config network.Config with
      | none => (s2, some Ret.panic)
      | some cfg =>
        let newNetwork : NetworkPut := { newNetwork with Config := cfg }
        let r := X.UpdateNetwork s2.trace currentNetwork.Name newNetwork etag
        let s3 : InitState :=
          ⟨s2.trace ++ [InitEvent.UpdateNetwork currentNetwork.Name newNetwork etag r], s2.reverts⟩
        match r with
        | some err =>
          (s3, some (Ret.err (X.Wrapf err "Failed to update network \x27%s\x27" network.Name)))
        | none => (s3, none)

/-- The loop over `config.Networks` (lines 270-287). -/
def ApplyConfig_networkLoop (X : InitEnv) (networkNames : List String) :
    List NetworksPost → InitState → Flow
  | [], s => (s, none)
  | network :: rest, s =>
    if !X.StringInSlice network.Name networkNames then
      match ApplyConfig_createNetwork X network s with
      | (s1, some ret) => (s1, some ret)
      | (s1, none) => ApplyConfig_networkLoop X networkNames rest s1
    else
      match ApplyConfig_updateNetwork X network s with
      | (s1, some ret) => (s1, some ret)
      | (s1, none) => ApplyConfig_networkLoop X networkNames rest s1

/-- Lines 206-288 of `ApplyConfig`: the network configuration. -/
def ApplyConfig_networks (X : InitEnv) (config : initData) (s : InitState) : Flow :=
  if config.Networks.length > 0 then
    let r := X.GetNetworkNames s.trace
    let s1 : InitState := ⟨s.trace ++ [InitEvent.GetNetworkNames r], s.reverts⟩
    match r with
    | .error err => (s1, some (Ret.err (X.Wrap err "Failed to retrieve list of networks")))
    | .ok networkNames => ApplyConfig_networkLoop X networkNames config.Networks s1
  else (s, none)

/-- The closure `createStoragePool` (lines 299-313). -/
def ApplyConfig_createStoragePool (X : InitEnv) (storagePool : StoragePoolsPost)
    (s : InitState) : Flow :=
  let r := X.CreateStoragePool s.trace storagePool
  let s1 : InitState := ⟨s.trace ++ [InitEvent.CreateStoragePool storagePool r], s.reverts⟩
  match r with
  | some err =>
    (s1, some (Ret.err
      (X.Wrapf err "Failed to create storage pool \x27%s\x27" storagePool.Name)))
  | none => (s1.register (RevertAction.DeleteStoragePool storagePool.Name), none)

/-- The closure `updateStoragePool` (lines 316-355). -/
def ApplyConfig_updateStoragePool (X : InitEnv) (storagePool : StoragePoolsPost)
    (s : InitState) : Flow :=
  let r := X.GetStoragePool s.trace storagePool.Name
  let s1 : InitState := ⟨s.trace ++ [InitEvent.GetStoragePool storagePool.Name r], s.reverts⟩
  match r with
  | .error err =>
    (s1, some (Ret.err
      (X.Wrapf err "Failed to retrieve current storage pool \x27%s\x27" storagePool.Name)))
  | .ok (currentStoragePool, etag) =>
    if currentStoragePool.Driver ≠ storagePool.Driver then
      (s1, some (Ret.err
        (X.Errorf "Storage pool \x27%s\x27 is of type \x27%s\x27 instead of \x27%s\x27"
          [currentStoragePool.Name, currentStoragePool.Driver, storagePool.Driver])))
    else
      let s2 := s1.register
        (RevertAction.UpdateStoragePool currentStoragePool.Name currentStoragePool.Writable)
      match X.DeepCopyStoragePool currentStoragePool.Writable with
      | .error err =>
        (s2, some (Ret.err
          (X.Wrapf err "Failed to copy configuration of storage pool \x27%s\x27"
            storagePool.Name)))
      | .ok newStoragePool =>
        let newStoragePool : StoragePoolPut :=
          if storagePool.Description ≠ "" then
            { newStoragePool with Description := storagePool.Description }
          else newStoragePool
        match assignAll newStoragePool.Config storagePool.Config with
        | none => (s2, some Ret.panic)
        | some cfg =>
          let newStoragePool : StoragePoolPut := { newStoragePool with Config := cfg }
          let r := X.UpdateStoragePool s2.trace currentStoragePool.Name newStoragePool etag
          let s3 : InitState :=
            ⟨s2.trace ++
              [InitEvent.UpdateStoragePool currentStoragePool.Name newStoragePool etag r],
             s2.reverts⟩
          match r with
          | some err =>
            (s3, some (Ret.err
              (X.Wrapf err "Failed to update storage pool \x27%s\x27" storagePool.Name)))
          | none => (s3, none)

/-- The loop over `config.StoragePools` (lines 357-374). -/
def ApplyConfig_storagePoolLoop (X : InitEnv) (storagePoolNames : List String) :
    List StoragePoolsPost → InitState → Flow
  | [], s => (s, none)
  | storagePool :: rest, s =>
    if !X.StringInSlice storagePool.Name storagePoolNames then
      match ApplyConfig_createStoragePool X storagePool s with
      | (s1, some ret) => (s1, some ret)
      | (s1, none) => ApplyConfig_storagePoolLoop X storagePoolNames rest s1
    else
      match ApplyConfig_updateStoragePool X storagePool s with
      | (s1, some ret) => (s1, some ret)
      | (s1, none) => ApplyConfig_storagePoolLoop X storagePoolNames rest s1

/-- Lines 290-375 of `ApplyConfig`: the storage configuration. -/
def ApplyConfig_storagePools (X : InitEnv) (config : initData) (s : InitState) : Flow :=
  if config.StoragePools.length > 0 then
    let r := X.GetStoragePoolNames s.trace
    let s1 : InitState := ⟨s.trace ++ [InitEvent.GetStoragePoolNames r], s.reverts⟩
    match r with
    | .error err =>
      (s1, some (Ret.err (X.Wrap err "Failed to retrieve list of storage pools")))
    | .ok storagePoolNames =>
      ApplyConfig_storagePoolLoop X storagePoolNames config.StoragePools s1
  else (s, none)

/-- The map a list of entries stands for. -/
def Entries.toMap (es : Entries String) : GoMap String :=
  es.foldl (fun g e => g.set e.1 e.2) GoMap.empty

/-- The loop over `profile.Devices` in `updateProfile` (lines 420-433) on the map
`newProfile.Devices`: a device the profile does not have is added, the properties of one
it has are overridden.  The result is `none` when a write hits a nil map and panics. -/
def assignDevices (m : Option (GoMap (Option (GoMap String)))) (es : Entries (Entries String)) :
    Option (Option (GoMap (Option (GoMap String)))) :=
  es.foldl
    (fun acc e =>
      match acc with
      | none => none
      | some devices =>
        match devices.bind (fun g => g e.1) with
        | none =>
          match devices with
          | none => none
          | some g => some (some (g.set e.1 (some e.2.toMap)))
        | some inner =>
          match assignAll inner e.2 with
          | none => none
          | some inner1 => some (devices.map fun g => g.set e.1 inner1))
    (some m)

/-- The closure `createProfile` (lines 386-400). -/
def ApplyConfig_createProfile (X : InitEnv) (profile : ProfilesPost) (s : InitState) : Flow :=
  let r := X.CreateProfile s.trace profile
  let s1 : InitState := ⟨s.trace ++ [InitEvent.CreateProfile profile r], s.reverts⟩
  match r with
  | some err =>
    (s1, some (Ret.err (X.Wrapf err "Failed to create profile \x27%s\x27" profile.Name)))
  | none => (s1.register (RevertAction.DeleteProfile profile.Name), none)

/-- The closure `updateProfile` (lines 403-442). -/
def ApplyConfig_updateProfile (X : InitEnv) (profile : ProfilesPost) (s : InitState) : Flow :=
  let r := X.GetProfile s.trace profile.Name
  let s1 : InitState := ⟨s.trace ++ [InitEvent.GetProfile profile.Name r], s.reverts⟩
  match r with
  | .error err =>
    (s1, some (Ret.err
      (X.Wrapf err "Failed to retrieve current profile \x27%s\x27" profile.Name)))
  | .ok (currentProfile, etag) =>
    let s2 := s1.register (RevertAction.UpdateProfile currentProfile.Name currentProfile.Writable)
    match X.DeepCopyProfile currentProfile.Writable with
    | .error err =>
      (s2, some (Ret.err
        (X.Wrapf err "Failed to copy configuration of profile \x27%s\x27" profile.Name)))
    | .ok newProfile =>
      let newProfile : ProfilePut :=
        if profile.Description ≠ "" then { newProfile with Description := profile.Description }
        else newProfile
      match assignAll newProfile.Config profile.Config with
      | none => (s2, some Ret.panic)
      | some cfg =>
        let newProfile : ProfilePut := { newProfile with Config := cfg }
        match assignDevices newProfile.Devices profile.Devices with
        | none => (s2, some Ret.panic)
        | some devices =>
          let newProfile : ProfilePut := { newProfile with Devices := devices }
          let r := X.UpdateProfile s2.trace currentProfile.Name newProfile etag
          let s3 : InitState :=
            ⟨s2.trace ++ [InitEvent.UpdateProfile currentProfile.Name newProfile etag r],
             s2.reverts⟩
          match r with
          | some err =>
            (s3, some (Ret.err (X.Wrapf err "Failed to update profile \x27%s\x27" profile.Name)))
          | none => (s3, none)

/-- The loop over `config.Profiles` (lines 444-461). -/
def ApplyConfig_profileLoop (X : InitEnv) (profileNames : List String) :
    List ProfilesPost → InitState → Flow
  | [], s => (s, none)
  | profile :: rest, s =>
    if !X.StringInSlice profile.Name profileNames then
      match ApplyConfig_createProfile X profile s with
      | (s1, some ret) => (s1, some ret)
      | (s1, none) => ApplyConfig_profileLoop X profileNames rest s1
    else
      match ApplyConfig_updateProfile X profile s with
      | (s1, some ret) => (s1, some ret)
      | (s1, none) => ApplyConfig_profileLoop X profileNames rest s1

/-- Lines 377-462 of `ApplyConfig`: the profile configuration. -/
def ApplyConfig_profiles (X : InitEnv) (config : initData) (s : InitState) : Flow :=
  if config.Profiles.length > 0 then
    let r := X.GetProfileNames s.trace
    let s1 : InitState := ⟨s.trace ++ [InitEvent.GetProfileNames r], s.reverts⟩
    match r with
    | .error err => (s1, some (Ret.err (X.Wrap err "Failed to retrieve list of profiles")))
    | .ok profileNames => ApplyConfig_profileLoop X profileNames config.Profiles s1
  else (s, none)

/-- Lines 488-499 of `ApplyConfig`: `UpdateCluster` and the wait for its operation. -/
def ApplyConfig_configureCluster (X : InitEnv) (cluster : initDataCluster) (etag : String)
    (s : InitState) : Flow :=
  let r := X.UpdateCluster s.trace cluster.toClusterPut etag
  let s1 : InitState :=
    ⟨s.trace ++ [InitEvent.UpdateCluster cluster.toClusterPut etag r], s.reverts⟩
  match r with
  | some err => (s1, some (Ret.err (X.Wrap err "Failed to configure cluster")))
  | none =>
    let r := X.Wait s1.trace
    let s2 : InitState := ⟨s1.trace ++ [InitEvent.Wait r], s1.reverts⟩
    match r with
    | some err => (s2, some (Ret.err (X.Wrap err "Failed to configure cluster")))
    | none => (s2, none)

/-- Lines 464-500 of `ApplyConfig`: the clustering configuration. -/
def ApplyConfig_cluster (X : InitEnv) (config : initData) (s : InitState) : Flow :=
  match config.Cluster with
  | none => (s, none)
  | some cluster =>
    if cluster.Enabled then
      let r := X.GetCluster s.trace
      let s1 : InitState := ⟨s.trace ++ [InitEvent.GetCluster r], s.reverts⟩
      match r with
      | .error err =>
        (s1, some (Ret.err (X.Wrap err "Failed to retrieve current cluster config")))
      | .ok (currentEnabled, etag) =>
        if !currentEnabled then
          if cluster.ClusterAddress ≠ "" && cluster.ClusterPassword ≠ "" then
            let r := X.GetServer s1.trace
            let s2 : InitState := ⟨s1.trace ++ [InitEvent.GetServer r], s1.reverts⟩
            match r with
            | .error err =>
              (s2, some (Ret.err (X.Wrap err "Failed to retrieve server configuration")))
            | .ok (serverConfig, _) =>
              let r := X.SetupTrust s2.trace serverConfig.Certificate cluster.ClusterAddress
                cluster.ClusterCertificate cluster.ClusterPassword
              let s3 : InitState :=
                ⟨s2.trace ++ [InitEvent.SetupTrust serverConfig.Certificate
                  cluster.ClusterAddress cluster.ClusterCertificate cluster.ClusterPassword r],
                 s2.reverts⟩
              match r with
              | some err => (s3, some (Ret.err (X.Wrap err "Failed to setup cluster trust")))
              | none => ApplyConfig_configureCluster X cluster etag s3
          else ApplyConfig_configureCluster X cluster etag s1
        else (s1, none)
    else (s, none)

/-- Lines 176-503 of `ApplyConfig`: the five blocks in turn; the third result is the
variable `revert`, cleared only when the end is reached. -/
def ApplyConfig_body (X : InitEnv) (config : initData) (s : InitState) :
    InitState × Ret × Bool :=
  match ApplyConfig_server X config s with
  | (s1, some ret) => (s1, ret, true)
  | (s1, none) =>
    match ApplyConfig_networks X config s1 with
    | (s2, some ret) => (s2, ret, true)
    | (s2, none) =>
      match ApplyConfig_storagePools X config s2 with
      | (s3, some ret) => (s3, ret, true)
      | (s3, none) =>
        match ApplyConfig_profiles X config s3 with
        | (s4, some ret) => (s4, ret, true)
        | (s4, none) =>
          match ApplyConfig_cluster X config s4 with
          | (s5, some ret) => (s5, ret, true)
          | (s5, none) => (s5, Ret.nil, false)

/-- The loop of the deferred function (lines 171-173) over the closures still to call,
the one registered last first. -/
def ApplyConfig_unwind (X : InitEnv) : List RevertAction → InitTrace → InitTrace
  | [], t => t
  | a :: rest, t => ApplyConfig_unwind X rest (t ++ [InitEvent.runRevert a (a.run X t)])

/-- The method `cmdInit.ApplyConfig` (lines 161-504): the body, then the deferred
function, which runs also when the body panicked. -/
def cmdInit.ApplyConfig (X : InitEnv) (config : initData) (t0 : InitTrace) : InitTrace × Ret :=
  let out := ApplyConfig_body X config ⟨t0, []⟩
  if out.2.2 then (ApplyConfig_unwind X out.1.reverts.reverse out.1.trace, out.2.1)
  else (out.1.trace, out.2.1)

/-- The method `cmdInit.Run` (lines 70-118). -/
def cmdInit.Run (X : InitEnv) (c : cmdInit) (t0 : InitTrace) : InitTrace × Ret :=
  if c.flagAuto && c.flagPreseed then
    (t0, Ret.err (X.Errorf "Can\x27t use --auto and --preseed together" []))
  else if !c.flagAuto && (c.flagNetworkAddress ≠ "" || c.flagNetworkPort ≠ -1 ||
      c.flagStorageBackend ≠ "" || c.flagStorageDevice ≠ "" ||
      c.flagStorageLoopSize ≠ -1 || c.flagStoragePool ≠ "" ||
      c.flagTrustPassword ≠ "") then
    (t0, Ret.err (X.Errorf "Configuration flags require --auto" []))
  else
    let r := X.ConnectLXDUnix t0
    let t1 := t0 ++ [InitEvent.ConnectLXDUnix r]
    match r with
    | some err => (t1, Ret.err (X.Wrap err "Failed to connect to local LXD"))
    | none =>
      let config : Option initData := none
      let pre : InitTrace × Except Error (Option initData) :=
        if c.flagPreseed then
          let r := X.RunPreseed t1
          (t1 ++ [InitEvent.RunPreseed r], r)
        else (t1, .ok config)
      match pre.2 with
      | .error err => (pre.1, Ret.err err)
      | .ok config =>
        let auto : InitTrace × Except Error (Option initData) :=
          if c.flagAuto then
            let r := X.RunAuto pre.1
            (pre.1 ++ [InitEvent.RunAuto r], r)
          else (pre.1, .ok config)
        match auto.2 with
        | .error err => (auto.1, Ret.err err)
        | .ok config =>
          let inter : InitTrace × Except Error (Option initData) :=
            if !c.flagAuto && !c.flagPreseed then
              let r := X.RunInteractive auto.1
              (auto.1 ++ [InitEvent.RunInteractive r], r)
            else (auto.1, .ok config)
          match inter.2 with
          | .error err => (inter.1, Ret.err err)
          | .ok config =>
            match config with
            | none => (inter.1, Ret.panic)
            | some config => cmdInit.ApplyConfig X config inter.1

/-- The revert closures a history registered, in order. -/
def registered (tr : InitTrace) : List RevertAction :=
  tr.filterMap fun
    | .register a => some a
    | _ => none

/-- The revert closures a history called, in order. -/
def executed (tr : InitTrace) : List RevertAction :=
  tr.filterMap fun
    | .runRevert a _ => some a
    | _ => none

/-- A daemon on which every call succeeds and which has no network, storage pool or
profile yet, with clustering disabled. -/
def sampleInitEnv : InitEnv where
  Errorf := fun format _ => format
  Wrap := fun err message => message ++ ": " ++ err
  Wrapf := fun err format arg => format ++ " " ++ arg ++ ": " ++ err
  StringInSlice := fun key list => decide (key ∈ list)
  DeepCopyServer := fun put => .ok put
  DeepCopyNetwork := fun put => .ok put
  DeepCopyStoragePool := fun put => .ok put
  DeepCopyProfile := fun put => .ok put
  ConnectLXDUnix := fun _ => none
  RunPreseed := fun _ => .ok (some ⟨[], none, [], [], []⟩)
  RunAuto := fun _ => .ok (some ⟨[], none, [], [], []⟩)
  RunInteractive := fun _ => .ok (some ⟨[], none, [], [], []⟩)
  GetServer := fun _ => .ok (⟨⟨some GoMap.empty⟩, "certificate"⟩, "etag")
  UpdateServer := fun _ _ _ => none
  GetNetworkNames := fun _ => .ok []
  CreateNetwork := fun _ _ => none
  DeleteNetwork := fun _ _ => none
  GetNetwork := fun _ name => .ok (⟨name, ⟨"", some GoMap.empty⟩⟩, "etag")
  UpdateNetwork := fun _ _ _ _ => none
  GetStoragePoolNames := fun _ => .ok []
  CreateStoragePool := fun _ _ => none
  DeleteStoragePool := fun _ _ => none
  GetStoragePool := fun _ name => .ok (⟨name, "dir", ⟨"", some GoMap.empty⟩⟩, "etag")
  UpdateStoragePool := fun _ _ _ _ => none
  GetProfileNames := fun _ => .ok []
  CreateProfile := fun _ _ => none
  DeleteProfile := fun _ _ => none
  GetProfile := fun _ name => .ok (⟨name, ⟨"", some GoMap.empty, some GoMap.empty⟩⟩, "etag")
  UpdateProfile := fun _ _ _ _ => none
  GetCluster := fun _ => .ok (false, "etag")
  SetupTrust := fun _ _ _ _ _ => none
  UpdateCluster := fun _ _ _ => none
  Wait := fun _ => none

/-- A daemon like `sampleInitEnv` on which no storage pool can be created and every
deletion of a network fails. -/
def sampleFailingInitEnv : InitEnv :=
  { sampleInitEnv with
    CreateStoragePool := fun _ _ => some "no space left"
    DeleteNetwork := fun _ _ => some "network is in use" }

/-- A configuration with two networks and one storage pool. -/
def sampleInitData : initData where
  Config := []
  Cluster := none
  Networks := [⟨"lxdbr0", "", []⟩, ⟨"lxdbr1", "", []⟩]
  StoragePools := [⟨"default", "dir", "", []⟩]
  Profiles := []

/-- The flags of `lxd init` at their defaults (lines 56-64). -/
def sampleFlags : cmdInit where
  flagAuto := false
  flagPreseed := false
  flagNetworkAddress := ""
  flagNetworkPort := -1
  flagStorageBackend := ""
  flagStorageDevice := ""
  flagStorageLoopSize := -1
  flagStoragePool := ""
  flagTrustPassword := ""

/-- The invariant of the body of `ApplyConfig`: the closures in `reverts` are the ones
the history registered, and none was called. -/
def InitState.Clean (s : InitState) : Prop :=
  registered s.trace = s.reverts ∧ executed s.trace = []

/-- A block keeps the invariant and does not return nil from the function. -/
def Flow.Ok (out : Flow) : Prop :=
  out.1.Clean ∧ out.2 ≠ some Ret.nil

/-! ## `lxc/copy.go`

The configuration file `conf`, the two servers and the functions of other packages are
parameters, collected in `CopyEnv`; each call of a server is a `CopyEvent`.  A map that is
ranged over is a list of entries with a `none` for the nil map; what is computed does not
depend on the order `range` visits the entries in, and the list order is taken. -/

/-- The expression `m[k]` with its `ok` on a map given by its entries, `none` when nil. -/
def Entries.get? {V : Type} (m : Option (Entries V)) (k : String) : Option V :=
  m.bind (fun es => (es.find? (fun e => e.1 = k)).map (fun e => e.2))

/-- The statement `delete(m, k)`. -/
def Entries.delete {V : Type} (es : Entries V) (k : String) : Entries V :=
  es.filter (fun e => e.1 ≠ k)

/-- The statement `m[k] = v` on a map that is not nil. -/
def Entries.set {V : Type} (es : Entries V) (k : String) (v : V) : Entries V :=
  (k, v) :: Entries.delete es k

/-- The function `strings.HasPrefix`. -/
def HasPrefix (s pre : String) : Bool :=
  pre.toList.isPrefixOf s.toList

/-- The fields of `api.Container` and of `api.ContainerSnapshot` that `copyContainer`
reads or writes; a nil map is `none`, also the map of one device. -/
structure ContainerEntry where
  Profiles : List String
  Config : Option (Entries String)
  Ephemeral : Bool
  Devices : Option (GoMap (Option (GoMap String)))

/-- The struct `cmdCopy`, as far as `copyContainer` reads it; a nil `flagProfile` is
`none`. -/
structure cmdCopy where
  flagNoProfiles : Bool
  flagProfile : Option (List String)
  flagConfig : List String
  flagTarget : String

/-- A server connection: the remote it was made to and the target `UseTarget` set. -/
structure ServerRef where
  remote : String
  target : String
  deriving DecidableEq, Repr

/-- The struct `lxd.ContainerSnapshotCopyArgs`. -/
structure ContainerSnapshotCopyArgs where
  Name : String
  Mode : String
  Live : Bool
  deriving DecidableEq, Repr

/-- The struct `lxd.ContainerCopyArgs`. -/
structure ContainerCopyArgs where
  Name : String
  Live : Bool
  ContainerOnly : Bool
  Mode : String
  deriving DecidableEq, Repr

/-- One observable action of `copyContainer`. -/
inductive CopyEvent
  /-- the call `conf.GetContainerServer(remote)` -/
  | GetContainerServer (remote : String) (r : Option Error)
  /-- the call `dest.IsClustered()` -/
  | IsClustered (dest : ServerRef) (r : Bool)
  /-- the call `source.GetContainerSnapshot(containerName, name)` -/
  | GetContainerSnapshot (source : ServerRef) (containerName name : String)
      (r : Except Error ContainerEntry)
  /-- the call `source.GetContainer(name)` -/
  | GetContainer (source : ServerRef) (name : String) (r : Except Error ContainerEntry)
  /-- the call `dest.CopyContainerSnapshot(source, *entry, &args)` -/
  | CopyContainerSnapshot (dest source : ServerRef) (entry : ContainerEntry)
      (args : ContainerSnapshotCopyArgs) (r : Option Error)
  /-- the call `dest.CopyContainer(source, *entry, &args)` -/
  | CopyContainer (dest source : ServerRef) (entry : ContainerEntry)
      (args : ContainerCopyArgs) (r : Option Error)
  /-- the call `op.AddHandler(progress.UpdateOp)` -/
  | AddHandler (r : Option Error)
  /-- the call `op.Wait()` -/
  | Wait (r : Option Error)
  /-- the call `progress.Done("")` -/
  | Done
  /-- the call `op.GetTarget()`; on success the value of `opInfo.Resources["containers"]`,
  `none` when the key is absent -/
  | GetTarget (r : Except Error (Option (List String)))
  /-- the call `fmt.Printf(format, name)` -/
  | Printf (format name : String)

/-- The history of a run of `copyContainer`, oldest action first. -/
abbrev CopyTrace := List CopyEvent

/-- The servers and the functions of other packages `copyContainer` uses. -/
structure CopyEnv where
  /-- the method `conf.ParseRemote` -/
  ParseRemote : String → Except Error (String × String)
  /-- the function `i18n.G` -/
  G : String → String
  /-- the call `fmt.Errorf(format, args...)` -/
  Errorf : String → List String → Error
  /-- the function `strings.Contains` -/
  Contains : String → String → Bool
  /-- the function `strings.SplitN` -/
  SplitN : String → String → Nat → List String
  /-- the function `strings.Split` -/
  Split : String → String → List String
  /-- the function `shared.IsSnapshot` -/
  IsSnapshot : String → Bool
  /-- the constant `shared.SnapshotDelimiter` -/
  SnapshotDelimiter : String
  /-- the first result of `shared.GetRootDiskDevice` -/
  GetRootDiskDevice : Option (GoMap (Option (GoMap String))) → String
  GetContainerServer : CopyTrace → String → Option Error
  IsClustered : CopyTrace → ServerRef → Bool
  GetContainerSnapshot : CopyTrace → ServerRef → String → String → Except Error ContainerEntry
  GetContainer : CopyTrace → ServerRef → String → Except Error ContainerEntry
  CopyContainerSnapshot :
    CopyTrace → ServerRef → ServerRef → ContainerEntry → ContainerSnapshotCopyArgs → Option Error
  CopyContainer :
    CopyTrace → ServerRef → ServerRef → ContainerEntry → ContainerCopyArgs → Option Error
  AddHandler : CopyTrace → Option Error
  Wait : CopyTrace → Option Error
  GetTarget : CopyTrace → Except Error (Option (List String))

/-- Lines 108-117 of `copyContainer`: the map `configMap` of the `--config` overrides, or
the error for an entry without `=`; `none` when `fields[1]` is out of range and panics. -/
def copyContainer_configMap (X : CopyEnv) :
    List String → Entries String → Option (Except Error (Entries String))
  | [], configMap => some (.ok configMap)
  | entry :: rest, configMap =>
    if !X.Contains entry "=" then
      some (.error (X.Errorf (X.G "Bad key=value pair: %s") [entry]))
    else
      match X.SplitN entry "=" 2 with
      | key :: value :: _ => copyContainer_configMap X rest (configMap.set key value)
      | _ => none

/-- The loop `for key, value := range configMap` of lines 141-145 and 210-214 on
`entry.Config`: the result is `none` when a write hits the nil map and panics. -/
def copyContainer_override (config : Option (Entries String)) (configMap : Entries String) :
    Option (Option (Entries String)) :=
  configMap.foldl
    (fun acc e =>
      match acc with
      | none => none
      | some none => none
      | some (some es) => some (some (es.set e.1 e.2)))
    (some config)

/-- The loop `for k := range entry.Config` of lines 172-181 and 241-250: every key that
starts with `volatile`, `volatile.base_image` apart, is deleted. -/
def copyContainer_strip (config : Option (Entries String)) : Option (Entries String) :=
  match config with
  | none => none
  | some es =>
    some (es.foldl
      (fun acc e =>
        if e.1 = "volatile.base_image" then acc
        else if HasPrefix e.1 "volatile" then Entries.delete acc e.1
        else acc)
      es)

/-- Lines 160-168 and 229-237 of `copyContainer` on `entry.Devices`: the pool of the root
disk device is set, or a root disk device on the pool is added; `none` when a write hits
a nil map and panics. -/
def copyContainer_pool (X : CopyEnv) (pool : String)
    (devices : Option (GoMap (Option (GoMap String)))) :
    Option (Option (GoMap (Option (GoMap String)))) :=
  let rootDiskDeviceKey := X.GetRootDiskDevice devices
  if rootDiskDeviceKey ≠ "" && pool ≠ "" then
    match devices.bind (fun g => g rootDiskDeviceKey) with
    | some (some props) =>
      some (devices.map fun g => g.set rootDiskDeviceKey (some (props.set "pool" pool)))
    | _ => none
  else if pool ≠ "" then
    match devices with
    | none => none
    | some g =>
      some (some (g.set "root"
        (some (((GoMap.empty.set "type" "disk").set "path" "/").set "pool" pool))))
  else some devices

/-- Lines 132-137 and 201-206 of `copyContainer`: the profiles of the new container. -/
def copyContainer_profiles (c : cmdCopy) (entry : ContainerEntry) : ContainerEntry :=
  match c.flagProfile with
  | some profiles => { entry with Profiles := entry.Profiles ++ profiles }
  | none => if c.flagNoProfiles then { entry with Profiles := [] } else entry

/-- Lines 147-152 and 216-221 of `copyContainer`: the ephemeral status. -/
def copyContainer_ephemeral (ephemeral : Int) (entry : ContainerEntry) : ContainerEntry :=
  if ephemeral = 1 then { entry with Ephemeral := true }
  else if ephemeral = 0 then { entry with Ephemeral := false }
  else entry

/-- Lines 132-182 and 201-251 of `copyContainer`, the same text in both branches: the
changes made to the fetched `entry` before it is copied; `none` when a write hits a nil
map and panics. -/
def copyContainer_prepare (X : CopyEnv) (c : cmdCopy) (configMap : Entries String)
    (keepVolatile : Bool) (ephemeral : Int) (pool : String) (entry : ContainerEntry) :
    Option ContainerEntry :=
  let entry := copyContainer_profiles c entry
  match copyContainer_override entry.Config configMap with
  | none => none
  | some config =>
    let entry : ContainerEntry := { entry with Config := config }
    let entry := copyContainer_ephemeral ephemeral entry
    match copyContainer_pool X pool entry.Devices with
    | none => none
    | some devices =>
      let entry : ContainerEntry := { entry with Devices := devices }
      if !keepVolatile then
        some { entry with Config := copyContainer_strip entry.Config }
      else some entry

/-- Lines 260-295 of `copyContainer`: the wait for the copy and the report of a name the
server chose. -/
def copyContainer_watch (X : CopyEnv) (destResource : String) (t : CopyTrace) :
    CopyTrace × Ret :=
  let r := X.AddHandler t
  let t1 := t ++ [CopyEvent.AddHandler r]
  match r with
  | some err => (t1 ++ [CopyEvent.Done], Ret.err err)
  | none =>
    let r := X.Wait t1
    let t2 := t1 ++ [CopyEvent.Wait r]
    match r with
    | some err => (t2 ++ [CopyEvent.Done], Ret.err err)
    | none =>
      let t3 := t2 ++ [CopyEvent.Done]
      if destResource = "" then
        let r := X.GetTarget t3
        let t4 := t3 ++ [CopyEvent.GetTarget r]
        match r with
        | .error err => (t4, Ret.err err)
        | .ok (some [container]) =>
          match (X.Split container "/").getLast? with
          | none => (t4, Ret.panic)
          | some name =>
            (t4 ++ [CopyEvent.Printf (X.G "Container name is: %s" ++ "\n") name], Ret.nil)
        | .ok _ => (t4, Ret.err (X.Errorf (X.G "Failed to get the new container name") []))
      else (t3, Ret.nil)

/-- Lines 119-258 of `copyContainer`: the fetch of the source entry, its preparation and
the copy call, for a snapshot or for a container. -/
def copyContainer_copy (X : CopyEnv) (c : cmdCopy) (source dest : ServerRef)
    (sourceName destName destResource : String) (configMap : Entries String)
    (keepVolatile : Bool) (ephemeral : Int) (stateful containerOnly : Bool)
    (mode pool : String) (t : CopyTrace) : CopyTrace × Ret :=
  if X.IsSnapshot sourceName then
    let args : ContainerSnapshotCopyArgs := { Name := destName, Mode := mode, Live := stateful }
    match X.SplitN sourceName X.SnapshotDelimiter 2 with
    | containerName :: name :: _ =>
      let r := X.GetContainerSnapshot t source containerName name
      let t1 := t ++ [CopyEvent.GetContainerSnapshot source containerName name r]
      match r with
      | .error err => (t1, Ret.err err)
      | .ok entry =>
        match copyContainer_prepare X c configMap keepVolatile ephemeral pool entry with
        | none => (t1, Ret.panic)
        | some entry =>
          let r := X.CopyContainerSnapshot t1 dest source entry args
          let t2 := t1 ++ [CopyEvent.CopyContainerSnapshot dest source entry args r]
          match r with
          | some err => (t2, Ret.err err)
          | none => copyContainer_watch X destResource t2
    | _ => (t, Ret.panic)
  else
    let args : ContainerCopyArgs :=
      { Name := destName, Live := stateful, ContainerOnly := containerOnly, Mode := mode }
    let r := X.GetContainer t source sourceName
    let t1 := t ++ [CopyEvent.GetContainer source sourceName r]
    match r with
    | .error err => (t1, Ret.err err)
    | .ok entry =>
      match copyContainer_prepare X c configMap keepVolatile ephemeral pool entry with
      | none => (t1, Ret.panic)
      | some entry =>
        let r := X.CopyContainer t1 dest source entry args
        let t2 := t1 ++ [CopyEvent.CopyContainer dest source entry args r]
        match r with
        | some err => (t2, Ret.err err)
        | none => copyContainer_watch X destResource t2

/-- Lines 84-258 of `copyContainer`: the connections, the `--target` check and the
`--config` overrides, then the copy. -/
def copyContainer_connect (X : CopyEnv) (c : cmdCopy) (sourceRemote sourceName destRemote
    destName destResource : String) (keepVolatile : Bool) (ephemeral : Int)
    (stateful containerOnly : Bool) (mode pool : String) (t : CopyTrace) : CopyTrace × Ret :=
  let r := X.GetContainerServer t sourceRemote
  let t1 := t ++ [CopyEvent.GetContainerServer sourceRemote r]
  match r with
  | some err => (t1, Ret.err err)
  | none =>
    let source : ServerRef := ⟨sourceRemote, c.flagTarget⟩
    let connected : CopyTrace × Except Error ServerRef :=
      if sourceRemote = destRemote then (t1, .ok source)
      else
        let r := X.GetContainerServer t1 destRemote
        (t1 ++ [CopyEvent.GetContainerServer destRemote r],
          match r with
          | some err => .error err
          | none => .ok ⟨destRemote, ""⟩)
    match connected with
    | (t2, .error err) => (t2, Ret.err err)
    | (t2, .ok dest) =>
      let clustered : CopyTrace × Bool :=
        if c.flagTarget ≠ "" then
          let r := X.IsClustered t2 dest
          (t2 ++ [CopyEvent.IsClustered dest r], r)
        else (t2, true)
      if c.flagTarget ≠ "" && !clustered.2 then
        (clustered.1, Ret.err (X.Errorf
          (X.G "To use --target, the destination remote must be a cluster") []))
      else
        match copyContainer_configMap X c.flagConfig [] with
        | none => (clustered.1, Ret.panic)
        | some (.error err) => (clustered.1, Ret.err err)
        | some (.ok configMap) =>
          copyContainer_copy X c source dest sourceName destName destResource configMap
            keepVolatile ephemeral stateful containerOnly mode pool clustered.1

/-- The method `cmdCopy.copyContainer` (lines 53-296). -/
def cmdCopy.copyContainer (X : CopyEnv) (c : cmdCopy) (sourceResource destResource : String)
    (keepVolatile : Bool) (ephemeral : Int) (stateful containerOnly : Bool)
    (mode pool : String) (t0 : CopyTrace) : CopyTrace × Ret :=
  match X.ParseRemote sourceResource with
  | .error err => (t0, Ret.err err)
  | .ok (sourceRemote, sourceName) =>
    match X.ParseRemote destResource with
    | .error err => (t0, Ret.err err)
    | .ok (destRemote, destName) =>
      if sourceName = "" then
        (t0, Ret.err (X.Errorf (X.G "You must specify a source container name") []))
      else if destName = "" && c.flagTarget ≠ "" then
        (t0, Ret.err (X.Errorf
          (X.G "You must specify a destination container name when using --target") []))
      else
        let destName := if destName = "" && destResource ≠ "" then sourceName else destName
        copyContainer_connect X c sourceRemote sourceName destRemote destName destResource
          keepVolatile ephemeral stateful containerOnly mode pool t0

/-- The entries a history sent to the destination with `CopyContainer` or
`CopyContainerSnapshot`, in order. -/
def sentEntries (tr : CopyTrace) : List ContainerEntry :=
  tr.filterMap fun
    | .CopyContainer _ _ entry _ _ => some entry
    | .CopyContainerSnapshot _ _ entry _ _ => some entry
    | _ => none

/-- The entries a history fetched from the source with `GetContainer` or
`GetContainerSnapshot`, in order. -/
def fetchedEntries (tr : CopyTrace) : List ContainerEntry :=
  tr.filterMap fun
    | .GetContainer _ _ (.ok entry) => some entry
    | .GetContainerSnapshot _ _ _ (.ok entry) => some entry
    | _ => none

/-- A container entry with two volatile keys next to `volatile.base_image` and a limit. -/
def sampleEntry : ContainerEntry where
  Profiles := ["default"]
  Config := some [("volatile.base_image", "4f0e"), ("volatile.eth0.hwaddr", "00:16:3e:01"),
    ("limits.cpu", "2"), ("volatile.last_state.power", "RUNNING")]
  Ephemeral := false
  Devices := some GoMap.empty

/-- Servers on which every call succeeds, with `sampleEntry` as every container and
snapshot; no name is a snapshot name. -/
def sampleCopyEnv : CopyEnv where
  ParseRemote := fun resource => .ok ("local", resource)
  G := fun message => message
  Errorf := fun format _ => format
  Contains := fun _ _ => true
  SplitN := fun s _ _ => [s, ""]
  Split := fun s _ => [s]
  IsSnapshot := fun _ => false
  SnapshotDelimiter := "/"
  GetRootDiskDevice := fun _ => ""
  GetContainerServer := fun _ _ => none
  IsClustered := fun _ _ => false
  GetContainerSnapshot := fun _ _ _ _ => .ok sampleEntry
  GetContainer := fun _ _ _ => .ok sampleEntry
  CopyContainerSnapshot := fun _ _ _ _ _ => none
  CopyContainer := fun _ _ _ _ _ => none
  AddHandler := fun _ => none
  Wait := fun _ => none
  GetTarget := fun _ => .ok (some ["/1.0/containers/c2"])

/-- The command `lxc copy` without flags. -/
def sampleCopy : cmdCopy where
  flagNoProfiles := false
  flagProfile := none
  flagConfig := []
  flagTarget := ""

/-! ## Further vocabulary: the snapshot loops, the two modes of the sink -/

/-- A snapshot message with one configuration key and one device name sent twice. -/
def sampleRepeatedSnapshot : Snapshot where
  Name := "S1"
  LocalConfig := [⟨"limits.cpu", "1"⟩, ⟨"limits.memory", "1GB"⟩, ⟨"limits.cpu", "2"⟩]
  Profiles := ["default"]
  Ephemeral := false
  LocalDevices := [⟨"eth0", [⟨"type", "nic"⟩]⟩, ⟨"eth0", [⟨"type", "nic"⟩, ⟨"mtu", "9000"⟩]⟩]
  Architecture := 2
  Stateful := true
  CreationDate := 0
  LastUsedDate := 1541289600

/-- The text `fmt.Sprintf(format)` builds when no operand is given, for a format in which
no percent sign is followed by a flag, a digit, a point, a star or a bracket, and `none`
for every other format: a percent sign followed by a percent sign gives one percent
sign, a percent sign that ends the format gives `%!(NOVERB)`, a percent sign followed by
another character `v` gives `%!v(MISSING)`, and every other character is copied. -/
def Sprintf_noOperands : List Char → Option (List Char)
  | [] => some []
  | ch :: rest =>
    if ch = '%' then
      match rest with
      | [] => some "%!(NOVERB)".toList
      | v :: rest1 =>
        if v ∈ "#0+- 123456789.*[".toList then none
        else if v = '%' then (Sprintf_noOperands rest1).map fun text => '%' :: text
        else (Sprintf_noOperands rest1).map fun text =>
          "%!".toList ++ v :: "(MISSING)".toList ++ text
    else (Sprintf_noOperands rest).map fun text => ch :: text

/-- An environment like `sampleFailingPeerEnv` whose `Errorf` builds the text that
`Sprintf_noOperands` gives for the format, and leaves a format for which it gives none
as it is. -/
def sampleFormatEnv (peer : MigrationFSType) (message : String) : Env :=
  { sampleFailingPeerEnv peer message with
    Errorf := fun format =>
      match Sprintf_noOperands format.toList with
      | some text => String.mk text
      | none => format }

/-- The claimed handling of the incoming snapshots on the directory back-end, as a
relation between the snapshots still to handle, the actions taken and the result of the
loop (`none` when every snapshot was handled): for each snapshot an empty snapshot is
created from its metadata, one payload is received into the path of the snapshot just
created, and the idmap shift is invoked, in this order; a step that fails ends the loop
with its error, and so does, with a panic, a metadata write into a nil map. -/
inductive DirSnapshotProtocol (E : Env) (c : container) (conn : Side) (pool : String) :
    List Snapshot → Trace → Option Ret → Prop
  | finished : DirSnapshotProtocol E c conn pool [] [] none
  | nilMap (snap : Snapshot) (rest : List Snapshot) :
    rsyncMigrationSink_rebind E (snapshotProtobufToContainerArgs E c.Name snap) pool = none →
    DirSnapshotProtocol E c conn pool (snap :: rest) [] (some Ret.panic)
  | createFailed (snap : Snapshot) (rest : List Snapshot) (args : ContainerArgs) (err : Error) :
    rsyncMigrationSink_rebind E (snapshotProtobufToContainerArgs E c.Name snap) pool
      = some args →
    DirSnapshotProtocol E c conn pool (snap :: rest)
      [Event.containerCreateEmptySnapshot args (.error err)] (some (Ret.err err))
  | recvFailed (snap : Snapshot) (rest : List Snapshot) (args : ContainerArgs)
      (name path : String) (err : Error) :
    rsyncMigrationSink_rebind E (snapshotProtobufToContainerArgs E c.Name snap) pool
      = some args →
    DirSnapshotProtocol E c conn pool (snap :: rest)
      [Event.containerCreateEmptySnapshot args (.ok (name, path)),
        Event.RsyncRecv (E.AddSlash path) conn name (some err)] (some (Ret.err err))
  | shiftFailed (snap : Snapshot) (rest : List Snapshot) (args : ContainerArgs)
      (name path : String) (err : Error) :
    rsyncMigrationSink_rebind E (snapshotProtobufToContainerArgs E c.Name snap) pool
      = some args →
    DirSnapshotProtocol E c conn pool (snap :: rest)
      [Event.containerCreateEmptySnapshot args (.ok (name, path)),
        Event.RsyncRecv (E.AddSlash path) conn name none,
        Event.ShiftIfNecessary c.Name (some err)] (some (Ret.err err))
  | handled (snap : Snapshot) (rest : List Snapshot) (args : ContainerArgs)
      (name path : String) (ext : Trace) (r : Option Ret) :
    rsyncMigrationSink_rebind E (snapshotProtobufToContainerArgs E c.Name snap) pool
      = some args →
    DirSnapshotProtocol E c conn pool rest ext r →
    DirSnapshotProtocol E c conn pool (snap :: rest)
      (Event.containerCreateEmptySnapshot args (.ok (name, path)) ::
        Event.RsyncRecv (E.AddSlash path) conn name none ::
        Event.ShiftIfNecessary c.Name none :: ext) r

/-- The claimed handling of the incoming snapshots on the other back-ends: for each
snapshot one payload is received onto the container's own path, the idmap shift is
invoked on the container, and the snapshot is created from the container with
`containerCreateAsSnapshot` and the snapshot's metadata, in this order; a step that
fails ends the loop with its error, and so does, with a panic, a metadata write into a
nil map. -/
inductive NativeSnapshotProtocol (E : Env) (c : container) (conn : Side) (pool : String) :
    List Snapshot → Trace → Option Ret → Prop
  | finished : NativeSnapshotProtocol E c conn pool [] [] none
  | nilMap (snap : Snapshot) (rest : List Snapshot) :
    rsyncMigrationSink_rebind E (snapshotProtobufToContainerArgs E c.Name snap) pool = none →
    NativeSnapshotProtocol E c conn pool (snap :: rest) [] (some Ret.panic)
  | recvFailed (snap : Snapshot) (rest : List Snapshot) (args : ContainerArgs) (err : Error) :
    rsyncMigrationSink_rebind E (snapshotProtobufToContainerArgs E c.Name snap) pool
      = some args →
    NativeSnapshotProtocol E c conn pool (snap :: rest)
      [Event.RsyncRecv (E.AddSlash c.Path) conn snap.Name (some err)] (some (Ret.err err))
  | shiftFailed (snap : Snapshot) (rest : List Snapshot) (args : ContainerArgs) (err : Error) :
    rsyncMigrationSink_rebind E (snapshotProtobufToContainerArgs E c.Name snap) pool
      = some args →
    NativeSnapshotProtocol E c conn pool (snap :: rest)
      [Event.RsyncRecv (E.AddSlash c.Path) conn snap.Name none,
        Event.ShiftIfNecessary c.Name (some err)] (some (Ret.err err))
  | createFailed (snap : Snapshot) (rest : List Snapshot) (args : ContainerArgs) (err : Error) :
    rsyncMigrationSink_rebind E (snapshotProtobufToContainerArgs E c.Name snap) pool
      = some args →
    NativeSnapshotProtocol E c conn pool (snap :: rest)
      [Event.RsyncRecv (E.AddSlash c.Path) conn snap.Name none,
        Event.ShiftIfNecessary c.Name none,
        Event.containerCreateAsSnapshot args c.Name (some err)] (some (Ret.err err))
  | handled (snap : Snapshot) (rest : List Snapshot) (args : ContainerArgs)
      (ext : Trace) (r : Option Ret) :
    rsyncMigrationSink_rebind E (snapshotProtobufToContainerArgs E c.Name snap) pool
      = some args →
    NativeSnapshotProtocol E c conn pool rest ext r →
    NativeSnapshotProtocol E c conn pool (snap :: rest)
      (Event.RsyncRecv (E.AddSlash c.Path) conn snap.Name none ::
        Event.ShiftIfNecessary c.Name none ::
        Event.containerCreateAsSnapshot args c.Name none :: ext) r

/-- The same action on the connections of the given side. -/
def Event.onSide (side : Side) : Event → Event
  | .send _ h r => .send side h r
  | .recvHeader _ r => .recvHeader side r
  | .recvControl _ r => .recvControl side r
  | .sendControl _ err => .sendControl side err
  | .disconnect _ => .disconnect side
  | .SendStorageVolume d _ bwlimit => .SendStorageVolume d side bwlimit
  | .StorageMigrationSink _ r => .StorageMigrationSink side r
  | .rsyncStorageMigrationSink _ => .rsyncStorageMigrationSink side
  | .RsyncSend name path _ wrapper bwlimit execPath r =>
    .RsyncSend name path side wrapper bwlimit execPath r
  | .RsyncRecv path _ wrapper r => .RsyncRecv path side wrapper r
  | e => e

/-- Two histories that correspond: the first is `pushPre` followed by some actions, the
second is `pullPre` followed by the same actions on the source-side connections. -/
def Corresponds (pushPre pullPre t1 t2 : Trace) : Prop :=
  ∃ ext, t1 = pushPre ++ ext ∧ t2 = pullPre ++ ext.map (Event.onSide Side.src)

/-- The collaborators of a sink give the same outcomes in push mode and in pull mode: at
corresponding histories, a call on the destination-side connections has the outcome the
same call has on the source-side connections. -/
structure SameOutcomes (E : Env) (c : migrationSink) (pushPre pullPre : Trace) : Prop where
  recv : ∀ t1 t2, Corresponds pushPre pullPre t1 t2 →
    E.recvHeader t1 Side.dest = E.recvHeader t2 Side.src
  send : ∀ t1 t2 h, Corresponds pushPre pullPre t1 t2 →
    E.send t1 Side.dest h = E.send t2 Side.src h
  sink : ∀ t1 t2, Corresponds pushPre pullPre t1 t2 →
    c.src.storage.StorageMigrationSink t1 Side.dest
      = c.src.storage.StorageMigrationSink t2 Side.src
  create : ∀ t1 t2, Corresponds pushPre pullPre t1 t2 →
    c.dest.storage.StoragePoolVolumeCreate t1 = c.dest.storage.StoragePoolVolumeCreate t2
  mount : ∀ t1 t2, Corresponds pushPre pullPre t1 t2 →
    c.dest.storage.StoragePoolVolumeMount t1 = c.dest.storage.StoragePoolVolumeMount t2
  rsync : ∀ t1 t2 path wrapper, Corresponds pushPre pullPre t1 t2 →
    E.RsyncRecv t1 path Side.dest wrapper = E.RsyncRecv t2 path Side.src wrapper

/-! ## Properties -/

theorem rsyncStorageMigrationSink_ext (E : Env) (conn : Side) (st : storage) (t0 : Trace) :
    ∃ ext r, rsyncStorageMigrationSink E conn st t0 = (t0 ++ ext, Ret.ofErr r) ∧
      ∀ e ∈ ext, e.isStorageLevel = true := by
  unfold rsyncStorageMigrationSink
  dsimp only
  cases st.StoragePoolVolumeCreate t0 with
  | some e => exact ⟨_, some e, rfl, by simp [Event.isStorageLevel]⟩
  | none =>
    cases st.StoragePoolVolumeMount (t0 ++ [Event.StoragePoolVolumeCreate none]) with
    | error e =>
      simp only [List.append_assoc]
      exact ⟨_, some e, rfl, by simp [Event.isStorageLevel]⟩
    | ok b =>
      cases b <;> simp only [List.append_assoc, Bool.false_eq_true, if_false, if_true] <;>
        exact ⟨_, _, rfl, by simp [Event.isStorageLevel]⟩

theorem rsync_SendStorageVolume_ext (E : Env) (conn : Side) (bwlimit : String) (st : storage)
    (t0 : Trace) :
    ∃ ext r, rsyncStorageSourceDriver.SendStorageVolume E conn bwlimit st t0
        = (t0 ++ ext, Ret.ofErr r) ∧
      ∀ e ∈ ext, e.isStorageLevel = true := by
  unfold rsyncStorageSourceDriver.SendStorageVolume
  dsimp only
  cases st.StoragePoolVolumeMount t0 with
  | error e => exact ⟨_, some e, rfl, by simp [Event.isStorageLevel]⟩
  | ok b =>
    cases b <;> simp only [List.append_assoc, Bool.false_eq_true, if_false, if_true] <;>
      exact ⟨_, _, rfl, by simp [Event.isStorageLevel]⟩

theorem SendStorageVolume_ext (E : Env) (d : DriverKind) (conn : Side) (bwlimit : String)
    (st : storage) (t0 : Trace) :
    ∃ ext r, MigrationStorageSourceDriver.SendStorageVolume E d conn bwlimit st t0
        = (t0 ++ Event.SendStorageVolume d conn bwlimit :: ext, Ret.ofErr r) ∧
      ∀ e ∈ ext, e.isDriverSend d = true ∧ ∀ d1 c1 b1, e ≠ Event.SendStorageVolume d1 c1 b1 := by
  unfold MigrationStorageSourceDriver.SendStorageVolume
  cases d with
  | backend =>
    simp only [List.append_assoc, List.singleton_append]
    exact ⟨_, _, rfl, by simp [Event.isDriverSend]⟩
  | rsync =>
    obtain ⟨ext, r, hrun, hlevel⟩ := rsync_SendStorageVolume_ext E conn bwlimit st
      (t0 ++ [Event.SendStorageVolume DriverKind.rsync conn bwlimit])
    simp only [hrun, List.append_assoc, List.singleton_append]
    refine ⟨_, _, rfl, ?_⟩
    intro e he
    have := hlevel e he
    cases e <;> simp_all [Event.isDriverSend, Event.isStorageLevel]

theorem sink_exchange_shape (E : Env) (c : migrationSink) (t : Trace) :
    ∃ ext ret ty, c.DoStorage_exchange E t = ⟨t ++ ext, ret, ty⟩ ∧
      SinkExchange c.src.storage.MigrationType c.side ext ret ty := by
  unfold migrationSink.DoStorage_exchange
  dsimp only
  cases E.recvHeader t c.side with
  | error e =>
    simp only [List.append_assoc]
    exact ⟨_, _, _, rfl, SinkExchange.recvFailed e⟩
  | ok header =>
    obtain ⟨fs⟩ := header
    cases fs with
    | none => exact ⟨_, _, _, rfl, SinkExchange.unsetFs⟩
    | some fs =>
      dsimp only
      by_cases hfs : fs = c.src.storage.MigrationType
      · subst hfs
        simp only [ne_eq, not_true_eq_false, decide_False, Bool.false_eq_true, if_false]
        cases E.send (t ++ [Event.recvHeader c.side (.ok ⟨some c.src.storage.MigrationType⟩)])
            c.side ⟨some c.src.storage.MigrationType⟩ with
        | some e =>
          simp only [List.append_assoc]
          refine ⟨_, _, _, rfl, ?_⟩
          have := @SinkExchange.sendFailed c.src.storage.MigrationType c.side
            c.src.storage.MigrationType e
          simpa [negotiatedType] using this
        | none =>
          dsimp only
          cases hr : c.src.storage.StorageMigrationSink
              (t ++ [Event.recvHeader c.side (.ok ⟨some c.src.storage.MigrationType⟩)] ++
                [Event.send c.side ⟨some c.src.storage.MigrationType⟩ none]) c.side with
          | none =>
            simp only [Ret.ofErr, List.append_assoc]
            exact ⟨_, _, _, rfl, SinkExchange.native none⟩
          | some e =>
            simp only [Ret.ofErr, List.append_assoc]
            exact ⟨_, _, _, rfl, SinkExchange.native (some e)⟩
      · simp only [ne_eq, hfs, not_false_eq_true, decide_True, if_true]
        cases E.send (t ++ [Event.recvHeader c.side (.ok ⟨some fs⟩)])
            c.side ⟨some MigrationFSType_RSYNC⟩ with
        | some e =>
          simp only [List.append_assoc]
          refine ⟨_, _, _, rfl, ?_⟩
          have := @SinkExchange.sendFailed c.src.storage.MigrationType c.side fs e
          simpa [negotiatedType, hfs] using this
        | none =>
          dsimp only
          obtain ⟨ext, r, hrun, hlevel⟩ := rsyncStorageMigrationSink_ext E c.side c.dest.storage
            (t ++ [Event.recvHeader c.side (.ok ⟨some fs⟩)] ++
              [Event.send c.side ⟨some MigrationFSType_RSYNC⟩ none] ++
              [Event.rsyncStorageMigrationSink c.side])
          rw [hrun]
          cases r with
          | none =>
            simp only [Ret.ofErr, List.append_assoc]
            exact ⟨_, _, _, rfl, SinkExchange.rsync fs ext none hfs hlevel⟩
          | some e =>
            simp only [Ret.ofErr, List.append_assoc]
            exact ⟨_, _, _, rfl, SinkExchange.rsync fs ext (some e) hfs hlevel⟩

theorem sink_run_shape (E : Env) (c : migrationSink) (t0 : Trace) :
    ∃ ext ret ty, c.DoStorage E t0 = ⟨t0 ++ ext, ret, ty⟩ ∧ SinkRun c ext ret ty := by
  unfold migrationSink.DoStorage
  cases hp : c.push with
  | true =>
    obtain ⟨ext, ret, ty, hrun, hshape⟩ := sink_exchange_shape E c (t0 ++ [Event.allConnected])
    have hside : c.side = Side.dest := by simp [migrationSink.side, hp]
    rw [hside] at hshape
    simp only [if_true, hrun, List.append_assoc]
    exact ⟨_, _, _, rfl, SinkRun.push ext _ _ hp hshape⟩
  | false =>
    simp only [Bool.false_eq_true, if_false]
    have hside : c.side = Side.src := by simp [migrationSink.side, hp]
    cases E.connectWithSecret t0 c.src.controlSecret with
    | some e => exact ⟨_, _, _, rfl, SinkRun.controlFailed e hp⟩
    | none =>
      dsimp only
      cases E.connectWithSecret (t0 ++ [Event.connectWithSecret c.src.controlSecret none])
          c.src.fsSecret with
      | some e =>
        simp only [List.append_assoc]
        exact ⟨_, _, _, rfl, SinkRun.fsFailed e hp⟩
      | none =>
        dsimp only
        obtain ⟨ext, ret, ty, hrun, hshape⟩ := sink_exchange_shape E c
          (t0 ++ [Event.connectWithSecret c.src.controlSecret none] ++
            [Event.connectWithSecret c.src.fsSecret none])
        rw [hside] at hshape
        rw [hrun]
        simp only [List.append_assoc]
        exact ⟨_, _, _, rfl, SinkRun.pull ext _ _ hp hshape⟩

theorem source_body_shape (E : Env) (s : migrationSourceWs) (t1 : Trace) :
    ∃ ext ret ty, s.DoStorage_body E t1 = ⟨t1 ++ ext, ret, ty⟩ ∧ SourceBody E s t1 ext ret ty := by
  unfold migrationSourceWs.DoStorage_body
  dsimp only
  cases E.send t1 Side.src ⟨some s.storage.MigrationType⟩ with
  | some e =>
    simp only [List.append_assoc]
    exact ⟨_, _, _, rfl, SourceBody.sendFailed e⟩
  | none =>
    dsimp only
    cases s.storage.StorageMigrationSource
        (t1 ++ [Event.send Side.src ⟨some s.storage.MigrationType⟩ none]) with
    | some e =>
      simp only [List.append_assoc]
      exact ⟨_, _, _, rfl, SourceBody.driverFailed e⟩
    | none =>
      dsimp only
      cases E.recvHeader (t1 ++ [Event.send Side.src ⟨some s.storage.MigrationType⟩ none] ++
          [Event.StorageMigrationSource none]) Side.src with
      | error e =>
        simp only [List.append_assoc]
        exact ⟨_, _, _, rfl, SourceBody.recvFailed e⟩
      | ok header =>
        obtain ⟨fs⟩ := header
        cases fs with
        | none =>
          simp only [List.append_assoc]
          exact ⟨_, _, _, rfl, SourceBody.unsetFs⟩
        | some fs =>
          dsimp only
          have hd : (if decide (fs ≠ s.storage.MigrationType) = true then DriverKind.rsync
              else DriverKind.backend) = sourceDriver s.storage.MigrationType fs := by
            simp [sourceDriver]
          have hb : (if decide (fs ≠ s.storage.MigrationType) = true then
              migrationSourceWs.rsyncBwlimit s.storage
              else "") = sourceBwlimit s.storage fs := by
            simp [sourceBwlimit]
          have hn : (if decide (fs ≠ s.storage.MigrationType) = true then MigrationFSType_RSYNC
              else s.storage.MigrationType) = negotiatedType s.storage.MigrationType fs := by
            simp [negotiatedType]
          rw [hd, hb, hn]
          obtain ⟨pay, r, hrun, hpay⟩ := SendStorageVolume_ext E
            (sourceDriver s.storage.MigrationType fs) Side.src (sourceBwlimit s.storage fs)
            s.storage (t1 ++ [Event.send Side.src ⟨some s.storage.MigrationType⟩ none] ++
              [Event.StorageMigrationSource none] ++ [Event.recvHeader Side.src (.ok ⟨some fs⟩)])
          have hrun1 := hrun
          simp only [List.append_assoc, List.singleton_append, List.nil_append,
            List.cons_append] at hrun1
          rw [hrun]
          cases r with
          | some e =>
            simp only [Ret.ofErr]
            refine ⟨_, _, _, ?_, SourceBody.payload fs pay _ (some e) _ hrun1 hpay
              (SourceTail.aborted e)⟩
            cases sourceDriver s.storage.MigrationType fs <;>
              simp [MigrationStorageSourceDriver.Cleanup, rsyncStorageSourceDriver.Cleanup]
          | none =>
            simp only [Ret.ofErr]
            cases hc : E.recvControl (t1 ++ [Event.send Side.src ⟨some s.storage.MigrationType⟩ none] ++
              [Event.StorageMigrationSource none] ++ [Event.recvHeader Side.src (.ok ⟨some fs⟩)] ++
              Event.SendStorageVolume (sourceDriver s.storage.MigrationType fs) Side.src
                (sourceBwlimit s.storage fs) :: pay) Side.src with
            | error e =>
              refine ⟨_, _, _, ?_, SourceBody.payload fs pay _ none _ hrun1 hpay
                (SourceTail.controlFailed e)⟩
              simp
            | ok msg =>
              refine ⟨_, _, _, ?_, SourceBody.payload fs pay _ none _ hrun1 hpay
                (SourceTail.control msg)⟩
              simp only [controlResult]
              rcases msg with ⟨_ | _ | _, _ | _⟩ <;> simp

theorem source_run_shape (E : Env) (s : migrationSourceWs) (t0 : Trace) :
    ∃ ext ret ty, s.DoStorage E t0 = ⟨t0 ++ ext, ret, ty⟩ ∧ SourceRun E s t0 ext ret ty := by
  unfold migrationSourceWs.DoStorage
  dsimp only
  cases s.storage.StoragePoolVolumeMount (t0 ++ [Event.allConnected]) with
  | error e =>
    simp only [List.append_assoc]
    exact ⟨_, _, _, rfl, SourceRun.mountFailed e⟩
  | ok b =>
    dsimp only
    obtain ⟨ext, ret, ty, hrun, hshape⟩ := source_body_shape E s
      (t0 ++ [Event.allConnected] ++ [Event.StoragePoolVolumeMount (.ok b)])
    rw [hrun]
    simp only [List.append_assoc, List.singleton_append, List.nil_append, List.cons_append]
      at hshape
    refine ⟨_, _, _, ?_, SourceRun.mounted b ext ret ty hshape⟩
    cases b <;> simp

theorem SinkExchange.selects {m : MigrationFSType} {side : Side} {ext : Trace} {ret : Ret}
    {ty : Option MigrationFSType} (hx : SinkExchange m side ext ret ty) {h : MigrationFSType}
    (hrecv : Event.recvHeader side (.ok ⟨some h⟩) ∈ ext) :
    (h = m →
      (∃ r, Event.send side ⟨some m⟩ r ∈ ext) ∧
      (∀ side1 hd r, Event.send side1 hd r ∈ ext → hd = ⟨some m⟩) ∧
      (∀ conn, Event.rsyncStorageMigrationSink conn ∉ ext) ∧
      ((∃ r, Event.StorageMigrationSink side r ∈ ext) ↔ Event.send side ⟨some m⟩ none ∈ ext)) ∧
    (h ≠ m →
      (∃ r, Event.send side ⟨some MigrationFSType_RSYNC⟩ r ∈ ext) ∧
      (∀ side1 hd r, Event.send side1 hd r ∈ ext → hd = ⟨some MigrationFSType_RSYNC⟩) ∧
      (∀ conn r, Event.StorageMigrationSink conn r ∉ ext) ∧
      (Event.rsyncStorageMigrationSink side ∈ ext ↔
        Event.send side ⟨some MigrationFSType_RSYNC⟩ none ∈ ext)) := by
  cases hx with
  | recvFailed e => simp at hrecv
  | unsetFs => simp at hrecv
  | sendFailed fs e =>
    simp at hrecv
    subst hrecv
    constructor <;> intro hh <;> simp [negotiatedType, hh] <;> intros <;> assumption
  | native r =>
    simp at hrecv
    subst hrecv
    simp
    intros; assumption
  | rsync fs ext r hfs hlevel =>
    have h1 : ∀ s hd r, Event.send s hd r ∉ ext := fun _ _ _ hm => by
      simpa [Event.isStorageLevel] using hlevel _ hm
    have h2 : ∀ s r, Event.StorageMigrationSink s r ∉ ext := fun _ _ hm => by
      simpa [Event.isStorageLevel] using hlevel _ hm
    have h3 : ∀ s r, Event.recvHeader s r ∉ ext := fun _ _ hm => by
      simpa [Event.isStorageLevel] using hlevel _ hm
    simp [h3] at hrecv
    subst hrecv
    simp [h1, h2, hfs]
    intros; assumption

/-- Claim C2: in `migrationSink.DoStorage`, if the received header carries the sink's
own type `m` then every header the sink sends carries `m`, `rsyncStorageMigrationSink`
is never called, and the storage's own `StorageMigrationSink` is called exactly when the
reply was sent successfully; if the received header carries another type then every
header the sink sends carries `RSYNC`, the storage's own sink is never called, and
`rsyncStorageMigrationSink` is called exactly when the reply was sent successfully. -/
theorem sink_selects (E : Env) (c : migrationSink) (h : MigrationFSType)
    (hrecv : Event.recvHeader c.side (.ok ⟨some h⟩) ∈ (c.DoStorage E []).trace) :
    (h = c.src.storage.MigrationType →
      (∃ r, Event.send c.side ⟨some c.src.storage.MigrationType⟩ r ∈ (c.DoStorage E []).trace) ∧
      (∀ side hd r, Event.send side hd r ∈ (c.DoStorage E []).trace →
        hd = ⟨some c.src.storage.MigrationType⟩) ∧
      (∀ conn, Event.rsyncStorageMigrationSink conn ∉ (c.DoStorage E []).trace) ∧
      ((∃ r, Event.StorageMigrationSink c.side r ∈ (c.DoStorage E []).trace) ↔
        Event.send c.side ⟨some c.src.storage.MigrationType⟩ none ∈ (c.DoStorage E []).trace)) ∧
    (h ≠ c.src.storage.MigrationType →
      (∃ r, Event.send c.side ⟨some MigrationFSType_RSYNC⟩ r ∈ (c.DoStorage E []).trace) ∧
      (∀ side hd r, Event.send side hd r ∈ (c.DoStorage E []).trace →
        hd = ⟨some MigrationFSType_RSYNC⟩) ∧
      (∀ conn r, Event.StorageMigrationSink conn r ∉ (c.DoStorage E []).trace) ∧
      (Event.rsyncStorageMigrationSink c.side ∈ (c.DoStorage E []).trace ↔
        Event.send c.side ⟨some MigrationFSType_RSYNC⟩ none ∈ (c.DoStorage E []).trace)) := by
  obtain ⟨ext, ret, ty, hrun, hshape⟩ := sink_run_shape E c []
  rw [hrun] at hrecv ⊢
  simp only [List.nil_append] at hrecv ⊢
  cases hshape with
  | push ext ret ty hp hx =>
    have hside : c.side = Side.dest := by simp [migrationSink.side, hp]
    rw [hside] at hrecv ⊢
    have hrecv1 : Event.recvHeader Side.dest (.ok ⟨some h⟩) ∈ ext := by simpa using hrecv
    simpa using hx.selects hrecv1
  | controlFailed e hp => simp at hrecv
  | fsFailed e hp => simp at hrecv
  | pull ext ret ty hp hx =>
    have hside : c.side = Side.src := by simp [migrationSink.side, hp]
    rw [hside] at hrecv ⊢
    have hrecv1 : Event.recvHeader Side.src (.ok ⟨some h⟩) ∈ ext := by simpa using hrecv
    simpa using hx.selects hrecv1


theorem split_unique {p : Event → Bool} {P Q : Trace} {e0 : Event}
    (hP : ∀ x ∈ P, p x = false) (hQ : ∀ x ∈ Q, p x = false) :
    ∀ {pre post : Trace} {e : Event}, P ++ e0 :: Q = pre ++ e :: post → p e = true →
      pre = P ∧ e = e0 ∧ post = Q := by
  induction P with
  | nil =>
    intro pre post e h he
    cases pre with
    | nil =>
      simp only [List.nil_append, List.cons.injEq] at h
      exact ⟨rfl, h.1.symm, h.2.symm⟩
    | cons x pre1 =>
      simp only [List.nil_append, List.cons_append, List.cons.injEq] at h
      have hmem : e ∈ Q := by rw [h.2]; simp
      have := hQ e hmem
      rw [he] at this
      cases this
  | cons a P1 ih =>
    intro pre post e h he
    cases pre with
    | nil =>
      simp only [List.nil_append, List.cons_append, List.cons.injEq] at h
      have := hP a (by simp)
      rw [h.1, he] at this
      cases this
    | cons x pre1 =>
      simp only [List.cons_append, List.cons.injEq] at h
      obtain ⟨h1, h2, h3⟩ := ih (fun y hy => hP y (by simp [hy])) h.2 he
      exact ⟨by rw [h.1, h1], h2, h3⟩

theorem no_split {p : Event → Bool} {tr : Trace} (h : ∀ x ∈ tr, p x = false)
    {pre post : Trace} {e : Event} (hs : tr = pre ++ e :: post) (he : p e = true) : False := by
  have := h e (by rw [hs]; simp)
  rw [he] at this
  cases this

theorem Event.isOther_iff (e : Event) :
    e.isOther = true ↔ e.isPayload = false ∧ e.isHeaderSend = false ∧ e.isHeaderRecv = false := by
  simp [Event.isOther, and_assoc]

theorem Event.isOther_of_storageLevel {e : Event} (h : e.isStorageLevel = true) :
    e.isOther = true := by
  cases e <;> simp_all [Event.isOther, Event.isStorageLevel, Event.isPayload,
    Event.isHeaderSend, Event.isHeaderRecv]

theorem Event.not_failure_of_isOther {e : Event} (h : e.isOther = true) :
    e.isHeaderFailure = false := by
  cases e <;> simp_all [Event.isOther, Event.isHeaderFailure, Event.isPayload,
    Event.isHeaderSend, Event.isHeaderRecv]

theorem Event.isHeaderSend_of_ok {e : Event} (h : e.isHeaderSendOk = true) :
    e.isHeaderSend = true := by
  cases e <;> simp_all [Event.isHeaderSendOk, Event.isHeaderSend]

theorem Event.isHeaderRecv_of_ok {e : Event} (h : e.isHeaderRecvOk = true) :
    e.isHeaderRecv = true := by
  cases e <;> simp_all [Event.isHeaderRecvOk, Event.isHeaderRecv]

theorem countP_other {Q : Trace} (hQ : ∀ x ∈ Q, x.isOther = true) :
    Q.countP Event.isHeaderSend = 0 ∧ Q.countP Event.isHeaderRecv = 0 ∧
      Q.countP Event.isHeaderSendOk = 0 ∧ Q.countP Event.isHeaderRecvOk = 0 := by
  simp only [List.countP_eq_zero]
  refine ⟨?_, ?_, ?_, ?_⟩ <;> intro x hx <;>
    obtain ⟨-, h2, h3⟩ := (Event.isOther_iff x).1 (hQ x hx)
  · simp [h2]
  · simp [h3]
  · intro h
    rw [Event.isHeaderSend_of_ok h] at h2
    cases h2
  · intro h
    rw [Event.isHeaderRecv_of_ok h] at h3
    cases h3

/-- A history without payload invocation and with at most one header each way. -/
theorem HeaderDiscipline.of_no_payload {tr : Trace} (h : ∀ x ∈ tr, x.isPayload = false)
    (hs : tr.countP Event.isHeaderSend ≤ 1) (hr : tr.countP Event.isHeaderRecv ≤ 1) :
    HeaderDiscipline tr :=
  ⟨fun _ _ _ hsp he => (no_split h hsp he).elim, hs, hr, fun _ => h⟩

/-- A history with one payload invocation, after one successful header each way. -/
theorem HeaderDiscipline.of_payload {P Q : Trace} {e0 : Event}
    (hP : ∀ x ∈ P, x.isPayload = false) (hQ : ∀ x ∈ Q, x.isOther = true)
    (h1 : P.countP Event.isHeaderSend = 1) (h2 : P.countP Event.isHeaderSendOk = 1)
    (h3 : P.countP Event.isHeaderRecv = 1) (h4 : P.countP Event.isHeaderRecvOk = 1)
    (hf : ∀ x ∈ P, x.isHeaderFailure = false)
    (he0 : e0.isHeaderSend = false ∧ e0.isHeaderRecv = false) :
    HeaderDiscipline (P ++ e0 :: Q) := by
  obtain ⟨c1, c2, -, -⟩ := countP_other hQ
  refine ⟨fun pre e post hsp he => ?_, ?_, ?_, ?_⟩
  · obtain ⟨hpre, -, -⟩ := split_unique (p := Event.isPayload) hP
      (fun x hx => ((Event.isOther_iff x).1 (hQ x hx)).1) hsp he
    subst hpre
    exact ⟨h1, h2, h3, h4⟩
  · simp [List.countP_append, List.countP_cons, h1, c1, he0.1]
  · simp [List.countP_append, List.countP_cons, h3, c2, he0.2]
  · rintro ⟨x, hx, hxf⟩
    simp only [List.mem_append, List.mem_cons] at hx
    rcases hx with hx | hx | hx
    · rw [hf x hx] at hxf; cases hxf
    · subst hx
      obtain ⟨g1, g2⟩ := he0
      clear hP hQ hf
      cases x <;> simp_all [Event.isHeaderFailure, Event.isHeaderSend, Event.isHeaderRecv]
    · rw [Event.not_failure_of_isOther (hQ x hx)] at hxf; cases hxf

theorem HeaderDiscipline.cons {tr : Trace} (h : HeaderDiscipline tr) {a : Event}
    (ha : a.isOther = true) : HeaderDiscipline (a :: tr) := by
  obtain ⟨a1, a2, a3⟩ := (Event.isOther_iff a).1 ha
  obtain ⟨h1, h2, h3, h4⟩ := h
  have a4 : a.isHeaderSendOk = false := by
    cases h : a.isHeaderSendOk
    · rfl
    · rw [Event.isHeaderSend_of_ok h] at a2; cases a2
  have a5 : a.isHeaderRecvOk = false := by
    cases h : a.isHeaderRecvOk
    · rfl
    · rw [Event.isHeaderRecv_of_ok h] at a3; cases a3
  refine ⟨fun pre e post hsp he => ?_, ?_, ?_, ?_⟩
  · cases pre with
    | nil =>
      simp only [List.nil_append, List.cons.injEq] at hsp
      rw [hsp.1, he] at a1
      cases a1
    | cons x pre1 =>
      simp only [List.cons_append, List.cons.injEq] at hsp
      obtain ⟨hx, htr⟩ := hsp
      subst hx
      have := h1 pre1 e post htr he
      simpa [List.countP_cons, a2, a3, a4, a5] using this
  · simpa [List.countP_cons, a2] using h2
  · simpa [List.countP_cons, a3] using h3
  · rintro ⟨x, hx, hxf⟩ y hy
    simp only [List.mem_cons] at hx hy
    rcases hx with hx | hx
    · subst hx
      rw [Event.not_failure_of_isOther ha] at hxf; cases hxf
    · rcases hy with hy | hy
      · subst hy; exact a1
      · exact h4 ⟨x, hx, hxf⟩ y hy

theorem HeaderDiscipline.append {tr : Trace} (h : HeaderDiscipline tr) {post0 : Trace}
    (hp : ∀ x ∈ post0, x.isOther = true) : HeaderDiscipline (tr ++ post0) := by
  obtain ⟨c1, c2, -, -⟩ := countP_other hp
  obtain ⟨h1, h2, h3, h4⟩ := h
  have hpp : ∀ x ∈ post0, x.isPayload = false := fun x hx => ((Event.isOther_iff x).1 (hp x hx)).1
  refine ⟨fun pre e post hsp he => ?_, ?_, ?_, ?_⟩
  · rcases List.append_eq_append_iff.1 hsp with ⟨a1, ha1, ha2⟩ | ⟨c1, hc1, hc2⟩
    · exact (no_split hpp ha2 he).elim
    · cases c1 with
      | nil =>
        simp only [List.nil_append] at hc2
        exact (@no_split Event.isPayload post0 hpp [] post e hc2.symm he).elim
      | cons x c2 =>
        simp only [List.cons_append, List.cons.injEq] at hc2
        obtain ⟨hx, -⟩ := hc2
        subst hx
        exact h1 pre e c2 hc1 he
  · simpa [List.countP_append, c1] using h2
  · simpa [List.countP_append, c2] using h3
  · rintro ⟨x, hx, hxf⟩ y hy
    simp only [List.mem_append] at hx hy
    rcases hx with hx | hx
    · rcases hy with hy | hy
      · exact h4 ⟨x, hx, hxf⟩ y hy
      · exact hpp y hy
    · rw [Event.not_failure_of_isOther (hp x hx)] at hxf; cases hxf

/-- Claim C3: in `migrationSourceWs.DoStorage`, if the sink's reply header carries a type
different from the source's own then the volume is sent by
`rsyncStorageSourceDriver.SendStorageVolume` and the back-end driver's
`SendStorageVolume` and `Cleanup` are never invoked; if it carries the source's own type
then the back-end driver performs the send and the rsync driver is not invoked. -/
theorem source_driver_choice (E : Env) (s : migrationSourceWs) (fs : MigrationFSType)
    (hrecv : Event.recvHeader Side.src (.ok ⟨some fs⟩) ∈ (s.DoStorage E []).trace) :
    (fs ≠ s.storage.MigrationType →
      (∃ t bwlimit,
        (rsyncStorageSourceDriver.SendStorageVolume E Side.src bwlimit s.storage
          (t ++ [Event.SendStorageVolume DriverKind.rsync Side.src bwlimit])).1
          <+: (s.DoStorage E []).trace) ∧
      (∀ conn bwlimit,
        Event.SendStorageVolume DriverKind.backend conn bwlimit ∉ (s.DoStorage E []).trace) ∧
      (∀ r, Event.backendSendReturned r ∉ (s.DoStorage E []).trace) ∧
      Event.Cleanup DriverKind.backend ∉ (s.DoStorage E []).trace) ∧
    (fs = s.storage.MigrationType →
      (∃ bwlimit r, [Event.SendStorageVolume DriverKind.backend Side.src bwlimit,
        Event.backendSendReturned r] <:+: (s.DoStorage E []).trace) ∧
      (∀ conn bwlimit,
        Event.SendStorageVolume DriverKind.rsync conn bwlimit ∉ (s.DoStorage E []).trace)) := by
  obtain ⟨ext, ret, ty, hrun, hshape⟩ := source_run_shape E s []
  rw [hrun] at hrecv ⊢
  simp only [List.nil_append] at hrecv ⊢
  cases hshape with
  | mountFailed e => simp at hrecv
  | mounted b ext ret ty hbody =>
    cases hbody with
    | sendFailed e => cases b <;> simp at hrecv
    | driverFailed e => cases b <;> simp at hrecv
    | recvFailed e => cases b <;> simp at hrecv
    | unsetFs => cases b <;> simp at hrecv
    | payload fs1 pay tail r ret hsend hpay htail =>
      have hnr : ∀ side r, Event.recvHeader side r ∉ pay := fun side r hm => by
        have := (hpay _ hm).1
        cases sourceDriver s.storage.MigrationType fs1 <;>
          simp [Event.isDriverSend, Event.isStorageLevel] at this
      have hnt : ∀ side r, Event.recvHeader side r ∉ tail := fun side r hm => by
        cases htail <;> simp at hm
      have hfs : fs = fs1 := by
        cases b <;> simpa [hnr, hnt] using hrecv
      subst hfs
      have hnc : ∀ d, Event.Cleanup d ∉ pay := fun d hm => by
        have := (hpay _ hm).1
        cases sourceDriver s.storage.MigrationType fs <;>
          simp [Event.isDriverSend, Event.isStorageLevel] at this
      have hns : ∀ d c1 b1, Event.SendStorageVolume d c1 b1 ∉ pay := fun d c1 b1 hm =>
        (hpay _ hm).2 d c1 b1 rfl
      have hnst : ∀ d c1 b1, Event.SendStorageVolume d c1 b1 ∉ tail := fun d c1 b1 hm => by
        cases htail <;> simp at hm
      constructor
      · intro hne
        have hd : sourceDriver s.storage.MigrationType fs = DriverKind.rsync := by
          simp [sourceDriver, hne]
        rw [hd] at hsend hpay htail ⊢
        have hnb : ∀ r, Event.backendSendReturned r ∉ pay := fun r hm => by
          simpa [Event.isDriverSend] using (hpay _ hm).1
        have hnbt : ∀ r, Event.backendSendReturned r ∉ tail := fun r hm => by
          cases htail <;> simp at hm
        have hnct : Event.Cleanup DriverKind.backend ∉ tail := fun hm => by
          cases htail <;> simp at hm
        refine ⟨⟨[] ++ [Event.allConnected, Event.StoragePoolVolumeMount (.ok b)] ++
          [Event.send Side.src ⟨some s.storage.MigrationType⟩ none,
            Event.StorageMigrationSource none, Event.recvHeader Side.src (.ok ⟨some fs⟩)],
          sourceBwlimit s.storage fs, ?_⟩, ?_, ?_, ?_⟩
        · unfold MigrationStorageSourceDriver.SendStorageVolume at hsend
          dsimp only at hsend
          rw [hsend]
          refine ⟨tail ++ if b then [Event.StoragePoolVolumeUmount] else [], ?_⟩
          simp
        · intro conn bw
          cases b <;> simp [hns, hnst]
        · intro r
          cases b <;> simp [hnb, hnbt]
        · cases b <;> simp [hnc, hnct]
      · intro heq
        have hd : sourceDriver s.storage.MigrationType fs = DriverKind.backend := by
          simp [sourceDriver, heq]
        rw [hd] at hsend hpay htail ⊢
        unfold MigrationStorageSourceDriver.SendStorageVolume at hsend
        simp only [List.append_assoc, List.singleton_append, List.nil_append,
          List.cons_append, Prod.mk.injEq, List.cons.injEq, true_and, and_true] at hsend
        generalize s.storage.backendSendStorageVolume _ _ _ = r0 at hsend
        obtain ⟨hp, -⟩ := hsend
        subst hp
        refine ⟨⟨sourceBwlimit s.storage fs, r0, ?_⟩, ?_⟩
        · refine ⟨[Event.allConnected, Event.StoragePoolVolumeMount (.ok b),
            Event.send Side.src ⟨some s.storage.MigrationType⟩ none,
            Event.StorageMigrationSource none, Event.recvHeader Side.src (.ok ⟨some fs⟩)],
            tail ++ if b then [Event.StoragePoolVolumeUmount] else [], ?_⟩
          simp
        · intro conn bw
          cases b <;> simp [hnst]

theorem SinkExchange.headers {m : MigrationFSType} {side : Side} {ext : Trace} {ret : Ret}
    {ty : Option MigrationFSType} (hx : SinkExchange m side ext ret ty) :
    HeaderDiscipline ext := by
  cases hx with
  | recvFailed e =>
    apply HeaderDiscipline.of_no_payload <;>
      simp [Event.isPayload, Event.isHeaderSend, Event.isHeaderRecv]
  | unsetFs =>
    apply HeaderDiscipline.of_no_payload <;>
      simp [Event.isPayload, Event.isHeaderSend, Event.isHeaderRecv]
  | sendFailed fs e =>
    apply HeaderDiscipline.of_no_payload <;>
      simp [Event.isPayload, Event.isHeaderSend, Event.isHeaderRecv]
  | native r =>
    apply HeaderDiscipline.of_payload
      (P := [Event.recvHeader side (.ok ⟨some m⟩), Event.send side ⟨some m⟩ none]) <;>
      simp [Event.isPayload, Event.isHeaderSend, Event.isHeaderRecv, Event.isOther,
        Event.isHeaderSendOk, Event.isHeaderRecvOk, Event.isHeaderFailure]
  | rsync fs ext r hfs hlevel =>
    apply HeaderDiscipline.of_payload
      (P := [Event.recvHeader side (.ok ⟨some fs⟩),
        Event.send side ⟨some MigrationFSType_RSYNC⟩ none])
    · simp [Event.isPayload]
    · intro x hx
      simp only [List.mem_append, List.mem_singleton] at hx
      rcases hx with hx | hx
      · exact Event.isOther_of_storageLevel (hlevel x hx)
      · subst hx; simp [Event.isOther, Event.isPayload, Event.isHeaderSend, Event.isHeaderRecv]
    all_goals simp [Event.isPayload, Event.isHeaderSend, Event.isHeaderRecv, Event.isOther,
        Event.isHeaderSendOk, Event.isHeaderRecvOk, Event.isHeaderFailure]

theorem SinkRun.sinkHeaders {c : migrationSink} {ext : Trace} {ret : Ret}
    {ty : Option MigrationFSType} (hx : SinkRun c ext ret ty) : HeaderDiscipline ext := by
  cases hx with
  | push ext ret ty hp hx =>
    exact (hx.headers.append (by simp [Event.isOther, Event.isPayload, Event.isHeaderSend,
      Event.isHeaderRecv])).cons (by simp [Event.isOther, Event.isPayload, Event.isHeaderSend,
      Event.isHeaderRecv])
  | controlFailed e hp =>
    apply HeaderDiscipline.of_no_payload <;>
      simp [Event.isPayload, Event.isHeaderSend, Event.isHeaderRecv]
  | fsFailed e hp =>
    apply HeaderDiscipline.of_no_payload <;>
      simp [Event.isPayload, Event.isHeaderSend, Event.isHeaderRecv]
  | pull ext ret ty hp hx =>
    exact ((hx.headers.append (by simp [Event.isOther, Event.isPayload, Event.isHeaderSend,
      Event.isHeaderRecv])).cons (by simp [Event.isOther, Event.isPayload, Event.isHeaderSend,
      Event.isHeaderRecv])).cons (by simp [Event.isOther, Event.isPayload, Event.isHeaderSend,
      Event.isHeaderRecv])

theorem SourceTail.other {E : Env} {d : DriverKind} {r : Option Error} {tail : Trace}
    {ret : Ret} (h : SourceTail E d r tail ret) : ∀ x ∈ tail, x.isOther = true := by
  cases h <;> simp [Event.isOther, Event.isPayload, Event.isHeaderSend, Event.isHeaderRecv]

theorem Event.isOther_of_driverSend {d : DriverKind} {e : Event}
    (h : e.isDriverSend d = true) (hn : ∀ d1 c1 b1, e ≠ Event.SendStorageVolume d1 c1 b1) :
    e.isOther = true := by
  cases e <;> simp_all [Event.isDriverSend, Event.isOther, Event.isStorageLevel,
    Event.isPayload, Event.isHeaderSend, Event.isHeaderRecv]

theorem SourceBody.bodyHeaders {E : Env} {s : migrationSourceWs} {t1 ext : Trace} {ret : Ret}
    {ty : Option MigrationFSType} (hx : SourceBody E s t1 ext ret ty) :
    HeaderDiscipline ext := by
  cases hx with
  | sendFailed e =>
    apply HeaderDiscipline.of_no_payload <;>
      simp [Event.isPayload, Event.isHeaderSend, Event.isHeaderRecv]
  | driverFailed e =>
    apply HeaderDiscipline.of_no_payload <;>
      simp [Event.isPayload, Event.isHeaderSend, Event.isHeaderRecv]
  | recvFailed e =>
    apply HeaderDiscipline.of_no_payload <;>
      simp [Event.isPayload, Event.isHeaderSend, Event.isHeaderRecv]
  | unsetFs =>
    apply HeaderDiscipline.of_no_payload <;>
      simp [Event.isPayload, Event.isHeaderSend, Event.isHeaderRecv]
  | payload fs pay tail r ret hsend hpay htail =>
    apply HeaderDiscipline.of_payload
      (P := [Event.send Side.src ⟨some s.storage.MigrationType⟩ none,
        Event.StorageMigrationSource none, Event.recvHeader Side.src (.ok ⟨some fs⟩)])
    · simp [Event.isPayload]
    · intro x hx
      simp only [List.mem_append] at hx
      rcases hx with hx | hx
      · exact Event.isOther_of_driverSend (hpay x hx).1 (hpay x hx).2
      · exact htail.other x hx
    all_goals simp [Event.isPayload, Event.isHeaderSend, Event.isHeaderRecv, Event.isOther,
        Event.isHeaderSendOk, Event.isHeaderRecvOk, Event.isHeaderFailure]

theorem SourceRun.sourceHeaders {E : Env} {s : migrationSourceWs} {t0 ext : Trace} {ret : Ret}
    {ty : Option MigrationFSType} (hx : SourceRun E s t0 ext ret ty) :
    HeaderDiscipline ext := by
  cases hx with
  | mountFailed e =>
    apply HeaderDiscipline.of_no_payload <;>
      simp [Event.isPayload, Event.isHeaderSend, Event.isHeaderRecv]
  | mounted b ext ret ty hbody =>
    refine ((hbody.bodyHeaders.append ?_).cons ?_).cons ?_
    · cases b <;> simp [Event.isOther, Event.isPayload, Event.isHeaderSend, Event.isHeaderRecv]
    · simp [Event.isOther, Event.isPayload, Event.isHeaderSend, Event.isHeaderRecv]
    · simp [Event.isOther, Event.isPayload, Event.isHeaderSend, Event.isHeaderRecv]

/-- Claim C4: in every run of `migrationSourceWs.DoStorage` and of
`migrationSink.DoStorage` the payload transfer is invoked only after exactly one header
was sent, successfully, and exactly one header was received, successfully; a run sends
and receives at most one header; and a run in which the header send or the header
receive failed invokes no payload transfer. -/
theorem payload_only_after_headers (E : Env) :
    (∀ s : migrationSourceWs, HeaderDiscipline (s.DoStorage E []).trace) ∧
    (∀ c : migrationSink, HeaderDiscipline (c.DoStorage E []).trace) := by
  constructor
  · intro s
    obtain ⟨ext, ret, ty, hrun, hshape⟩ := source_run_shape E s []
    rw [hrun]
    exact hshape.sourceHeaders
  · intro c
    obtain ⟨ext, ret, ty, hrun, hshape⟩ := sink_run_shape E c []
    rw [hrun]
    exact hshape.sinkHeaders

theorem SourceRun.sends {E : Env} {s : migrationSourceWs} {t0 ext : Trace} {ret : Ret}
    {ty : Option MigrationFSType} (hx : SourceRun E s t0 ext ret ty) :
    ∀ side h r, Event.send side h r ∈ ext → h = ⟨some s.storage.MigrationType⟩ := by
  intro side h r hm
  cases hx with
  | mountFailed e => simp at hm
  | mounted b ext ret ty hbody =>
    cases hbody with
    | sendFailed e => cases b <;> simp at hm <;> exact hm.2.1
    | driverFailed e => cases b <;> simp at hm <;> exact hm.2.1
    | recvFailed e => cases b <;> simp at hm <;> exact hm.2.1
    | unsetFs => cases b <;> simp at hm <;> exact hm.2.1
    | payload fs pay tail r ret hsend hpay htail =>
      have h1 : ∀ side h r, Event.send side h r ∉ pay := fun side h r hmem => by
        have := Event.isOther_of_driverSend (hpay _ hmem).1 (hpay _ hmem).2
        simp [Event.isOther, Event.isHeaderSend] at this
      have h2 : ∀ side h r, Event.send side h r ∉ tail := fun side h r hmem => by
        have := htail.other _ hmem
        simp [Event.isOther, Event.isHeaderSend] at this
      cases b <;> simp [h1, h2] at hm <;> exact hm.2.1

theorem SourceRun.proceeds {E : Env} {s : migrationSourceWs} {t0 ext : Trace} {ret : Ret}
    {x : MigrationFSType} (hx : SourceRun E s t0 ext ret (some x)) :
    ∃ fs, Event.recvHeader Side.src (.ok ⟨some fs⟩) ∈ ext ∧
      x = negotiatedType s.storage.MigrationType fs := by
  cases hx with
  | mounted b ext ret ty hbody =>
    cases hbody with
    | payload fs pay tail r ret hsend hpay htail => exact ⟨fs, by simp, rfl⟩

theorem SinkExchange.exchangeProceeds {m : MigrationFSType} {side : Side} {ext : Trace} {ret : Ret}
    {y : MigrationFSType} (hx : SinkExchange m side ext ret (some y)) :
    (∃ g, Event.recvHeader side (.ok ⟨some g⟩) ∈ ext ∧ y = negotiatedType m g) ∧
      ∀ side1 h r, Event.send side1 h r ∈ ext → h = ⟨some y⟩ := by
  cases hx with
  | native r =>
    refine ⟨⟨m, by simp, by simp [negotiatedType]⟩, ?_⟩
    intro side1 h r hm
    simp at hm
    exact hm.2.1
  | rsync fs ext r hfs hlevel =>
    refine ⟨⟨fs, by simp, by simp [negotiatedType, hfs]⟩, ?_⟩
    have h1 : ∀ s hd r, Event.send s hd r ∉ ext := fun _ _ _ hm => by
      simpa [Event.isStorageLevel] using hlevel _ hm
    intro side1 h r hm
    simp [h1] at hm
    exact hm.2.1

theorem SinkRun.sinkProceeds {c : migrationSink} {ext : Trace} {ret : Ret}
    {y : MigrationFSType} (hx : SinkRun c ext ret (some y)) :
    (∃ g, Event.recvHeader c.side (.ok ⟨some g⟩) ∈ ext ∧
        y = negotiatedType c.src.storage.MigrationType g) ∧
      ∀ side1 h r, Event.send side1 h r ∈ ext → h = ⟨some y⟩ := by
  cases hx with
  | push ext ret ty hp hx =>
    have hside : c.side = Side.dest := by simp [migrationSink.side, hp]
    rw [hside]
    obtain ⟨⟨g, hg, hy⟩, hs⟩ := hx.exchangeProceeds
    refine ⟨⟨g, by simp [hg], hy⟩, ?_⟩
    intro side1 h r hm
    exact hs side1 h r (by simpa using hm)
  | pull ext ret ty hp hx =>
    have hside : c.side = Side.src := by simp [migrationSink.side, hp]
    rw [hside]
    obtain ⟨⟨g, hg, hy⟩, hs⟩ := hx.exchangeProceeds
    refine ⟨⟨g, by simp [hg], hy⟩, ?_⟩
    intro side1 h r hm
    exact hs side1 h r (by simpa using hm)

/-- Claim C1: when a source of type `a` and a sink of type `b` negotiate against each
other (every header one end receives is a header the other end sent) and both reach the
payload transfer, the type the source proceeds with equals the type the sink proceeds
with; it is `a` when `a = b` and `RSYNC` otherwise. -/
theorem negotiation_agrees (Es Ek : Env) (s : migrationSourceWs) (c : migrationSink)
    (x y : MigrationFSType)
    (hk : ∀ h, Event.recvHeader c.side (.ok h) ∈ (c.DoStorage Ek []).trace →
      ∃ r, Event.send Side.src h r ∈ (s.DoStorage Es []).trace)
    (hs : ∀ h, Event.recvHeader Side.src (.ok h) ∈ (s.DoStorage Es []).trace →
      ∃ r, Event.send c.side h r ∈ (c.DoStorage Ek []).trace)
    (hx : (s.DoStorage Es []).fsType = some x) (hy : (c.DoStorage Ek []).fsType = some y) :
    x = y ∧
    x = (if s.storage.MigrationType = c.src.storage.MigrationType then s.storage.MigrationType
      else MigrationFSType_RSYNC) := by
  obtain ⟨exts, rets, tys, hruns, hshapes⟩ := source_run_shape Es s []
  obtain ⟨extk, retk, tyk, hrunk, hshapek⟩ := sink_run_shape Ek c []
  rw [hruns] at hk hs hx
  rw [hrunk] at hk hs hy
  simp only [List.nil_append] at hk hs hx hy
  subst hx hy
  obtain ⟨fs, hfs, hxe⟩ := hshapes.proceeds
  obtain ⟨⟨g, hg, hye⟩, hsends⟩ := hshapek.sinkProceeds
  obtain ⟨r1, hr1⟩ := hs _ hfs
  obtain ⟨r2, hr2⟩ := hk _ hg
  have e1 := hsends _ _ _ hr1
  have e2 := hshapes.sends _ _ _ hr2
  simp only [MigrationHeader.mk.injEq, Option.some.injEq] at e1 e2
  subst e1 e2
  rw [hxe, hye]
  unfold negotiatedType
  by_cases hab : s.storage.MigrationType = c.src.storage.MigrationType
  · simp [hab]
  · by_cases hr : MigrationFSType_RSYNC = s.storage.MigrationType
    · simp [hab, hr]
    · simp [hab, hr]

theorem sampleSink_trace :
    ((sampleSink MigrationFSType_ZFS false).DoStorage (sampleEnv MigrationFSType_BTRFS) []).trace
    = [Event.connectWithSecret "control-secret" none, Event.connectWithSecret "fs-secret" none,
       Event.recvHeader Side.src (.ok ⟨some MigrationFSType_BTRFS⟩),
       Event.send Side.src ⟨some MigrationFSType_RSYNC⟩ none,
       Event.rsyncStorageMigrationSink Side.src,
       Event.StoragePoolVolumeCreate none, Event.StoragePoolVolumeMount (.ok true),
       Event.RsyncRecv "/var/lib/lxd/storage-pools/default/custom/vol1/" Side.src "vol1" none,
       Event.StoragePoolVolumeUmount, Event.sendControl Side.src none,
       Event.disconnect Side.src] := by
  rfl

theorem sampleSource_trace :
    ((sampleSource MigrationFSType_BTRFS).DoStorage (sampleEnv MigrationFSType_RSYNC) []).trace
    = [Event.allConnected, Event.StoragePoolVolumeMount (.ok true),
       Event.send Side.src ⟨some MigrationFSType_BTRFS⟩ none,
       Event.StorageMigrationSource none,
       Event.recvHeader Side.src (.ok ⟨some MigrationFSType_RSYNC⟩),
       Event.SendStorageVolume DriverKind.rsync Side.src "",
       Event.StoragePoolVolumeMount (.ok true),
       Event.RsyncSend "vol1" "/var/lib/lxd/storage-pools/default/custom/vol1/" Side.src
         (some "vol1") "" "/usr/bin/lxd" none,
       Event.StoragePoolVolumeUmount,
       Event.recvControl Side.src (.ok ⟨some true, none⟩),
       Event.StoragePoolVolumeUmount] := by
  rfl


/-- Claim C2 holds on the sample environment. -/
theorem sink_selects_witness :
    Event.recvHeader Side.src (.ok ⟨some MigrationFSType_BTRFS⟩) ∈
        ((sampleSink MigrationFSType_ZFS false).DoStorage
          (sampleEnv MigrationFSType_BTRFS) []).trace ∧
      Event.rsyncStorageMigrationSink Side.src ∈
        ((sampleSink MigrationFSType_ZFS false).DoStorage
          (sampleEnv MigrationFSType_BTRFS) []).trace :=
  have h : Event.recvHeader (sampleSink MigrationFSType_ZFS false).side
      (.ok ⟨some MigrationFSType_BTRFS⟩) ∈
      ((sampleSink MigrationFSType_ZFS false).DoStorage
        (sampleEnv MigrationFSType_BTRFS) []).trace := by
    rw [sampleSink_trace]; simp [migrationSink.side, sampleSink]
  ⟨h, ((sink_selects (sampleEnv MigrationFSType_BTRFS) (sampleSink MigrationFSType_ZFS false)
      MigrationFSType_BTRFS h).2 (by decide)).2.2.2.mpr
      (by rw [sampleSink_trace]; simp [migrationSink.side, sampleSink])⟩

/-- Claim C3 holds on the sample environment. -/
theorem source_driver_choice_witness :
    Event.recvHeader Side.src (.ok ⟨some MigrationFSType_RSYNC⟩) ∈
        ((sampleSource MigrationFSType_BTRFS).DoStorage
          (sampleEnv MigrationFSType_RSYNC) []).trace ∧
      Event.Cleanup DriverKind.backend ∉
        ((sampleSource MigrationFSType_BTRFS).DoStorage
          (sampleEnv MigrationFSType_RSYNC) []).trace :=
  have h : Event.recvHeader Side.src (.ok ⟨some MigrationFSType_RSYNC⟩) ∈
      ((sampleSource MigrationFSType_BTRFS).DoStorage
        (sampleEnv MigrationFSType_RSYNC) []).trace := by
    rw [sampleSource_trace]; simp
  ⟨h, ((source_driver_choice (sampleEnv MigrationFSType_RSYNC)
      (sampleSource MigrationFSType_BTRFS) MigrationFSType_RSYNC h).1 (by decide)).2.2.2⟩

/-- Claim C1 holds on the sample environment. -/
theorem negotiation_agrees_witness :
    ((sampleSource MigrationFSType_BTRFS).DoStorage (sampleEnv MigrationFSType_RSYNC) []).fsType
        = some MigrationFSType_RSYNC ∧
      ((sampleSink MigrationFSType_ZFS false).DoStorage
        (sampleEnv MigrationFSType_BTRFS) []).fsType = some MigrationFSType_RSYNC ∧
      MigrationFSType_RSYNC = MigrationFSType_RSYNC :=
  ⟨rfl, rfl,
    (negotiation_agrees (sampleEnv MigrationFSType_RSYNC) (sampleEnv MigrationFSType_BTRFS)
      (sampleSource MigrationFSType_BTRFS) (sampleSink MigrationFSType_ZFS false)
      MigrationFSType_RSYNC MigrationFSType_RSYNC
      (by
        intro h hm
        rw [sampleSink_trace] at hm
        rw [sampleSource_trace]
        simp [migrationSink.side, sampleSink] at hm
        subst hm
        exact ⟨none, by simp⟩)
      (by
        intro h hm
        rw [sampleSource_trace] at hm
        rw [sampleSink_trace]
        simp at hm
        subst hm
        exact ⟨none, by simp [migrationSink.side, sampleSink]⟩)
      rfl rfl).1⟩

theorem rebind_eq_args {E : Env} {c : container} {pathOf : String → String}
    (h : SinkSucceeds E c pathOf) (snap : Snapshot) :
    rsyncMigrationSink_rebind E (snapshotProtobufToContainerArgs E c.Name snap)
      (rsyncMigrationSink_parentPool E c) = some (rsyncMigrationSink_args E c snap) := by
  have hsome : (rsyncMigrationSink_rebind E (snapshotProtobufToContainerArgs E c.Name snap)
      (rsyncMigrationSink_parentPool E c)).isSome = true := by
    unfold rsyncMigrationSink_rebind
    dsimp only
    split
    · rename_i hk
      have := h.rootKey _ hk
      cases hd : (snapshotProtobufToContainerArgs E c.Name snap).Devices
          (E.GetRootDiskDevice (snapshotProtobufToContainerArgs E c.Name snap).Devices).1 with
      | none => rw [hd] at this; cases this
      | some props => rfl
    · rfl
  unfold rsyncMigrationSink_args
  cases hr : rsyncMigrationSink_rebind E (snapshotProtobufToContainerArgs E c.Name snap)
      (rsyncMigrationSink_parentPool E c) with
  | none => rw [hr] at hsome; cases hsome
  | some a => rfl

theorem rebind_name (E : Env) (args : ContainerArgs) (pool : String) (a : ContainerArgs)
    (h : rsyncMigrationSink_rebind E args pool = some a) :
    a.Name = args.Name ∧ a.CreationDate = args.CreationDate := by
  unfold rsyncMigrationSink_rebind at h
  dsimp only at h
  split at h
  · split at h
    · cases h
    · simp only [Option.some.injEq] at h
      subst h
      exact ⟨rfl, rfl⟩
  · simp only [Option.some.injEq] at h
    subst h
    exact ⟨rfl, rfl⟩

theorem args_name (E : Env) (c : container) (snap : Snapshot) :
    (rsyncMigrationSink_args E c snap).Name = c.Name ++ E.SnapshotDelimiter ++ snap.Name ∧
    (rsyncMigrationSink_args E c snap).CreationDate.sentSeconds = snap.CreationDate := by
  have key : (rsyncMigrationSink_args E c snap).Name
        = (snapshotProtobufToContainerArgs E c.Name snap).Name ∧
      (rsyncMigrationSink_args E c snap).CreationDate
        = (snapshotProtobufToContainerArgs E c.Name snap).CreationDate := by
    unfold rsyncMigrationSink_args
    cases hr : rsyncMigrationSink_rebind E (snapshotProtobufToContainerArgs E c.Name snap)
        (rsyncMigrationSink_parentPool E c) with
    | none => exact ⟨rfl, rfl⟩
    | some a => exact rebind_name E _ _ a hr
  rw [key.1, key.2]
  refine ⟨rfl, ?_⟩
  simp only [snapshotProtobufToContainerArgs]
  by_cases h0 : snap.CreationDate = 0
  · simp [h0, Time.sentSeconds]
  · simp [h0, Time.sentSeconds]

theorem dirLoop_success {E : Env} {c : container} {pathOf : String → String}
    (h : SinkSucceeds E c pathOf) (hdir : c.StorageType = storageType.storageTypeDir)
    (conn : Side) (snaps : List Snapshot) :
    ∀ t, rsyncMigrationSink_dirLoop E c conn (rsyncMigrationSink_parentPool E c) snaps t
      = (t ++ snaps.flatMap (snapshotSteps E c conn pathOf), none) := by
  induction snaps with
  | nil => intro t; simp [rsyncMigrationSink_dirLoop]
  | cons snap rest ih =>
    intro t
    unfold rsyncMigrationSink_dirLoop
    rw [rebind_eq_args h snap]
    dsimp only
    obtain ⟨s, hs, hn, hp⟩ := h.createEmpty t (rsyncMigrationSink_args E c snap)
    rw [hs]
    dsimp only
    simp only [h.recv, h.shift, hn, hp]
    rw [ih]
    simp [snapshotSteps, hdir]

theorem snapLoop_success {E : Env} {c : container} {pathOf : String → String}
    (h : SinkSucceeds E c pathOf) (hdir : c.StorageType ≠ storageType.storageTypeDir)
    (conn : Side) (snaps : List Snapshot) :
    ∀ t, rsyncMigrationSink_snapLoop E c conn (rsyncMigrationSink_parentPool E c) snaps t
      = (t ++ snaps.flatMap (snapshotSteps E c conn pathOf), none) := by
  induction snaps with
  | nil => intro t; simp [rsyncMigrationSink_snapLoop]
  | cons snap rest ih =>
    intro t
    unfold rsyncMigrationSink_snapLoop
    rw [rebind_eq_args h snap]
    dsimp only
    simp only [h.recv, h.shift, h.createAs]
    rw [ih]
    simp [snapshotSteps, hdir]

/-- The history of a successful run of `rsyncMigrationSink`. -/
theorem rsyncMigrationSink_success {E : Env} {c : container} {pathOf : String → String}
    (h : SinkSucceeds E c pathOf) (live : Bool) (snaps : List Snapshot) (conn : Side)
    (containerOnly : Bool) :
    ∃ ourStart, rsyncMigrationSink E live c snaps conn containerOnly [] =
      (Event.StorageStart c.Name (.ok ourStart) ::
        ((if containerOnly then [] else snaps.flatMap (snapshotSteps E c conn pathOf)) ++
          Event.RsyncRecv (E.AddSlash c.Path) conn c.Name none ::
            ((if live then [Event.RsyncRecv (E.AddSlash c.Path) conn c.Name none] else []) ++
              Event.ShiftIfNecessary c.Name none ::
                (if ourStart then [Event.StorageStop c.Name] else []))), Ret.nil) := by
  obtain ⟨b, hb⟩ := h.start []
  refine ⟨b, ?_⟩
  unfold rsyncMigrationSink
  dsimp only
  rw [hb]
  dsimp only
  unfold rsyncMigrationSink_body
  dsimp only
  rw [if_neg h.pool]
  by_cases hdir : c.StorageType = storageType.storageTypeDir
  · cases containerOnly <;> cases live <;> cases b <;>
      simp [hdir, dirLoop_success h hdir, rsyncMigrationSink_finish, h.recv, h.shift, Ret.ofErr]
  · cases containerOnly <;> cases live <;> cases b <;>
      simp [hdir, snapLoop_success h hdir, rsyncMigrationSink_finish, h.recv, h.shift, Ret.ofErr]

theorem recvPasses_append (a b : Trace) : recvPasses (a ++ b) = recvPasses a ++ recvPasses b := by
  simp [recvPasses]

theorem createdSnapshots_append (a b : Trace) :
    createdSnapshots (a ++ b) = createdSnapshots a ++ createdSnapshots b := by
  simp [createdSnapshots]

theorem recvPasses_steps (E : Env) (c : container) (conn : Side) (pathOf : String → String)
    (snaps : List Snapshot) :
    recvPasses (snaps.flatMap (snapshotSteps E c conn pathOf))
      = snaps.map (snapshotPass E c pathOf) := by
  induction snaps with
  | nil => rfl
  | cons snap rest ih =>
    rw [List.flatMap_cons, recvPasses_append, ih, List.map_cons]
    unfold snapshotSteps snapshotPass
    by_cases hdir : c.StorageType = storageType.storageTypeDir
    · simp [hdir, recvPasses, (args_name E c snap).1]
    · simp [hdir, recvPasses]

theorem createdSnapshots_steps (E : Env) (c : container) (conn : Side)
    (pathOf : String → String) (snaps : List Snapshot) :
    createdSnapshots (snaps.flatMap (snapshotSteps E c conn pathOf))
      = snaps.map (rsyncMigrationSink_args E c) := by
  induction snaps with
  | nil => rfl
  | cons snap rest ih =>
    rw [List.flatMap_cons, createdSnapshots_append, ih, List.map_cons]
    unfold snapshotSteps
    by_cases hdir : c.StorageType = storageType.storageTypeDir
    · simp [hdir, createdSnapshots]
    · simp [hdir, createdSnapshots]

/-- Claim C5: with `containerOnly` false and succeeding collaborators, the `RsyncRecv`
passes of `rsyncMigrationSink` are, in this order, one pass per snapshot in the order of
the list, one pass onto the container's own path and, exactly when `live` is true, one
further pass onto the container's own path: `n + 1` passes, or `n + 2` when live. -/
theorem recv_passes_in_order (E : Env) (c : container) (pathOf : String → String)
    (h : SinkSucceeds E c pathOf) (live : Bool) (snapshots : List Snapshot) (conn : Side) :
    recvPasses (rsyncMigrationSink E live c snapshots conn false []).1
      = snapshots.map (snapshotPass E c pathOf) ++
          (E.AddSlash c.Path, c.Name) ::
            (if live then [(E.AddSlash c.Path, c.Name)] else []) ∧
    (recvPasses (rsyncMigrationSink E live c snapshots conn false []).1).length
      = snapshots.length + 1 + (if live then 1 else 0) ∧
    (rsyncMigrationSink E live c snapshots conn false []).2 = Ret.nil := by
  obtain ⟨b, hb⟩ := rsyncMigrationSink_success h live snapshots conn false
  rw [hb]
  have key : recvPasses (Event.StorageStart c.Name (.ok b) ::
        ((if false = true then [] else snapshots.flatMap (snapshotSteps E c conn pathOf)) ++
          Event.RsyncRecv (E.AddSlash c.Path) conn c.Name none ::
            ((if live then [Event.RsyncRecv (E.AddSlash c.Path) conn c.Name none] else []) ++
              Event.ShiftIfNecessary c.Name none ::
                (if b then [Event.StorageStop c.Name] else []))))
      = snapshots.map (snapshotPass E c pathOf) ++
          (E.AddSlash c.Path, c.Name) ::
            (if live then [(E.AddSlash c.Path, c.Name)] else []) := by
    have h1 := recvPasses_steps E c conn pathOf snapshots
    cases live <;> cases b <;> simp [recvPasses] at h1 ⊢ <;> rw [h1]
  dsimp only
  rw [key]
  refine ⟨rfl, ?_, rfl⟩
  cases live <;> simp


theorem sampleEnv_succeeds (peer : MigrationFSType) (ty : storageType) :
    SinkSucceeds (sampleEnv peer) (sampleContainer ty) samplePathOf where
  start := fun _ => ⟨true, rfl⟩
  recv := fun _ _ _ _ => rfl
  shift := fun _ _ => rfl
  createEmpty := fun _ _ => ⟨_, rfl, rfl, rfl⟩
  createAs := fun _ _ _ => rfl
  rootKey := by
    intro devices hk
    simp only [sampleEnv] at hk ⊢
    cases hd : devices "root" with
    | none => simp [hd] at hk
    | some dev => simp [hd]
  pool := by
    simp [rsyncMigrationSink_parentPool, sampleEnv, sampleContainer, GoMap.set, GoMap.index]

/-- Claim C5 holds on the sample environment. -/
theorem recv_passes_in_order_witness :
    (recvPasses (rsyncMigrationSink (sampleEnv MigrationFSType_RSYNC) false
      (sampleContainer storageType.storageTypeDir)
      [sampleSnapshot "S1" 1, sampleSnapshot "S2" 2] Side.src false []).1).length = 3 :=
  (recv_passes_in_order (sampleEnv MigrationFSType_RSYNC)
    (sampleContainer storageType.storageTypeDir) samplePathOf
    (sampleEnv_succeeds MigrationFSType_RSYNC storageType.storageTypeDir) false
    [sampleSnapshot "S1" 1, sampleSnapshot "S2" 2] Side.src).2.1

/-- Claim C6, as stated, fails: given the snapshot of timestamp 2 before the snapshot of
timestamp 1, `rsyncMigrationSink` replays them in that order, so the replayed creation
timestamps are not ascending. -/
theorem replay_not_by_timestamp :
    ¬ List.Sorted (· ≤ ·)
      (replayedTimestamps (rsyncMigrationSink (sampleEnv MigrationFSType_RSYNC) false
        (sampleContainer storageType.storageTypeDir)
        [sampleSnapshot "S2" 2, sampleSnapshot "S1" 1] Side.src false []).1) := by
  have h : replayedTimestamps (rsyncMigrationSink (sampleEnv MigrationFSType_RSYNC) false
        (sampleContainer storageType.storageTypeDir)
        [sampleSnapshot "S2" 2, sampleSnapshot "S1" 1] Side.src false []).1 = [2, 1] := by
    rfl
  rw [h]
  decide

/-- Claim C6, amended: with `containerOnly` false and succeeding collaborators,
`rsyncMigrationSink` replays the snapshots in the order in which they appear in the list,
whatever their creation timestamps, and the live container payload is received after
every snapshot was created. -/
theorem replay_in_list_order (E : Env) (c : container) (pathOf : String → String)
    (h : SinkSucceeds E c pathOf) (live : Bool) (snapshots : List Snapshot) (conn : Side) :
    (createdSnapshots (rsyncMigrationSink E live c snapshots conn false []).1).map
        (fun args => args.Name)
      = snapshots.map (fun snap => c.Name ++ E.SnapshotDelimiter ++ snap.Name) ∧
    replayedTimestamps (rsyncMigrationSink E live c snapshots conn false []).1
      = snapshots.map (fun snap => snap.CreationDate) ∧
    ∃ pre post, (rsyncMigrationSink E live c snapshots conn false []).1
        = pre ++ Event.RsyncRecv (E.AddSlash c.Path) conn c.Name none :: post ∧
      (createdSnapshots pre).length = snapshots.length ∧
      createdSnapshots post = [] ∧
      post.countP Event.isStream = if live then 1 else 0 := by
  obtain ⟨b, hb⟩ := rsyncMigrationSink_success h live snapshots conn false
  rw [hb]
  dsimp only
  have hc := createdSnapshots_steps E c conn pathOf snapshots
  have key : createdSnapshots (Event.StorageStart c.Name (.ok b) ::
        ((if false = true then [] else snapshots.flatMap (snapshotSteps E c conn pathOf)) ++
          Event.RsyncRecv (E.AddSlash c.Path) conn c.Name none ::
            ((if live then [Event.RsyncRecv (E.AddSlash c.Path) conn c.Name none] else []) ++
              Event.ShiftIfNecessary c.Name none ::
                (if b then [Event.StorageStop c.Name] else []))))
      = snapshots.map (rsyncMigrationSink_args E c) := by
    cases live <;> cases b <;> simp [createdSnapshots] at hc ⊢ <;> rw [hc]
  refine ⟨?_, ?_, ?_⟩
  · rw [key, List.map_map]
    apply List.map_congr_left
    intro snap _
    exact (args_name E c snap).1
  · unfold replayedTimestamps
    rw [key, List.map_map]
    apply List.map_congr_left
    intro snap _
    exact (args_name E c snap).2
  · refine ⟨Event.StorageStart c.Name (.ok b) ::
        snapshots.flatMap (snapshotSteps E c conn pathOf),
      (if live then [Event.RsyncRecv (E.AddSlash c.Path) conn c.Name none] else []) ++
        Event.ShiftIfNecessary c.Name none :: (if b then [Event.StorageStop c.Name] else []),
      ?_, ?_, ?_, ?_⟩
    · simp only [Bool.false_eq_true, if_false, List.cons_append]
    · have : createdSnapshots (Event.StorageStart c.Name (.ok b) ::
          snapshots.flatMap (snapshotSteps E c conn pathOf))
          = snapshots.map (rsyncMigrationSink_args E c) := by
        simp [createdSnapshots] at hc ⊢
        rw [hc]
      rw [this, List.length_map]
    · cases live <;> cases b <;> simp [createdSnapshots]
    · cases live <;> cases b <;> simp [Event.isStream]

/-- Claim C6 holds on the sample environment. -/
theorem replay_in_list_order_witness :
    replayedTimestamps (rsyncMigrationSink (sampleEnv MigrationFSType_RSYNC) true
      (sampleContainer storageType.storageTypeZfs)
      [sampleSnapshot "S2" 2, sampleSnapshot "S1" 1] Side.src false []).1 = [2, 1] :=
  (replay_in_list_order (sampleEnv MigrationFSType_RSYNC)
    (sampleContainer storageType.storageTypeZfs) samplePathOf
    (sampleEnv_succeeds MigrationFSType_RSYNC storageType.storageTypeZfs) true
    [sampleSnapshot "S2" 2, sampleSnapshot "S1" 1] Side.src).2.1

/-- Claim C9: when the container's expanded devices have no root disk device, or that
device has an empty pool property, `rsyncMigrationSink` returns an error and does nothing
but start and stop the container's storage: no `RsyncRecv`, no snapshot creation and no
idmap shift, whatever the snapshots, `live` and `containerOnly`. -/
theorem missing_root_pool_fails (E : Env) (live : Bool) (c : container)
    (snapshots : List Snapshot) (conn : Side) (containerOnly : Bool)
    (h : (E.GetRootDiskDevice c.ExpandedDevices).1 = "" ∨
      (E.GetRootDiskDevice c.ExpandedDevices).2.index "pool" = "") :
    (∃ err, (rsyncMigrationSink E live c snapshots conn containerOnly []).2 = Ret.err err) ∧
    (∀ x ∈ (rsyncMigrationSink E live c snapshots conn containerOnly []).1,
      (∃ r, x = Event.StorageStart c.Name r) ∨ x = Event.StorageStop c.Name) ∧
    recvPasses (rsyncMigrationSink E live c snapshots conn containerOnly []).1 = [] ∧
    createdSnapshots (rsyncMigrationSink E live c snapshots conn containerOnly []).1 = [] ∧
    (rsyncMigrationSink E live c snapshots conn containerOnly []).1.countP Event.isShift = 0 := by
  have hpool : rsyncMigrationSink_parentPool E c = "" := by
    unfold rsyncMigrationSink_parentPool
    dsimp only
    rcases h with h | h
    · simp [h]
    · simp [h]
  unfold rsyncMigrationSink rsyncMigrationSink_body
  dsimp only
  rw [if_pos hpool]
  cases c.StorageStart [] with
  | error e => simp [recvPasses, createdSnapshots, Event.isShift]
  | ok b => cases b <;> simp [recvPasses, createdSnapshots, Event.isShift]

/-- Claim C9 holds on the sample environment. -/
theorem missing_root_pool_fails_witness :
    ∃ err, (rsyncMigrationSink (sampleEnv MigrationFSType_RSYNC) true
      { sampleContainer storageType.storageTypeDir with ExpandedDevices := GoMap.empty }
      [sampleSnapshot "S1" 1] Side.src false []).2 = Ret.err err :=
  (missing_root_pool_fails (sampleEnv MigrationFSType_RSYNC) true
    { sampleContainer storageType.storageTypeDir with ExpandedDevices := GoMap.empty }
    [sampleSnapshot "S1" 1] Side.src false (Or.inl rfl)).1

/-- Claim C7: with `containerOnly` true `rsyncMigrationSink` creates no snapshot and every
`RsyncRecv` pass targets the container's own path, in every environment; when the
collaborators succeed there is exactly one pass, or exactly two when `live` is true. -/
theorem container_only_skips_snapshots (E : Env) (live : Bool) (c : container)
    (snapshots : List Snapshot) (conn : Side) :
    createdSnapshots (rsyncMigrationSink E live c snapshots conn true []).1 = [] ∧
    (∀ pass ∈ recvPasses (rsyncMigrationSink E live c snapshots conn true []).1,
      pass = (E.AddSlash c.Path, c.Name)) ∧
    (∀ pathOf, SinkSucceeds E c pathOf →
      recvPasses (rsyncMigrationSink E live c snapshots conn true []).1
        = List.replicate (if live then 2 else 1) (E.AddSlash c.Path, c.Name)) := by
  refine ⟨?_, ?_, ?_⟩
  · unfold rsyncMigrationSink rsyncMigrationSink_body rsyncMigrationSink_finish
    dsimp only
    simp only [Bool.not_true, Bool.false_eq_true, if_false, ite_self]
    repeat' split
    all_goals simp [createdSnapshots]
  · unfold rsyncMigrationSink rsyncMigrationSink_body rsyncMigrationSink_finish
    dsimp only
    simp only [Bool.not_true, Bool.false_eq_true, if_false, ite_self]
    repeat' split
    all_goals simp [recvPasses]
  · intro pathOf h
    obtain ⟨b, hb⟩ := rsyncMigrationSink_success h live snapshots conn true
    rw [hb]
    cases live <;> cases b <;> simp [recvPasses, List.replicate]

theorem sendPasses_append (a b : Trace) : sendPasses (a ++ b) = sendPasses a ++ sendPasses b := by
  simp [sendPasses]

theorem SendWhileRunning_loop_success {E : Env} (c : container) (conn : Side) (bwlimit : String)
    (hsend : ∀ t name path conn wrapper bwlimit execPath,
      E.RsyncSend t name path conn wrapper bwlimit execPath = none) :
    ∀ (snaps : List container), (∀ sn ∈ snaps, ∀ t, ∃ ourStart, sn.StorageStart t = .ok ourStart) →
      ∀ t ds, ∃ t1 ds1,
        rsyncStorageSourceDriver.SendWhileRunning_loop E c conn bwlimit snaps t ds = (t1, ds1, none) ∧
        sendPasses t1 = sendPasses t ++ snaps.map (fun sn => E.AddSlash sn.Path) ∧
        ∀ x ∈ ds1, x ∈ ds ∨ ∃ sn ∈ snaps, x = sn.Name := by
  intro snaps
  induction snaps with
  | nil =>
    intro _ t ds
    exact ⟨t, ds, rfl, by simp, fun x hx => Or.inl hx⟩
  | cons sn rest ih =>
    intro hstart t ds
    obtain ⟨b, hb⟩ := hstart sn (by simp) t
    unfold rsyncStorageSourceDriver.SendWhileRunning_loop
    dsimp only
    rw [hb]
    dsimp only
    rw [hsend]
    dsimp only
    obtain ⟨t1, ds1, hrun, hp, hds⟩ := ih (fun x hx => hstart x (by simp [hx]))
      (t ++ [Event.StorageStart sn.Name (.ok b)] ++
        [Event.RsyncSend (E.containerGetParentAndSnapshotName c.Name) (E.AddSlash sn.Path) conn
          (some sn.Name) bwlimit c.ExecPath none])
      (if b then sn.Name :: ds else ds)
    refine ⟨t1, ds1, hrun, ?_, ?_⟩
    · rw [hp]
      simp [sendPasses]
    · intro x hx
      rcases hds x hx with h1 | ⟨y, hy, hxy⟩
      · cases b
        · exact Or.inl (by simpa using h1)
        · simp only [if_true, List.mem_cons] at h1
          rcases h1 with h1 | h1
          · exact Or.inr ⟨sn, by simp, h1⟩
          · exact Or.inl h1
      · exact Or.inr ⟨y, by simp [hy], hxy⟩

/-- What a run of the sending steps looks like: nothing failed, or the failing call is
followed by nothing but the listed closing events and its error is returned. -/
theorem SendWhileRunning_loop_shape (E : Env) (c : container) (conn : Side) (bwlimit : String) :
    ∀ (snaps : List container) t ds, ∃ ext ds1 early,
      rsyncStorageSourceDriver.SendWhileRunning_loop E c conn bwlimit snaps t ds
        = (t ++ ext, ds1, early) ∧
      ((early = none ∧ ∀ x ∈ ext, x.sendFailure = none) ∨
        ∃ pre ev err, ext = pre ++ [ev] ∧ ev.sendFailure = some err ∧
          early = some (Ret.err err)) := by
  intro snaps
  induction snaps with
  | nil =>
    intro t ds
    exact ⟨[], ds, none, by simp [rsyncStorageSourceDriver.SendWhileRunning_loop], Or.inl ⟨rfl, by simp⟩⟩
  | cons sn rest ih =>
    intro t ds
    unfold rsyncStorageSourceDriver.SendWhileRunning_loop
    dsimp only
    cases hb : sn.StorageStart t with
    | error e =>
      exact ⟨_, ds, _, rfl, Or.inr ⟨[], _, e, rfl, rfl, rfl⟩⟩
    | ok b =>
      dsimp only
      cases hs : E.RsyncSend (t ++ [Event.StorageStart sn.Name (.ok b)])
          (E.containerGetParentAndSnapshotName c.Name) (E.AddSlash sn.Path) conn (some sn.Name)
          bwlimit c.ExecPath with
      | some e =>
        dsimp only
        refine ⟨[Event.StorageStart sn.Name (.ok b), Event.RsyncSend
          (E.containerGetParentAndSnapshotName c.Name) (E.AddSlash sn.Path) conn (some sn.Name)
          bwlimit c.ExecPath (some e)], (if b then sn.Name :: ds else ds), some (Ret.err e),
          by simp, Or.inr ⟨[_], _, e, rfl, rfl, rfl⟩⟩
      | none =>
        dsimp only
        obtain ⟨ext, ds1, early, hrun, hshape⟩ := ih
          (t ++ [Event.StorageStart sn.Name (.ok b)] ++
            [Event.RsyncSend (E.containerGetParentAndSnapshotName c.Name) (E.AddSlash sn.Path)
              conn (some sn.Name) bwlimit c.ExecPath none])
          (if b then sn.Name :: ds else ds)
        rw [hrun]
        refine ⟨Event.StorageStart sn.Name (.ok b) :: Event.RsyncSend
          (E.containerGetParentAndSnapshotName c.Name) (E.AddSlash sn.Path) conn (some sn.Name)
          bwlimit c.ExecPath none :: ext, ds1, early, by simp, ?_⟩
        rcases hshape with ⟨h1, h2⟩ | ⟨pre, ev, err, h1, h2, h3⟩
        · refine Or.inl ⟨h1, ?_⟩
          intro x hx
          simp only [List.mem_cons] at hx
          rcases hx with hx | hx | hx
          · subst hx; rfl
          · subst hx; rfl
          · exact h2 x hx
        · exact Or.inr ⟨Event.StorageStart sn.Name (.ok b) :: Event.RsyncSend
            (E.containerGetParentAndSnapshotName c.Name) (E.AddSlash sn.Path) conn (some sn.Name)
            bwlimit c.ExecPath none :: pre, ev, err, by simp [h1], h2, h3⟩


/-- Claim C8: when every `StorageStart` and `RsyncSend` succeeds, `SendWhileRunning` with
`containerOnly` false performs `n + 1` `RsyncSend` calls, one per snapshot path in the
order of the list and then one for the container's own path, and with `containerOnly`
true exactly one, for the container's own path.  In every environment, either no
`StorageStart` or `RsyncSend` fails, or the error of the failing call is returned and
after that call there is no further `StorageStart` or `RsyncSend`. -/
theorem send_while_running (E : Env) (c : container) (snapshots : List container)
    (conn : Side) (bwlimit : String) :
    ((∀ sn ∈ snapshots, ∀ t, ∃ ourStart, sn.StorageStart t = .ok ourStart) →
      (∀ t name path conn wrapper bwlimit execPath,
        E.RsyncSend t name path conn wrapper bwlimit execPath = none) →
      sendPasses (rsyncStorageSourceDriver.SendWhileRunning E ⟨some c, snapshots⟩ conn bwlimit
          false []).1
        = snapshots.map (fun sn => E.AddSlash sn.Path) ++ [E.AddSlash c.Path] ∧
      (sendPasses (rsyncStorageSourceDriver.SendWhileRunning E ⟨some c, snapshots⟩ conn bwlimit
          false []).1).length = snapshots.length + 1 ∧
      (rsyncStorageSourceDriver.SendWhileRunning E ⟨some c, snapshots⟩ conn bwlimit
          false []).2 = Ret.nil ∧
      sendPasses (rsyncStorageSourceDriver.SendWhileRunning E ⟨some c, snapshots⟩ conn bwlimit
          true []).1 = [E.AddSlash c.Path]) ∧
    (∀ containerOnly,
      ((∀ x ∈ (rsyncStorageSourceDriver.SendWhileRunning E ⟨some c, snapshots⟩ conn bwlimit
            containerOnly []).1, x.sendFailure = none) ∧
        (rsyncStorageSourceDriver.SendWhileRunning E ⟨some c, snapshots⟩ conn bwlimit
            containerOnly []).2 = Ret.nil) ∨
      ∃ pre ev err stops,
        (rsyncStorageSourceDriver.SendWhileRunning E ⟨some c, snapshots⟩ conn bwlimit
            containerOnly []).1 = pre ++ ev :: stops ∧
        ev.sendFailure = some err ∧
        (rsyncStorageSourceDriver.SendWhileRunning E ⟨some c, snapshots⟩ conn bwlimit
            containerOnly []).2 = Ret.err err ∧
        ∀ x ∈ stops, x.isSendStep = false) := by
  have hstop : ∀ ds : List String, sendPasses (ds.map Event.StorageStop) = [] := by
    intro ds
    induction ds with
    | nil => rfl
    | cons d rest ih => simp [sendPasses]
  have hstopf : ∀ (ds : List String), ∀ x ∈ ds.map Event.StorageStop,
      x.sendFailure = none ∧ x.isSendStep = false := by
    intro ds x hx
    simp only [List.mem_map] at hx
    obtain ⟨d, -, rfl⟩ := hx
    exact ⟨rfl, rfl⟩
  constructor
  · intro hstart hsend
    have hfalse : sendPasses (rsyncStorageSourceDriver.SendWhileRunning E ⟨some c, snapshots⟩
        conn bwlimit false []).1
          = snapshots.map (fun sn => E.AddSlash sn.Path) ++ [E.AddSlash c.Path] ∧
        (rsyncStorageSourceDriver.SendWhileRunning E ⟨some c, snapshots⟩ conn bwlimit
          false []).2 = Ret.nil := by
      obtain ⟨t1, ds1, hrun, hp, -⟩ := SendWhileRunning_loop_success c conn bwlimit hsend
        snapshots hstart [] []
      unfold rsyncStorageSourceDriver.SendWhileRunning
      simp only [Bool.not_false, if_true, hrun, hsend, Ret.ofErr, and_true]
      rw [sendPasses_append, sendPasses_append, hp, hstop]
      simp [sendPasses]
    refine ⟨hfalse.1, ?_, hfalse.2, ?_⟩
    · rw [hfalse.1]; simp
    · unfold rsyncStorageSourceDriver.SendWhileRunning
      simp [hsend, sendPasses]
  · intro containerOnly
    unfold rsyncStorageSourceDriver.SendWhileRunning
    dsimp only
    cases containerOnly with
    | true =>
      simp only [Bool.not_true, Bool.false_eq_true, if_false, List.map_nil, List.append_nil,
        List.nil_append]
      cases hr : E.RsyncSend [] (E.containerGetParentAndSnapshotName c.Name)
          (E.AddSlash c.Path) conn (some c.Name) bwlimit c.ExecPath with
      | none => exact Or.inl ⟨by simp [Event.sendFailure], rfl⟩
      | some e => exact Or.inr ⟨[], _, e, [], rfl, rfl, rfl, by simp⟩
    | false =>
      obtain ⟨ext, ds1, early, hrun, hshape⟩ :=
        SendWhileRunning_loop_shape E c conn bwlimit snapshots [] []
      simp only [Bool.not_false, if_true, hrun, List.nil_append]
      rcases hshape with ⟨h1, h2⟩ | ⟨pre, ev, err, h1, h2, h3⟩
      · subst h1
        dsimp only
        cases hr : E.RsyncSend ext (E.containerGetParentAndSnapshotName c.Name)
            (E.AddSlash c.Path) conn (some c.Name) bwlimit c.ExecPath with
        | none =>
          refine Or.inl ⟨?_, rfl⟩
          intro x hx
          simp only [List.mem_append, List.mem_singleton] at hx
          rcases hx with (hx | hx) | hx
          · exact h2 x hx
          · subst hx; rfl
          · exact (hstopf ds1 x hx).1
        | some e =>
          refine Or.inr ⟨ext, Event.RsyncSend (E.containerGetParentAndSnapshotName c.Name)
            (E.AddSlash c.Path) conn (some c.Name) bwlimit c.ExecPath (some e), e,
            ds1.map Event.StorageStop, by simp, rfl, rfl, ?_⟩
          exact fun x hx => (hstopf ds1 x hx).2
      · subst h1 h3
        dsimp only
        refine Or.inr ⟨pre, ev, err, ds1.map Event.StorageStop, by simp, h2, rfl, ?_⟩
        exact fun x hx => (hstopf ds1 x hx).2


/-- Claim C8 holds on the sample environment. -/
theorem send_while_running_witness :
    sendPasses (rsyncStorageSourceDriver.SendWhileRunning (sampleEnv MigrationFSType_RSYNC)
      ⟨some (sampleContainer storageType.storageTypeDir),
        [{ sampleContainer storageType.storageTypeDir with
            Name := "c1/S1", Path := "/var/lib/lxd/snapshots/c1/S1" },
         { sampleContainer storageType.storageTypeDir with
            Name := "c1/S2", Path := "/var/lib/lxd/snapshots/c1/S2" }]⟩
      Side.src "" false []).1
    = ["/var/lib/lxd/snapshots/c1/S1/", "/var/lib/lxd/snapshots/c1/S2/",
        "/var/lib/lxd/containers/c1/"] :=
  ((send_while_running (sampleEnv MigrationFSType_RSYNC)
    (sampleContainer storageType.storageTypeDir)
    [{ sampleContainer storageType.storageTypeDir with
        Name := "c1/S1", Path := "/var/lib/lxd/snapshots/c1/S1" },
     { sampleContainer storageType.storageTypeDir with
        Name := "c1/S2", Path := "/var/lib/lxd/snapshots/c1/S2" }]
    Side.src "").1 (fun sn hsn t => by
      simp only [List.mem_cons, List.mem_singleton, List.not_mem_nil, or_false] at hsn
      rcases hsn with rfl | rfl <;> exact ⟨true, rfl⟩)
    (fun _ _ _ _ _ _ _ => rfl)).1

/-- Claim C7 holds on the sample environment. -/
theorem container_only_skips_snapshots_witness :
    recvPasses (rsyncMigrationSink (sampleEnv MigrationFSType_RSYNC) true
      (sampleContainer storageType.storageTypeDir)
      [sampleSnapshot "S1" 1, sampleSnapshot "S2" 2] Side.src true []).1
    = [("/var/lib/lxd/containers/c1/", "c1"), ("/var/lib/lxd/containers/c1/", "c1")] :=
  (container_only_skips_snapshots (sampleEnv MigrationFSType_RSYNC) true
    (sampleContainer storageType.storageTypeDir)
    [sampleSnapshot "S1" 1, sampleSnapshot "S2" 2] Side.src).2.2 samplePathOf
    (sampleEnv_succeeds MigrationFSType_RSYNC storageType.storageTypeDir)

/-- Claim C10: both `rsyncStorageSourceDriver.SendStorageVolume` and
`rsyncStorageMigrationSink` keep the mount discipline: `StoragePoolVolumeUmount` is
called once, as the last action and directly after the rsync stream whatever its
outcome, exactly when this call's own mount succeeded and reported that it mounted, and
not otherwise; a failed mount, or on the sink a failed volume creation, means that no
stream is attempted and that error is returned. -/
theorem mount_discipline (E : Env) (conn : Side) (bwlimit : String) (st : storage)
    (t0 : Trace) :
    (∃ ext, (rsyncStorageSourceDriver.SendStorageVolume E conn bwlimit st t0).1 = t0 ++ ext ∧
      MountDiscipline ext (rsyncStorageSourceDriver.SendStorageVolume E conn bwlimit st t0).2) ∧
    (∃ ext, (rsyncStorageMigrationSink E conn st t0).1 = t0 ++ ext ∧
      MountDiscipline ext (rsyncStorageMigrationSink E conn st t0).2) := by
  constructor
  · unfold rsyncStorageSourceDriver.SendStorageVolume MountDiscipline
    dsimp only
    cases hm : st.StoragePoolVolumeMount t0 with
    | error e =>
      refine ⟨[Event.StoragePoolVolumeMount (.error e)], ?_⟩
      simp [Event.isMount, Event.isUmount, Event.isMountPerformed, Event.isStream]
    | ok b =>
      cases b with
      | false =>
        simp only [List.append_assoc, List.singleton_append, List.nil_append, Bool.false_eq_true, if_false]
        refine ⟨_, rfl, ?_⟩
        simp [Event.isMount, Event.isUmount, Event.isMountPerformed, Event.isStream]
      | true =>
        simp only [List.append_assoc, List.singleton_append, List.nil_append, if_true]
        refine ⟨_, rfl, ?_⟩
        simp [Event.isMount, Event.isUmount, Event.isMountPerformed, Event.isStream]
        refine ⟨[Event.StoragePoolVolumeMount (.ok true)], _, rfl, ?_⟩
        simp [Event.isMount, Event.isUmount, Event.isMountPerformed, Event.isStream]
  · unfold rsyncStorageMigrationSink MountDiscipline
    dsimp only
    cases hc : st.StoragePoolVolumeCreate t0 with
    | some e =>
      refine ⟨[Event.StoragePoolVolumeCreate (some e)], ?_⟩
      simp [Event.isMount, Event.isUmount, Event.isMountPerformed, Event.isStream]
    | none =>
      cases hm : st.StoragePoolVolumeMount (t0 ++ [Event.StoragePoolVolumeCreate none]) with
      | error e =>
        simp only [List.append_assoc, List.singleton_append, List.nil_append]
        refine ⟨_, rfl, ?_⟩
        simp [Event.isMount, Event.isUmount, Event.isMountPerformed, Event.isStream]
      | ok b =>
        cases b with
        | false =>
          simp only [List.append_assoc, List.singleton_append, List.nil_append, Bool.false_eq_true, if_false]
          refine ⟨_, rfl, ?_⟩
          simp [Event.isMount, Event.isUmount, Event.isMountPerformed, Event.isStream]
        | true =>
          simp only [List.append_assoc, List.singleton_append, List.nil_append, if_true]
          refine ⟨_, rfl, ?_⟩
          simp [Event.isMount, Event.isUmount, Event.isMountPerformed, Event.isStream]
          refine ⟨[_, _], _, rfl, ?_⟩
          simp [Event.isMount, Event.isUmount, Event.isMountPerformed, Event.isStream]

/-- The events of the rsync driver's `SendStorageVolume`, by the outcome of its mount. -/
theorem rsync_SendStorageVolume_cases (E : Env) (conn : Side) (bwlimit : String)
    (st : storage) (t0 : Trace) :
    (∃ err, st.StoragePoolVolumeMount t0 = .error err ∧
      rsyncStorageSourceDriver.SendStorageVolume E conn bwlimit st t0
        = (t0 ++ [Event.StoragePoolVolumeMount (.error err)], Ret.err err)) ∨
    (∃ ourMount r, st.StoragePoolVolumeMount t0 = .ok ourMount ∧
      rsyncStorageSourceDriver.SendStorageVolume E conn bwlimit st t0
        = (t0 ++ Event.StoragePoolVolumeMount (.ok ourMount) ::
            Event.RsyncSend st.volumeName
              (E.AddSlash (E.getStoragePoolVolumeMountPoint st.poolName st.volumeName))
              conn (some st.volumeName) bwlimit st.ExecPath r ::
            (if ourMount then [Event.StoragePoolVolumeUmount] else []), Ret.ofErr r)) := by
  unfold rsyncStorageSourceDriver.SendStorageVolume
  dsimp only
  cases hm : st.StoragePoolVolumeMount t0 with
  | error e => exact Or.inl ⟨e, rfl, rfl⟩
  | ok b =>
    refine Or.inr ⟨b, E.RsyncSend (t0 ++ [Event.StoragePoolVolumeMount (.ok b)]) st.volumeName
      (E.AddSlash (E.getStoragePoolVolumeMountPoint st.poolName st.volumeName)) conn
      (some st.volumeName) bwlimit st.ExecPath, rfl, ?_⟩
    cases b <;> simp

/-- The events a driver's `SendStorageVolume` appends after the call itself, and the
value it returns. -/
theorem SendStorageVolume_pay {E : Env} {d : DriverKind} {conn : Side} {bwlimit : String}
    {st : storage} {t0 pay : Trace} {ret : Ret}
    (h : MigrationStorageSourceDriver.SendStorageVolume E d conn bwlimit st t0
      = (t0 ++ Event.SendStorageVolume d conn bwlimit :: pay, ret)) :
    (d = DriverKind.backend ∧ ∃ r, pay = [Event.backendSendReturned r] ∧ ret = Ret.ofErr r) ∨
    (d = DriverKind.rsync ∧
      ((∃ err, st.StoragePoolVolumeMount (t0 ++ [Event.SendStorageVolume d conn bwlimit])
            = .error err ∧ pay = [Event.StoragePoolVolumeMount (.error err)] ∧
          ret = Ret.err err) ∨
        ∃ ourMount r, st.StoragePoolVolumeMount (t0 ++ [Event.SendStorageVolume d conn bwlimit])
            = .ok ourMount ∧
          pay = Event.StoragePoolVolumeMount (.ok ourMount) ::
            Event.RsyncSend st.volumeName
              (E.AddSlash (E.getStoragePoolVolumeMountPoint st.poolName st.volumeName))
              conn (some st.volumeName) bwlimit st.ExecPath r ::
            (if ourMount then [Event.StoragePoolVolumeUmount] else []) ∧
          ret = Ret.ofErr r)) := by
  unfold MigrationStorageSourceDriver.SendStorageVolume at h
  cases d with
  | backend =>
    simp only [List.append_assoc, List.singleton_append, Prod.mk.injEq,
      List.append_cancel_left_eq, List.cons.injEq, true_and] at h
    exact Or.inl ⟨rfl, _, h.1.symm, h.2.symm⟩
  | rsync =>
    refine Or.inr ⟨rfl, ?_⟩
    dsimp only at h
    rcases rsync_SendStorageVolume_cases E conn bwlimit st
        (t0 ++ [Event.SendStorageVolume DriverKind.rsync conn bwlimit]) with
      ⟨e, hm, hrun⟩ | ⟨b, r, hm, hrun⟩
    · rw [hrun] at h
      simp only [List.append_assoc, List.singleton_append, Prod.mk.injEq,
        List.append_cancel_left_eq, List.cons.injEq, true_and] at h
      exact Or.inl ⟨e, hm, h.1.symm, h.2.symm⟩
    · rw [hrun] at h
      simp only [List.append_assoc, List.singleton_append, List.cons_append, Prod.mk.injEq,
        List.append_cancel_left_eq, List.cons.injEq, true_and] at h
      exact Or.inr ⟨b, r, hm, h.1.symm, h.2.symm⟩

/-- The first two actions of `migrationSourceWs.DoStorage`. -/
theorem source_run_mount (E : Env) (s : migrationSourceWs) (t0 : Trace) :
    ∃ rest, (s.DoStorage E t0).trace = t0 ++ Event.allConnected ::
      Event.StoragePoolVolumeMount (s.storage.StoragePoolVolumeMount (t0 ++ [Event.allConnected]))
        :: rest := by
  unfold migrationSourceWs.DoStorage
  dsimp only
  cases hm : s.storage.StoragePoolVolumeMount (t0 ++ [Event.allConnected]) with
  | error e => exact ⟨[], by simp⟩
  | ok b =>
    dsimp only
    obtain ⟨ext, ret, ty, hrun, -⟩ := source_body_shape E s
      (t0 ++ [Event.allConnected] ++ [Event.StoragePoolVolumeMount (.ok b)])
    rw [hrun]
    cases b
    · exact ⟨ext, by simp⟩
    · exact ⟨ext ++ [Event.StoragePoolVolumeUmount], by simp⟩


theorem SourceTail.no_mounts {E : Env} {d : DriverKind} {r : Option Error} {tail : Trace}
    {ret : Ret} (h : SourceTail E d r tail ret) :
    tail.countP Event.isUmount = 0 ∧ tail.countP Event.isMountPerformed = 0 ∧
      ∀ m, tail.foldl Event.mountStep m = m := by
  cases h <;> simp [Event.isUmount, Event.isMountPerformed, Event.mountStep]

/-- Claim C11: in every run of `migrationSourceWs.DoStorage`, on the success path and on
every failure path, the number of `StoragePoolVolumeUmount` calls equals the number of
`StoragePoolVolumeMount` calls that reported having mounted; and when the storage follows
the mount model (a mount reports `true` exactly when it changes the volume from unmounted
to mounted) the mount state when `DoStorage` returns is the mount state at entry.  The
actions of the rsync driver are part of the history; a back-end driver's own actions are
not. -/
theorem mounts_balanced (E : Env) (s : migrationSourceWs) :
    (s.DoStorage E []).trace.countP Event.isUmount
      = (s.DoStorage E []).trace.countP Event.isMountPerformed ∧
    (∀ m0, MountReportsChange m0 s.storage → mountedAfter m0 (s.DoStorage E []).trace = m0) := by
  obtain ⟨ext, ret, ty, hrun, hshape⟩ := source_run_shape E s []
  obtain ⟨rest, hfirst⟩ := source_run_mount E s []
  rw [hrun] at hfirst ⊢
  simp only [List.nil_append] at hfirst ⊢
  cases hshape with
  | mountFailed e =>
    refine ⟨by simp [Event.isUmount, Event.isMountPerformed], fun m0 _ => ?_⟩
    simp [mountedAfter, Event.mountStep]
  | mounted b ext ret ty hbody =>
    have hm : s.storage.StoragePoolVolumeMount [Event.allConnected] = .ok b := by
      simp only [List.cons.injEq, Event.StoragePoolVolumeMount.injEq, true_and] at hfirst
      exact hfirst.1.symm
    have hb : ∀ m0, MountReportsChange m0 s.storage → b = !m0 := fun m0 hmodel => by
      simpa [mountedAfter, Event.mountStep] using hmodel _ _ hm
    cases hbody with
    | sendFailed e =>
      refine ⟨by cases b <;> simp [Event.isUmount, Event.isMountPerformed], fun m0 hmodel => ?_⟩
      have := hb m0 hmodel
      subst this
      cases m0 <;> simp [mountedAfter, Event.mountStep]
    | driverFailed e =>
      refine ⟨by cases b <;> simp [Event.isUmount, Event.isMountPerformed], fun m0 hmodel => ?_⟩
      have := hb m0 hmodel
      subst this
      cases m0 <;> simp [mountedAfter, Event.mountStep]
    | recvFailed e =>
      refine ⟨by cases b <;> simp [Event.isUmount, Event.isMountPerformed], fun m0 hmodel => ?_⟩
      have := hb m0 hmodel
      subst this
      cases m0 <;> simp [mountedAfter, Event.mountStep]
    | unsetFs =>
      refine ⟨by cases b <;> simp [Event.isUmount, Event.isMountPerformed], fun m0 hmodel => ?_⟩
      have := hb m0 hmodel
      subst this
      cases m0 <;> simp [mountedAfter, Event.mountStep]
    | payload fs pay tail r ret hsend hpay htail =>
      obtain ⟨ht1, ht2, ht3⟩ := htail.no_mounts
      have h1 : MigrationStorageSourceDriver.SendStorageVolume E
          (sourceDriver s.storage.MigrationType fs) Side.src (sourceBwlimit s.storage fs)
          s.storage ([] ++ [Event.allConnected, Event.StoragePoolVolumeMount (.ok b)] ++
            [Event.send Side.src ⟨some s.storage.MigrationType⟩ none,
              Event.StorageMigrationSource none, Event.recvHeader Side.src (.ok ⟨some fs⟩)])
          = (([] ++ [Event.allConnected, Event.StoragePoolVolumeMount (.ok b)] ++
            [Event.send Side.src ⟨some s.storage.MigrationType⟩ none,
              Event.StorageMigrationSource none, Event.recvHeader Side.src (.ok ⟨some fs⟩)]) ++
            Event.SendStorageVolume (sourceDriver s.storage.MigrationType fs) Side.src
              (sourceBwlimit s.storage fs) :: pay, Ret.ofErr r) := by
        rw [hsend]; simp
      rcases SendStorageVolume_pay h1 with
        ⟨-, r0, hp, -⟩ | ⟨-, ⟨e, -, hp, -⟩ | ⟨b1, r1, hm1, hp, -⟩⟩
      · subst hp
        refine ⟨by cases b <;> simp [Event.isUmount, Event.isMountPerformed, List.countP_append,
          ht1, ht2], fun m0 hmodel => ?_⟩
        have := hb m0 hmodel
        subst this
        cases m0 <;> simp [mountedAfter, Event.mountStep, List.foldl_append, ht3]
      · subst hp
        refine ⟨by cases b <;> simp [Event.isUmount, Event.isMountPerformed, List.countP_append,
          ht1, ht2], fun m0 hmodel => ?_⟩
        have := hb m0 hmodel
        subst this
        cases m0 <;> simp [mountedAfter, Event.mountStep, List.foldl_append, ht3]
      · subst hp
        refine ⟨by cases b <;> cases b1 <;> simp [Event.isUmount, Event.isMountPerformed,
          List.countP_append, List.countP_cons, ht1, ht2], fun m0 hmodel => ?_⟩
        have hb1 : b1 = false := by
          simpa [mountedAfter, Event.mountStep] using hmodel _ _ hm1
        have := hb m0 hmodel
        subst this hb1
        cases m0 <;> simp [mountedAfter, Event.mountStep, List.foldl_append, ht3]

/-- Claim C11 holds on a storage that follows the mount model. -/
theorem mounts_balanced_witness :
    mountedAfter false ((⟨⟨"control-secret", "fs-secret",
      sampleMountStorage false MigrationFSType_BTRFS⟩⟩ : migrationSourceWs).DoStorage
        (sampleEnv MigrationFSType_RSYNC) []).trace = false :=
  (mounts_balanced (sampleEnv MigrationFSType_RSYNC)
    ⟨⟨"control-secret", "fs-secret", sampleMountStorage false MigrationFSType_BTRFS⟩⟩).2 false
    (fun _ _ h => by
      simp only [sampleMountStorage, Except.ok.injEq] at h
      exact h.symm)

theorem SourceTail.events {E : Env} {d : DriverKind} {r : Option Error} {tail : Trace}
    {ret : Ret} (h : SourceTail E d r tail ret) :
    (∀ x ∈ tail, x.driverFailure = none ∧ x.isPayload = false) := by
  cases h <;> simp [Event.driverFailure, Event.isPayload]

theorem Event.driverSend_kind {d : DriverKind} {e : Event}
    (h : e.isDriverSend d = true) (hn : ∀ d1 c1 b1, e ≠ Event.SendStorageVolume d1 c1 b1) :
    e.isStorageLevel = true ∨ ∃ r, e = Event.backendSendReturned r := by
  cases e <;> simp_all [Event.isDriverSend, Event.isStorageLevel]

/-- A failing action inside a driver's `SendStorageVolume` makes the call return its error. -/
theorem SendStorageVolume_failure {E : Env} {d : DriverKind} {conn : Side} {bwlimit : String}
    {st : storage} {t0 pay : Trace} {ret : Ret}
    (h : MigrationStorageSourceDriver.SendStorageVolume E d conn bwlimit st t0
      = (t0 ++ Event.SendStorageVolume d conn bwlimit :: pay, ret))
    {err : Error} (hx : ∃ x ∈ pay, x.driverFailure = some err) : ret = Ret.err err := by
  obtain ⟨x, hx, hf⟩ := hx
  rcases SendStorageVolume_pay h with ⟨-, r0, hp, hr⟩ | ⟨-, ⟨e, -, hp, hr⟩ | ⟨b1, r1, -, hp, hr⟩⟩
  · subst hp hr
    simp only [List.mem_singleton] at hx
    subst hx
    cases r0 <;> simp_all [Event.driverFailure, Ret.ofErr]
  · subst hp hr
    simp only [List.mem_singleton] at hx
    subst hx
    simp_all [Event.driverFailure]
  · subst hp hr
    cases b1 <;> simp only [List.mem_cons, List.mem_singleton, Bool.false_eq_true, if_false,
      if_true, List.not_mem_nil, or_false] at hx
    · rcases hx with hx | hx <;> subst hx
      · simp [Event.driverFailure] at hf
      · cases r1 <;> simp_all [Event.driverFailure, Ret.ofErr]
    · rcases hx with hx | hx | hx <;> subst hx
      · simp [Event.driverFailure] at hf
      · cases r1 <;> simp_all [Event.driverFailure, Ret.ofErr]
      · simp [Event.driverFailure] at hf

/-- The failure paths of `migrationSourceWs.DoStorage` after the mount: when the header
send, the driver initialisation or the header receive fails, the run returns that error
after a failure `MigrationControl` carrying it was sent; when an action inside the
driver's `SendStorageVolume` fails, it returns that error after `Cleanup` was invoked on
the driver that attempted the send and, next, a failure `MigrationControl` carrying the
error was sent; when the terminal control message cannot be received it disconnects and
returns that error, and when the peer reports a failure with message `m` it returns the
error `fmt.Errorf(m)`, in both cases without sending a `MigrationControl`. -/
theorem source_failure_paths (E : Env) (s : migrationSourceWs) :
    (∀ err, ((∃ side h, Event.send side h (some err) ∈ (s.DoStorage E []).trace) ∨
        Event.StorageMigrationSource (some err) ∈ (s.DoStorage E []).trace ∨
        ∃ side, Event.recvHeader side (.error err) ∈ (s.DoStorage E []).trace) →
      (s.DoStorage E []).ret = Ret.err err ∧
      Event.sendControl Side.src (some err) ∈ (s.DoStorage E []).trace) ∧
    (∀ pre d conn bwlimit post err,
      (s.DoStorage E []).trace = pre ++ Event.SendStorageVolume d conn bwlimit :: post →
      (∃ x ∈ post, x.driverFailure = some err) →
      (s.DoStorage E []).ret = Ret.err err ∧
      [Event.Cleanup d, Event.sendControl Side.src (some err)] <:+: post) ∧
    (∀ side err, Event.recvControl side (.error err) ∈ (s.DoStorage E []).trace →
      (s.DoStorage E []).ret = Ret.err err ∧
      Event.disconnect Side.src ∈ (s.DoStorage E []).trace ∧
      ∀ side1 err1, Event.sendControl side1 err1 ∉ (s.DoStorage E []).trace) ∧
    (∀ side m, Event.recvControl side (.ok ⟨some false, some m⟩) ∈ (s.DoStorage E []).trace →
      (s.DoStorage E []).ret = Ret.err (E.Errorf m) ∧
      ∀ side1 err1, Event.sendControl side1 err1 ∉ (s.DoStorage E []).trace) := by
  obtain ⟨ext, ret, ty, hrun, hshape⟩ := source_run_shape E s []
  rw [hrun]
  simp only [List.nil_append]
  cases hshape with
  | mountFailed e =>
    refine ⟨by simp, ?_, by simp, by simp⟩
    intro pre d conn bw post err hs
    exact (@no_split Event.isPayload _ (by simp [Event.isPayload]) pre post _ hs rfl).elim
  | mounted b ext ret ty hbody =>
    cases hbody with
    | sendFailed e =>
      refine ⟨?_, ?_, ?_, ?_⟩
      · intro err h
        cases b <;> simp at h <;> subst h <;> simp
      · intro pre d conn bw post err hs
        refine (@no_split Event.isPayload _ ?_ pre post _ hs rfl).elim
        cases b <;> simp [Event.isPayload]
      · cases b <;> simp
      · cases b <;> simp
    | driverFailed e =>
      refine ⟨?_, ?_, ?_, ?_⟩
      · intro err h
        cases b <;> simp at h <;> subst h <;> simp
      · intro pre d conn bw post err hs
        refine (@no_split Event.isPayload _ ?_ pre post _ hs rfl).elim
        cases b <;> simp [Event.isPayload]
      · cases b <;> simp
      · cases b <;> simp
    | recvFailed e =>
      refine ⟨?_, ?_, ?_, ?_⟩
      · intro err h
        cases b <;> simp at h <;> subst h <;> simp
      · intro pre d conn bw post err hs
        refine (@no_split Event.isPayload _ ?_ pre post _ hs rfl).elim
        cases b <;> simp [Event.isPayload]
      · cases b <;> simp
      · cases b <;> simp
    | unsetFs =>
      refine ⟨?_, ?_, ?_, ?_⟩
      · intro err h
        cases b <;> simp at h
      · intro pre d conn bw post err hs
        refine (@no_split Event.isPayload _ ?_ pre post _ hs rfl).elim
        cases b <;> simp [Event.isPayload]
      · cases b <;> simp
      · cases b <;> simp
    | payload fs pay tail r ret hsend hpay htail =>
      have hkind : ∀ x ∈ pay, x.isStorageLevel = true ∨ ∃ r, x = Event.backendSendReturned r :=
        fun x hx => Event.driverSend_kind (hpay x hx).1 (hpay x hx).2
      have hp1 : ∀ side h r, Event.send side h r ∉ pay := fun _ _ _ hm => by
        rcases hkind _ hm with h | ⟨_, h⟩ <;> simp [Event.isStorageLevel] at h
      have hp2 : ∀ r, Event.StorageMigrationSource r ∉ pay := fun _ hm => by
        rcases hkind _ hm with h | ⟨_, h⟩ <;> simp [Event.isStorageLevel] at h
      have hp3 : ∀ side r, Event.recvHeader side r ∉ pay := fun _ _ hm => by
        rcases hkind _ hm with h | ⟨_, h⟩ <;> simp [Event.isStorageLevel] at h
      have hp4 : ∀ side r, Event.recvControl side r ∉ pay := fun _ _ hm => by
        rcases hkind _ hm with h | ⟨_, h⟩ <;> simp [Event.isStorageLevel] at h
      have hp5 : ∀ side r, Event.sendControl side r ∉ pay := fun _ _ hm => by
        rcases hkind _ hm with h | ⟨_, h⟩ <;> simp [Event.isStorageLevel] at h
      have hp6 : ∀ x ∈ pay, x.isPayload = false := fun x hx =>
        ((Event.isOther_iff x).1 (Event.isOther_of_driverSend (hpay x hx).1 (hpay x hx).2)).1
      refine ⟨?_, ?_, ?_, ?_⟩
      · intro err h
        exfalso
        cases htail <;> cases b <;> simp [hp1, hp2, hp3] at h
      · intro pre d conn bw post err hs hx
        have hQ : ∀ x ∈ pay ++ tail ++ (if b then [Event.StoragePoolVolumeUmount] else []),
            x.isPayload = false ∧ (x ∈ pay ∨ x.driverFailure = none) := by
          intro x hx
          simp only [List.mem_append] at hx
          rcases hx with (hx | hx) | hx
          · exact ⟨hp6 x hx, Or.inl hx⟩
          · exact ⟨(htail.events x hx).2, Or.inr (htail.events x hx).1⟩
          · cases b <;> simp at hx
            subst hx
            exact ⟨rfl, Or.inr rfl⟩
        have hs1 : [Event.allConnected, Event.StoragePoolVolumeMount (.ok b),
            Event.send Side.src ⟨some s.storage.MigrationType⟩ none,
            Event.StorageMigrationSource none, Event.recvHeader Side.src (.ok ⟨some fs⟩)] ++
            Event.SendStorageVolume (sourceDriver s.storage.MigrationType fs) Side.src
              (sourceBwlimit s.storage fs) ::
              (pay ++ tail ++ (if b then [Event.StoragePoolVolumeUmount] else []))
            = pre ++ Event.SendStorageVolume d conn bw :: post := by
          rw [← hs]; simp
        obtain ⟨-, he, hpost⟩ := split_unique (p := Event.isPayload)
          (by simp [Event.isPayload]) (fun x hx => (hQ x hx).1) hs1 rfl
        simp only [Event.SendStorageVolume.injEq] at he
        obtain ⟨hd, -, -⟩ := he
        subst hpost hd
        obtain ⟨x, hxm, hxf⟩ := hx
        have hxp : x ∈ pay := by
          rcases (hQ x hxm).2 with h | h
          · exact h
          · rw [h] at hxf; cases hxf
        have hret := SendStorageVolume_failure
          (by rw [hsend]; simp :
            MigrationStorageSourceDriver.SendStorageVolume E
              (sourceDriver s.storage.MigrationType fs) Side.src (sourceBwlimit s.storage fs)
              s.storage ([] ++ [Event.allConnected, Event.StoragePoolVolumeMount (.ok b)] ++
                [Event.send Side.src ⟨some s.storage.MigrationType⟩ none,
                  Event.StorageMigrationSource none,
                  Event.recvHeader Side.src (.ok ⟨some fs⟩)])
              = (([] ++ [Event.allConnected, Event.StoragePoolVolumeMount (.ok b)] ++
                [Event.send Side.src ⟨some s.storage.MigrationType⟩ none,
                  Event.StorageMigrationSource none,
                  Event.recvHeader Side.src (.ok ⟨some fs⟩)]) ++
                Event.SendStorageVolume (sourceDriver s.storage.MigrationType fs) Side.src
                  (sourceBwlimit s.storage fs) :: pay, Ret.ofErr r))
          ⟨x, hxp, hxf⟩
        cases r with
        | none => simp [Ret.ofErr] at hret
        | some e0 =>
          simp only [Ret.ofErr, Ret.err.injEq] at hret
          subst hret
          cases htail
          exact ⟨rfl, pay, (if b then [Event.StoragePoolVolumeUmount] else []), by simp⟩
      · intro side err h
        cases htail <;> cases b <;> simp [hp4, hp5] at h ⊢
        all_goals (obtain ⟨-, h2⟩ := h; subst h2; rfl)
      · intro side m h
        cases htail <;> cases b <;> simp [hp4, hp5] at h ⊢
        all_goals (obtain ⟨-, h2⟩ := h; subst h2; rfl)

/-- Claim C12 does not hold of the code: `migrationSourceWs.DoStorage` returns an error
without `Cleanup` and without a failure `MigrationControl` on several paths.  When the
mount fails it returns the mount error at once: nothing is sent, neither a header nor a
control message.  When an action inside the driver's `SendStorageVolume` fails it returns
that error after `Cleanup` was invoked on that driver and, next, a failure
`MigrationControl` carrying the error was sent: the one path that does what the claim
says.  When the header send, the driver initialisation or the header receive fails it
returns that error after a failure `MigrationControl` carrying it was sent, and `Cleanup`
is not invoked.  When the terminal control message cannot be received it returns that
error, and when the peer reports a failure with message `m` it returns the error
`fmt.Errorf(m)`, built with `m` as the format; on neither path is `Cleanup` invoked or a
`MigrationControl` sent.  In every run, `Cleanup` is invoked only directly before the
failure `MigrationControl` of a run that returns the error it carries, so it is invoked
on no run that succeeds either. -/
theorem failure_skips_cleanup (E : Env) (s : migrationSourceWs) :
    (∀ err, s.storage.StoragePoolVolumeMount [Event.allConnected] = .error err →
      (s.DoStorage E []).ret = Ret.err err ∧
      (s.DoStorage E []).trace =
        [Event.allConnected, Event.StoragePoolVolumeMount (.error err)]) ∧
    (∀ pre d conn bwlimit post err,
      (s.DoStorage E []).trace = pre ++ Event.SendStorageVolume d conn bwlimit :: post →
      (∃ x ∈ post, x.driverFailure = some err) →
      (s.DoStorage E []).ret = Ret.err err ∧
      [Event.Cleanup d, Event.sendControl Side.src (some err)] <:+: post) ∧
    (∀ err, ((∃ side h, Event.send side h (some err) ∈ (s.DoStorage E []).trace) ∨
        Event.StorageMigrationSource (some err) ∈ (s.DoStorage E []).trace ∨
        ∃ side, Event.recvHeader side (.error err) ∈ (s.DoStorage E []).trace) →
      (s.DoStorage E []).ret = Ret.err err ∧
      Event.sendControl Side.src (some err) ∈ (s.DoStorage E []).trace ∧
      ∀ d, Event.Cleanup d ∉ (s.DoStorage E []).trace) ∧
    (∀ side err, Event.recvControl side (.error err) ∈ (s.DoStorage E []).trace →
      (s.DoStorage E []).ret = Ret.err err ∧
      (∀ d, Event.Cleanup d ∉ (s.DoStorage E []).trace) ∧
      ∀ side1 err1, Event.sendControl side1 err1 ∉ (s.DoStorage E []).trace) ∧
    (∀ side m, Event.recvControl side (.ok ⟨some false, some m⟩) ∈ (s.DoStorage E []).trace →
      (s.DoStorage E []).ret = Ret.err (E.Errorf m) ∧
      (∀ d, Event.Cleanup d ∉ (s.DoStorage E []).trace) ∧
      ∀ side1 err1, Event.sendControl side1 err1 ∉ (s.DoStorage E []).trace) ∧
    (∀ d, Event.Cleanup d ∈ (s.DoStorage E []).trace →
      ∃ err, (s.DoStorage E []).ret = Ret.err err ∧
        [Event.Cleanup d, Event.sendControl Side.src (some err)] <:+:
          (s.DoStorage E []).trace) := by
  refine ⟨?_, (source_failure_paths E s).2.1, ?_⟩
  · intro err h
    simp [migrationSourceWs.DoStorage, h]
  obtain ⟨ext, ret, ty, hrun, hshape⟩ := source_run_shape E s []
  rw [hrun]
  simp only [List.nil_append]
  cases hshape with
  | mountFailed e =>
    refine ⟨by simp, by simp, by simp, by simp⟩
  | mounted b ext ret ty hbody =>
    cases hbody with
    | sendFailed e =>
      refine ⟨?_, ?_, ?_, ?_⟩
      · intro err h
        cases b <;> simp at h <;> subst h <;> simp
      · cases b <;> simp
      · cases b <;> simp
      · cases b <;> simp
    | driverFailed e =>
      refine ⟨?_, ?_, ?_, ?_⟩
      · intro err h
        cases b <;> simp at h <;> subst h <;> simp
      · cases b <;> simp
      · cases b <;> simp
      · cases b <;> simp
    | recvFailed e =>
      refine ⟨?_, ?_, ?_, ?_⟩
      · intro err h
        cases b <;> simp at h <;> subst h <;> simp
      · cases b <;> simp
      · cases b <;> simp
      · cases b <;> simp
    | unsetFs =>
      refine ⟨?_, ?_, ?_, ?_⟩
      · intro err h
        cases b <;> simp at h
      · cases b <;> simp
      · cases b <;> simp
      · cases b <;> simp
    | payload fs pay tail r ret hsend hpay htail =>
      have hkind : ∀ x ∈ pay, x.isStorageLevel = true ∨ ∃ r, x = Event.backendSendReturned r :=
        fun x hx => Event.driverSend_kind (hpay x hx).1 (hpay x hx).2
      have hp1 : ∀ side h r, Event.send side h r ∉ pay := fun _ _ _ hm => by
        rcases hkind _ hm with h | ⟨_, h⟩ <;> simp [Event.isStorageLevel] at h
      have hp2 : ∀ r, Event.StorageMigrationSource r ∉ pay := fun _ hm => by
        rcases hkind _ hm with h | ⟨_, h⟩ <;> simp [Event.isStorageLevel] at h
      have hp3 : ∀ side r, Event.recvHeader side r ∉ pay := fun _ _ hm => by
        rcases hkind _ hm with h | ⟨_, h⟩ <;> simp [Event.isStorageLevel] at h
      have hp4 : ∀ side r, Event.recvControl side r ∉ pay := fun _ _ hm => by
        rcases hkind _ hm with h | ⟨_, h⟩ <;> simp [Event.isStorageLevel] at h
      have hp5 : ∀ side r, Event.sendControl side r ∉ pay := fun _ _ hm => by
        rcases hkind _ hm with h | ⟨_, h⟩ <;> simp [Event.isStorageLevel] at h
      have hp6 : ∀ d, Event.Cleanup d ∉ pay := fun _ hm => by
        rcases hkind _ hm with h | ⟨_, h⟩ <;> simp [Event.isStorageLevel] at h
      refine ⟨?_, ?_, ?_, ?_⟩
      · intro err h
        exfalso
        cases htail <;> cases b <;> simp [hp1, hp2, hp3] at h
      · intro side err h
        cases htail <;> cases b <;> simp [hp4, hp5, hp6] at h ⊢
        all_goals (obtain ⟨-, h2⟩ := h; subst h2; rfl)
      · intro side m h
        cases htail <;> cases b <;> simp [hp4, hp5, hp6] at h ⊢
        all_goals (obtain ⟨-, h2⟩ := h; subst h2; rfl)
      · intro d h
        cases htail with
        | aborted err =>
          have hd : d = sourceDriver s.storage.MigrationType fs := by
            cases b <;> simp [hp6] at h <;> exact h
          subst hd
          refine ⟨err, rfl, ?_⟩
          refine ⟨[Event.allConnected, Event.StoragePoolVolumeMount (.ok b),
            Event.send Side.src ⟨some s.storage.MigrationType⟩ none,
            Event.StorageMigrationSource none, Event.recvHeader Side.src (.ok ⟨some fs⟩),
            Event.SendStorageVolume (sourceDriver s.storage.MigrationType fs) Side.src
              (sourceBwlimit s.storage fs)] ++ pay,
            (if b then [Event.StoragePoolVolumeUmount] else []), by simp⟩
        | controlFailed err => cases b <;> simp [hp6] at h
        | control msg => cases b <;> simp [hp6] at h

/-- Claim C12 fails on a run whose peer reports the failure `boom` after a successful
send, which returns the error without `Cleanup` and without a `MigrationControl`, and on
a run whose mount fails, which returns having sent nothing. -/
theorem failure_skips_cleanup_witness :
    (((sampleSource MigrationFSType_BTRFS).DoStorage
        (sampleFailingPeerEnv MigrationFSType_BTRFS "boom") []).ret = Ret.err "boom" ∧
      (∀ d, Event.Cleanup d ∉ ((sampleSource MigrationFSType_BTRFS).DoStorage
        (sampleFailingPeerEnv MigrationFSType_BTRFS "boom") []).trace) ∧
      ∀ side err, Event.sendControl side err ∉ ((sampleSource MigrationFSType_BTRFS).DoStorage
        (sampleFailingPeerEnv MigrationFSType_BTRFS "boom") []).trace) ∧
    (((sampleUnmountableSource MigrationFSType_BTRFS "no such volume").DoStorage
        (sampleEnv MigrationFSType_BTRFS) []).ret = Ret.err "no such volume" ∧
      ((sampleUnmountableSource MigrationFSType_BTRFS "no such volume").DoStorage
        (sampleEnv MigrationFSType_BTRFS) []).trace =
        [Event.allConnected, Event.StoragePoolVolumeMount (.error "no such volume")]) :=
  ⟨(failure_skips_cleanup (sampleFailingPeerEnv MigrationFSType_BTRFS "boom")
      (sampleSource MigrationFSType_BTRFS)).2.2.2.2.1 Side.src "boom"
      (by
        have h : ((sampleSource MigrationFSType_BTRFS).DoStorage
            (sampleFailingPeerEnv MigrationFSType_BTRFS "boom") []).trace
            = [Event.allConnected, Event.StoragePoolVolumeMount (.ok true),
               Event.send Side.src ⟨some MigrationFSType_BTRFS⟩ none,
               Event.StorageMigrationSource none,
               Event.recvHeader Side.src (.ok ⟨some MigrationFSType_BTRFS⟩),
               Event.SendStorageVolume DriverKind.backend Side.src "",
               Event.backendSendReturned none,
               Event.recvControl Side.src (.ok ⟨some false, some "boom"⟩),
               Event.StoragePoolVolumeUmount] := rfl
        rw [h]; simp),
   (failure_skips_cleanup (sampleEnv MigrationFSType_BTRFS)
      (sampleUnmountableSource MigrationFSType_BTRFS "no such volume")).1 "no such volume" rfl⟩

/-- A run of lines 207-252 of `migrationSink.DoStorage` that returns nil ends with the
success control message, sent right after the selected sink function returned nil. -/
theorem sink_exchange_nil (E : Env) (c : migrationSink) (t : Trace) :
    ∃ ext ret ty, c.DoStorage_exchange E t = ⟨t ++ ext, ret, ty⟩ ∧
      (ret = Ret.nil → ∃ pre, ext = pre ++ [Event.sendControl c.side none] ∧
        ((∃ t2, t ++ pre = t2 ++ [Event.StorageMigrationSink c.side none]) ∨
          ∃ t2, rsyncStorageMigrationSink E c.side c.dest.storage
            (t2 ++ [Event.rsyncStorageMigrationSink c.side]) = (t ++ pre, Ret.nil))) := by
  unfold migrationSink.DoStorage_exchange
  dsimp only
  cases E.recvHeader t c.side with
  | error e =>
    simp only [List.append_assoc]
    exact ⟨_, _, _, rfl, by simp⟩
  | ok header =>
    obtain ⟨fs⟩ := header
    cases fs with
    | none => exact ⟨_, _, _, rfl, by simp⟩
    | some fs =>
      dsimp only
      by_cases hfs : fs = c.src.storage.MigrationType
      · subst hfs
        simp only [ne_eq, not_true_eq_false, decide_False, Bool.false_eq_true, if_false]
        cases E.send (t ++ [Event.recvHeader c.side (.ok ⟨some c.src.storage.MigrationType⟩)])
            c.side ⟨some c.src.storage.MigrationType⟩ with
        | some e =>
          simp only [List.append_assoc]
          exact ⟨_, _, _, rfl, by simp⟩
        | none =>
          dsimp only
          cases hr : c.src.storage.StorageMigrationSink
              (t ++ [Event.recvHeader c.side (.ok ⟨some c.src.storage.MigrationType⟩)] ++
                [Event.send c.side ⟨some c.src.storage.MigrationType⟩ none]) c.side with
          | none =>
            simp only [Ret.ofErr, List.append_assoc]
            refine ⟨_, _, _, rfl, fun _ =>
              ⟨[Event.recvHeader c.side (.ok ⟨some c.src.storage.MigrationType⟩),
                Event.send c.side ⟨some c.src.storage.MigrationType⟩ none,
                Event.StorageMigrationSink c.side none], by simp, Or.inl
                ⟨t ++ [Event.recvHeader c.side (.ok ⟨some c.src.storage.MigrationType⟩),
                  Event.send c.side ⟨some c.src.storage.MigrationType⟩ none], by simp⟩⟩⟩
          | some e =>
            simp only [Ret.ofErr, List.append_assoc]
            exact ⟨_, _, _, rfl, by simp⟩
      · simp only [ne_eq, hfs, not_false_eq_true, decide_True, if_true]
        cases E.send (t ++ [Event.recvHeader c.side (.ok ⟨some fs⟩)])
            c.side ⟨some MigrationFSType_RSYNC⟩ with
        | some e =>
          simp only [List.append_assoc]
          exact ⟨_, _, _, rfl, by simp⟩
        | none =>
          dsimp only
          obtain ⟨ext, r, hrun, -⟩ := rsyncStorageMigrationSink_ext E c.side c.dest.storage
            (t ++ [Event.recvHeader c.side (.ok ⟨some fs⟩)] ++
              [Event.send c.side ⟨some MigrationFSType_RSYNC⟩ none] ++
              [Event.rsyncStorageMigrationSink c.side])
          rw [hrun]
          cases r with
          | none =>
            simp only [Ret.ofErr, List.append_assoc]
            refine ⟨_, _, _, rfl, fun _ =>
              ⟨Event.recvHeader c.side (.ok ⟨some fs⟩) ::
                Event.send c.side ⟨some MigrationFSType_RSYNC⟩ none ::
                Event.rsyncStorageMigrationSink c.side :: ext, by simp, Or.inr
                ⟨t ++ [Event.recvHeader c.side (.ok ⟨some fs⟩)] ++
                  [Event.send c.side ⟨some MigrationFSType_RSYNC⟩ none], ?_⟩⟩⟩
            rw [hrun]
            simp [Ret.ofErr]
          | some e =>
            simp only [Ret.ofErr, List.append_assoc]
            exact ⟨_, _, _, rfl, by simp⟩

/-- A run of `migrationSink.DoStorage` that returns nil ends with the success control
message and the deferred disconnect, right after the selected sink function returned
nil. -/
theorem sink_run_nil (E : Env) (c : migrationSink)
    (h : (c.DoStorage E []).ret = Ret.nil) :
    ∃ pre, (c.DoStorage E []).trace
        = pre ++ [Event.sendControl c.side none, Event.disconnect c.side] ∧
      ((∃ t2, pre = t2 ++ [Event.StorageMigrationSink c.side none]) ∨
        ∃ t2, rsyncStorageMigrationSink E c.side c.dest.storage
          (t2 ++ [Event.rsyncStorageMigrationSink c.side]) = (pre, Ret.nil)) := by
  unfold migrationSink.DoStorage at h ⊢
  cases hp : c.push with
  | true =>
    have hside : c.side = Side.dest := by simp [migrationSink.side, hp]
    obtain ⟨ext, ret, ty, hrun, hnil⟩ := sink_exchange_nil E c ([] ++ [Event.allConnected])
    rw [hp] at h
    simp only [if_true, hrun] at h ⊢
    obtain ⟨pre, hext, hsink⟩ := hnil h
    subst hext
    rw [hside] at hsink ⊢
    exact ⟨[] ++ [Event.allConnected] ++ pre, by simp, hsink⟩
  | false =>
    have hside : c.side = Side.src := by simp [migrationSink.side, hp]
    rw [hp] at h
    simp only [Bool.false_eq_true, if_false] at h ⊢
    cases hc : E.connectWithSecret [] c.src.controlSecret with
    | some e => rw [hc] at h; simp at h
    | none =>
      rw [hc] at h
      dsimp only at h ⊢
      cases hf : E.connectWithSecret ([] ++ [Event.connectWithSecret c.src.controlSecret none])
          c.src.fsSecret with
      | some e => rw [hf] at h; simp at h
      | none =>
        rw [hf] at h
        dsimp only at h ⊢
        obtain ⟨ext, ret, ty, hrun, hnil⟩ := sink_exchange_nil E c
          ([] ++ [Event.connectWithSecret c.src.controlSecret none] ++
            [Event.connectWithSecret c.src.fsSecret none])
        rw [hrun] at h ⊢
        obtain ⟨pre, hext, hsink⟩ := hnil h
        subst hext
        rw [hside] at hsink ⊢
        exact ⟨[] ++ [Event.connectWithSecret c.src.controlSecret none] ++
          [Event.connectWithSecret c.src.fsSecret none] ++ pre, by simp, hsink⟩

/-- Claim C13, as stated, fails: in pull mode, when the connection of the control socket
fails, `migrationSink.DoStorage` returns that error without having sent any
`MigrationControl`. -/
theorem sink_connect_failure_sends_no_control :
    ((sampleSink MigrationFSType_ZFS false).DoStorage
        (sampleRefusingEnv MigrationFSType_ZFS "refused") []).ret = Ret.err "refused" ∧
    ∀ side err, Event.sendControl side err ∉
      ((sampleSink MigrationFSType_ZFS false).DoStorage
        (sampleRefusingEnv MigrationFSType_ZFS "refused") []).trace := by
  have h : (sampleSink MigrationFSType_ZFS false).DoStorage
      (sampleRefusingEnv MigrationFSType_ZFS "refused") []
      = ⟨[Event.connectWithSecret "control-secret" (some "refused")], Ret.err "refused", none⟩ :=
    rfl
  rw [h]
  simp

/-- Claim C13, amended: every `MigrationControl` that `migrationSink.DoStorage` sends
carries exactly the outcome it returns (so a success message is sent only on a run that
returns nil); a run that returns nil ends with the success message followed by the
deferred disconnect, and the success message directly follows the return, with nil, of
the sink function that was selected (the back-end one or the rsync one); and a run that
returns an error has sent a failure message carrying it, except that in pull mode a
failed connection of the control socket returns the error with nothing sent. -/
theorem sink_control_message (E : Env) (c : migrationSink) :
    (∀ side err, Event.sendControl side err ∈ (c.DoStorage E []).trace →
      (c.DoStorage E []).ret = Ret.ofErr err) ∧
    ((c.DoStorage E []).ret = Ret.nil →
      ∃ pre, (c.DoStorage E []).trace
          = pre ++ [Event.sendControl c.side none, Event.disconnect c.side] ∧
        ((∃ t2, pre = t2 ++ [Event.StorageMigrationSink c.side none]) ∨
          ∃ t2, rsyncStorageMigrationSink E c.side c.dest.storage
            (t2 ++ [Event.rsyncStorageMigrationSink c.side]) = (pre, Ret.nil))) ∧
    (∀ err, (c.DoStorage E []).ret = Ret.err err →
      Event.sendControl c.side (some err) ∈ (c.DoStorage E []).trace ∨
      (c.push = false ∧
        (c.DoStorage E []).trace = [Event.connectWithSecret c.src.controlSecret (some err)])) := by
  refine ⟨?_, sink_run_nil E c, ?_⟩
  · obtain ⟨ext, ret, ty, hrun, hshape⟩ := sink_run_shape E c []
    rw [hrun]
    intro side err hm
    simp only [List.nil_append] at hm ⊢
    cases hshape with
    | controlFailed e hp => simp at hm
    | fsFailed e hp =>
      simp only [List.mem_cons, reduceCtorEq, false_or, List.mem_singleton, or_false,
        Event.sendControl.injEq, List.not_mem_nil] at hm
      obtain ⟨-, rfl⟩ := hm
      rfl
    | push ext1 _ _ hp hx =>
      cases hx with
      | recvFailed e => simp at hm; obtain ⟨-, rfl⟩ := hm; rfl
      | unsetFs => simp at hm
      | sendFailed fs e => simp at hm; obtain ⟨-, rfl⟩ := hm; rfl
      | native r => simp at hm; obtain ⟨-, rfl⟩ := hm; rfl
      | rsync fs ext2 r hne hlevel =>
        simp at hm
        rcases hm with hm | hm
        · have := hlevel _ hm
          simp [Event.isStorageLevel] at this
        · obtain ⟨-, rfl⟩ := hm; rfl
    | pull ext1 _ _ hp hx =>
      cases hx with
      | recvFailed e => simp at hm; obtain ⟨-, rfl⟩ := hm; rfl
      | unsetFs => simp at hm
      | sendFailed fs e => simp at hm; obtain ⟨-, rfl⟩ := hm; rfl
      | native r => simp at hm; obtain ⟨-, rfl⟩ := hm; rfl
      | rsync fs ext2 r hne hlevel =>
        simp at hm
        rcases hm with hm | hm
        · have := hlevel _ hm
          simp [Event.isStorageLevel] at this
        · obtain ⟨-, rfl⟩ := hm; rfl
  · obtain ⟨ext, ret, ty, hrun, hshape⟩ := sink_run_shape E c []
    rw [hrun]
    intro err hret
    simp only [List.nil_append] at hret ⊢
    cases hshape with
    | controlFailed e hp =>
      simp only [Ret.err.injEq] at hret
      subst hret
      exact Or.inr ⟨hp, rfl⟩
    | fsFailed e hp =>
      simp only [Ret.err.injEq] at hret
      subst hret
      have hside : c.side = Side.src := by simp [migrationSink.side, hp]
      rw [hside]
      exact Or.inl (by simp)
    | push ext1 _ _ hp hx =>
      have hside : c.side = Side.dest := by simp [migrationSink.side, hp]
      rw [hside]
      refine Or.inl ?_
      cases hx with
      | recvFailed e => simp only [Ret.err.injEq] at hret; subst hret; simp
      | unsetFs => simp at hret
      | sendFailed fs e => simp only [Ret.err.injEq] at hret; subst hret; simp
      | native r =>
        cases r with
        | none => simp [Ret.ofErr] at hret
        | some e => simp only [Ret.ofErr, Ret.err.injEq] at hret; subst hret; simp
      | rsync fs ext2 r hne hlevel =>
        cases r with
        | none => simp [Ret.ofErr] at hret
        | some e => simp only [Ret.ofErr, Ret.err.injEq] at hret; subst hret; simp
    | pull ext1 _ _ hp hx =>
      have hside : c.side = Side.src := by simp [migrationSink.side, hp]
      rw [hside]
      refine Or.inl ?_
      cases hx with
      | recvFailed e => simp only [Ret.err.injEq] at hret; subst hret; simp
      | unsetFs => simp at hret
      | sendFailed fs e => simp only [Ret.err.injEq] at hret; subst hret; simp
      | native r =>
        cases r with
        | none => simp [Ret.ofErr] at hret
        | some e => simp only [Ret.ofErr, Ret.err.injEq] at hret; subst hret; simp
      | rsync fs ext2 r hne hlevel =>
        cases r with
        | none => simp [Ret.ofErr] at hret
        | some e => simp only [Ret.ofErr, Ret.err.injEq] at hret; subst hret; simp

/-- Claim C13, amended, holds with its premise met on a pull-mode run that succeeds
through the rsync sink. -/
theorem sink_control_message_witness :
    ∃ pre, ((sampleSink MigrationFSType_ZFS false).DoStorage
        (sampleEnv MigrationFSType_BTRFS) []).trace
      = pre ++ [Event.sendControl Side.src none, Event.disconnect Side.src] :=
  let ⟨pre, h, _⟩ := (sink_control_message (sampleEnv MigrationFSType_BTRFS)
    (sampleSink MigrationFSType_ZFS false)).2.1 rfl
  ⟨pre, h⟩

/-- Claim C14, as stated, fails: a source whose own type is RSYNC and whose pool sets
`rsync.bwlimit` to 100, answered with RSYNC, negotiates the type RSYNC and yet passes the
empty bandwidth limit to the driver. -/
theorem native_rsync_ignores_bwlimit :
    ((sampleLimitedSource MigrationFSType_RSYNC "100").DoStorage
        (sampleEnv MigrationFSType_RSYNC) []).fsType = some MigrationFSType_RSYNC ∧
    ((sampleLimitedSource MigrationFSType_RSYNC "100").DoStorage
        (sampleEnv MigrationFSType_RSYNC) []).ret = Ret.nil ∧
    (∀ config, (sampleLimitedSource MigrationFSType_RSYNC "100").storage.poolWritableConfig
        = some config → config.index "rsync.bwlimit" = "100") ∧
    ∀ d conn bwlimit, Event.SendStorageVolume d conn bwlimit ∈
      ((sampleLimitedSource MigrationFSType_RSYNC "100").DoStorage
        (sampleEnv MigrationFSType_RSYNC) []).trace → bwlimit = "" := by
  have h : (sampleLimitedSource MigrationFSType_RSYNC "100").DoStorage
      (sampleEnv MigrationFSType_RSYNC) []
      = ⟨[Event.allConnected, Event.StoragePoolVolumeMount (.ok true),
          Event.send Side.src ⟨some MigrationFSType_RSYNC⟩ none,
          Event.StorageMigrationSource none,
          Event.recvHeader Side.src (.ok ⟨some MigrationFSType_RSYNC⟩),
          Event.SendStorageVolume DriverKind.backend Side.src "",
          Event.backendSendReturned none,
          Event.recvControl Side.src (.ok ⟨some true, none⟩),
          Event.StoragePoolVolumeUmount], Ret.nil, some MigrationFSType_RSYNC⟩ := rfl
  rw [h]
  refine ⟨rfl, rfl, ?_, ?_⟩
  · intro config hc
    simp only [sampleLimitedSource, sampleLimitedStorage, Option.some.injEq] at hc
    subst hc
    rfl
  · intro d conn bwlimit hm
    simp at hm
    exact hm.2.2

/-- Claim C14, amended: in `migrationSourceWs.DoStorage`, once the reply header with type
`fs` was received, the driver's `SendStorageVolume` is invoked once, and the bandwidth
limit passed to it is the value of the pool configuration key `rsync.bwlimit` (the empty
string when the key is absent or the pool has no configuration map) when `fs` differs
from the source's own type, and the empty string when `fs` is the source's own type,
also when that type is RSYNC. -/
theorem source_bwlimit (E : Env) (s : migrationSourceWs) (fs : MigrationFSType)
    (hrecv : Event.recvHeader Side.src (.ok ⟨some fs⟩) ∈ (s.DoStorage E []).trace) :
    (∃ d, Event.SendStorageVolume d Side.src
      (if fs ≠ s.storage.MigrationType then
        (match s.storage.poolWritableConfig with
          | some config => (config "rsync.bwlimit").getD ""
          | none => "")
       else "") ∈ (s.DoStorage E []).trace) ∧
    ∀ d conn bwlimit, Event.SendStorageVolume d conn bwlimit ∈ (s.DoStorage E []).trace →
      bwlimit = if fs ≠ s.storage.MigrationType then
        (match s.storage.poolWritableConfig with
          | some config => (config "rsync.bwlimit").getD ""
          | none => "")
       else "" := by
  have hb : (if fs ≠ s.storage.MigrationType then
        (match s.storage.poolWritableConfig with
          | some config => (config "rsync.bwlimit").getD ""
          | none => "")
       else "") = sourceBwlimit s.storage fs := by
    unfold sourceBwlimit migrationSourceWs.rsyncBwlimit
    split
    · cases s.storage.poolWritableConfig <;> rfl
    · rfl
  rw [hb]
  obtain ⟨ext, ret, ty, hrun, hshape⟩ := source_run_shape E s []
  rw [hrun] at hrecv ⊢
  simp only [List.nil_append] at hrecv ⊢
  cases hshape with
  | mountFailed e => simp at hrecv
  | mounted ourMount ext1 _ _ hbody =>
    cases hbody with
    | sendFailed e => cases ourMount <;> simp at hrecv
    | driverFailed e => cases ourMount <;> simp at hrecv
    | recvFailed e => cases ourMount <;> simp at hrecv
    | unsetFs => cases ourMount <;> simp at hrecv
    | payload fs1 pay tail r _ hsend hpay htail =>
      have hfs : fs1 = fs := by
        have hno : Event.recvHeader Side.src (.ok ⟨some fs⟩) ∉ pay := by
          intro hm
          obtain ⟨hd, hn⟩ := hpay _ hm
          simp [Event.isDriverSend, Event.isStorageLevel] at hd
        have hnt : Event.recvHeader Side.src (.ok ⟨some fs⟩) ∉ tail := by
          intro hm
          cases htail <;> simp at hm
        cases ourMount <;>
          simp only [List.mem_cons, reduceCtorEq, false_or, List.mem_append, hno, hnt,
            Event.recvHeader.injEq, Except.ok.injEq, MigrationHeader.mk.injEq,
            Option.some.injEq, true_and, or_false, List.mem_singleton, if_true,
            Bool.false_eq_true, if_false, List.not_mem_nil, List.append_nil] at hrecv
        · exact hrecv.symm
        · exact hrecv.symm
      subst hfs
      refine ⟨⟨sourceDriver s.storage.MigrationType fs1, by simp⟩, ?_⟩
      intro d conn bwlimit hm
      have hno : Event.SendStorageVolume d conn bwlimit ∉ pay := by
        intro hm
        exact (hpay _ hm).2 d conn bwlimit rfl
      have hnt : Event.SendStorageVolume d conn bwlimit ∉ tail := by
        intro hm
        cases htail <;> simp at hm
      cases ourMount <;>
        simp only [List.mem_cons, reduceCtorEq, false_or, List.mem_append, hno, hnt,
          Event.SendStorageVolume.injEq, or_false, List.mem_singleton, if_true,
          Bool.false_eq_true, if_false, List.not_mem_nil, List.append_nil] at hm
      · exact hm.2.2
      · exact hm.2.2

/-- Claim C14, amended, holds with its premise met on a run that falls back to rsync
under a pool that sets `rsync.bwlimit`. -/
theorem source_bwlimit_witness :
    ∃ d, Event.SendStorageVolume d Side.src "100" ∈
      ((sampleLimitedSource MigrationFSType_BTRFS "100").DoStorage
        (sampleEnv MigrationFSType_ZFS) []).trace :=
  (source_bwlimit (sampleEnv MigrationFSType_ZFS) (sampleLimitedSource MigrationFSType_BTRFS "100")
    MigrationFSType_ZFS
    (by
      have h : ((sampleLimitedSource MigrationFSType_BTRFS "100").DoStorage
          (sampleEnv MigrationFSType_ZFS) []).trace
          = [Event.allConnected, Event.StoragePoolVolumeMount (.ok true),
             Event.send Side.src ⟨some MigrationFSType_BTRFS⟩ none,
             Event.StorageMigrationSource none,
             Event.recvHeader Side.src (.ok ⟨some MigrationFSType_ZFS⟩),
             Event.SendStorageVolume DriverKind.rsync Side.src "100",
             Event.StoragePoolVolumeMount (.ok true),
             Event.RsyncSend "vol1" "/var/lib/lxd/storage-pools/default/custom/vol1/" Side.src
               (some "vol1") "100" "/usr/bin/lxd" none,
             Event.StoragePoolVolumeUmount,
             Event.recvControl Side.src (.ok ⟨some true, none⟩),
             Event.StoragePoolVolumeUmount] := rfl
      rw [h]; simp)).1

/-- Claim C15, as stated, fails: a push-mode sink of type ZFS that receives a header
with `Fs` unset does not reply RSYNC and does not use the rsync sink: it panics right
after the receive, and only the deferred disconnect follows; and a source of type ZFS
that receives such a reply does not switch to the rsync driver: it panics right after
the receive, and only the deferred unmount follows. -/
theorem unset_fs_gets_no_reply :
    ((sampleSink MigrationFSType_ZFS true).DoStorage sampleUnsetEnv []).ret = Ret.panic ∧
    ((sampleSink MigrationFSType_ZFS true).DoStorage sampleUnsetEnv []).trace =
      [Event.allConnected, Event.recvHeader Side.dest (.ok ⟨none⟩),
        Event.disconnect Side.dest] ∧
    ((sampleSource MigrationFSType_ZFS).DoStorage sampleUnsetEnv []).ret = Ret.panic ∧
    ((sampleSource MigrationFSType_ZFS).DoStorage sampleUnsetEnv []).trace =
      [Event.allConnected, Event.StoragePoolVolumeMount (.ok true),
        Event.send Side.src ⟨some MigrationFSType_ZFS⟩ none,
        Event.StorageMigrationSource none,
        Event.recvHeader Side.src (.ok ⟨none⟩),
        Event.StoragePoolVolumeUmount] :=
  ⟨rfl, rfl, rfl, rfl⟩

/-- Claim C15, amended: neither endpoint treats an unset type as RSYNC.  Every header
that `migrationSink.DoStorage` sends answers a received header whose `Fs` is set, and
carries the sink's own type if that is the received one and RSYNC otherwise; every
header that `migrationSourceWs.DoStorage` sends carries the source's own type.  The
type of a received header is read by the dereference `*header.Fs`, without a nil check:
a run of `migrationSink.DoStorage` that receives a header with `Fs` unset stops with a
panic, before any reply header is sent and before any sink function is invoked, and a
run of `migrationSourceWs.DoStorage` that receives one stops with a panic before any
driver sends. -/
theorem unset_fs_panics (E : Env) (c : migrationSink) (s : migrationSourceWs) :
    (∀ side h r, Event.send side h r ∈ (c.DoStorage E []).trace →
      ∃ fs, Event.recvHeader side (.ok ⟨some fs⟩) ∈ (c.DoStorage E []).trace ∧
        h.Fs = some (negotiatedType c.src.storage.MigrationType fs)) ∧
    (∀ side h r, Event.send side h r ∈ (s.DoStorage E []).trace →
      h.Fs = some s.storage.MigrationType) ∧
    ((∃ side, Event.recvHeader side (.ok ⟨none⟩) ∈ (c.DoStorage E []).trace) →
      (c.DoStorage E []).ret = Ret.panic ∧
      ∀ e ∈ (c.DoStorage E []).trace, e.isHeaderSend = false ∧ e.isPayload = false) ∧
    ((∃ side, Event.recvHeader side (.ok ⟨none⟩) ∈ (s.DoStorage E []).trace) →
      (s.DoStorage E []).ret = Ret.panic ∧
      ∀ e ∈ (s.DoStorage E []).trace, e.isPayload = false) := by
  refine ⟨?_, ?_, ?_, ?_⟩
  · obtain ⟨ext, ret, ty, hrun, hshape⟩ := sink_run_shape E c []
    rw [hrun]
    simp only [List.nil_append]
    intro side h r hm
    cases hshape with
    | controlFailed e hp => simp at hm
    | fsFailed e hp => simp at hm
    | push ext1 _ _ hp hx =>
      cases hx with
      | recvFailed e => simp at hm
      | unsetFs => simp at hm
      | sendFailed fs e =>
        simp at hm
        obtain ⟨rfl, rfl, rfl⟩ := hm
        exact ⟨fs, by simp, rfl⟩
      | native r =>
        simp at hm
        obtain ⟨rfl, rfl, rfl⟩ := hm
        exact ⟨c.src.storage.MigrationType, by simp, by simp [negotiatedType]⟩
      | rsync fs ext2 r hne hlevel =>
        simp at hm
        rcases hm with ⟨rfl, rfl, rfl⟩ | hm
        · exact ⟨fs, by simp, by simp [negotiatedType, hne]⟩
        · have := hlevel _ hm
          simp [Event.isStorageLevel] at this
    | pull ext1 _ _ hp hx =>
      cases hx with
      | recvFailed e => simp at hm
      | unsetFs => simp at hm
      | sendFailed fs e =>
        simp at hm
        obtain ⟨rfl, rfl, rfl⟩ := hm
        exact ⟨fs, by simp, rfl⟩
      | native r =>
        simp at hm
        obtain ⟨rfl, rfl, rfl⟩ := hm
        exact ⟨c.src.storage.MigrationType, by simp, by simp [negotiatedType]⟩
      | rsync fs ext2 r hne hlevel =>
        simp at hm
        rcases hm with ⟨rfl, rfl, rfl⟩ | hm
        · exact ⟨fs, by simp, by simp [negotiatedType, hne]⟩
        · have := hlevel _ hm
          simp [Event.isStorageLevel] at this
  · obtain ⟨ext, ret, ty, hrun, hshape⟩ := source_run_shape E s []
    rw [hrun]
    simp only [List.nil_append]
    intro side h r hm
    cases hshape with
    | mountFailed e => simp at hm
    | mounted ourMount ext1 _ _ hbody =>
      cases hbody with
      | sendFailed e => cases ourMount <;> simp at hm <;> simp [hm]
      | driverFailed e => cases ourMount <;> simp at hm <;> simp [hm]
      | recvFailed e => cases ourMount <;> simp at hm <;> simp [hm]
      | unsetFs => cases ourMount <;> simp at hm <;> simp [hm]
      | payload fs1 pay tail r0 _ hsend hpay htail =>
        have hno : Event.send side h r ∉ pay := by
          intro hm
          obtain ⟨hd, hn⟩ := hpay _ hm
          simp [Event.isDriverSend, Event.isStorageLevel] at hd
        have hnt : Event.send side h r ∉ tail := by
          intro hm
          cases htail <;> simp at hm
        cases ourMount <;> simp [hno, hnt] at hm <;> simp [hm]
  · obtain ⟨ext, ret, ty, hrun, hshape⟩ := sink_run_shape E c []
    rw [hrun]
    simp only [List.nil_append]
    rintro ⟨side, hm⟩
    cases hshape with
    | controlFailed e hp => simp at hm
    | fsFailed e hp => simp at hm
    | push ext1 _ _ hp hx =>
      cases hx with
      | recvFailed e => simp at hm
      | unsetFs => simp [Event.isHeaderSend, Event.isPayload]
      | sendFailed fs e => simp at hm
      | native r => simp at hm
      | rsync fs ext2 r hne hlevel =>
        simp at hm
        have := hlevel _ hm
        simp [Event.isStorageLevel] at this
    | pull ext1 _ _ hp hx =>
      cases hx with
      | recvFailed e => simp at hm
      | unsetFs => simp [Event.isHeaderSend, Event.isPayload]
      | sendFailed fs e => simp at hm
      | native r => simp at hm
      | rsync fs ext2 r hne hlevel =>
        simp at hm
        have := hlevel _ hm
        simp [Event.isStorageLevel] at this
  · obtain ⟨ext, ret, ty, hrun, hshape⟩ := source_run_shape E s []
    rw [hrun]
    simp only [List.nil_append]
    rintro ⟨side, hm⟩
    cases hshape with
    | mountFailed e => simp at hm
    | mounted ourMount ext1 _ _ hbody =>
      cases hbody with
      | sendFailed e => cases ourMount <;> simp at hm
      | driverFailed e => cases ourMount <;> simp at hm
      | recvFailed e => cases ourMount <;> simp at hm
      | unsetFs => cases ourMount <;> simp [Event.isPayload]
      | payload fs1 pay tail r _ hsend hpay htail =>
        exfalso
        have hno : Event.recvHeader side (.ok ⟨none⟩) ∉ pay := by
          intro hm
          obtain ⟨hd, hn⟩ := hpay _ hm
          simp [Event.isDriverSend, Event.isStorageLevel] at hd
        have hnt : Event.recvHeader side (.ok ⟨none⟩) ∉ tail := by
          intro hm
          cases htail <;> simp at hm
        cases ourMount <;> simp [hno, hnt] at hm

/-- Claim C15, amended, holds with its premises met: on a push-mode sink and on a
source whose peer sends a header with `Fs` unset, and on a push-mode sink of type ZFS
that answers a BTRFS header with RSYNC. -/
theorem unset_fs_panics_witness :
    ((sampleSink MigrationFSType_ZFS true).DoStorage sampleUnsetEnv []).ret = Ret.panic ∧
    ((sampleSource MigrationFSType_ZFS).DoStorage sampleUnsetEnv []).ret = Ret.panic ∧
    (∃ fs, Event.recvHeader Side.dest (.ok ⟨some fs⟩) ∈
        ((sampleSink MigrationFSType_ZFS true).DoStorage
          (sampleEnv MigrationFSType_BTRFS) []).trace ∧
      some MigrationFSType_RSYNC = some (negotiatedType MigrationFSType_ZFS fs)) :=
  ⟨((unset_fs_panics sampleUnsetEnv (sampleSink MigrationFSType_ZFS true)
      (sampleSource MigrationFSType_ZFS)).2.2.1 ⟨Side.dest, by
        have h : ((sampleSink MigrationFSType_ZFS true).DoStorage sampleUnsetEnv []).trace
            = [Event.allConnected, Event.recvHeader Side.dest (.ok ⟨none⟩),
               Event.disconnect Side.dest] := rfl
        rw [h]; simp⟩).1,
   ((unset_fs_panics sampleUnsetEnv (sampleSink MigrationFSType_ZFS true)
      (sampleSource MigrationFSType_ZFS)).2.2.2 ⟨Side.src, by
        have h : ((sampleSource MigrationFSType_ZFS).DoStorage sampleUnsetEnv []).trace
            = [Event.allConnected, Event.StoragePoolVolumeMount (.ok true),
               Event.send Side.src ⟨some MigrationFSType_ZFS⟩ none,
               Event.StorageMigrationSource none,
               Event.recvHeader Side.src (.ok ⟨none⟩),
               Event.StoragePoolVolumeUmount] := rfl
        rw [h]; simp⟩).1,
   (unset_fs_panics (sampleEnv MigrationFSType_BTRFS) (sampleSink MigrationFSType_ZFS true)
      (sampleSource MigrationFSType_ZFS)).1 Side.dest ⟨some MigrationFSType_RSYNC⟩ none (by
        have h : ((sampleSink MigrationFSType_ZFS true).DoStorage
            (sampleEnv MigrationFSType_BTRFS) []).trace
            = Event.allConnected :: Event.recvHeader Side.dest (.ok ⟨some MigrationFSType_BTRFS⟩) ::
               Event.send Side.dest ⟨some MigrationFSType_RSYNC⟩ none ::
               (((sampleSink MigrationFSType_ZFS true).DoStorage
                  (sampleEnv MigrationFSType_BTRFS) []).trace.drop 3) := rfl
        rw [h]; simp)⟩

/-- Claim C16: for arguments with `Push` false, `NewStorageMigrationSink` returns a sink
if and only if `Secrets` holds both the key `control` and the key `fs`; without `control`
it fails with the error made from `Missing control secret`, otherwise without `fs` with
the one made from `Missing fs secret`; a returned sink has the two map values as its
source-side control and filesystem secrets; and the history is returned as it was given,
so the result is decided without any connection being attempted. -/
theorem new_sink_needs_both_secrets (E : Env) (rand1 rand2 : Except Error String)
    (args : MigrationSinkArgs) (t : Trace) (hpull : args.Push = false) :
    (NewStorageMigrationSink E rand1 rand2 args t).1 = t ∧
    ((∃ sink, (NewStorageMigrationSink E rand1 rand2 args t).2 = .ok sink) ↔
      (∃ c, args.Secrets "control" = some c) ∧ ∃ f, args.Secrets "fs" = some f) ∧
    (args.Secrets "control" = none →
      (NewStorageMigrationSink E rand1 rand2 args t).2
        = .error (E.Errorf "Missing control secret")) ∧
    (args.Secrets "control" ≠ none → args.Secrets "fs" = none →
      (NewStorageMigrationSink E rand1 rand2 args t).2
        = .error (E.Errorf "Missing fs secret")) ∧
    (∀ sink, (NewStorageMigrationSink E rand1 rand2 args t).2 = .ok sink →
      args.Secrets "control" = some sink.src.controlSecret ∧
      args.Secrets "fs" = some sink.src.fsSecret ∧
      sink.push = false ∧ sink.dest.controlSecret = "" ∧ sink.dest.fsSecret = "") := by
  unfold NewStorageMigrationSink
  simp only [hpull, Bool.false_eq_true, if_false]
  cases hc : args.Secrets "control" with
  | none => simp
  | some c =>
    cases hf : args.Secrets "fs" with
    | none => simp
    | some f =>
      simp only [Except.ok.injEq, exists_eq', Option.some.injEq, true_and, reduceCtorEq,
        false_implies, ne_eq, not_false_eq_true, implies_true, and_self, and_true]
      rintro sink rfl
      simp

/-- Claim C16 on arguments without secrets, and on arguments with both, in `sampleEnv`. -/
theorem new_sink_needs_both_secrets_witness :
    (sampleSinkArgs MigrationFSType_ZFS GoMap.empty).Push = false ∧
    (NewStorageMigrationSink (sampleEnv MigrationFSType_ZFS) (.ok "r1") (.ok "r2")
      (sampleSinkArgs MigrationFSType_ZFS GoMap.empty) []).2
      = .error "Missing control secret" ∧
    (NewStorageMigrationSink (sampleEnv MigrationFSType_ZFS) (.ok "r1") (.ok "r2")
      (sampleSinkArgs MigrationFSType_ZFS (GoMap.empty.set "control" "c0")) []).2
      = .error "Missing fs secret" ∧
    (NewStorageMigrationSink (sampleEnv MigrationFSType_ZFS) (.ok "r1") (.ok "r2")
      (sampleSinkArgs MigrationFSType_ZFS ((GoMap.empty.set "control" "c0").set "fs" "f0"))
      []).1 = [] :=
  ⟨rfl,
   (new_sink_needs_both_secrets (sampleEnv MigrationFSType_ZFS) (.ok "r1") (.ok "r2")
      (sampleSinkArgs MigrationFSType_ZFS GoMap.empty) [] rfl).2.2.1 rfl,
   (new_sink_needs_both_secrets (sampleEnv MigrationFSType_ZFS) (.ok "r1") (.ok "r2")
      (sampleSinkArgs MigrationFSType_ZFS (GoMap.empty.set "control" "c0")) [] rfl).2.2.2.1
      (by simp [sampleSinkArgs, GoMap.set]) (by simp [sampleSinkArgs, GoMap.set, GoMap.empty]),
   (new_sink_needs_both_secrets (sampleEnv MigrationFSType_ZFS) (.ok "r1") (.ok "r2")
      (sampleSinkArgs MigrationFSType_ZFS ((GoMap.empty.set "control" "c0").set "fs" "f0"))
      [] rfl).1⟩

/-- What `rsyncMigrationSink_rebind` changes: the `pool` property of the device under the
root disk key, and nothing else. -/
theorem rebind_frame (E : Env) (args : ContainerArgs) (pool : String) (a : ContainerArgs)
    (h : rsyncMigrationSink_rebind E args pool = some a) :
    ((E.GetRootDiskDevice args.Devices).1 ≠ "" →
      ∃ props dev, args.Devices (E.GetRootDiskDevice args.Devices).1 = some props ∧
        a.Devices (E.GetRootDiskDevice args.Devices).1 = some dev ∧
        dev "pool" = some pool ∧
        (∀ key, key ≠ "pool" → dev key = props key) ∧
        ∀ k, k ≠ (E.GetRootDiskDevice args.Devices).1 → a.Devices k = args.Devices k) ∧
    ((E.GetRootDiskDevice args.Devices).1 = "" → a.Devices = args.Devices) ∧
    a.Name = args.Name ∧ a.Ctype = args.Ctype ∧ a.Config = args.Config ∧
    a.Profiles = args.Profiles ∧ a.Ephemeral = args.Ephemeral ∧
    a.Architecture = args.Architecture ∧ a.Stateful = args.Stateful ∧
    a.CreationDate = args.CreationDate ∧ a.LastUsedDate = args.LastUsedDate := by
  unfold rsyncMigrationSink_rebind at h
  dsimp only at h
  by_cases hk : (E.GetRootDiskDevice args.Devices).1 = ""
  · simp only [hk, ne_eq, not_true_eq_false, if_false, Option.some.injEq] at h
    subst h
    simp [hk]
  · simp only [ne_eq, hk, not_false_eq_true, if_true] at h
    cases hd : args.Devices (E.GetRootDiskDevice args.Devices).1 with
    | none => rw [hd] at h; cases h
    | some props =>
      rw [hd] at h
      simp only [Option.some.injEq] at h
      subst h
      refine ⟨fun _ => ⟨props, props.set "pool" pool, rfl, by simp [GoMap.set], by simp [GoMap.set],
        fun key hkey => by simp [GoMap.set, hkey], fun k hne => by simp [GoMap.set, hne]⟩,
        fun h0 => absurd h0 hk, rfl, rfl, rfl, rfl, rfl, rfl, rfl, rfl, rfl⟩

/-- The directory loop creates snapshots for an initial segment of the incoming
snapshots, in order, each with the rebound metadata of its snapshot. -/
theorem dirLoop_created (E : Env) (c : container) (conn : Side) (pool : String) :
    ∀ (snaps : List Snapshot) (t : Trace),
      ∃ ext done, (rsyncMigrationSink_dirLoop E c conn pool snaps t).1 = t ++ ext ∧
        done <+: snaps ∧
        List.Forall₂ (fun a snap =>
          rsyncMigrationSink_rebind E (snapshotProtobufToContainerArgs E c.Name snap) pool
            = some a) (createdSnapshots ext) done := by
  intro snaps
  induction snaps with
  | nil =>
    intro t
    exact ⟨[], [], by simp [rsyncMigrationSink_dirLoop], List.nil_prefix,
      by simp [createdSnapshots]⟩
  | cons snap rest ih =>
    intro t
    unfold rsyncMigrationSink_dirLoop
    cases hr : rsyncMigrationSink_rebind E (snapshotProtobufToContainerArgs E c.Name snap) pool with
    | none => exact ⟨[], [], by simp, List.nil_prefix, by simp [createdSnapshots]⟩
    | some args =>
      have hone : [snap] <+: snap :: rest := ⟨rest, rfl⟩
      dsimp only
      cases hc : E.containerCreateEmptySnapshot t args with
      | error err =>
        exact ⟨[Event.containerCreateEmptySnapshot args (.error err)], [snap], rfl, hone,
          by simp [createdSnapshots, hr]⟩
      | ok s =>
        dsimp only
        cases hv : E.RsyncRecv (t ++ [Event.containerCreateEmptySnapshot args (.ok (s.Name, s.Path))])
            (E.AddSlash s.Path) conn s.Name with
        | some err =>
          exact ⟨[Event.containerCreateEmptySnapshot args (.ok (s.Name, s.Path)),
            Event.RsyncRecv (E.AddSlash s.Path) conn s.Name (some err)], [snap], by simp, hone,
            by simp [createdSnapshots, hr]⟩
        | none =>
          dsimp only
          cases hs : E.ShiftIfNecessary
              (t ++ [Event.containerCreateEmptySnapshot args (.ok (s.Name, s.Path))] ++
                [Event.RsyncRecv (E.AddSlash s.Path) conn s.Name none]) c.Name with
          | some err =>
            exact ⟨[Event.containerCreateEmptySnapshot args (.ok (s.Name, s.Path)),
              Event.RsyncRecv (E.AddSlash s.Path) conn s.Name none,
              Event.ShiftIfNecessary c.Name (some err)], [snap], by simp, hone,
              by simp [createdSnapshots, hr]⟩
          | none =>
            dsimp only
            obtain ⟨ext, done, hrun, hpre, hall⟩ := ih
              (t ++ [Event.containerCreateEmptySnapshot args (.ok (s.Name, s.Path))] ++
                [Event.RsyncRecv (E.AddSlash s.Path) conn s.Name none] ++
                [Event.ShiftIfNecessary c.Name none])
            refine ⟨Event.containerCreateEmptySnapshot args (.ok (s.Name, s.Path)) ::
              Event.RsyncRecv (E.AddSlash s.Path) conn s.Name none ::
              Event.ShiftIfNecessary c.Name none :: ext, snap :: done, by rw [hrun]; simp,
              (List.prefix_cons_inj snap).mpr hpre, ?_⟩
            simp only [createdSnapshots, List.filterMap_cons]
            exact List.Forall₂.cons hr hall

/-- The loop of the other back-ends creates snapshots for an initial segment of the
incoming snapshots, in order, each with the rebound metadata of its snapshot. -/
theorem snapLoop_created (E : Env) (c : container) (conn : Side) (pool : String) :
    ∀ (snaps : List Snapshot) (t : Trace),
      ∃ ext done, (rsyncMigrationSink_snapLoop E c conn pool snaps t).1 = t ++ ext ∧
        done <+: snaps ∧
        List.Forall₂ (fun a snap =>
          rsyncMigrationSink_rebind E (snapshotProtobufToContainerArgs E c.Name snap) pool
            = some a) (createdSnapshots ext) done := by
  intro snaps
  induction snaps with
  | nil =>
    intro t
    exact ⟨[], [], by simp [rsyncMigrationSink_snapLoop], List.nil_prefix,
      by simp [createdSnapshots]⟩
  | cons snap rest ih =>
    intro t
    unfold rsyncMigrationSink_snapLoop
    cases hr : rsyncMigrationSink_rebind E (snapshotProtobufToContainerArgs E c.Name snap) pool with
    | none => exact ⟨[], [], by simp, List.nil_prefix, by simp [createdSnapshots]⟩
    | some args =>
      have hone : [snap] <+: snap :: rest := ⟨rest, rfl⟩
      dsimp only
      cases hv : E.RsyncRecv t (E.AddSlash c.Path) conn snap.Name with
      | some err =>
        exact ⟨[Event.RsyncRecv (E.AddSlash c.Path) conn snap.Name (some err)], [], rfl,
          List.nil_prefix, by simp [createdSnapshots]⟩
      | none =>
        dsimp only
        cases hs : E.ShiftIfNecessary
            (t ++ [Event.RsyncRecv (E.AddSlash c.Path) conn snap.Name none]) c.Name with
        | some err =>
          exact ⟨[Event.RsyncRecv (E.AddSlash c.Path) conn snap.Name none,
            Event.ShiftIfNecessary c.Name (some err)], [], by simp, List.nil_prefix,
            by simp [createdSnapshots]⟩
        | none =>
          dsimp only
          cases hc : E.containerCreateAsSnapshot
              (t ++ [Event.RsyncRecv (E.AddSlash c.Path) conn snap.Name none] ++
                [Event.ShiftIfNecessary c.Name none]) args c.Name with
          | some err =>
            exact ⟨[Event.RsyncRecv (E.AddSlash c.Path) conn snap.Name none,
              Event.ShiftIfNecessary c.Name none,
              Event.containerCreateAsSnapshot args c.Name (some err)], [snap], by simp, hone,
              by simp [createdSnapshots, hr]⟩
          | none =>
            dsimp only
            obtain ⟨ext, done, hrun, hpre, hall⟩ := ih
              (t ++ [Event.RsyncRecv (E.AddSlash c.Path) conn snap.Name none] ++
                [Event.ShiftIfNecessary c.Name none] ++
                [Event.containerCreateAsSnapshot args c.Name none])
            refine ⟨Event.RsyncRecv (E.AddSlash c.Path) conn snap.Name none ::
              Event.ShiftIfNecessary c.Name none ::
              Event.containerCreateAsSnapshot args c.Name none :: ext, snap :: done,
              by rw [hrun]; simp, (List.prefix_cons_inj snap).mpr hpre, ?_⟩
            simp only [createdSnapshots, List.filterMap_cons]
            exact List.Forall₂.cons hr hall

/-- A run of lines 201-311 of `rsyncMigrationSink` creates snapshots for an initial
segment of the incoming snapshots, in order, each with the rebound metadata of its
snapshot. -/
theorem body_created (E : Env) (live : Bool) (c : container) (snapshots : List Snapshot)
    (conn : Side) (containerOnly : Bool) (t : Trace) :
    ∃ ext done, (rsyncMigrationSink_body E live c snapshots conn containerOnly t).1 = t ++ ext ∧
      done <+: snapshots ∧
      List.Forall₂ (fun a snap =>
        rsyncMigrationSink_rebind E (snapshotProtobufToContainerArgs E c.Name snap)
          (rsyncMigrationSink_parentPool E c) = some a) (createdSnapshots ext) done := by
  have hl : ∃ ext r done,
      (if decide (c.StorageType = storageType.storageTypeDir) = true then
        if (!containerOnly) = true then
          rsyncMigrationSink_dirLoop E c conn (rsyncMigrationSink_parentPool E c) snapshots t
        else (t, none)
      else
        if (!containerOnly) = true then
          rsyncMigrationSink_snapLoop E c conn (rsyncMigrationSink_parentPool E c) snapshots t
        else (t, none)) = (t ++ ext, r) ∧
      done <+: snapshots ∧
      List.Forall₂ (fun a snap =>
        rsyncMigrationSink_rebind E (snapshotProtobufToContainerArgs E c.Name snap)
          (rsyncMigrationSink_parentPool E c) = some a) (createdSnapshots ext) done := by
    split
    · split
      · obtain ⟨ext, done, h1, h2, h3⟩ := dirLoop_created E c conn
          (rsyncMigrationSink_parentPool E c) snapshots t
        exact ⟨ext, _, done, Prod.ext h1 rfl, h2, h3⟩
      · exact ⟨[], none, [], by simp, List.nil_prefix, by simp [createdSnapshots]⟩
    · split
      · obtain ⟨ext, done, h1, h2, h3⟩ := snapLoop_created E c conn
          (rsyncMigrationSink_parentPool E c) snapshots t
        exact ⟨ext, _, done, Prod.ext h1 rfl, h2, h3⟩
      · exact ⟨[], none, [], by simp, List.nil_prefix, by simp [createdSnapshots]⟩
  obtain ⟨ext, r, done, hloop, hpre, hall⟩ := hl
  have hmore : ∀ more : Trace, createdSnapshots more = [] →
      List.Forall₂ (fun a snap =>
        rsyncMigrationSink_rebind E (snapshotProtobufToContainerArgs E c.Name snap)
          (rsyncMigrationSink_parentPool E c) = some a) (createdSnapshots (ext ++ more)) done := by
    intro more hm
    rw [createdSnapshots_append, hm, List.append_nil]
    exact hall
  unfold rsyncMigrationSink_body
  dsimp only
  split
  · exact ⟨[], [], by simp, List.nil_prefix, by simp [createdSnapshots]⟩
  · rw [hloop]
    cases r with
    | some ret => exact ⟨ext, done, rfl, hpre, hall⟩
    | none =>
      dsimp only
      cases E.RsyncRecv (t ++ ext) (E.AddSlash c.Path) conn c.Name with
      | some err =>
        exact ⟨ext ++ [Event.RsyncRecv (E.AddSlash c.Path) conn c.Name (some err)], done,
          by simp, hpre, hmore _ (by simp [createdSnapshots])⟩
      | none =>
        dsimp only
        unfold rsyncMigrationSink_finish
        cases live with
        | false =>
          simp only [Bool.false_eq_true, if_false]
          exact ⟨ext ++ [Event.RsyncRecv (E.AddSlash c.Path) conn c.Name none,
            Event.ShiftIfNecessary c.Name _], done, by simp; rfl, hpre,
            hmore _ (by simp [createdSnapshots])⟩
        | true =>
          simp only [if_true]
          cases E.RsyncRecv (t ++ ext ++ [Event.RsyncRecv (E.AddSlash c.Path) conn c.Name none])
              (E.AddSlash c.Path) conn c.Name with
          | some err =>
            exact ⟨ext ++ [Event.RsyncRecv (E.AddSlash c.Path) conn c.Name none,
              Event.RsyncRecv (E.AddSlash c.Path) conn c.Name (some err)], done, by simp, hpre,
              hmore _ (by simp [createdSnapshots])⟩
          | none =>
            dsimp only
            exact ⟨ext ++ [Event.RsyncRecv (E.AddSlash c.Path) conn c.Name none,
              Event.RsyncRecv (E.AddSlash c.Path) conn c.Name none,
              Event.ShiftIfNecessary c.Name _], done, by simp; rfl, hpre,
              hmore _ (by simp [createdSnapshots])⟩

/-- A run of `rsyncMigrationSink` creates snapshots for an initial segment of the incoming
snapshots, in order, each with the rebound metadata of its snapshot. -/
theorem sink_created (E : Env) (live : Bool) (c : container) (snapshots : List Snapshot)
    (conn : Side) (containerOnly : Bool) (t0 : Trace) :
    ∃ ext done, (rsyncMigrationSink E live c snapshots conn containerOnly t0).1 = t0 ++ ext ∧
      done <+: snapshots ∧
      List.Forall₂ (fun a snap =>
        rsyncMigrationSink_rebind E (snapshotProtobufToContainerArgs E c.Name snap)
          (rsyncMigrationSink_parentPool E c) = some a) (createdSnapshots ext) done := by
  unfold rsyncMigrationSink
  dsimp only
  cases c.StorageStart t0 with
  | error err =>
    exact ⟨[Event.StorageStart c.Name (.error err)], [], rfl, List.nil_prefix,
      by simp [createdSnapshots]⟩
  | ok ourStart =>
    dsimp only
    obtain ⟨ext, done, hrun, hpre, hall⟩ := body_created E live c snapshots conn containerOnly
      (t0 ++ [Event.StorageStart c.Name (.ok ourStart)])
    rw [hrun]
    cases ourStart with
    | false =>
      refine ⟨Event.StorageStart c.Name (.ok false) :: ext, done, by simp, hpre, ?_⟩
      simp only [createdSnapshots, List.filterMap_cons]
      exact hall
    | true =>
      refine ⟨Event.StorageStart c.Name (.ok true) :: (ext ++ [Event.StorageStop c.Name]), done,
        by simp, hpre, ?_⟩
      simp only [createdSnapshots, List.filterMap_cons, List.filterMap_append,
        List.filterMap_nil, List.append_nil]
      exact hall

/-- Claim C20: on either back-end kind, `rsyncMigrationSink` creates snapshots for an
initial segment of the incoming snapshots, in order, and the metadata each is created
with relates to the metadata reconstructed from its snapshot as follows: if
`GetRootDiskDevice` reports a root disk device under a key `k` of the snapshot's own
devices, then the `pool` property of device `k` is the parent container's resolved
root-disk pool, every other property of device `k` and every other device is as
reconstructed; if it reports none, the device map is the reconstructed one; the other
fields are as reconstructed in both cases. -/
theorem snapshot_root_rebound (E : Env) (live : Bool) (c : container)
    (snapshots : List Snapshot) (conn : Side) (containerOnly : Bool) :
    ∃ done, done <+: snapshots ∧
      List.Forall₂ (fun a snap =>
        ((E.GetRootDiskDevice (snapshotProtobufToContainerArgs E c.Name snap).Devices).1 ≠ "" →
          ∃ props dev,
            (snapshotProtobufToContainerArgs E c.Name snap).Devices
              (E.GetRootDiskDevice (snapshotProtobufToContainerArgs E c.Name snap).Devices).1
              = some props ∧
            a.Devices
              (E.GetRootDiskDevice (snapshotProtobufToContainerArgs E c.Name snap).Devices).1
              = some dev ∧
            dev "pool" = some (rsyncMigrationSink_parentPool E c) ∧
            (∀ key, key ≠ "pool" → dev key = props key) ∧
            ∀ k, k ≠ (E.GetRootDiskDevice
                (snapshotProtobufToContainerArgs E c.Name snap).Devices).1 →
              a.Devices k = (snapshotProtobufToContainerArgs E c.Name snap).Devices k) ∧
        ((E.GetRootDiskDevice (snapshotProtobufToContainerArgs E c.Name snap).Devices).1 = "" →
          a.Devices = (snapshotProtobufToContainerArgs E c.Name snap).Devices) ∧
        a.Name = (snapshotProtobufToContainerArgs E c.Name snap).Name ∧
        a.Config = (snapshotProtobufToContainerArgs E c.Name snap).Config ∧
        a.Profiles = (snapshotProtobufToContainerArgs E c.Name snap).Profiles)
        (createdSnapshots (rsyncMigrationSink E live c snapshots conn containerOnly []).1)
        done := by
  obtain ⟨ext, done, hrun, hpre, hall⟩ := sink_created E live c snapshots conn containerOnly []
  rw [hrun, List.nil_append]
  refine ⟨done, hpre, hall.imp ?_⟩
  intro a snap h
  obtain ⟨h1, h2, h3, -, h5, h6, -⟩ := rebind_frame E _ _ a h
  exact ⟨h1, h2, h3, h5, h6⟩

/-- Claim C20 on a directory-backed run that receives one snapshot whose own root disk
names the pool `old`: the snapshot is created with the parent's pool `default`, the
other properties of the root disk kept. -/
theorem snapshot_root_rebound_witness :
    ∃ a ∈ createdSnapshots (rsyncMigrationSink (sampleEnv MigrationFSType_RSYNC) false
        (sampleContainer storageType.storageTypeDir) [sampleRootSnapshot "S1"] Side.src
        false []).1,
      ∃ dev, a.Devices "root" = some dev ∧ dev "pool" = some "default" ∧
        dev "path" = some "/" := by
  obtain ⟨done, hpre, hall⟩ := snapshot_root_rebound (sampleEnv MigrationFSType_RSYNC) false
    (sampleContainer storageType.storageTypeDir) [sampleRootSnapshot "S1"] Side.src false
  have hcr : createdSnapshots (rsyncMigrationSink (sampleEnv MigrationFSType_RSYNC) false
      (sampleContainer storageType.storageTypeDir) [sampleRootSnapshot "S1"] Side.src
      false []).1
      = [rsyncMigrationSink_args (sampleEnv MigrationFSType_RSYNC)
          (sampleContainer storageType.storageTypeDir) (sampleRootSnapshot "S1")] := rfl
  rw [hcr] at hall ⊢
  refine ⟨_, List.mem_singleton_self _, ?_⟩
  cases hall with
  | cons h1 h2 =>
    cases h2
    rename_i snap
    have hsnap : snap = sampleRootSnapshot "S1" := by
      obtain ⟨r, hr⟩ := hpre
      simp only [List.singleton_append, List.cons.injEq] at hr
      exact hr.1
    subst hsnap
    obtain ⟨props, dev, hp, hd, hpool, hkeys, -⟩ := h1.1 (by decide)
    have hprops : props = ((GoMap.empty.set "type" "disk").set "path" "/").set "pool" "old" :=
      (Option.some.inj hp).symm
    exact ⟨dev, hd, hpool, by rw [hkeys "path" (by decide), hprops]; rfl⟩

theorem registered_append (a b : InitTrace) :
    registered (a ++ b) = registered a ++ registered b := by
  simp [registered]

theorem executed_append (a b : InitTrace) :
    executed (a ++ b) = executed a ++ executed b := by
  simp [executed]

theorem InitState.Clean.call {s : InitState} (h : s.Clean) (e : InitEvent)
    (hr : registered [e] = []) (hx : executed [e] = []) :
    InitState.Clean ⟨s.trace ++ [e], s.reverts⟩ := by
  obtain ⟨h1, h2⟩ := h
  exact ⟨by rw [registered_append, hr, h1, List.append_nil],
    by rw [executed_append, hx, h2, List.append_nil]⟩

theorem InitState.Clean.registers {s : InitState} (h : s.Clean) (a : RevertAction) :
    (s.register a).Clean := by
  obtain ⟨h1, h2⟩ := h
  exact ⟨by
      rw [show (s.register a).trace = s.trace ++ [InitEvent.register a] from rfl,
        registered_append, h1]
      rfl,
    by
      rw [show (s.register a).trace = s.trace ++ [InitEvent.register a] from rfl,
        executed_append, h2]
      rfl⟩

theorem ApplyConfig_server_ok (X : InitEnv) (config : initData) (s : InitState)
    (h : s.Clean) : Flow.Ok (ApplyConfig_server X config s) := by
  unfold ApplyConfig_server
  dsimp only
  repeat' split
  all_goals
    simp only [Flow.Ok, InitState.Clean, InitState.register, registered_append,
      executed_append, h.1, h.2]
    simp [registered, executed]

theorem ApplyConfig_createNetwork_ok (X : InitEnv) (network : NetworksPost) (s : InitState)
    (h : s.Clean) : Flow.Ok (ApplyConfig_createNetwork X network s) := by
  unfold ApplyConfig_createNetwork
  dsimp only
  repeat' split
  all_goals
    simp only [Flow.Ok, InitState.Clean, InitState.register, registered_append,
      executed_append, h.1, h.2]
    simp [registered, executed]

theorem ApplyConfig_updateNetwork_ok (X : InitEnv) (network : NetworksPost) (s : InitState)
    (h : s.Clean) : Flow.Ok (ApplyConfig_updateNetwork X network s) := by
  unfold ApplyConfig_updateNetwork
  dsimp only
  repeat' split
  all_goals
    simp only [Flow.Ok, InitState.Clean, InitState.register, registered_append,
      executed_append, h.1, h.2]
    simp [registered, executed]

theorem ApplyConfig_networkLoop_ok (X : InitEnv) (networkNames : List String) :
    ∀ (items : List NetworksPost) (s : InitState), s.Clean →
      Flow.Ok (ApplyConfig_networkLoop X networkNames items s) := by
  intro items
  induction items with
  | nil => intro s h; exact ⟨h, by simp [ApplyConfig_networkLoop]⟩
  | cons item rest ih =>
    intro s h
    unfold ApplyConfig_networkLoop
    split
    · have hc := ApplyConfig_createNetwork_ok X item s h
      cases hout : ApplyConfig_createNetwork X item s with
      | mk s1 r =>
        rw [hout] at hc
        cases r with
        | some ret => exact hc
        | none => exact ih s1 hc.1
    · have hc := ApplyConfig_updateNetwork_ok X item s h
      cases hout : ApplyConfig_updateNetwork X item s with
      | mk s1 r =>
        rw [hout] at hc
        cases r with
        | some ret => exact hc
        | none => exact ih s1 hc.1

theorem ApplyConfig_networks_ok (X : InitEnv) (config : initData) (s : InitState)
    (h : s.Clean) : Flow.Ok (ApplyConfig_networks X config s) := by
  unfold ApplyConfig_networks
  dsimp only
  split
  · cases hr : X.GetNetworkNames s.trace with
    | error err =>
      dsimp only
      simp only [Flow.Ok, InitState.Clean, registered_append, executed_append, h.1, h.2]
      simp [registered, executed]
    | ok names =>
      dsimp only
      exact ApplyConfig_networkLoop_ok X names _ _ (h.call _ rfl rfl)
  · exact ⟨h, by simp⟩

theorem ApplyConfig_createStoragePool_ok (X : InitEnv) (storagePool : StoragePoolsPost) (s : InitState)
    (h : s.Clean) : Flow.Ok (ApplyConfig_createStoragePool X storagePool s) := by
  unfold ApplyConfig_createStoragePool
  dsimp only
  repeat' split
  all_goals
    simp only [Flow.Ok, InitState.Clean, InitState.register, registered_append,
      executed_append, h.1, h.2]
    simp [registered, executed]

theorem ApplyConfig_updateStoragePool_ok (X : InitEnv) (storagePool : StoragePoolsPost) (s : InitState)
    (h : s.Clean) : Flow.Ok (ApplyConfig_updateStoragePool X storagePool s) := by
  unfold ApplyConfig_updateStoragePool
  dsimp only
  repeat' split
  all_goals
    simp only [Flow.Ok, InitState.Clean, InitState.register, registered_append,
      executed_append, h.1, h.2]
    simp [registered, executed]

theorem ApplyConfig_storagePoolLoop_ok (X : InitEnv) (storagePoolNames : List String) :
    ∀ (items : List StoragePoolsPost) (s : InitState), s.Clean →
      Flow.Ok (ApplyConfig_storagePoolLoop X storagePoolNames items s) := by
  intro items
  induction items with
  | nil => intro s h; exact ⟨h, by simp [ApplyConfig_storagePoolLoop]⟩
  | cons item rest ih =>
    intro s h
    unfold ApplyConfig_storagePoolLoop
    split
    · have hc := ApplyConfig_createStoragePool_ok X item s h
      cases hout : ApplyConfig_createStoragePool X item s with
      | mk s1 r =>
        rw [hout] at hc
        cases r with
        | some ret => exact hc
        | none => exact ih s1 hc.1
    · have hc := ApplyConfig_updateStoragePool_ok X item s h
      cases hout : ApplyConfig_updateStoragePool X item s with
      | mk s1 r =>
        rw [hout] at hc
        cases r with
        | some ret => exact hc
        | none => exact ih s1 hc.1

theorem ApplyConfig_storagePools_ok (X : InitEnv) (config : initData) (s : InitState)
    (h : s.Clean) : Flow.Ok (ApplyConfig_storagePools X config s) := by
  unfold ApplyConfig_storagePools
  dsimp only
  split
  · cases hr : X.GetStoragePoolNames s.trace with
    | error err =>
      dsimp only
      simp only [Flow.Ok, InitState.Clean, registered_append, executed_append, h.1, h.2]
      simp [registered, executed]
    | ok names =>
      dsimp only
      exact ApplyConfig_storagePoolLoop_ok X names _ _ (h.call _ rfl rfl)
  · exact ⟨h, by simp⟩

theorem ApplyConfig_createProfile_ok (X : InitEnv) (profile : ProfilesPost) (s : InitState)
    (h : s.Clean) : Flow.Ok (ApplyConfig_createProfile X profile s) := by
  unfold ApplyConfig_createProfile
  dsimp only
  repeat' split
  all_goals
    simp only [Flow.Ok, InitState.Clean, InitState.register, registered_append,
      executed_append, h.1, h.2]
    simp [registered, executed]

theorem ApplyConfig_updateProfile_ok (X : InitEnv) (profile : ProfilesPost) (s : InitState)
    (h : s.Clean) : Flow.Ok (ApplyConfig_updateProfile X profile s) := by
  unfold ApplyConfig_updateProfile
  dsimp only
  repeat' split
  all_goals
    simp only [Flow.Ok, InitState.Clean, InitState.register, registered_append,
      executed_append, h.1, h.2]
    simp [registered, executed]

theorem ApplyConfig_profileLoop_ok (X : InitEnv) (profileNames : List String) :
    ∀ (items : List ProfilesPost) (s : InitState), s.Clean →
      Flow.Ok (ApplyConfig_profileLoop X profileNames items s) := by
  intro items
  induction items with
  | nil => intro s h; exact ⟨h, by simp [ApplyConfig_profileLoop]⟩
  | cons item rest ih =>
    intro s h
    unfold ApplyConfig_profileLoop
    split
    · have hc := ApplyConfig_createProfile_ok X item s h
      cases hout : ApplyConfig_createProfile X item s with
      | mk s1 r =>
        rw [hout] at hc
        cases r with
        | some ret => exact hc
        | none => exact ih s1 hc.1
    · have hc := ApplyConfig_updateProfile_ok X item s h
      cases hout : ApplyConfig_updateProfile X item s with
      | mk s1 r =>
        rw [hout] at hc
        cases r with
        | some ret => exact hc
        | none => exact ih s1 hc.1

theorem ApplyConfig_profiles_ok (X : InitEnv) (config : initData) (s : InitState)
    (h : s.Clean) : Flow.Ok (ApplyConfig_profiles X config s) := by
  unfold ApplyConfig_profiles
  dsimp only
  split
  · cases hr : X.GetProfileNames s.trace with
    | error err =>
      dsimp only
      simp only [Flow.Ok, InitState.Clean, registered_append, executed_append, h.1, h.2]
      simp [registered, executed]
    | ok names =>
      dsimp only
      exact ApplyConfig_profileLoop_ok X names _ _ (h.call _ rfl rfl)
  · exact ⟨h, by simp⟩

theorem ApplyConfig_configureCluster_ok (X : InitEnv) (cluster : initDataCluster) (etag : String) (s : InitState)
    (h : s.Clean) : Flow.Ok (ApplyConfig_configureCluster X cluster etag s) := by
  unfold ApplyConfig_configureCluster
  dsimp only
  repeat' split
  all_goals
    simp only [Flow.Ok, InitState.Clean, InitState.register, registered_append,
      executed_append, h.1, h.2]
    simp [registered, executed]

theorem ApplyConfig_cluster_ok (X : InitEnv) (config : initData) (s : InitState)
    (h : s.Clean) : Flow.Ok (ApplyConfig_cluster X config s) := by
  unfold ApplyConfig_cluster
  dsimp only
  repeat' split
  all_goals
    first
    | (refine ApplyConfig_configureCluster_ok X _ _ _ (InitState.Clean.call h _ ?_ ?_) <;> rfl)
    | (refine ApplyConfig_configureCluster_ok X _ _ _
        (InitState.Clean.call (InitState.Clean.call (InitState.Clean.call h _ ?_ ?_) _ ?_ ?_)
          _ ?_ ?_) <;> rfl)
    | (simp only [Flow.Ok, InitState.Clean, InitState.register, registered_append,
        executed_append, h.1, h.2]
       simp [registered, executed])

theorem ApplyConfig_body_ok (X : InitEnv) (config : initData) (s : InitState)
    (h : s.Clean) :
    (ApplyConfig_body X config s).1.Clean ∧
    ((ApplyConfig_body X config s).2.2 = true → (ApplyConfig_body X config s).2.1 ≠ Ret.nil) ∧
    ((ApplyConfig_body X config s).2.2 = false → (ApplyConfig_body X config s).2.1 = Ret.nil) := by
  unfold ApplyConfig_body
  have h1 := ApplyConfig_server_ok X config s h
  cases ho1 : ApplyConfig_server X config s with
  | mk s1 r1 =>
    rw [ho1] at h1
    cases r1 with
    | some ret => exact ⟨h1.1, fun _ hr => h1.2 (by rw [← hr]), by simp⟩
    | none =>
      dsimp only
      have h2 := ApplyConfig_networks_ok X config s1 h1.1
      cases ho2 : ApplyConfig_networks X config s1 with
      | mk s2 r2 =>
        rw [ho2] at h2
        cases r2 with
        | some ret => exact ⟨h2.1, fun _ hr => h2.2 (by rw [← hr]), by simp⟩
        | none =>
          dsimp only
          have h3 := ApplyConfig_storagePools_ok X config s2 h2.1
          cases ho3 : ApplyConfig_storagePools X config s2 with
          | mk s3 r3 =>
            rw [ho3] at h3
            cases r3 with
            | some ret => exact ⟨h3.1, fun _ hr => h3.2 (by rw [← hr]), by simp⟩
            | none =>
              dsimp only
              have h4 := ApplyConfig_profiles_ok X config s3 h3.1
              cases ho4 : ApplyConfig_profiles X config s3 with
              | mk s4 r4 =>
                rw [ho4] at h4
                cases r4 with
                | some ret => exact ⟨h4.1, fun _ hr => h4.2 (by rw [← hr]), by simp⟩
                | none =>
                  dsimp only
                  have h5 := ApplyConfig_cluster_ok X config s4 h4.1
                  cases ho5 : ApplyConfig_cluster X config s4 with
                  | mk s5 r5 =>
                    rw [ho5] at h5
                    cases r5 with
                    | some ret => exact ⟨h5.1, fun _ hr => h5.2 (by rw [← hr]), by simp⟩
                    | none => exact ⟨h5.1, by simp, by simp⟩

theorem ApplyConfig_unwind_shape (X : InitEnv) :
    ∀ (todo : List RevertAction) (t : InitTrace),
      ∃ unw, ApplyConfig_unwind X todo t = t ++ unw ∧ executed unw = todo ∧
        registered unw = [] ∧ ∀ e ∈ unw, ∃ a r, e = InitEvent.runRevert a r := by
  intro todo
  induction todo with
  | nil => intro t; exact ⟨[], by simp [ApplyConfig_unwind], rfl, rfl, by simp⟩
  | cons a rest ih =>
    intro t
    obtain ⟨unw, hrun, hx, hr, hall⟩ := ih (t ++ [InitEvent.runRevert a (a.run X t)])
    refine ⟨InitEvent.runRevert a (a.run X t) :: unw, ?_, ?_, ?_, ?_⟩
    · rw [ApplyConfig_unwind, hrun]; simp
    · rw [show InitEvent.runRevert a (a.run X t) :: unw
          = [InitEvent.runRevert a (a.run X t)] ++ unw from rfl, executed_append, hx]
      rfl
    · rw [show InitEvent.runRevert a (a.run X t) :: unw
          = [InitEvent.runRevert a (a.run X t)] ++ unw from rfl, registered_append, hr]
      rfl
    · intro e he
      rcases List.mem_cons.mp he with he | he
      · exact ⟨a, _, he⟩
      · exact hall e he

/-- Claim C17: a run of `cmdInit.ApplyConfig` that does not return nil (it returns an
error, or panics) calls the revert closures registered during the run once each, in the
reverse of the order of registration, whatever the outcome of each call, and a run that
returns nil calls none; the history is the body, which calls no revert closure, followed
by the calls of the closures and nothing else. -/
theorem reverts_unwound (X : InitEnv) (config : initData) :
    ((cmdInit.ApplyConfig X config []).2 ≠ Ret.nil →
      executed (cmdInit.ApplyConfig X config []).1
        = (registered (cmdInit.ApplyConfig X config []).1).reverse) ∧
    ((cmdInit.ApplyConfig X config []).2 = Ret.nil →
      executed (cmdInit.ApplyConfig X config []).1 = []) ∧
    ∃ body unw, (cmdInit.ApplyConfig X config []).1 = body ++ unw ∧
      executed body = [] ∧ registered unw = [] ∧
      (∀ e ∈ unw, ∃ a r, e = InitEvent.runRevert a r) ∧
      unw.length = if (cmdInit.ApplyConfig X config []).2 = Ret.nil then 0
        else (registered body).length := by
  obtain ⟨hclean, htrue, hfalse⟩ := ApplyConfig_body_ok X config ⟨[], []⟩ ⟨rfl, rfl⟩
  unfold cmdInit.ApplyConfig
  dsimp only
  cases hflag : (ApplyConfig_body X config ⟨[], []⟩).2.2 with
  | false =>
    have hret := hfalse hflag
    simp only [Bool.false_eq_true, if_false, hret, ne_eq, not_true_eq_false, false_implies,
      true_and, forall_const, if_true]
    exact ⟨hclean.2, _, [], by simp, hclean.2, rfl, by simp, rfl⟩
  | true =>
    have hret := htrue hflag
    obtain ⟨unw, hrun, hx, hr, hall⟩ := ApplyConfig_unwind_shape X
      (ApplyConfig_body X config ⟨[], []⟩).1.reverts.reverse
      (ApplyConfig_body X config ⟨[], []⟩).1.trace
    simp only [if_true, hrun, ne_eq, hret, not_false_eq_true, forall_const, false_implies,
      true_and, if_false]
    refine ⟨?_, _, unw, rfl, hclean.2, hr, hall, ?_⟩
    · rw [executed_append, registered_append, hclean.2, hr, hx, hclean.1]
      simp
    · have hlen : unw.length = (executed unw).length := by
        clear hrun hx hr
        induction unw with
        | nil => rfl
        | cons e rest ih =>
          obtain ⟨a, r, he⟩ := hall e (List.mem_cons_self _ _)
          subst he
          have := ih (fun e he => hall e (List.mem_cons_of_mem _ he))
          simp only [List.length_cons, this, executed, List.filterMap_cons]
      rw [hlen, hx, List.length_reverse, hclean.1]

theorem ApplyConfig_server_grows (X : InitEnv) (config : initData) (s : InitState) :
    s.trace <+: (ApplyConfig_server X config s).1.trace := by
  unfold ApplyConfig_server
  dsimp only
  repeat' split
  all_goals simp [InitState.register]

theorem ApplyConfig_createNetwork_grows (X : InitEnv) (network : NetworksPost) (s : InitState) :
    s.trace <+: (ApplyConfig_createNetwork X network s).1.trace := by
  unfold ApplyConfig_createNetwork
  dsimp only
  repeat' split
  all_goals simp [InitState.register]

theorem ApplyConfig_updateNetwork_grows (X : InitEnv) (network : NetworksPost) (s : InitState) :
    s.trace <+: (ApplyConfig_updateNetwork X network s).1.trace := by
  unfold ApplyConfig_updateNetwork
  dsimp only
  repeat' split
  all_goals simp [InitState.register]

theorem ApplyConfig_networkLoop_grows (X : InitEnv) (networkNames : List String) :
    ∀ (items : List NetworksPost) (s : InitState),
      s.trace <+: (ApplyConfig_networkLoop X networkNames items s).1.trace := by
  intro items
  induction items with
  | nil => intro s; simp [ApplyConfig_networkLoop]
  | cons item rest ih =>
    intro s
    unfold ApplyConfig_networkLoop
    split
    · have hc := ApplyConfig_createNetwork_grows X item s
      cases hout : ApplyConfig_createNetwork X item s with
      | mk s1 r =>
        rw [hout] at hc
        cases r with
        | some ret => exact hc
        | none => exact hc.trans (ih s1)
    · have hc := ApplyConfig_updateNetwork_grows X item s
      cases hout : ApplyConfig_updateNetwork X item s with
      | mk s1 r =>
        rw [hout] at hc
        cases r with
        | some ret => exact hc
        | none => exact hc.trans (ih s1)

theorem ApplyConfig_networks_grows (X : InitEnv) (config : initData) (s : InitState) :
    s.trace <+: (ApplyConfig_networks X config s).1.trace := by
  unfold ApplyConfig_networks
  dsimp only
  split
  · cases hr : X.GetNetworkNames s.trace with
    | error err => simp
    | ok names =>
      dsimp only
      exact List.IsPrefix.trans (by simp) (ApplyConfig_networkLoop_grows X names _ _)
  · simp

theorem ApplyConfig_createStoragePool_grows (X : InitEnv) (storagePool : StoragePoolsPost) (s : InitState) :
    s.trace <+: (ApplyConfig_createStoragePool X storagePool s).1.trace := by
  unfold ApplyConfig_createStoragePool
  dsimp only
  repeat' split
  all_goals simp [InitState.register]

theorem ApplyConfig_updateStoragePool_grows (X : InitEnv) (storagePool : StoragePoolsPost) (s : InitState) :
    s.trace <+: (ApplyConfig_updateStoragePool X storagePool s).1.trace := by
  unfold ApplyConfig_updateStoragePool
  dsimp only
  repeat' split
  all_goals simp [InitState.register]

theorem ApplyConfig_storagePoolLoop_grows (X : InitEnv) (storagePoolNames : List String) :
    ∀ (items : List StoragePoolsPost) (s : InitState),
      s.trace <+: (ApplyConfig_storagePoolLoop X storagePoolNames items s).1.trace := by
  intro items
  induction items with
  | nil => intro s; simp [ApplyConfig_storagePoolLoop]
  | cons item rest ih =>
    intro s
    unfold ApplyConfig_storagePoolLoop
    split
    · have hc := ApplyConfig_createStoragePool_grows X item s
      cases hout : ApplyConfig_createStoragePool X item s with
      | mk s1 r =>
        rw [hout] at hc
        cases r with
        | some ret => exact hc
        | none => exact hc.trans (ih s1)
    · have hc := ApplyConfig_updateStoragePool_grows X item s
      cases hout : ApplyConfig_updateStoragePool X item s with
      | mk s1 r =>
        rw [hout] at hc
        cases r with
        | some ret => exact hc
        | none => exact hc.trans (ih s1)

theorem ApplyConfig_storagePools_grows (X : InitEnv) (config : initData) (s : InitState) :
    s.trace <+: (ApplyConfig_storagePools X config s).1.trace := by
  unfold ApplyConfig_storagePools
  dsimp only
  split
  · cases hr : X.GetStoragePoolNames s.trace with
    | error err => simp
    | ok names =>
      dsimp only
      exact List.IsPrefix.trans (by simp) (ApplyConfig_storagePoolLoop_grows X names _ _)
  · simp

theorem ApplyConfig_createProfile_grows (X : InitEnv) (profile : ProfilesPost) (s : InitState) :
    s.trace <+: (ApplyConfig_createProfile X profile s).1.trace := by
  unfold ApplyConfig_createProfile
  dsimp only
  repeat' split
  all_goals simp [InitState.register]

theorem ApplyConfig_updateProfile_grows (X : InitEnv) (profile : ProfilesPost) (s : InitState) :
    s.trace <+: (ApplyConfig_updateProfile X profile s).1.trace := by
  unfold ApplyConfig_updateProfile
  dsimp only
  repeat' split
  all_goals simp [InitState.register]

theorem ApplyConfig_profileLoop_grows (X : InitEnv) (profileNames : List String) :
    ∀ (items : List ProfilesPost) (s : InitState),
      s.trace <+: (ApplyConfig_profileLoop X profileNames items s).1.trace := by
  intro items
  induction items with
  | nil => intro s; simp [ApplyConfig_profileLoop]
  | cons item rest ih =>
    intro s
    unfold ApplyConfig_profileLoop
    split
    · have hc := ApplyConfig_createProfile_grows X item s
      cases hout : ApplyConfig_createProfile X item s with
      | mk s1 r =>
        rw [hout] at hc
        cases r with
        | some ret => exact hc
        | none => exact hc.trans (ih s1)
    · have hc := ApplyConfig_updateProfile_grows X item s
      cases hout : ApplyConfig_updateProfile X item s with
      | mk s1 r =>
        rw [hout] at hc
        cases r with
        | some ret => exact hc
        | none => exact hc.trans (ih s1)

theorem ApplyConfig_profiles_grows (X : InitEnv) (config : initData) (s : InitState) :
    s.trace <+: (ApplyConfig_profiles X config s).1.trace := by
  unfold ApplyConfig_profiles
  dsimp only
  split
  · cases hr : X.GetProfileNames s.trace with
    | error err => simp
    | ok names =>
      dsimp only
      exact List.IsPrefix.trans (by simp) (ApplyConfig_profileLoop_grows X names _ _)
  · simp

theorem ApplyConfig_configureCluster_grows (X : InitEnv) (cluster : initDataCluster) (etag : String) (s : InitState) :
    s.trace <+: (ApplyConfig_configureCluster X cluster etag s).1.trace := by
  unfold ApplyConfig_configureCluster
  dsimp only
  repeat' split
  all_goals simp [InitState.register]

theorem ApplyConfig_cluster_grows (X : InitEnv) (config : initData) (s : InitState) :
    s.trace <+: (ApplyConfig_cluster X config s).1.trace := by
  unfold ApplyConfig_cluster
  dsimp only
  repeat' split
  all_goals
    first
    | (simp; done)
    | exact List.IsPrefix.trans (by simp) (ApplyConfig_configureCluster_grows X _ _ _)

theorem ApplyConfig_body_grows (X : InitEnv) (config : initData) (s : InitState) :
    s.trace <+: (ApplyConfig_body X config s).1.trace := by
  unfold ApplyConfig_body
  have h1 := ApplyConfig_server_grows X config s
  cases ho1 : ApplyConfig_server X config s with
  | mk s1 r1 =>
    rw [ho1] at h1
    cases r1 with
    | some ret => exact h1
    | none =>
      dsimp only
      have h2 := h1.trans (ApplyConfig_networks_grows X config s1)
      cases ho2 : ApplyConfig_networks X config s1 with
      | mk s2 r2 =>
        rw [ho2] at h2
        cases r2 with
        | some ret => exact h2
        | none =>
          dsimp only
          have h3 := h2.trans (ApplyConfig_storagePools_grows X config s2)
          cases ho3 : ApplyConfig_storagePools X config s2 with
          | mk s3 r3 =>
            rw [ho3] at h3
            cases r3 with
            | some ret => exact h3
            | none =>
              dsimp only
              have h4 := h3.trans (ApplyConfig_profiles_grows X config s3)
              cases ho4 : ApplyConfig_profiles X config s3 with
              | mk s4 r4 =>
                rw [ho4] at h4
                cases r4 with
                | some ret => exact h4
                | none =>
                  dsimp only
                  have h5 := h4.trans (ApplyConfig_cluster_grows X config s4)
                  cases ho5 : ApplyConfig_cluster X config s4 with
                  | mk s5 r5 =>
                    rw [ho5] at h5
                    cases r5 with
                    | some ret => exact h5
                    | none => exact h5

theorem ApplyConfig_grows (X : InitEnv) (config : initData) (t0 : InitTrace) :
    t0 <+: (cmdInit.ApplyConfig X config t0).1 := by
  unfold cmdInit.ApplyConfig
  dsimp only
  have hb := ApplyConfig_body_grows X config ⟨t0, []⟩
  split
  · obtain ⟨unw, hrun, -⟩ := ApplyConfig_unwind_shape X
      (ApplyConfig_body X config ⟨t0, []⟩).1.reverts.reverse
      (ApplyConfig_body X config ⟨t0, []⟩).1.trace
    rw [hrun]
    exact hb.trans (List.prefix_append _ _)
  · exact hb

/-- Claim C18: `cmdInit.Run` returns, with the history as it was, so before connecting
to the daemon, the error made from `Can't use --auto and --preseed together` when both
flags are set, and the error made from `Configuration flags require --auto` when `--auto`
is not set and one of the seven configuration flags differs from its default; for every
other combination of flags it goes on to connect to the daemon. -/
theorem run_flag_checks (X : InitEnv) (c : cmdInit) (t0 : InitTrace) :
    (c.flagAuto = true ∧ c.flagPreseed = true →
      cmdInit.Run X c t0
        = (t0, Ret.err (X.Errorf "Can\x27t use --auto and --preseed together" []))) ∧
    (c.flagAuto = false ∧
        (c.flagNetworkAddress ≠ "" ∨ c.flagNetworkPort ≠ -1 ∨ c.flagStorageBackend ≠ "" ∨
          c.flagStorageDevice ≠ "" ∨ c.flagStorageLoopSize ≠ -1 ∨ c.flagStoragePool ≠ "" ∨
          c.flagTrustPassword ≠ "") →
      cmdInit.Run X c t0 = (t0, Ret.err (X.Errorf "Configuration flags require --auto" []))) ∧
    (¬(c.flagAuto = true ∧ c.flagPreseed = true) →
      ¬(c.flagAuto = false ∧
        (c.flagNetworkAddress ≠ "" ∨ c.flagNetworkPort ≠ -1 ∨ c.flagStorageBackend ≠ "" ∨
          c.flagStorageDevice ≠ "" ∨ c.flagStorageLoopSize ≠ -1 ∨ c.flagStoragePool ≠ "" ∨
          c.flagTrustPassword ≠ "")) →
      t0 ++ [InitEvent.ConnectLXDUnix (X.ConnectLXDUnix t0)] <+: (cmdInit.Run X c t0).1) := by
  refine ⟨?_, ?_, ?_⟩
  · rintro ⟨ha, hp⟩
    simp [cmdInit.Run, ha, hp]
  · rintro ⟨ha, hf⟩
    unfold cmdInit.Run
    rw [if_neg (by simp [ha]), if_pos]
    simp only [ha, Bool.not_false, Bool.true_and, Bool.or_eq_true, decide_eq_true_eq]
    tauto
  · intro h1 h2
    unfold cmdInit.Run
    rw [if_neg (by simpa using h1), if_neg]
    · dsimp only
      cases X.ConnectLXDUnix t0 with
      | some err => simp
      | none =>
        dsimp only
        repeat' split
        all_goals
          first
          | (simp; done)
          | exact List.IsPrefix.trans (by simp) (ApplyConfig_grows X _ _)
    · intro hc
      apply h2
      simp only [Bool.and_eq_true, Bool.not_eq_true', Bool.or_eq_true, decide_eq_true_eq] at hc
      obtain ⟨ha, hf⟩ := hc
      exact ⟨ha, by tauto⟩

/-- Claim C18 on the default flags with `--storage-pool` set, and on `--auto` together
with `--preseed`. -/
theorem run_flag_checks_witness :
    cmdInit.Run sampleInitEnv { sampleFlags with flagStoragePool := "tank" } []
      = ([], Ret.err "Configuration flags require --auto") ∧
    cmdInit.Run sampleInitEnv { sampleFlags with flagAuto := true, flagPreseed := true } []
      = ([], Ret.err "Can\x27t use --auto and --preseed together") :=
  ⟨(run_flag_checks sampleInitEnv { sampleFlags with flagStoragePool := "tank" } []).2.1
      ⟨rfl, Or.inr (Or.inr (Or.inr (Or.inr (Or.inr (Or.inl (by decide))))))⟩,
   (run_flag_checks sampleInitEnv { sampleFlags with flagAuto := true, flagPreseed := true }
      []).1 ⟨rfl, rfl⟩⟩

/-- Claim C17 on a run that creates two networks and then fails to create a storage
pool: the two networks are deleted, the later one first, once each although each
deletion fails. -/
theorem reverts_unwound_witness :
    executed (cmdInit.ApplyConfig sampleFailingInitEnv sampleInitData []).1
      = [RevertAction.DeleteNetwork "lxdbr1", RevertAction.DeleteNetwork "lxdbr0"] :=
  (reverts_unwound sampleFailingInitEnv sampleInitData).1
    (by
      rw [show (cmdInit.ApplyConfig sampleFailingInitEnv sampleInitData []).2
        = Ret.err (sampleFailingInitEnv.Wrapf "no space left"
            "Failed to create storage pool \x27%s\x27" "default") from rfl]
      simp)

theorem Entries.get?_delete (acc : Entries String) (k0 k : String) :
    Entries.get? (some (Entries.delete acc k0)) k
      = if k = k0 then none else Entries.get? (some acc) k := by
  induction acc with
  | nil => simp [Entries.get?, Entries.delete]
  | cons e rest ih =>
    simp only [Entries.get?, Entries.delete, Option.some_bind] at ih ⊢
    by_cases he : e.1 = k0
    · simp only [List.filter_cons, he, ne_eq, not_true_eq_false, decide_False,
        Bool.false_eq_true, if_false]
      rw [ih]
      by_cases hk : k = k0
      · simp [hk]
      · have : ¬ (k0 = k) := fun h => hk h.symm
        simp [hk, List.find?_cons, he, this]
    · simp only [List.filter_cons, ne_eq, he, not_false_eq_true, decide_True, if_true,
        List.find?_cons]
      by_cases hek : e.1 = k
      · have : ¬ (k = k0) := fun h => he (hek.trans h)
        simp [hek, this]
      · simp only [hek, decide_False]
        exact ih

theorem strip_step (acc : Entries String) (e : String × String) (k : String) :
    Entries.get? (some
        (if e.1 = "volatile.base_image" then acc
          else if HasPrefix e.1 "volatile" then Entries.delete acc e.1
          else acc)) k
      = if e.1 = k ∧ HasPrefix k "volatile" = true ∧ k ≠ "volatile.base_image" then none
        else Entries.get? (some acc) k := by
  by_cases hb : e.1 = "volatile.base_image"
  · rw [if_pos hb, if_neg]
    rintro ⟨h1, -, h3⟩
    exact h3 (h1 ▸ hb)
  · rw [if_neg hb]
    by_cases hp : HasPrefix e.1 "volatile" = true
    · rw [if_pos hp, Entries.get?_delete]
      by_cases hk : k = e.1
      · subst hk
        rw [if_pos rfl, if_pos ⟨rfl, hp, hb⟩]
      · rw [if_neg hk, if_neg (fun h => hk h.1.symm)]
    · rw [if_neg hp, if_neg]
      rintro ⟨h1, h2, -⟩
      exact hp (h1 ▸ h2)

theorem strip_fold (k : String) :
    ∀ (ks acc : Entries String),
      Entries.get? (some (ks.foldl
        (fun acc e =>
          if e.1 = "volatile.base_image" then acc
          else if HasPrefix e.1 "volatile" then Entries.delete acc e.1
          else acc) acc)) k
      = if (∃ e ∈ ks, e.1 = k) ∧ HasPrefix k "volatile" = true ∧ k ≠ "volatile.base_image"
        then none else Entries.get? (some acc) k := by
  intro ks
  induction ks with
  | nil => intro acc; simp
  | cons e rest ih =>
    intro acc
    rw [List.foldl_cons, ih, strip_step]
    by_cases hP : HasPrefix k "volatile" = true ∧ k ≠ "volatile.base_image"
    · by_cases h1 : ∃ e1 ∈ rest, e1.1 = k
      · have h2 : ∃ e1 ∈ e :: rest, e1.1 = k := by
          obtain ⟨e1, h, h3⟩ := h1
          exact ⟨e1, List.mem_cons_of_mem _ h, h3⟩
        rw [if_pos ⟨h1, hP⟩, if_pos ⟨h2, hP⟩]
      · rw [if_neg (fun h => h1 h.1)]
        by_cases hek : e.1 = k
        · rw [if_pos ⟨hek, hP⟩, if_pos ⟨⟨e, List.mem_cons_self _ _, hek⟩, hP⟩]
        · rw [if_neg (fun h => hek h.1), if_neg]
          rintro ⟨⟨e1, h, h3⟩, -⟩
          rcases List.mem_cons.mp h with h | h
          · subst h; exact hek h3
          · exact h1 ⟨e1, h, h3⟩
    · rw [if_neg (fun h => hP h.2), if_neg (fun h => hP h.2), if_neg (fun h => hP h.2)]

/-- What the strip loop leaves of a map: the keys that start with `volatile`,
`volatile.base_image` apart, are gone, every other key has its value. -/
theorem strip_get (config : Option (Entries String)) (k : String) :
    Entries.get? (copyContainer_strip config) k
      = if HasPrefix k "volatile" = true ∧ k ≠ "volatile.base_image" then none
        else Entries.get? config k := by
  cases config with
  | none => simp [copyContainer_strip, Entries.get?]
  | some es =>
    unfold copyContainer_strip
    dsimp only
    rw [strip_fold]
    by_cases hP : HasPrefix k "volatile" = true ∧ k ≠ "volatile.base_image"
    · by_cases hex : ∃ e ∈ es, e.1 = k
      · rw [if_pos ⟨hex, hP⟩, if_pos hP]
      · rw [if_neg (fun h => hex h.1), if_pos hP]
        simp only [Entries.get?, Option.some_bind, Option.map_eq_none']
        rw [List.find?_eq_none]
        intro e he
        simp only [decide_eq_true_eq]
        exact fun h => hex ⟨e, he, h⟩
    · rw [if_neg (fun h => hP h.2), if_neg hP]

theorem strip_isSome (config : Option (Entries String)) :
    (copyContainer_strip config).isSome = config.isSome := by
  cases config <;> rfl

theorem copyContainer_profiles_config (c : cmdCopy) (entry : ContainerEntry) :
    (copyContainer_profiles c entry).Config = entry.Config := by
  unfold copyContainer_profiles
  cases c.flagProfile with
  | some profiles => rfl
  | none => dsimp only; split <;> rfl

theorem copyContainer_ephemeral_config (ephemeral : Int) (entry : ContainerEntry) :
    (copyContainer_ephemeral ephemeral entry).Config = entry.Config := by
  unfold copyContainer_ephemeral
  repeat' split
  all_goals rfl

/-- What `copyContainer_prepare` does to the configuration: the overrides, then the strip
unless `keepVolatile`. -/
theorem prepare_config (X : CopyEnv) (c : cmdCopy) (configMap : Entries String)
    (keepVolatile : Bool) (ephemeral : Int) (pool : String) (entry sent : ContainerEntry)
    (h : copyContainer_prepare X c configMap keepVolatile ephemeral pool entry = some sent) :
    ∃ before, copyContainer_override entry.Config configMap = some before ∧
      sent.Config = if keepVolatile then before else copyContainer_strip before := by
  unfold copyContainer_prepare at h
  dsimp only at h
  rw [copyContainer_profiles_config] at h
  cases hov : copyContainer_override entry.Config configMap with
  | none => rw [hov] at h; cases h
  | some before =>
    rw [hov] at h
    refine ⟨before, rfl, ?_⟩
    dsimp only at h
    split at h
    · cases h
    · cases keepVolatile with
      | true =>
        simp only [Bool.not_true, Bool.false_eq_true, if_false, Option.some.injEq] at h
        subst h
        simp only [if_true]
        exact copyContainer_ephemeral_config _ _
      | false =>
        simp only [Bool.not_false, if_true, Option.some.injEq] at h
        subst h
        simp only [Bool.false_eq_true, if_false]
        rw [copyContainer_ephemeral_config]

theorem sentEntries_append (a b : CopyTrace) :
    sentEntries (a ++ b) = sentEntries a ++ sentEntries b := by
  simp [sentEntries]

theorem fetchedEntries_append (a b : CopyTrace) :
    fetchedEntries (a ++ b) = fetchedEntries a ++ fetchedEntries b := by
  simp [fetchedEntries]

theorem copyContainer_watch_shape (X : CopyEnv) (destResource : String) (t : CopyTrace) :
    ∃ ext, (copyContainer_watch X destResource t).1 = t ++ ext ∧ sentEntries ext = [] := by
  unfold copyContainer_watch
  dsimp only
  repeat' split
  all_goals
    simp only [List.append_assoc]
    exact ⟨_, rfl, rfl⟩

theorem copyContainer_copy_shape (X : CopyEnv) (c : cmdCopy) (source dest : ServerRef)
    (sourceName destName destResource : String) (configMap : Entries String)
    (keepVolatile : Bool) (ephemeral : Int) (stateful containerOnly : Bool)
    (mode pool : String) (t : CopyTrace) :
    ∃ ext, (copyContainer_copy X c source dest sourceName destName destResource configMap
        keepVolatile ephemeral stateful containerOnly mode pool t).1 = t ++ ext ∧
      ∀ sent ∈ sentEntries ext, ∃ fetched ∈ fetchedEntries ext,
        copyContainer_prepare X c configMap keepVolatile ephemeral pool fetched = some sent := by
  unfold copyContainer_copy
  dsimp only
  split
  · split
    · rename_i containerName name tail hsplit
      cases hr : X.GetContainerSnapshot t source containerName name with
      | error err => exact ⟨_, rfl, by simp [sentEntries]⟩
      | ok entry =>
        dsimp only
        cases hp : copyContainer_prepare X c configMap keepVolatile ephemeral pool entry with
        | none => exact ⟨_, rfl, by simp [sentEntries]⟩
        | some sent =>
          dsimp only
          cases hc : X.CopyContainerSnapshot
              (t ++ [CopyEvent.GetContainerSnapshot source containerName name (.ok entry)])
              dest source sent ⟨destName, mode, stateful⟩ with
          | some err =>
            refine ⟨[CopyEvent.GetContainerSnapshot source containerName name (.ok entry),
              CopyEvent.CopyContainerSnapshot dest source sent ⟨destName, mode, stateful⟩
                (some err)], by simp, ?_⟩
            intro s hs
            simp only [sentEntries, List.filterMap_cons, List.filterMap_nil,
              List.mem_singleton] at hs
            subst hs
            exact ⟨entry, by simp [fetchedEntries], hp⟩
          | none =>
            dsimp only
            obtain ⟨ext, hrun, hnone⟩ := copyContainer_watch_shape X destResource
              (t ++ [CopyEvent.GetContainerSnapshot source containerName name (.ok entry)] ++
                [CopyEvent.CopyContainerSnapshot dest source sent ⟨destName, mode, stateful⟩ none])
            refine ⟨CopyEvent.GetContainerSnapshot source containerName name (.ok entry) ::
              CopyEvent.CopyContainerSnapshot dest source sent ⟨destName, mode, stateful⟩ none ::
              ext, by rw [hrun]; simp, ?_⟩
            intro s hs
            simp only [sentEntries, List.filterMap_cons, List.mem_cons] at hs
            rcases hs with hs | hs
            · subst hs
              exact ⟨entry, by simp [fetchedEntries], hp⟩
            · rw [show List.filterMap _ ext = sentEntries ext from rfl, hnone] at hs
              cases hs
    · exact ⟨[], by simp, by simp [sentEntries]⟩
  · cases hr : X.GetContainer t source sourceName with
    | error err => exact ⟨_, rfl, by simp [sentEntries]⟩
    | ok entry =>
      dsimp only
      cases hp : copyContainer_prepare X c configMap keepVolatile ephemeral pool entry with
      | none => exact ⟨_, rfl, by simp [sentEntries]⟩
      | some sent =>
        dsimp only
        cases hc : X.CopyContainer (t ++ [CopyEvent.GetContainer source sourceName (.ok entry)])
            dest source sent ⟨destName, stateful, containerOnly, mode⟩ with
        | some err =>
          refine ⟨[CopyEvent.GetContainer source sourceName (.ok entry),
            CopyEvent.CopyContainer dest source sent ⟨destName, stateful, containerOnly, mode⟩
              (some err)], by simp, ?_⟩
          intro s hs
          simp only [sentEntries, List.filterMap_cons, List.filterMap_nil,
            List.mem_singleton] at hs
          subst hs
          exact ⟨entry, by simp [fetchedEntries], hp⟩
        | none =>
          dsimp only
          obtain ⟨ext, hrun, hnone⟩ := copyContainer_watch_shape X destResource
            (t ++ [CopyEvent.GetContainer source sourceName (.ok entry)] ++
              [CopyEvent.CopyContainer dest source sent
                ⟨destName, stateful, containerOnly, mode⟩ none])
          refine ⟨CopyEvent.GetContainer source sourceName (.ok entry) ::
            CopyEvent.CopyContainer dest source sent ⟨destName, stateful, containerOnly, mode⟩
              none :: ext, by rw [hrun]; simp, ?_⟩
          intro s hs
          simp only [sentEntries, List.filterMap_cons, List.mem_cons] at hs
          rcases hs with hs | hs
          · subst hs
            exact ⟨entry, by simp [fetchedEntries], hp⟩
          · rw [show List.filterMap _ ext = sentEntries ext from rfl, hnone] at hs
            cases hs

/-- From a history that extends `t` by events that send no entry, the copy sends only
prepared entries. -/
theorem copyContainer_copy_after (X : CopyEnv) (c : cmdCopy) (source dest : ServerRef)
    (sourceName destName destResource : String) (configMap : Entries String)
    (keepVolatile : Bool) (ephemeral : Int) (stateful containerOnly : Bool)
    (mode pool : String) (t pre : CopyTrace) (hpre : sentEntries pre = []) :
    ∃ ext, (copyContainer_copy X c source dest sourceName destName destResource configMap
        keepVolatile ephemeral stateful containerOnly mode pool (t ++ pre)).1 = t ++ ext ∧
      ∀ sent ∈ sentEntries ext, ∃ fetched ∈ fetchedEntries ext,
        copyContainer_prepare X c configMap keepVolatile ephemeral pool fetched = some sent := by
  obtain ⟨ext, hrun, hall⟩ := copyContainer_copy_shape X c source dest sourceName destName
    destResource configMap keepVolatile ephemeral stateful containerOnly mode pool (t ++ pre)
  refine ⟨pre ++ ext, by rw [hrun, List.append_assoc], ?_⟩
  intro sent hs
  rw [sentEntries_append, hpre, List.nil_append] at hs
  obtain ⟨fetched, hf, hp⟩ := hall sent hs
  exact ⟨fetched, by rw [fetchedEntries_append]; exact List.mem_append_right _ hf, hp⟩

theorem copyContainer_connect_shape (X : CopyEnv) (c : cmdCopy) (sourceRemote sourceName
    destRemote destName destResource : String) (keepVolatile : Bool) (ephemeral : Int)
    (stateful containerOnly : Bool) (mode pool : String) (t : CopyTrace) :
    ∃ ext, (copyContainer_connect X c sourceRemote sourceName destRemote destName destResource
        keepVolatile ephemeral stateful containerOnly mode pool t).1 = t ++ ext ∧
      ∀ sent ∈ sentEntries ext, ∃ fetched ∈ fetchedEntries ext, ∃ configMap,
        copyContainer_configMap X c.flagConfig [] = some (.ok configMap) ∧
        copyContainer_prepare X c configMap keepVolatile ephemeral pool fetched = some sent := by
  unfold copyContainer_connect
  dsimp only
  have hfinish : ∀ (source dest : ServerRef) (pre : CopyTrace), sentEntries pre = [] →
      ∃ ext, (match copyContainer_configMap X c.flagConfig [] with
        | none => (t ++ pre, Ret.panic)
        | some (.error err) => (t ++ pre, Ret.err err)
        | some (.ok configMap) =>
          copyContainer_copy X c source dest sourceName destName destResource configMap
            keepVolatile ephemeral stateful containerOnly mode pool (t ++ pre)).1 = t ++ ext ∧
      ∀ sent ∈ sentEntries ext, ∃ fetched ∈ fetchedEntries ext, ∃ configMap,
        copyContainer_configMap X c.flagConfig [] = some (.ok configMap) ∧
        copyContainer_prepare X c configMap keepVolatile ephemeral pool fetched = some sent := by
    intro source dest pre hpre
    cases hcm : copyContainer_configMap X c.flagConfig [] with
    | none => exact ⟨pre, rfl, by simp [hpre]⟩
    | some parsed =>
      cases parsed with
      | error err => exact ⟨pre, rfl, by simp [hpre]⟩
      | ok configMap =>
        dsimp only
        obtain ⟨ext, hrun, hall⟩ := copyContainer_copy_after X c source dest sourceName destName
          destResource configMap keepVolatile ephemeral stateful containerOnly mode pool t pre
          hpre
        refine ⟨ext, hrun, ?_⟩
        intro sent hs
        obtain ⟨fetched, hf, hp⟩ := hall sent hs
        exact ⟨fetched, hf, configMap, rfl, hp⟩
  cases hs : X.GetContainerServer t sourceRemote with
  | some err => exact ⟨_, rfl, by simp [sentEntries]⟩
  | none =>
    dsimp only
    by_cases hsame : sourceRemote = destRemote
    · simp only [hsame, if_true]
      by_cases htarget : c.flagTarget = ""
      · simp only [htarget, ne_eq, not_true_eq_false, decide_False, Bool.false_and,
          Bool.false_eq_true, if_false]
        exact hfinish _ _ [CopyEvent.GetContainerServer destRemote none] rfl
      · simp only [ne_eq, htarget, not_false_eq_true, decide_True, Bool.true_and, if_true]
        split
        · exact ⟨_, List.append_assoc _ _ _, by simp [sentEntries]⟩
        · have := hfinish ⟨destRemote, c.flagTarget⟩ ⟨destRemote, c.flagTarget⟩
            [CopyEvent.GetContainerServer destRemote none,
              CopyEvent.IsClustered ⟨destRemote, c.flagTarget⟩
                (X.IsClustered (t ++ [CopyEvent.GetContainerServer destRemote none])
                  ⟨destRemote, c.flagTarget⟩)] rfl
          simpa only [List.append_assoc, List.singleton_append] using this
    · simp only [hsame, if_false]
      cases hd : X.GetContainerServer (t ++ [CopyEvent.GetContainerServer sourceRemote none])
          destRemote with
      | some err => exact ⟨_, List.append_assoc _ _ _, by simp [sentEntries]⟩
      | none =>
        dsimp only
        by_cases htarget : c.flagTarget = ""
        · simp only [htarget, ne_eq, not_true_eq_false, decide_False, Bool.false_and,
            Bool.false_eq_true, if_false]
          have := hfinish ⟨sourceRemote, ""⟩ ⟨destRemote, ""⟩
            [CopyEvent.GetContainerServer sourceRemote none,
              CopyEvent.GetContainerServer destRemote none] rfl
          simpa only [List.append_assoc, List.singleton_append] using this
        · simp only [ne_eq, htarget, not_false_eq_true, decide_True, Bool.true_and, if_true]
          split
          · exact ⟨_, by simp only [List.append_assoc]; rfl, by simp [sentEntries]⟩
          · have := hfinish ⟨sourceRemote, c.flagTarget⟩ ⟨destRemote, ""⟩
              [CopyEvent.GetContainerServer sourceRemote none,
                CopyEvent.GetContainerServer destRemote none,
                CopyEvent.IsClustered ⟨destRemote, ""⟩
                  (X.IsClustered (t ++ [CopyEvent.GetContainerServer sourceRemote none] ++
                    [CopyEvent.GetContainerServer destRemote none]) ⟨destRemote, ""⟩)] rfl
            simpa only [List.append_assoc, List.singleton_append] using this

/-- Claim C19: every entry `cmdCopy.copyContainer` sends to the destination, with
`CopyContainer` or with `CopyContainerSnapshot`, was fetched from the source by the same
run, and its configuration relates to the fetched one after the `--config` overrides as
follows: with `keepVolatile` true it is that configuration; with `keepVolatile` false a
key that starts with `volatile` and is not `volatile.base_image` is absent, every other
key has the value it had, and a nil map stays nil. -/
theorem volatile_keys_stripped (X : CopyEnv) (c : cmdCopy) (sourceResource destResource : String)
    (keepVolatile : Bool) (ephemeral : Int) (stateful containerOnly : Bool)
    (mode pool : String) :
    ∀ sent ∈ sentEntries (cmdCopy.copyContainer X c sourceResource destResource keepVolatile
        ephemeral stateful containerOnly mode pool []).1,
      ∃ fetched ∈ fetchedEntries (cmdCopy.copyContainer X c sourceResource destResource
          keepVolatile ephemeral stateful containerOnly mode pool []).1,
        ∃ configMap before,
          copyContainer_configMap X c.flagConfig [] = some (.ok configMap) ∧
          copyContainer_override fetched.Config configMap = some before ∧
          (keepVolatile = true → sent.Config = before) ∧
          (keepVolatile = false →
            sent.Config.isSome = before.isSome ∧
            ∀ k, Entries.get? sent.Config k
              = if HasPrefix k "volatile" = true ∧ k ≠ "volatile.base_image" then none
                else Entries.get? before k) := by
  have hmain : ∀ (tr : CopyTrace),
      (∀ sent ∈ sentEntries tr, ∃ fetched ∈ fetchedEntries tr, ∃ configMap,
        copyContainer_configMap X c.flagConfig [] = some (.ok configMap) ∧
        copyContainer_prepare X c configMap keepVolatile ephemeral pool fetched = some sent) →
      ∀ sent ∈ sentEntries tr, ∃ fetched ∈ fetchedEntries tr, ∃ configMap before,
          copyContainer_configMap X c.flagConfig [] = some (.ok configMap) ∧
          copyContainer_override fetched.Config configMap = some before ∧
          (keepVolatile = true → sent.Config = before) ∧
          (keepVolatile = false →
            sent.Config.isSome = before.isSome ∧
            ∀ k, Entries.get? sent.Config k
              = if HasPrefix k "volatile" = true ∧ k ≠ "volatile.base_image" then none
                else Entries.get? before k) := by
    intro tr h sent hs
    obtain ⟨fetched, hf, configMap, hcm, hp⟩ := h sent hs
    obtain ⟨before, hov, hcfg⟩ := prepare_config X c configMap keepVolatile ephemeral pool
      fetched sent hp
    refine ⟨fetched, hf, configMap, before, hcm, hov, ?_, ?_⟩
    · intro hk
      rw [hcfg, hk]
      rfl
    · intro hk
      rw [hcfg, hk]
      simp only [Bool.false_eq_true, if_false]
      exact ⟨strip_isSome before, strip_get before⟩
  apply hmain
  unfold cmdCopy.copyContainer
  repeat' split
  all_goals
    first
    | (intro sent hs; simp [sentEntries] at hs; done)
    | (obtain ⟨ext, hrun, hall⟩ := copyContainer_connect_shape X c _ _ _ _ destResource
        keepVolatile ephemeral stateful containerOnly mode pool []
       rw [hrun]
       exact hall)

/-- Claim C19 on a copy of `sampleEntry` with `keepVolatile` false: the entry sent has
lost `volatile.eth0.hwaddr` and kept `volatile.base_image` and `limits.cpu`. -/
theorem volatile_keys_stripped_witness :
    (sentEntries (cmdCopy.copyContainer sampleCopyEnv sampleCopy "c1" "c2" false 0
        true false "pull" "" []).1).length = 1 ∧
    ∀ sent ∈ sentEntries (cmdCopy.copyContainer sampleCopyEnv sampleCopy "c1" "c2" false 0
        true false "pull" "" []).1,
      Entries.get? sent.Config "volatile.eth0.hwaddr" = none ∧
      Entries.get? sent.Config "volatile.base_image" = some "4f0e" ∧
      Entries.get? sent.Config "limits.cpu" = some "2" := by
  refine ⟨rfl, ?_⟩
  intro sent hs
  obtain ⟨fetched, hf, configMap, before, hcm, hov, -, hstrip⟩ :=
    volatile_keys_stripped sampleCopyEnv sampleCopy "c1" "c2" false 0 true false "pull" ""
      sent hs
  have hfetched : fetchedEntries (cmdCopy.copyContainer sampleCopyEnv sampleCopy "c1" "c2"
      false 0 true false "pull" "" []).1 = [sampleEntry] := rfl
  rw [hfetched, List.mem_singleton] at hf
  subst hf
  have hmap : configMap = [] := by
    have : copyContainer_configMap sampleCopyEnv sampleCopy.flagConfig [] = some (.ok []) := rfl
    rw [this] at hcm
    simpa using hcm.symm
  subst hmap
  have hbefore : before = sampleEntry.Config := by
    have : copyContainer_override sampleEntry.Config [] = some sampleEntry.Config := rfl
    rw [this] at hov
    simpa using hov.symm
  subst hbefore
  obtain ⟨-, hget⟩ := hstrip rfl
  refine ⟨?_, ?_, ?_⟩
  · rw [hget]; rfl
  · rw [hget]; rfl
  · rw [hget]; rfl

/-- A map built by assigning the entries of a list in order holds, for each key, the
value of the last entry with that key, and what it held before for every other key. -/
theorem foldl_set_last {α V : Type} (key : α → String) (val : α → V) (k : String) :
    ∀ (l : List α) (m0 : GoMap V),
      (l.foldl (fun m e => m.set (key e) (val e)) m0) k
        = match l.reverse.find? (fun e => decide (key e = k)) with
          | some e => some (val e)
          | none => m0 k := by
  intro l
  induction l with
  | nil => intro m0; rfl
  | cons e rest ih =>
    intro m0
    rw [List.foldl_cons, ih, List.reverse_cons, List.find?_append]
    cases hf : rest.reverse.find? (fun e => decide (key e = k)) with
    | some e1 => rfl
    | none =>
      simp only [Option.or, List.find?_cons, List.find?_nil]
      by_cases hk : key e = k
      · simp [hk, GoMap.set]
      · have : ¬ (k = key e) := fun h => hk h.symm
        simp [hk, GoMap.set, this]

/-- Claim C24: for every container name and every snapshot message,
`snapshotProtobufToContainerArgs` returns metadata whose name is the container name, the
snapshot delimiter and the snapshot name; whose type is snapshot; whose ephemeral flag,
stateful flag, architecture and profiles are those of the message; whose configuration
map holds for each key the value of the last entry of the message with that key, and
nothing for a key without entry; whose device map holds for each device name the
properties of the last device entry with that name, each property with the value of its
last entry; and whose creation and last-used times are `time.Unix` of the sent seconds
when these are not 0 and the zero time, which is not `time.Unix(0, 0)`, when they are. -/
theorem protobuf_to_args (E : Env) (containerName : String) (snap : Snapshot) :
    (snapshotProtobufToContainerArgs E containerName snap).Name
      = containerName ++ E.SnapshotDelimiter ++ snap.Name ∧
    (snapshotProtobufToContainerArgs E containerName snap).Ctype = ContainerType.CTypeSnapshot ∧
    (snapshotProtobufToContainerArgs E containerName snap).Ephemeral = snap.Ephemeral ∧
    (snapshotProtobufToContainerArgs E containerName snap).Stateful = snap.Stateful ∧
    (snapshotProtobufToContainerArgs E containerName snap).Architecture = snap.Architecture ∧
    (snapshotProtobufToContainerArgs E containerName snap).Profiles = snap.Profiles ∧
    (∀ k, (snapshotProtobufToContainerArgs E containerName snap).Config k
      = (snap.LocalConfig.reverse.find? (fun ent => decide (ent.Key = k))).map
          (fun ent => ent.Value)) ∧
    (∀ name, (snapshotProtobufToContainerArgs E containerName snap).Devices name
      = (snap.LocalDevices.reverse.find? (fun ent => decide (ent.Name = name))).map
          (fun ent => fun k =>
            (ent.Config.reverse.find? (fun prop => decide (prop.Key = k))).map
              (fun prop => prop.Value))) ∧
    ((snapshotProtobufToContainerArgs E containerName snap).CreationDate
      = if snap.CreationDate = 0 then Time.zero else Time.unix snap.CreationDate) ∧
    ((snapshotProtobufToContainerArgs E containerName snap).LastUsedDate
      = if snap.LastUsedDate = 0 then Time.zero else Time.unix snap.LastUsedDate) ∧
    Time.zero ≠ Time.unix 0 := by
  refine ⟨rfl, rfl, rfl, rfl, rfl, rfl, ?_, ?_, ?_, ?_, ?_⟩
  · intro k
    unfold snapshotProtobufToContainerArgs
    dsimp only
    rw [foldl_set_last (fun ent : Config => ent.Key) (fun ent => ent.Value)]
    cases snap.LocalConfig.reverse.find? (fun ent => decide (ent.Key = k)) <;> rfl
  · intro name
    unfold snapshotProtobufToContainerArgs
    dsimp only
    rw [foldl_set_last (fun ent : Device => ent.Name)
      (fun ent => ent.Config.foldl (fun m prop => m.set prop.Key prop.Value) GoMap.empty)]
    cases snap.LocalDevices.reverse.find? (fun ent => decide (ent.Name = name)) with
    | none => rfl
    | some ent =>
      simp only [Option.map_some', Option.some.injEq]
      funext k
      rw [foldl_set_last (fun prop : Config => prop.Key) (fun prop => prop.Value)]
      cases ent.Config.reverse.find? (fun prop => decide (prop.Key = k)) <;> rfl
  · unfold snapshotProtobufToContainerArgs
    dsimp only
    by_cases h : snap.CreationDate = 0 <;> simp [h]
  · unfold snapshotProtobufToContainerArgs
    dsimp only
    by_cases h : snap.LastUsedDate = 0 <;> simp [h]
  · intro h
    cases h

/-- Claim C24 on a message that sends a key and a device name twice and no creation
time. -/
theorem protobuf_to_args_witness :
    (snapshotProtobufToContainerArgs (sampleEnv MigrationFSType_RSYNC) "c1"
      sampleRepeatedSnapshot).Config "limits.cpu" = some "2" ∧
    (snapshotProtobufToContainerArgs (sampleEnv MigrationFSType_RSYNC) "c1"
      sampleRepeatedSnapshot).Config "limits.disk" = none ∧
    (snapshotProtobufToContainerArgs (sampleEnv MigrationFSType_RSYNC) "c1"
      sampleRepeatedSnapshot).CreationDate = Time.zero ∧
    (snapshotProtobufToContainerArgs (sampleEnv MigrationFSType_RSYNC) "c1"
      sampleRepeatedSnapshot).LastUsedDate = Time.unix 1541289600 :=
  ⟨(protobuf_to_args (sampleEnv MigrationFSType_RSYNC) "c1"
      sampleRepeatedSnapshot).2.2.2.2.2.2.1 "limits.cpu",
   (protobuf_to_args (sampleEnv MigrationFSType_RSYNC) "c1"
      sampleRepeatedSnapshot).2.2.2.2.2.2.1 "limits.disk",
   (protobuf_to_args (sampleEnv MigrationFSType_RSYNC) "c1"
      sampleRepeatedSnapshot).2.2.2.2.2.2.2.2.1,
   (protobuf_to_args (sampleEnv MigrationFSType_RSYNC) "c1"
      sampleRepeatedSnapshot).2.2.2.2.2.2.2.2.2.1⟩

/-- Claim C25: in a run of `migrationSourceWs.DoStorage` that calls the driver's
`SendStorageVolume` at the history `pre`, if that call fails with the error `e`, then the
driver is the rsync driver exactly when the type of the received reply differs from the
source's own, `Cleanup` is invoked on that same driver right after the send, a failure
control message carrying `e` is sent next, nothing follows but the deferred unmount,
`DoStorage` returns `e`, and no control message is received in the whole run. -/
theorem send_failure_aborts (E : Env) (s : migrationSourceWs) (pre post : Trace)
    (d : DriverKind) (conn : Side) (bwlimit : String) (e : Error)
    (hsplit : (s.DoStorage E []).trace = pre ++ Event.SendStorageVolume d conn bwlimit :: post)
    (hfail : (MigrationStorageSourceDriver.SendStorageVolume E d conn bwlimit s.storage pre).2
      = Ret.err e) :
    (s.DoStorage E []).ret = Ret.err e ∧
    (∃ fs, Event.recvHeader Side.src (.ok ⟨some fs⟩) ∈ pre ∧
      d = if fs ≠ s.storage.MigrationType then DriverKind.rsync else DriverKind.backend) ∧
    (∃ pay rest,
      (MigrationStorageSourceDriver.SendStorageVolume E d conn bwlimit s.storage pre).1
        = pre ++ Event.SendStorageVolume d conn bwlimit :: pay ∧
      post = pay ++ [Event.Cleanup d, Event.sendControl Side.src (some e)] ++ rest ∧
      ∀ x ∈ rest, x = Event.StoragePoolVolumeUmount) ∧
    ∀ side r, Event.recvControl side r ∉ (s.DoStorage E []).trace := by
  obtain ⟨ext, ret, ty, hrun, hshape⟩ := source_run_shape E s []
  rw [hrun] at hsplit ⊢
  simp only [List.nil_append] at hsplit ⊢
  cases hshape with
  | mountFailed e1 =>
    exact (@no_split Event.isPayload _ (by simp [Event.isPayload]) pre post _ hsplit rfl).elim
  | mounted b ext1 _ _ hbody =>
    cases hbody with
    | sendFailed e1 =>
      refine (@no_split Event.isPayload _ ?_ pre post _ hsplit rfl).elim
      cases b <;> simp [Event.isPayload]
    | driverFailed e1 =>
      refine (@no_split Event.isPayload _ ?_ pre post _ hsplit rfl).elim
      cases b <;> simp [Event.isPayload]
    | recvFailed e1 =>
      refine (@no_split Event.isPayload _ ?_ pre post _ hsplit rfl).elim
      cases b <;> simp [Event.isPayload]
    | unsetFs =>
      refine (@no_split Event.isPayload _ ?_ pre post _ hsplit rfl).elim
      cases b <;> simp [Event.isPayload]
    | payload fs pay tail r _ hsend hpay htail =>
      have hkind : ∀ x ∈ pay, x.isStorageLevel = true ∨ ∃ r, x = Event.backendSendReturned r :=
        fun x hx => Event.driverSend_kind (hpay x hx).1 (hpay x hx).2
      have hp4 : ∀ side r, Event.recvControl side r ∉ pay := fun _ _ hm => by
        rcases hkind _ hm with h | ⟨_, h⟩ <;> simp [Event.isStorageLevel] at h
      have hp6 : ∀ x ∈ pay, x.isPayload = false := fun x hx =>
        ((Event.isOther_iff x).1 (Event.isOther_of_driverSend (hpay x hx).1 (hpay x hx).2)).1
      have hQ : ∀ x ∈ pay ++ tail ++ (if b then [Event.StoragePoolVolumeUmount] else []),
          x.isPayload = false := by
        intro x hx
        simp only [List.mem_append] at hx
        rcases hx with (hx | hx) | hx
        · exact hp6 x hx
        · exact (htail.events x hx).2
        · cases b <;> simp at hx
          subst hx
          rfl
      have hs1 : [Event.allConnected, Event.StoragePoolVolumeMount (.ok b),
          Event.send Side.src ⟨some s.storage.MigrationType⟩ none,
          Event.StorageMigrationSource none, Event.recvHeader Side.src (.ok ⟨some fs⟩)] ++
          Event.SendStorageVolume (sourceDriver s.storage.MigrationType fs) Side.src
            (sourceBwlimit s.storage fs) ::
            (pay ++ tail ++ (if b then [Event.StoragePoolVolumeUmount] else []))
          = pre ++ Event.SendStorageVolume d conn bwlimit :: post := by
        rw [← hsplit]; simp
      obtain ⟨hpre, he, hpost⟩ := split_unique (p := Event.isPayload)
        (by simp [Event.isPayload]) hQ hs1 rfl
      simp only [Event.SendStorageVolume.injEq] at he
      obtain ⟨hd, hc, hb⟩ := he
      subst hpost hd hc hb hpre
      have hsend1 : MigrationStorageSourceDriver.SendStorageVolume E
          (sourceDriver s.storage.MigrationType fs) Side.src (sourceBwlimit s.storage fs)
          s.storage [Event.allConnected, Event.StoragePoolVolumeMount (.ok b),
            Event.send Side.src ⟨some s.storage.MigrationType⟩ none,
            Event.StorageMigrationSource none, Event.recvHeader Side.src (.ok ⟨some fs⟩)]
          = ([Event.allConnected, Event.StoragePoolVolumeMount (.ok b),
            Event.send Side.src ⟨some s.storage.MigrationType⟩ none,
            Event.StorageMigrationSource none, Event.recvHeader Side.src (.ok ⟨some fs⟩)] ++
            Event.SendStorageVolume (sourceDriver s.storage.MigrationType fs) Side.src
              (sourceBwlimit s.storage fs) :: pay, Ret.ofErr r) := by
        simpa using hsend
      rw [hsend1] at hfail ⊢
      cases r with
      | none => simp [Ret.ofErr] at hfail
      | some e0 =>
        simp only [Ret.ofErr, Ret.err.injEq] at hfail
        subst hfail
        cases htail
        refine ⟨rfl, ⟨fs, by simp, by simp [sourceDriver]⟩,
          ⟨pay, (if b then [Event.StoragePoolVolumeUmount] else []), rfl, by simp, ?_⟩, ?_⟩
        · intro x hx
          cases b <;> simp at hx
          exact hx
        · intro side r hm
          cases b <;> simp [hp4] at hm

/-- Claim C25 on a source that fell back to rsync and whose stream fails. -/
theorem send_failure_aborts_witness :
    ((sampleSource MigrationFSType_BTRFS).DoStorage
      { sampleEnv MigrationFSType_ZFS with RsyncSend := fun _ _ _ _ _ _ _ => some "broken pipe" }
      []).ret = Ret.err "broken pipe" :=
  (send_failure_aborts
    { sampleEnv MigrationFSType_ZFS with RsyncSend := fun _ _ _ _ _ _ _ => some "broken pipe" }
    (sampleSource MigrationFSType_BTRFS)
    [Event.allConnected, Event.StoragePoolVolumeMount (.ok true),
      Event.send Side.src ⟨some MigrationFSType_BTRFS⟩ none,
      Event.StorageMigrationSource none,
      Event.recvHeader Side.src (.ok ⟨some MigrationFSType_ZFS⟩)]
    [Event.StoragePoolVolumeMount (.ok true),
      Event.RsyncSend "vol1" "/var/lib/lxd/storage-pools/default/custom/vol1/" Side.src
        (some "vol1") "" "/usr/bin/lxd" (some "broken pipe"),
      Event.StoragePoolVolumeUmount,
      Event.Cleanup DriverKind.rsync,
      Event.sendControl Side.src (some "broken pipe"),
      Event.StoragePoolVolumeUmount]
    DriverKind.rsync Side.src "" "broken pipe" rfl rfl).1

/-- Claim C26 does not hold of the code for every message: when the peer's terminal
control message reports failure with the message `m`, `migrationSourceWs.DoStorage`
returns the error `fmt.Errorf(m)`, in which `m` is the format string and not the text;
when the control message reports success it returns nil. -/
theorem peer_message_is_format (E : Env) (s : migrationSourceWs) :
    (∀ side m, Event.recvControl side (.ok ⟨some false, some m⟩) ∈ (s.DoStorage E []).trace →
      (s.DoStorage E []).ret = Ret.err (E.Errorf m)) ∧
    (∀ side message,
      Event.recvControl side (.ok ⟨some true, message⟩) ∈ (s.DoStorage E []).trace →
      (s.DoStorage E []).ret = Ret.nil) := by
  obtain ⟨ext, ret, ty, hrun, hshape⟩ := source_run_shape E s []
  rw [hrun]
  simp only [List.nil_append]
  cases hshape with
  | mountFailed e => exact ⟨by simp, by simp⟩
  | mounted b ext1 _ _ hbody =>
    cases hbody with
    | sendFailed e => constructor <;> cases b <;> simp
    | driverFailed e => constructor <;> cases b <;> simp
    | recvFailed e => constructor <;> cases b <;> simp
    | unsetFs => constructor <;> cases b <;> simp
    | payload fs pay tail r _ hsend hpay htail =>
      have hkind : ∀ x ∈ pay, x.isStorageLevel = true ∨ ∃ r, x = Event.backendSendReturned r :=
        fun x hx => Event.driverSend_kind (hpay x hx).1 (hpay x hx).2
      have hp4 : ∀ side r, Event.recvControl side r ∉ pay := fun _ _ hm => by
        rcases hkind _ hm with h | ⟨_, h⟩ <;> simp [Event.isStorageLevel] at h
      constructor
      · intro side m h
        cases htail <;> cases b <;> simp [hp4] at h ⊢
        all_goals (obtain ⟨-, h2⟩ := h; subst h2; rfl)
      · intro side message h
        cases htail <;> cases b <;> simp [hp4] at h ⊢
        all_goals (obtain ⟨-, h2⟩ := h; subst h2; rfl)

/-- The divergence of claim C26: the peer reports `quota at 100%` and the error returned
reads `quota at 100%!(NOVERB)`. -/
theorem peer_message_is_format_witness :
    ((sampleSource MigrationFSType_BTRFS).DoStorage
      (sampleFormatEnv MigrationFSType_BTRFS "quota at 100%") []).ret
      = Ret.err "quota at 100%!(NOVERB)" :=
  (peer_message_is_format (sampleFormatEnv MigrationFSType_BTRFS "quota at 100%")
    (sampleSource MigrationFSType_BTRFS)).1 Side.src "quota at 100%"
    (by
      have h : ((sampleSource MigrationFSType_BTRFS).DoStorage
          (sampleFormatEnv MigrationFSType_BTRFS "quota at 100%") []).trace
          = [Event.allConnected, Event.StoragePoolVolumeMount (.ok true),
             Event.send Side.src ⟨some MigrationFSType_BTRFS⟩ none,
             Event.StorageMigrationSource none,
             Event.recvHeader Side.src (.ok ⟨some MigrationFSType_BTRFS⟩),
             Event.SendStorageVolume DriverKind.backend Side.src "",
             Event.backendSendReturned none,
             Event.recvControl Side.src (.ok ⟨some false, some "quota at 100%"⟩),
             Event.StoragePoolVolumeUmount] := rfl
      rw [h]; simp)

theorem dirLoop_protocol (E : Env) (c : container) (conn : Side) (pool : String) :
    ∀ (snaps : List Snapshot) (t : Trace),
      ∃ ext r, rsyncMigrationSink_dirLoop E c conn pool snaps t = (t ++ ext, r) ∧
        DirSnapshotProtocol E c conn pool snaps ext r := by
  intro snaps
  induction snaps with
  | nil =>
    intro t
    exact ⟨[], none, by simp [rsyncMigrationSink_dirLoop], DirSnapshotProtocol.finished⟩
  | cons snap rest ih =>
    intro t
    unfold rsyncMigrationSink_dirLoop
    cases hr : rsyncMigrationSink_rebind E (snapshotProtobufToContainerArgs E c.Name snap) pool with
    | none => exact ⟨[], _, by simp, DirSnapshotProtocol.nilMap snap rest hr⟩
    | some args =>
      dsimp only
      cases hc : E.containerCreateEmptySnapshot t args with
      | error err => exact ⟨_, _, rfl, DirSnapshotProtocol.createFailed snap rest args err hr⟩
      | ok s =>
        dsimp only
        cases hv : E.RsyncRecv (t ++ [Event.containerCreateEmptySnapshot args (.ok (s.Name, s.Path))])
            (E.AddSlash s.Path) conn s.Name with
        | some err =>
          exact ⟨_, _, by simp only [List.append_assoc]; rfl,
            DirSnapshotProtocol.recvFailed snap rest args s.Name s.Path err hr⟩
        | none =>
          dsimp only
          cases hs : E.ShiftIfNecessary
              (t ++ [Event.containerCreateEmptySnapshot args (.ok (s.Name, s.Path))] ++
                [Event.RsyncRecv (E.AddSlash s.Path) conn s.Name none]) c.Name with
          | some err =>
            exact ⟨_, _, by simp only [List.append_assoc]; rfl,
              DirSnapshotProtocol.shiftFailed snap rest args s.Name s.Path err hr⟩
          | none =>
            dsimp only
            obtain ⟨ext, r, hrun, hp⟩ := ih
              (t ++ [Event.containerCreateEmptySnapshot args (.ok (s.Name, s.Path))] ++
                [Event.RsyncRecv (E.AddSlash s.Path) conn s.Name none] ++
                [Event.ShiftIfNecessary c.Name none])
            exact ⟨_, r, by rw [hrun]; simp only [List.append_assoc]; rfl,
              DirSnapshotProtocol.handled snap rest args s.Name s.Path ext r hr hp⟩

theorem snapLoop_protocol (E : Env) (c : container) (conn : Side) (pool : String) :
    ∀ (snaps : List Snapshot) (t : Trace),
      ∃ ext r, rsyncMigrationSink_snapLoop E c conn pool snaps t = (t ++ ext, r) ∧
        NativeSnapshotProtocol E c conn pool snaps ext r := by
  intro snaps
  induction snaps with
  | nil =>
    intro t
    exact ⟨[], none, by simp [rsyncMigrationSink_snapLoop], NativeSnapshotProtocol.finished⟩
  | cons snap rest ih =>
    intro t
    unfold rsyncMigrationSink_snapLoop
    cases hr : rsyncMigrationSink_rebind E (snapshotProtobufToContainerArgs E c.Name snap) pool with
    | none => exact ⟨[], _, by simp, NativeSnapshotProtocol.nilMap snap rest hr⟩
    | some args =>
      dsimp only
      cases hv : E.RsyncRecv t (E.AddSlash c.Path) conn snap.Name with
      | some err => exact ⟨_, _, rfl, NativeSnapshotProtocol.recvFailed snap rest args err hr⟩
      | none =>
        dsimp only
        cases hs : E.ShiftIfNecessary
            (t ++ [Event.RsyncRecv (E.AddSlash c.Path) conn snap.Name none]) c.Name with
        | some err =>
          exact ⟨_, _, by simp only [List.append_assoc]; rfl,
            NativeSnapshotProtocol.shiftFailed snap rest args err hr⟩
        | none =>
          dsimp only
          cases hc : E.containerCreateAsSnapshot
              (t ++ [Event.RsyncRecv (E.AddSlash c.Path) conn snap.Name none] ++
                [Event.ShiftIfNecessary c.Name none]) args c.Name with
          | some err =>
            exact ⟨_, _, by simp only [List.append_assoc]; rfl,
              NativeSnapshotProtocol.createFailed snap rest args err hr⟩
          | none =>
            dsimp only
            obtain ⟨ext, r, hrun, hp⟩ := ih
              (t ++ [Event.RsyncRecv (E.AddSlash c.Path) conn snap.Name none] ++
                [Event.ShiftIfNecessary c.Name none] ++
                [Event.containerCreateAsSnapshot args c.Name none])
            exact ⟨_, r, by rw [hrun]; simp only [List.append_assoc]; rfl,
              NativeSnapshotProtocol.handled snap rest args ext r hr hp⟩

/-- Claim C21: on the directory back-end with `containerOnly` false, once the storage is
started and the parent's pool is known, the actions of `rsyncMigrationSink` are the start,
then the actions of `DirSnapshotProtocol` on the incoming snapshots (per snapshot: create
an empty snapshot from the metadata, receive one payload into the path of the snapshot
just created, invoke the idmap shift), then the rest: when a step failed its error is
returned and nothing follows but the deferred `StorageStop`, so no later step, no later
snapshot and no payload of the container; when every snapshot was handled the receive of
the container's payload follows. -/
theorem dir_snapshot_steps (E : Env) (live : Bool) (c : container) (snapshots : List Snapshot)
    (conn : Side) (ourStart : Bool)
    (hdir : c.StorageType = storageType.storageTypeDir)
    (hstart : c.StorageStart [] = .ok ourStart)
    (hpool : rsyncMigrationSink_parentPool E c ≠ "") :
    ∃ ext after r,
      (rsyncMigrationSink E live c snapshots conn false []).1
        = Event.StorageStart c.Name (.ok ourStart) ::
          (ext ++ after ++ if ourStart then [Event.StorageStop c.Name] else []) ∧
      DirSnapshotProtocol E c conn (rsyncMigrationSink_parentPool E c) snapshots ext r ∧
      (∀ ret, r = some ret →
        (rsyncMigrationSink E live c snapshots conn false []).2 = ret ∧ after = []) ∧
      (r = none →
        ∃ rr rest, after = Event.RsyncRecv (E.AddSlash c.Path) conn c.Name rr :: rest) := by
  obtain ⟨ext, r, hloop, hproto⟩ := dirLoop_protocol E c conn (rsyncMigrationSink_parentPool E c)
    snapshots ([] ++ [Event.StorageStart c.Name (.ok ourStart)])
  have hfin : ∀ t : Trace, ∃ fin, (rsyncMigrationSink_finish E live c conn t).1 = t ++ fin := by
    intro t
    unfold rsyncMigrationSink_finish
    dsimp only
    cases live with
    | false => exact ⟨_, rfl⟩
    | true =>
      simp only [if_true]
      cases E.RsyncRecv t (E.AddSlash c.Path) conn c.Name with
      | some err => exact ⟨_, rfl⟩
      | none => exact ⟨_, by simp only [List.append_assoc]; rfl⟩
  unfold rsyncMigrationSink
  dsimp only
  rw [hstart]
  dsimp only
  unfold rsyncMigrationSink_body
  dsimp only
  rw [if_neg hpool]
  simp only [hdir, decide_True, Bool.not_false, if_true, hloop]
  cases r with
  | some ret =>
    refine ⟨ext, [], some ret, ?_, hproto, ?_, by simp⟩
    · cases ourStart <;> simp
    · intro ret1 h
      simp only [Option.some.injEq] at h
      subst h
      exact ⟨rfl, rfl⟩
  | none =>
    dsimp only
    cases hv : E.RsyncRecv ([] ++ [Event.StorageStart c.Name (.ok ourStart)] ++ ext)
        (E.AddSlash c.Path) conn c.Name with
    | some err =>
      refine ⟨ext, [Event.RsyncRecv (E.AddSlash c.Path) conn c.Name (some err)], none, ?_,
        hproto, by simp, fun _ => ⟨_, _, rfl⟩⟩
      cases ourStart <;> simp
    | none =>
      dsimp only
      obtain ⟨fin, hf⟩ := hfin ([] ++ [Event.StorageStart c.Name (.ok ourStart)] ++ ext ++
        [Event.RsyncRecv (E.AddSlash c.Path) conn c.Name none])
      rw [hf]
      refine ⟨ext, Event.RsyncRecv (E.AddSlash c.Path) conn c.Name none :: fin, none, ?_,
        hproto, by simp, fun _ => ⟨_, _, rfl⟩⟩
      cases ourStart <;> simp

/-- Claim C22: on a back-end other than the directory one with `containerOnly` false,
once the storage is started and the parent's pool is known, the actions of
`rsyncMigrationSink` are the start, then the actions of `NativeSnapshotProtocol` on the
incoming snapshots (per snapshot: receive one payload onto the container's own path,
invoke the idmap shift on the container, create the snapshot from the container with
`containerCreateAsSnapshot` and the metadata), then the rest: when a step failed its
error is returned and nothing follows but the deferred `StorageStop`, so no later step, no
later snapshot and no payload of the container; when every snapshot was handled the
receive of the container's payload follows. -/
theorem native_snapshot_steps (E : Env) (live : Bool) (c : container) (snapshots : List Snapshot)
    (conn : Side) (ourStart : Bool)
    (hdir : c.StorageType ≠ storageType.storageTypeDir)
    (hstart : c.StorageStart [] = .ok ourStart)
    (hpool : rsyncMigrationSink_parentPool E c ≠ "") :
    ∃ ext after r,
      (rsyncMigrationSink E live c snapshots conn false []).1
        = Event.StorageStart c.Name (.ok ourStart) ::
          (ext ++ after ++ if ourStart then [Event.StorageStop c.Name] else []) ∧
      NativeSnapshotProtocol E c conn (rsyncMigrationSink_parentPool E c) snapshots ext r ∧
      (∀ ret, r = some ret →
        (rsyncMigrationSink E live c snapshots conn false []).2 = ret ∧ after = []) ∧
      (r = none →
        ∃ rr rest, after = Event.RsyncRecv (E.AddSlash c.Path) conn c.Name rr :: rest) := by
  obtain ⟨ext, r, hloop, hproto⟩ := snapLoop_protocol E c conn (rsyncMigrationSink_parentPool E c)
    snapshots ([] ++ [Event.StorageStart c.Name (.ok ourStart)])
  have hfin : ∀ t : Trace, ∃ fin, (rsyncMigrationSink_finish E live c conn t).1 = t ++ fin := by
    intro t
    unfold rsyncMigrationSink_finish
    dsimp only
    cases live with
    | false => exact ⟨_, rfl⟩
    | true =>
      simp only [if_true]
      cases E.RsyncRecv t (E.AddSlash c.Path) conn c.Name with
      | some err => exact ⟨_, rfl⟩
      | none => exact ⟨_, by simp only [List.append_assoc]; rfl⟩
  unfold rsyncMigrationSink
  dsimp only
  rw [hstart]
  dsimp only
  unfold rsyncMigrationSink_body
  dsimp only
  rw [if_neg hpool]
  simp only [hdir, decide_False, Bool.false_eq_true, if_false, Bool.not_false, if_true, hloop]
  cases r with
  | some ret =>
    refine ⟨ext, [], some ret, ?_, hproto, ?_, by simp⟩
    · cases ourStart <;> simp
    · intro ret1 h
      simp only [Option.some.injEq] at h
      subst h
      exact ⟨rfl, rfl⟩
  | none =>
    dsimp only
    cases hv : E.RsyncRecv ([] ++ [Event.StorageStart c.Name (.ok ourStart)] ++ ext)
        (E.AddSlash c.Path) conn c.Name with
    | some err =>
      refine ⟨ext, [Event.RsyncRecv (E.AddSlash c.Path) conn c.Name (some err)], none, ?_,
        hproto, by simp, fun _ => ⟨_, _, rfl⟩⟩
      cases ourStart <;> simp
    | none =>
      dsimp only
      obtain ⟨fin, hf⟩ := hfin ([] ++ [Event.StorageStart c.Name (.ok ourStart)] ++ ext ++
        [Event.RsyncRecv (E.AddSlash c.Path) conn c.Name none])
      rw [hf]
      refine ⟨ext, Event.RsyncRecv (E.AddSlash c.Path) conn c.Name none :: fin, none, ?_,
        hproto, by simp, fun _ => ⟨_, _, rfl⟩⟩
      cases ourStart <;> simp

/-- Claim C21 on the sample environment with two incoming snapshots. -/
theorem dir_snapshot_steps_witness :
    ∃ ext after r,
      (rsyncMigrationSink (sampleEnv MigrationFSType_RSYNC) false
        (sampleContainer storageType.storageTypeDir)
        [sampleSnapshot "S1" 1, sampleSnapshot "S2" 2] Side.src false []).1
        = Event.StorageStart "c1" (.ok true) :: (ext ++ after ++ [Event.StorageStop "c1"]) ∧
      DirSnapshotProtocol (sampleEnv MigrationFSType_RSYNC)
        (sampleContainer storageType.storageTypeDir) Side.src
        (rsyncMigrationSink_parentPool (sampleEnv MigrationFSType_RSYNC)
          (sampleContainer storageType.storageTypeDir))
        [sampleSnapshot "S1" 1, sampleSnapshot "S2" 2] ext r :=
  let ⟨ext, after, r, h1, h2, _⟩ := dir_snapshot_steps (sampleEnv MigrationFSType_RSYNC) false
    (sampleContainer storageType.storageTypeDir)
    [sampleSnapshot "S1" 1, sampleSnapshot "S2" 2] Side.src true rfl rfl
    (sampleEnv_succeeds MigrationFSType_RSYNC storageType.storageTypeDir).pool
  ⟨ext, after, r, h1, h2⟩

/-- Claim C22 on the sample environment with two incoming snapshots. -/
theorem native_snapshot_steps_witness :
    ∃ ext after r,
      (rsyncMigrationSink (sampleEnv MigrationFSType_RSYNC) false
        (sampleContainer storageType.storageTypeBtrfs)
        [sampleSnapshot "S1" 1, sampleSnapshot "S2" 2] Side.src false []).1
        = Event.StorageStart "c1" (.ok true) :: (ext ++ after ++ [Event.StorageStop "c1"]) ∧
      NativeSnapshotProtocol (sampleEnv MigrationFSType_RSYNC)
        (sampleContainer storageType.storageTypeBtrfs) Side.src
        (rsyncMigrationSink_parentPool (sampleEnv MigrationFSType_RSYNC)
          (sampleContainer storageType.storageTypeBtrfs))
        [sampleSnapshot "S1" 1, sampleSnapshot "S2" 2] ext r :=
  let ⟨ext, after, r, h1, h2, _⟩ := native_snapshot_steps (sampleEnv MigrationFSType_RSYNC)
    false (sampleContainer storageType.storageTypeBtrfs)
    [sampleSnapshot "S1" 1, sampleSnapshot "S2" 2] Side.src true (by decide) rfl
    (sampleEnv_succeeds MigrationFSType_RSYNC storageType.storageTypeBtrfs).pool
  ⟨ext, after, r, h1, h2⟩

theorem Corresponds.snoc {p1 p2 t1 t2 : Trace} (h : Corresponds p1 p2 t1 t2) (e : Event) :
    Corresponds p1 p2 (t1 ++ [e]) (t2 ++ [e.onSide Side.src]) := by
  obtain ⟨ext, h1, h2⟩ := h
  exact ⟨ext ++ [e], by rw [h1, List.append_assoc], by rw [h2]; simp⟩

/-- The rsync sink takes the same actions with the same result in both modes. -/
theorem rsyncStorageMigrationSink_modes {E : Env} {c : migrationSink} {p1 p2 t1 t2 : Trace}
    (hsame : SameOutcomes E c p1 p2) (h : Corresponds p1 p2 t1 t2) :
    ∃ ext ret,
      rsyncStorageMigrationSink E Side.dest c.dest.storage t1 = (t1 ++ ext, ret) ∧
      rsyncStorageMigrationSink E Side.src c.dest.storage t2
        = (t2 ++ ext.map (Event.onSide Side.src), ret) ∧
      ∀ e ∈ ext, e.onSide Side.dest = e := by
  unfold rsyncStorageMigrationSink
  dsimp only
  rw [← hsame.create t1 t2 h]
  cases hc : c.dest.storage.StoragePoolVolumeCreate t1 with
  | some err =>
    exact ⟨[Event.StoragePoolVolumeCreate (some err)], Ret.err err, rfl, rfl,
      by simp [Event.onSide]⟩
  | none =>
    dsimp only
    have h1 : Corresponds p1 p2 (t1 ++ [Event.StoragePoolVolumeCreate none])
        (t2 ++ [Event.StoragePoolVolumeCreate none]) :=
      h.snoc (Event.StoragePoolVolumeCreate none)
    rw [← hsame.mount _ _ h1]
    cases hm : c.dest.storage.StoragePoolVolumeMount (t1 ++ [Event.StoragePoolVolumeCreate none]) with
    | error err =>
      exact ⟨[Event.StoragePoolVolumeCreate none, Event.StoragePoolVolumeMount (.error err)],
        Ret.err err, by simp, by simp [Event.onSide], by simp [Event.onSide]⟩
    | ok ourMount =>
      dsimp only
      have h2 : Corresponds p1 p2
          (t1 ++ [Event.StoragePoolVolumeCreate none] ++
            [Event.StoragePoolVolumeMount (.ok ourMount)])
          (t2 ++ [Event.StoragePoolVolumeCreate none] ++
            [Event.StoragePoolVolumeMount (.ok ourMount)]) :=
        h1.snoc (Event.StoragePoolVolumeMount (.ok ourMount))
      rw [← hsame.rsync _ _ _ _ h2]
      generalize E.RsyncRecv (t1 ++ [Event.StoragePoolVolumeCreate none] ++
        [Event.StoragePoolVolumeMount (.ok ourMount)])
        (E.AddSlash (E.getStoragePoolVolumeMountPoint c.dest.storage.poolName
          c.dest.storage.volumeName)) Side.dest c.dest.storage.volumeName = r2
      cases ourMount with
      | false =>
        exact ⟨[Event.StoragePoolVolumeCreate none, Event.StoragePoolVolumeMount (.ok false),
          Event.RsyncRecv (E.AddSlash (E.getStoragePoolVolumeMountPoint
            c.dest.storage.poolName c.dest.storage.volumeName)) Side.dest
            c.dest.storage.volumeName r2], Ret.ofErr r2, by simp, by simp [Event.onSide],
          by simp [Event.onSide]⟩
      | true =>
        exact ⟨[Event.StoragePoolVolumeCreate none, Event.StoragePoolVolumeMount (.ok true),
          Event.RsyncRecv (E.AddSlash (E.getStoragePoolVolumeMountPoint
            c.dest.storage.poolName c.dest.storage.volumeName)) Side.dest
            c.dest.storage.volumeName r2, Event.StoragePoolVolumeUmount], Ret.ofErr r2,
          by simp, by simp [Event.onSide], by simp [Event.onSide]⟩

/-- From the header receive to the terminal control message the sink takes the same
actions with the same result in both modes. -/
theorem exchange_modes {E : Env} {c : migrationSink} {p1 p2 t1 t2 : Trace}
    (hsame : SameOutcomes E c p1 p2) (h : Corresponds p1 p2 t1 t2) :
    ∃ ext ret ty,
      migrationSink.DoStorage_exchange E { c with push := true } t1 = ⟨t1 ++ ext, ret, ty⟩ ∧
      migrationSink.DoStorage_exchange E { c with push := false } t2
        = ⟨t2 ++ ext.map (Event.onSide Side.src), ret, ty⟩ ∧
      ∀ e ∈ ext, e.onSide Side.dest = e := by
  unfold migrationSink.DoStorage_exchange
  simp only [migrationSink.side, if_true, Bool.false_eq_true, if_false]
  rw [← hsame.recv t1 t2 h]
  cases hr : E.recvHeader t1 Side.dest with
  | error err =>
    exact ⟨[Event.recvHeader Side.dest (.error err), Event.sendControl Side.dest (some err)],
      Ret.err err, none, by simp, by simp [Event.onSide], by simp [Event.onSide]⟩
  | ok header =>
    obtain ⟨fs⟩ := header
    cases fs with
    | none =>
      exact ⟨[Event.recvHeader Side.dest (.ok ⟨none⟩)], Ret.panic, none, by simp,
        by simp [Event.onSide], by simp [Event.onSide]⟩
    | some fs =>
      dsimp only
      have h1 : Corresponds p1 p2 (t1 ++ [Event.recvHeader Side.dest (.ok ⟨some fs⟩)])
          (t2 ++ [Event.recvHeader Side.src (.ok ⟨some fs⟩)]) :=
        h.snoc (Event.recvHeader Side.dest (.ok ⟨some fs⟩))
      rw [← hsame.send _ _ _ h1]
      generalize hresp : (if decide (fs ≠ c.src.storage.MigrationType) = true
        then MigrationFSType_RSYNC else c.src.storage.MigrationType) = resp
      cases hs : E.send (t1 ++ [Event.recvHeader Side.dest (.ok ⟨some fs⟩)]) Side.dest
          ⟨some resp⟩ with
      | some err =>
        exact ⟨[Event.recvHeader Side.dest (.ok ⟨some fs⟩),
          Event.send Side.dest ⟨some resp⟩ (some err), Event.sendControl Side.dest (some err)],
          Ret.err err, none, by simp, by simp [Event.onSide], by simp [Event.onSide]⟩
      | none =>
        dsimp only
        have h2 : Corresponds p1 p2
            (t1 ++ [Event.recvHeader Side.dest (.ok ⟨some fs⟩)] ++
              [Event.send Side.dest ⟨some resp⟩ none])
            (t2 ++ [Event.recvHeader Side.src (.ok ⟨some fs⟩)] ++
              [Event.send Side.src ⟨some resp⟩ none]) :=
          h1.snoc (Event.send Side.dest ⟨some resp⟩ none)
        by_cases hfs : fs = c.src.storage.MigrationType
        · simp only [hfs, ne_eq, not_true_eq_false, decide_False, Bool.false_eq_true, if_false]
          rw [hfs] at h2
          rw [← hsame.sink _ _ h2]
          generalize c.src.storage.StorageMigrationSink
            (t1 ++ [Event.recvHeader Side.dest (.ok ⟨some c.src.storage.MigrationType⟩)] ++
              [Event.send Side.dest ⟨some resp⟩ none]) Side.dest = r
          cases r with
          | none =>
            exact ⟨[Event.recvHeader Side.dest (.ok ⟨some c.src.storage.MigrationType⟩),
              Event.send Side.dest ⟨some resp⟩ none, Event.StorageMigrationSink Side.dest none,
              Event.sendControl Side.dest none], Ret.nil, some resp,
              by simp [Ret.ofErr], by simp [Ret.ofErr, Event.onSide], by simp [Event.onSide]⟩
          | some err =>
            exact ⟨[Event.recvHeader Side.dest (.ok ⟨some c.src.storage.MigrationType⟩),
              Event.send Side.dest ⟨some resp⟩ none,
              Event.StorageMigrationSink Side.dest (some err),
              Event.sendControl Side.dest (some err)], Ret.err err, some resp,
              by simp [Ret.ofErr], by simp [Ret.ofErr, Event.onSide], by simp [Event.onSide]⟩
        · simp only [ne_eq, hfs, not_false_eq_true, decide_True, if_true]
          have h3 : Corresponds p1 p2
              (t1 ++ [Event.recvHeader Side.dest (.ok ⟨some fs⟩)] ++
                [Event.send Side.dest ⟨some resp⟩ none] ++
                [Event.rsyncStorageMigrationSink Side.dest])
              (t2 ++ [Event.recvHeader Side.src (.ok ⟨some fs⟩)] ++
                [Event.send Side.src ⟨some resp⟩ none] ++
                [Event.rsyncStorageMigrationSink Side.src]) :=
            h2.snoc (Event.rsyncStorageMigrationSink Side.dest)
          obtain ⟨ext, ret, hpush, hpull, hdest⟩ := rsyncStorageMigrationSink_modes hsame h3
          rw [hpush, hpull]
          cases ret with
          | nil =>
            refine ⟨Event.recvHeader Side.dest (.ok ⟨some fs⟩) ::
              Event.send Side.dest ⟨some resp⟩ none ::
              Event.rsyncStorageMigrationSink Side.dest ::
              (ext ++ [Event.sendControl Side.dest none]), Ret.nil, some resp,
              by simp, by simp [Event.onSide], ?_⟩
            intro x hx
            simp only [List.mem_cons, List.mem_append, List.mem_singleton, List.not_mem_nil,
              or_false] at hx
            rcases hx with rfl | rfl | rfl | hx | rfl
            · rfl
            · rfl
            · rfl
            · exact hdest x hx
            · rfl
          | err e =>
            refine ⟨Event.recvHeader Side.dest (.ok ⟨some fs⟩) ::
              Event.send Side.dest ⟨some resp⟩ none ::
              Event.rsyncStorageMigrationSink Side.dest ::
              (ext ++ [Event.sendControl Side.dest (some e)]), Ret.err e, some resp,
              by simp, by simp [Event.onSide], ?_⟩
            intro x hx
            simp only [List.mem_cons, List.mem_append, List.mem_singleton, List.not_mem_nil,
              or_false] at hx
            rcases hx with rfl | rfl | rfl | hx | rfl
            · rfl
            · rfl
            · rfl
            · exact hdest x hx
            · rfl
          | panic =>
            exact ⟨Event.recvHeader Side.dest (.ok ⟨some fs⟩) ::
              Event.send Side.dest ⟨some resp⟩ none ::
              Event.rsyncStorageMigrationSink Side.dest :: ext, Ret.panic, some resp,
              by simp, by simp [Event.onSide],
              by simpa [Event.onSide] using hdest⟩

/-- Claim C23: for a sink whose pull-mode dials succeed and whose collaborators give the
same outcomes in both modes, `migrationSink.DoStorage` takes, from the header receive
onward, the same actions in push mode and in pull mode and returns the same result: the
push-mode run is the wait for the connections, the actions `ext`, which start with the
header receive and are all on the destination-side connections, and the deferred
disconnect; the pull-mode run is the two dials with the control and the filesystem
secret, the same actions on the source-side connections, and the deferred disconnect. -/
theorem push_pull_same (E : Env) (c : migrationSink)
    (hcontrol : E.connectWithSecret [] c.src.controlSecret = none)
    (hfs : E.connectWithSecret [Event.connectWithSecret c.src.controlSecret none]
      c.src.fsSecret = none)
    (hsame : SameOutcomes E c [Event.allConnected]
      [Event.connectWithSecret c.src.controlSecret none,
        Event.connectWithSecret c.src.fsSecret none]) :
    ∃ ext,
      (migrationSink.DoStorage E { c with push := true } []).trace
        = Event.allConnected :: (ext ++ [Event.disconnect Side.dest]) ∧
      (migrationSink.DoStorage E { c with push := false } []).trace
        = Event.connectWithSecret c.src.controlSecret none ::
          Event.connectWithSecret c.src.fsSecret none ::
          (ext.map (Event.onSide Side.src) ++ [Event.disconnect Side.src]) ∧
      (∃ r rest, ext = Event.recvHeader Side.dest r :: rest) ∧
      (∀ e ∈ ext, e.onSide Side.dest = e) ∧
      (migrationSink.DoStorage E { c with push := true } []).ret
        = (migrationSink.DoStorage E { c with push := false } []).ret ∧
      (migrationSink.DoStorage E { c with push := true } []).fsType
        = (migrationSink.DoStorage E { c with push := false } []).fsType := by
  obtain ⟨ext, ret, ty, hpush, hpull, hdest⟩ := exchange_modes hsame
    (⟨[], rfl, rfl⟩ : Corresponds [Event.allConnected]
      [Event.connectWithSecret c.src.controlSecret none,
        Event.connectWithSecret c.src.fsSecret none]
      ([] ++ [Event.allConnected])
      ([] ++ [Event.connectWithSecret c.src.controlSecret none] ++
        [Event.connectWithSecret c.src.fsSecret none]))
  have hhead : ∃ r rest, ext = Event.recvHeader Side.dest r :: rest := by
    obtain ⟨ext1, ret1, ty1, hrun, hshape⟩ := sink_exchange_shape E { c with push := true }
      ([] ++ [Event.allConnected])
    rw [hpush] at hrun
    have hext : ext = ext1 := by
      have := congrArg Run.trace hrun
      exact List.append_cancel_left this
    subst hext
    have hside : migrationSink.side { c with push := true } = Side.dest := rfl
    rw [hside] at hshape
    cases hshape <;> exact ⟨_, _, rfl⟩
  refine ⟨ext, ?_, ?_, hhead, hdest, ?_, ?_⟩
  · unfold migrationSink.DoStorage
    simp only [if_true, hpush]
    simp
  · unfold migrationSink.DoStorage
    simp only [Bool.false_eq_true, if_false, List.nil_append, hcontrol, hfs]
    have := hpull
    simp only [List.nil_append, List.singleton_append] at this
    simp only [List.singleton_append, this]
    simp
  · unfold migrationSink.DoStorage
    simp only [if_true, Bool.false_eq_true, if_false, List.nil_append, hcontrol, hfs]
    have := hpull
    simp only [List.nil_append, List.singleton_append] at this
    have hp := hpush
    simp only [List.nil_append] at hp
    simp only [List.singleton_append, this, hp]
  · unfold migrationSink.DoStorage
    simp only [if_true, Bool.false_eq_true, if_false, List.nil_append, hcontrol, hfs]
    have := hpull
    simp only [List.nil_append, List.singleton_append] at this
    have hp := hpush
    simp only [List.nil_append] at hp
    simp only [List.singleton_append, this, hp]

/-- The collaborators of the sample environment give the same outcomes in both modes. -/
theorem sampleEnv_sameOutcomes (peer ty : MigrationFSType) (push : Bool) (p1 p2 : Trace) :
    SameOutcomes (sampleEnv peer) (sampleSink ty push) p1 p2 where
  recv := fun _ _ _ => rfl
  send := fun _ _ _ _ => rfl
  sink := fun _ _ _ => rfl
  create := fun _ _ _ => rfl
  mount := fun _ _ _ => rfl
  rsync := fun _ _ _ _ _ => rfl

/-- Claim C23 on the sample sink, which falls back to rsync: both modes return nil. -/
theorem push_pull_same_witness :
    ((sampleSink MigrationFSType_ZFS true).DoStorage (sampleEnv MigrationFSType_BTRFS) []).ret
      = ((sampleSink MigrationFSType_ZFS false).DoStorage
          (sampleEnv MigrationFSType_BTRFS) []).ret :=
  let ⟨_, _, _, _, _, h, _⟩ := push_pull_same (sampleEnv MigrationFSType_BTRFS)
    (sampleSink MigrationFSType_ZFS false) rfl rfl
    (sampleEnv_sameOutcomes MigrationFSType_BTRFS MigrationFSType_ZFS false _ _)
  h

end Lxd
